import Mathlib

/-!
Tiled picture-layer compositor: scale selection, tiling maintenance, raster order.

A shallow embedding of `cc/layers/picture_layer_impl.cc`.

Conventions of the embedding.

* `float` values are exact rationals (`ℚ`): rounding, infinities and NaN are not
  modelled. `std::max` is `max`, a `float` used as a condition is `≠ 0`.
  Division by zero, which yields an infinity or a NaN in the source, yields `0`
  in `ℚ`: a statement that contains a quotient speaks about the source only
  where the divisor is nonzero.
* `int` sizes are natural numbers: `gfx::Size` keeps its components
  non-negative, and integer overflow is not modelled.
* A `while` loop over `float`s that need not terminate in exact arithmetic is a
  function with a bound on the number of iterations, returning `none` when the
  bound is reached while the loop condition still holds.
* A pointer to a tiling of a tiling set is the tiling's contents scale, the key
  of the set; a null `tilings_` is the empty set, with the flag
  `tilings_is_null` set.
* A pointer to another layer (`twin_layer_`, the target of `PushPropertiesTo`)
  is passed explicitly, as the state of that layer together with the tree it is
  on; an operation that writes to the other layer returns its new state.
-/

namespace cc

/-! ## Geometry -/

/-- Integer size `gfx::Size`; components are never negative. -/
structure Size where
  width : Nat
  height : Nat
deriving DecidableEq, Repr

/-- Modelled from the spec: `gfx::Size::IsEmpty` is not part of the sources at hand;
a size is empty when one of its components is zero. -/
def Size.IsEmpty (s : Size) : Bool := s.width == 0 || s.height == 0

/-- Modelled from the spec: `gfx::Size::GetArea` is not part of the sources at hand;
the area is width times height. -/
def Size.GetArea (s : Size) : Nat := s.width * s.height

/-- Modelled from the spec: `gfx::ToCeiledSize` and `gfx::ScaleSize` are not part of
the sources at hand; in `gfx::ToCeiledSize(gfx::ScaleSize(size, scale))` each
component is scaled and rounded up, and a negative result is stored as `0` by
`gfx::Size`. -/
def ToCeiledScaledSize (size : Size) (scale : ℚ) : Size :=
  { width := Int.toNat ⌈(size.width : ℚ) * scale⌉
    height := Int.toNat ⌈(size.height : ℚ) * scale⌉ }

/-- Modelled from the spec: `RoundUp` of `cc/base/util.h` is not part of the
sources at hand; it rounds `n` up to the next multiple of `mul`. -/
def RoundUp (n mul : Nat) : Nat := (n + mul - 1) / mul * mul

/-- Integer rectangle `gfx::Rect`. -/
structure Rect where
  x : Int
  y : Int
  width : Nat
  height : Nat
deriving DecidableEq, Repr

/-- A `Region`: the rectangles whose union it is. `Clear()` leaves the empty
list. -/
abbrev Region := List Rect

/-! ## Constants of the anonymous namespace -/

/-- Ratio by which the raster scale is multiplied or divided during a pinch. -/
def kMaxScaleRatioDuringPinch : ℚ := 2

/-- Snapping tolerance towards an existing tiling, `1.2f`. -/
def kSnapToExistingTilingRatio : ℚ := 12 / 10

/-- Minimum height of a tile rastered on the GPU. -/
def kMinHeightForGpuRasteredTile : Nat := 256

/-- Odd-sized tiles are rounded up to a multiple of this. -/
def kTileRoundUp : Nat := 64

/-! ## Tiles, tilings and the tiling set -/

/-- Resolution tag of a tiling, `enum TileResolution`. -/
inductive TileResolution where
  | LOW_RESOLUTION
  | HIGH_RESOLUTION
  | NON_IDEAL_RESOLUTION
deriving DecidableEq, Repr

/-- Urgency bin of a tile, `TilePriority::PriorityBin`. -/
inductive PriorityBin where
  | NOW
  | SOON
  | EVENTUALLY
deriving DecidableEq, Repr

/-- A tile as a tiling's raster iterator presents it: the tile (an identifier)
and the priority bin `get_type()` reports while the iterator stands on it. -/
structure RasterTile where
  tile : Nat
  bin : PriorityBin
deriving DecidableEq, Repr

/-- A `PictureLayerTiling`: its fixed contents scale, its resolution tag, and the
finite sequence of tiles its `TilingRasterTileIterator` yields. -/
structure PictureLayerTiling where
  contents_scale : ℚ
  resolution : TileResolution
  raster_tiles : List RasterTile
deriving DecidableEq, Repr

/-- The tilings of a `PictureLayerTilingSet`. -/
abbrev PictureLayerTilingSet := List PictureLayerTiling

/-! ## Collaborators of the layer -/

/-- The part of `RasterSource` the layer consults. -/
structure RasterSource where
  size : Size
  is_solid_color : Bool
  has_recordings : Bool
deriving DecidableEq, Repr

/-- The part of `LayerTreeSettings` the layer consults. -/
structure LayerTreeSettings where
  minimum_contents_scale : ℚ
  low_res_contents_scale_factor : ℚ
  default_tile_size : Size
  max_untiled_layer_size : Size
deriving DecidableEq, Repr

/-- The part of the layer's `draw_properties()` the layer consults. -/
structure DrawProperties where
  screen_space_transform_is_animating : Bool
  maximum_animation_contents_scale : ℚ
  page_scale_factor : ℚ
  device_scale_factor : ℚ
  ideal_contents_scale : ℚ
deriving DecidableEq, Repr

/-- Which tree a `LayerTreeImpl` is. -/
inductive WhichTree where
  | ACTIVE_TREE
  | PENDING_TREE
  | RECYCLE_TREE
deriving DecidableEq, Repr

/-- What a layer reads through `layer_tree_impl()`, together with two pieces of
code that are not part of the sources at hand and are taken as parameters:
`PictureLayerTilingSet::GetSnappedContentsScale` (a function of the tiling set,
the start scale and the snapping ratio) and the constant
`PictureLayerTiling::kBorderTexels`. -/
structure LayerTreeImpl where
  settings : LayerTreeSettings
  PinchGestureActive : Bool
  use_gpu_rasterization : Bool
  create_low_res_tiling : Bool
  device_viewport_size : Size
  max_texture_size : Nat
  min_page_scale_factor : ℚ
  tree : WhichTree
  GetSnappedContentsScale : PictureLayerTilingSet → ℚ → ℚ → ℚ
  kBorderTexels : Nat
  RequiresHighResToDraw : Bool
  SmoothnessTakesPriority : Bool

/-- Modelled from the spec: `LayerTreeImpl::IsRecycleTree` is not part of the
sources at hand; it tells whether the tree is the recycle tree. -/
def LayerTreeImpl.IsRecycleTree (t : LayerTreeImpl) : Bool :=
  t.tree == WhichTree.RECYCLE_TREE

/-! ## The layer -/

/-- The state of a `PictureLayerImpl`. The `scoped_ptr` `tilings_` is the pair of
`tilings_` and `tilings_is_null`: a null pointer holds no tiling. -/
structure PictureLayerImpl where
  raster_source_ : RasterSource
  tilings_ : PictureLayerTilingSet
  tilings_is_null : Bool
  invalidation_ : Region
  ideal_page_scale_ : ℚ
  ideal_device_scale_ : ℚ
  ideal_source_scale_ : ℚ
  ideal_contents_scale_ : ℚ
  raster_page_scale_ : ℚ
  raster_device_scale_ : ℚ
  raster_source_scale_ : ℚ
  raster_contents_scale_ : ℚ
  low_res_raster_contents_scale_ : ℚ
  raster_source_scale_is_fixed_ : Bool
  was_screen_space_transform_animating_ : Bool
  needs_post_commit_initialization_ : Bool
  should_update_tile_priorities_ : Bool
  only_used_low_res_last_append_quads_ : Bool
  is_mask_ : Bool
  draw_properties : DrawProperties
  draws_content : Bool
  is_drawn_render_surface_layer_list_member : Bool
deriving DecidableEq, Repr

namespace PictureLayerImpl

/-- The constructor: an empty raster source, no tilings, every scale `0`. -/
def Create : PictureLayerImpl :=
  { raster_source_ := { size := ⟨0, 0⟩, is_solid_color := false, has_recordings := false }
    tilings_ := []
    tilings_is_null := true
    invalidation_ := []
    ideal_page_scale_ := 0
    ideal_device_scale_ := 0
    ideal_source_scale_ := 0
    ideal_contents_scale_ := 0
    raster_page_scale_ := 0
    raster_device_scale_ := 0
    raster_source_scale_ := 0
    raster_contents_scale_ := 0
    low_res_raster_contents_scale_ := 0
    raster_source_scale_is_fixed_ := false
    was_screen_space_transform_animating_ := false
    needs_post_commit_initialization_ := true
    should_update_tile_priorities_ := false
    only_used_low_res_last_append_quads_ := false
    is_mask_ := false
    draw_properties :=
      { screen_space_transform_is_animating := false
        maximum_animation_contents_scale := 0
        page_scale_factor := 1
        device_scale_factor := 1
        ideal_contents_scale := 1 }
    draws_content := false
    is_drawn_render_surface_layer_list_member := false }

/-- Lower bound `MinimumContentsScale()` on the contents scale of the layer. -/
def MinimumContentsScale (env : LayerTreeImpl) (s : PictureLayerImpl) : ℚ :=
  let setting_min := env.settings.minimum_contents_scale
  let min_dimension := min s.raster_source_.size.width s.raster_source_.size.height
  if min_dimension = 0 then setting_min
  else max (1 / (min_dimension : ℚ)) setting_min

/-- Test `CanHaveTilings()`. -/
def CanHaveTilings (s : PictureLayerImpl) : Bool :=
  if s.raster_source_.is_solid_color then false
  else if !s.draws_content then false
  else if !s.raster_source_.has_recordings then false
  else true

/-- Test `CanHaveTilingWithScale(contents_scale)`. -/
def CanHaveTilingWithScale (env : LayerTreeImpl) (s : PictureLayerImpl)
    (contents_scale : ℚ) : Bool :=
  if !s.CanHaveTilings then false
  else if contents_scale < MinimumContentsScale env s then false
  else true

/-- Test `ShouldAdjustRasterScaleDuringScaleAnimations()`. -/
def ShouldAdjustRasterScaleDuringScaleAnimations (env : LayerTreeImpl) : Bool :=
  env.use_gpu_rasterization

/-- Tile size `CalculateTileSize(content_bounds)`. -/
def CalculateTileSize (env : LayerTreeImpl) (s : PictureLayerImpl)
    (content_bounds : Size) : Size :=
  let max_texture_size := env.max_texture_size
  if s.is_mask_ then
    if content_bounds.width > max_texture_size ∨ content_bounds.height > max_texture_size then
      ⟨0, 0⟩
    else content_bounds
  else
    let defaults : Nat × Nat :=
      if env.use_gpu_rasterization then
        let viewport_width := env.device_viewport_size.width
        let viewport_height := env.device_viewport_size.height
        let default_tile_width := viewport_width
        let divisor := 4
        let divisor := if content_bounds.width ≤ viewport_width / 2 then 2 else divisor
        let divisor := if content_bounds.width ≤ viewport_width / 4 then 1 else divisor
        let default_tile_height := RoundUp viewport_height divisor / divisor
        let default_tile_height := default_tile_height + 2 * env.kBorderTexels
        let default_tile_height := max default_tile_height kMinHeightForGpuRasteredTile
        (default_tile_width, default_tile_height)
      else
        let max_untiled_content_width := env.settings.max_untiled_layer_size.width
        let max_untiled_content_height := env.settings.max_untiled_layer_size.height
        let default_tile_width := env.settings.default_tile_size.width
        let default_tile_height := env.settings.default_tile_size.height
        let default_tile_height :=
          if content_bounds.width < default_tile_width then max_untiled_content_height
          else default_tile_height
        let default_tile_width :=
          if content_bounds.height < default_tile_height then max_untiled_content_width
          else default_tile_width
        if content_bounds.width < max_untiled_content_width ∧
            content_bounds.height < max_untiled_content_height then
          (max_untiled_content_width, max_untiled_content_height)
        else (default_tile_width, default_tile_height)
    let default_tile_width := defaults.1
    let default_tile_height := defaults.2
    let tile_width := default_tile_width
    let tile_height := default_tile_height
    let tile_width :=
      if content_bounds.width < default_tile_width then
        min (RoundUp (min tile_width content_bounds.width) kTileRoundUp) default_tile_width
      else tile_width
    let tile_height :=
      if content_bounds.height < default_tile_height then
        min (RoundUp (min tile_height content_bounds.height) kTileRoundUp) default_tile_height
      else tile_height
    ⟨min tile_width max_texture_size, min tile_height max_texture_size⟩

/-- The ideal scales `UpdateIdealScales()` derives from the draw properties. -/
def UpdateIdealScales (env : LayerTreeImpl) (s : PictureLayerImpl) : PictureLayerImpl :=
  let min_contents_scale := MinimumContentsScale env s
  let min_page_scale := env.min_page_scale_factor
  let min_device_scale : ℚ := 1
  let min_source_scale := min_contents_scale / min_page_scale / min_device_scale
  let ideal_page_scale := s.draw_properties.page_scale_factor
  let ideal_device_scale := s.draw_properties.device_scale_factor
  let ideal_source_scale :=
    s.draw_properties.ideal_contents_scale / ideal_page_scale / ideal_device_scale
  { s with
    ideal_contents_scale_ := max s.draw_properties.ideal_contents_scale min_contents_scale
    ideal_page_scale_ := s.draw_properties.page_scale_factor
    ideal_device_scale_ := s.draw_properties.device_scale_factor
    ideal_source_scale_ := max ideal_source_scale min_source_scale }

/-- Decision `ShouldAdjustRasterScale()`. -/
def ShouldAdjustRasterScale (env : LayerTreeImpl) (s : PictureLayerImpl) : Bool :=
  if s.was_screen_space_transform_animating_ !=
      s.draw_properties.screen_space_transform_is_animating then true
  else if s.draw_properties.screen_space_transform_is_animating &&
      decide (s.raster_contents_scale_ ≠ s.ideal_contents_scale_) &&
      ShouldAdjustRasterScaleDuringScaleAnimations env then true
  else
    let is_pinching := env.PinchGestureActive
    if is_pinching && decide (s.raster_page_scale_ ≠ 0) &&
        (decide (s.raster_page_scale_ > s.ideal_page_scale_) ||
          decide (s.ideal_page_scale_ / s.raster_page_scale_ > kMaxScaleRatioDuringPinch)) then
      true
    else if !is_pinching && decide (s.raster_page_scale_ ≠ s.ideal_page_scale_) then true
    else if decide (s.raster_device_scale_ ≠ s.ideal_device_scale_) then true
    else if !s.draw_properties.screen_space_transform_is_animating &&
        !s.raster_source_scale_is_fixed_ &&
        decide (s.raster_source_scale_ ≠ s.ideal_source_scale_) then true
    else false

/-- The zoom-out loop of the pinch override,
`while (desired > ideal) desired /= kMaxScaleRatioDuringPinch`, run for at most
`fuel` iterations. -/
def PinchZoomOutLoop (ideal_contents_scale : ℚ) : Nat → ℚ → Option ℚ
  | 0, desired_contents_scale =>
    if desired_contents_scale > ideal_contents_scale then none
    else some desired_contents_scale
  | fuel + 1, desired_contents_scale =>
    if desired_contents_scale > ideal_contents_scale then
      PinchZoomOutLoop ideal_contents_scale fuel
        (desired_contents_scale / kMaxScaleRatioDuringPinch)
    else some desired_contents_scale

/-- The zoom-in loop of the pinch override,
`while (desired < ideal) desired *= kMaxScaleRatioDuringPinch`, run for at most
`fuel` iterations. -/
def PinchZoomInLoop (ideal_contents_scale : ℚ) : Nat → ℚ → Option ℚ
  | 0, desired_contents_scale =>
    if desired_contents_scale < ideal_contents_scale then none
    else some desired_contents_scale
  | fuel + 1, desired_contents_scale =>
    if desired_contents_scale < ideal_contents_scale then
      PinchZoomInLoop ideal_contents_scale fuel
        (desired_contents_scale * kMaxScaleRatioDuringPinch)
    else some desired_contents_scale

/-- The value of `desired_contents_scale` that the pinch override of
`RecalculateRasterScales` hands to `GetSnappedContentsScale`: the previous raster
contents scale stepped down (zooming out) or up (zooming in). -/
def PinchDesiredContentsScale (fuel : Nat) (old_raster_contents_scale
    old_raster_page_scale ideal_page_scale ideal_contents_scale : ℚ) : Option ℚ :=
  let zooming_out := decide (old_raster_page_scale > ideal_page_scale)
  let desired_contents_scale := old_raster_contents_scale
  if zooming_out then PinchZoomOutLoop ideal_contents_scale fuel desired_contents_scale
  else PinchZoomInLoop ideal_contents_scale fuel desired_contents_scale

/-- The animation override of `RecalculateRasterScales()`: while the transform is
animating and the raster scale is not adjusted during scale animations, raster at
the maximum animation scale when it is known and fits the viewport, otherwise at
page scale times device scale. -/
def RecalculateRasterScalesAnimation (env : LayerTreeImpl) (s : PictureLayerImpl) :
    PictureLayerImpl :=
  if s.draw_properties.screen_space_transform_is_animating &&
      !ShouldAdjustRasterScaleDuringScaleAnimations env then
    let can_raster_at_maximum_scale := false
    let maximum_scale := s.draw_properties.maximum_animation_contents_scale
    let can_raster_at_maximum_scale :=
      if maximum_scale ≠ 0 then
        let bounds_at_maximum_scale := ToCeiledScaledSize s.raster_source_.size maximum_scale
        if bounds_at_maximum_scale.GetArea ≤ env.device_viewport_size.GetArea then true
        else can_raster_at_maximum_scale
      else can_raster_at_maximum_scale
    if can_raster_at_maximum_scale then { s with raster_contents_scale_ := maximum_scale }
    else { s with raster_contents_scale_ := 1 * s.ideal_page_scale_ * s.ideal_device_scale_ }
  else s

/-- The end of `RecalculateRasterScales()`: the choice of the low-res companion
scale. -/
def RecalculateRasterScalesLowRes (env : LayerTreeImpl) (s : PictureLayerImpl) :
    PictureLayerImpl :=
  let raster_bounds := ToCeiledScaledSize s.raster_source_.size s.raster_contents_scale_
  let tile_size := CalculateTileSize env s raster_bounds
  let tile_covers_bounds :=
    decide (tile_size.width ≥ raster_bounds.width) &&
      decide (tile_size.height ≥ raster_bounds.height)
  if tile_size.IsEmpty || tile_covers_bounds then
    { s with low_res_raster_contents_scale_ := s.raster_contents_scale_ }
  else
    let low_res_factor := env.settings.low_res_contents_scale_factor
    { s with
      low_res_raster_contents_scale_ :=
        max (s.raster_contents_scale_ * low_res_factor) (MinimumContentsScale env s) }

/-- The tail of `RecalculateRasterScales()`, from the animation override on: the
override, the clamp to the minimum contents scale, the low-res scale. It contains
no loop. -/
def RecalculateRasterScalesTail (env : LayerTreeImpl) (s : PictureLayerImpl) :
    PictureLayerImpl :=
  let s := RecalculateRasterScalesAnimation env s
  let s :=
    { s with raster_contents_scale_ := max s.raster_contents_scale_ (MinimumContentsScale env s) }
  RecalculateRasterScalesLowRes env s

/-- The head of `RecalculateRasterScales()`: the ideal scales are adopted and the
source scale is pinned when the pin applies. -/
def RecalculateRasterScalesHead (s : PictureLayerImpl) : PictureLayerImpl :=
  let old_raster_source_scale := s.raster_source_scale_
  let s :=
    { s with
      raster_device_scale_ := s.ideal_device_scale_
      raster_page_scale_ := s.ideal_page_scale_
      raster_source_scale_ := s.ideal_source_scale_
      raster_contents_scale_ := s.ideal_contents_scale_ }
  let s :=
    if decide (old_raster_source_scale ≠ 0) &&
        !s.draw_properties.screen_space_transform_is_animating &&
        !s.was_screen_space_transform_animating_ &&
        decide (old_raster_source_scale ≠ s.ideal_source_scale_) then
      { s with raster_source_scale_is_fixed_ := true }
    else s
  if s.raster_source_scale_is_fixed_ then
    { s with
      raster_contents_scale_ := s.raster_contents_scale_ / s.raster_source_scale_
      raster_source_scale_ := 1 }
  else s

/-- Update `RecalculateRasterScales()`, the pinch loops being run for at most
`fuel` iterations; `none` when a loop has not stopped by then. -/
def RecalculateRasterScales (env : LayerTreeImpl) (fuel : Nat) (s : PictureLayerImpl) :
    Option PictureLayerImpl :=
  let old_raster_contents_scale := s.raster_contents_scale_
  let old_raster_page_scale := s.raster_page_scale_
  let s1 := RecalculateRasterScalesHead s
  let is_pinching := env.PinchGestureActive
  if is_pinching && decide (old_raster_contents_scale ≠ 0) then
    match PinchDesiredContentsScale fuel old_raster_contents_scale old_raster_page_scale
        s.ideal_page_scale_ s.ideal_contents_scale_ with
    | none => none
    | some desired_contents_scale =>
      let raster_contents_scale :=
        env.GetSnappedContentsScale s.tilings_ desired_contents_scale
          kSnapToExistingTilingRatio
      some (RecalculateRasterScalesTail env
        { s1 with
          raster_contents_scale_ := raster_contents_scale
          raster_page_scale_ :=
            raster_contents_scale / s1.raster_device_scale_ / s1.raster_source_scale_ })
  else some (RecalculateRasterScalesTail env s1)

end PictureLayerImpl

/-! ## Tiling set maintenance -/

/-- A pointer to a tiling of a set: the contents scale that keys it. -/
abbrev TilingPtr := ℚ

namespace PictureLayerTilingSet

/-- Modelled from the spec: `PictureLayerTilingSet::MarkAllTilingsNonIdeal` is not
part of the sources at hand; it resets the resolution of every tiling. -/
def MarkAllTilingsNonIdeal (ts : PictureLayerTilingSet) : PictureLayerTilingSet :=
  ts.map fun t => { t with resolution := TileResolution.NON_IDEAL_RESOLUTION }

/-- Modelled from the spec: `PictureLayerTilingSet::FindTilingWithScale` is not part
of the sources at hand; it looks a contents scale up by exact match and returns
the tiling found, if any. -/
def FindTilingWithScale (ts : PictureLayerTilingSet) (scale : ℚ) : Option TilingPtr :=
  (ts.find? fun t => decide (t.contents_scale = scale)).map fun t => t.contents_scale

/-- Modelled from the spec: `PictureLayerTilingSet::AddTiling` is not part of the
sources at hand; it inserts a fresh tiling (no ideal resolution, no tile yet) at
the given contents scale and returns it. The position of the new tiling in the
set is not modelled: it is put last. -/
def AddTiling (ts : PictureLayerTilingSet) (contents_scale : ℚ) :
    PictureLayerTilingSet × TilingPtr :=
  (ts ++ [{ contents_scale := contents_scale
            resolution := TileResolution.NON_IDEAL_RESOLUTION
            raster_tiles := [] }], contents_scale)

/-- Modelled from the spec: `PictureLayerTiling::set_resolution` is not part of the
sources at hand; the call `tiling->set_resolution(resolution)` sets the
resolution of the tiling the pointer designates. -/
def set_resolution (ts : PictureLayerTilingSet) (tiling : TilingPtr)
    (resolution : TileResolution) : PictureLayerTilingSet :=
  ts.map fun t => if t.contents_scale = tiling then { t with resolution := resolution } else t

/-- Modelled from the spec: `PictureLayerTilingSet::NumHighResTilings` is not part
of the sources at hand; it counts the tilings marked `HIGH_RESOLUTION`. -/
def NumHighResTilings (ts : PictureLayerTilingSet) : Nat :=
  ts.countP fun t => decide (t.resolution = TileResolution.HIGH_RESOLUTION)

/-- Modelled from the spec: `PictureLayerTilingSet::num_tilings` is not part of the
sources at hand; it is the number of tilings of the set. -/
def num_tilings (ts : PictureLayerTilingSet) : Nat := ts.length

end PictureLayerTilingSet

namespace PictureLayerImpl

/-- Update `AddTilingsForRasterScale()`. Only `tilings_` changes. The layer's
`AddTiling(scale)` is the set's `AddTiling` on `tilings_` (followed by a
`SyncTiling` on the twin layer, which touches the twin's set only). -/
def AddTilingsForRasterScale (env : LayerTreeImpl) (s : PictureLayerImpl) : PictureLayerImpl :=
  let tilings := PictureLayerTilingSet.MarkAllTilingsNonIdeal s.tilings_
  let r : PictureLayerTilingSet × TilingPtr :=
    match PictureLayerTilingSet.FindTilingWithScale tilings s.raster_contents_scale_ with
    | some high_res => (tilings, high_res)
    | none => PictureLayerTilingSet.AddTiling tilings s.raster_contents_scale_
  let tilings := r.1
  let high_res := r.2
  let low_res : Option TilingPtr :=
    if s.raster_contents_scale_ = s.low_res_raster_contents_scale_ then some high_res
    else PictureLayerTilingSet.FindTilingWithScale tilings s.low_res_raster_contents_scale_
  let can_have_low_res := env.create_low_res_tiling
  let needs_low_res := low_res.isNone
  let is_pinching := env.PinchGestureActive
  let is_animating := s.draw_properties.screen_space_transform_is_animating
  let r : PictureLayerTilingSet × Option TilingPtr :=
    if can_have_low_res && needs_low_res && !is_pinching && !is_animating then
      let a := PictureLayerTilingSet.AddTiling tilings s.low_res_raster_contents_scale_
      (a.1, some a.2)
    else (tilings, low_res)
  let tilings := r.1
  let low_res := r.2
  let tilings :=
    match low_res with
    | some p =>
      if p ≠ high_res then
        PictureLayerTilingSet.set_resolution tilings p TileResolution.LOW_RESOLUTION
      else tilings
    | none => tilings
  let tilings :=
    PictureLayerTilingSet.set_resolution tilings high_res TileResolution.HIGH_RESOLUTION
  { s with tilings_ := tilings }

/-- The checks of `SanityCheckTilingState()`: `true` when none of them fails. -/
def SanityCheckTilingState (env : LayerTreeImpl) (s : PictureLayerImpl) : Bool :=
  if env.IsRecycleTree then true
  else if !s.CanHaveTilings then PictureLayerTilingSet.num_tilings s.tilings_ == 0
  else if PictureLayerTilingSet.num_tilings s.tilings_ == 0 then true
  else PictureLayerTilingSet.NumHighResTilings s.tilings_ == 1

/-- A sequence of `AddTilingsForRasterScale()` calls on one tiling set: each call
comes with the tree it sees and the state of the layer at that moment (its
`tilings_` field is replaced by the set the previous call left). -/
def AddTilingsForRasterScaleCalls (calls : List (LayerTreeImpl × PictureLayerImpl))
    (ts : PictureLayerTilingSet) : PictureLayerTilingSet :=
  calls.foldl (fun ts c => (AddTilingsForRasterScale c.1 { c.2 with tilings_ := ts }).tilings_) ts

/-- Test `IsOnActiveOrPendingTree()`. -/
def IsOnActiveOrPendingTree (env : LayerTreeImpl) : Bool := !env.IsRecycleTree

/-- Test `HasValidTilePriorities()`. -/
def HasValidTilePriorities (env : LayerTreeImpl) (s : PictureLayerImpl) : Bool :=
  IsOnActiveOrPendingTree env && s.is_drawn_render_surface_layer_list_member

end PictureLayerImpl

/-! ## The raster tile iterator of a layer -/

/-- Modelled from the spec: `PictureLayerTiling::TilingRasterTileIterator` is not
part of the sources at hand; it is the finite list of the tiles it has yet to
yield. It is valid (`operator bool`) when the list is non-empty, `get_type()` is
the bin of the first entry, `operator*` the first entry, `operator++` drops it.
A default-constructed iterator is the empty list. -/
abbrev TilingRasterTileIterator := List RasterTile

/-- Index into `iterators_`, `enum IteratorType`. -/
inductive IteratorType where
  | LOW_RES
  | HIGH_RES
deriving DecidableEq, Repr

/-- An entry of `stages_`, `struct IterationStage`. -/
structure IterationStage where
  iterator_type : IteratorType
  tile_type : PriorityBin
deriving DecidableEq, Repr

/-- The state of a `PictureLayerImpl::LayerRasterTileIterator`. The array
`iterators_` is the pair of its two entries; `stages_` holds
`arraysize(stages_) = 4` entries once the constructor has filled it. -/
structure LayerRasterTileIterator where
  low_res_iterator : TilingRasterTileIterator
  high_res_iterator : TilingRasterTileIterator
  stages_ : List IterationStage
  current_stage_ : Nat
deriving DecidableEq, Repr

namespace LayerRasterTileIterator

/-- The constant `arraysize(stages_)`. -/
def arraysize_stages : Nat := 4

/-- Entry `iterators_[index]`. -/
def iterators_ (it : LayerRasterTileIterator) : IteratorType → TilingRasterTileIterator
  | IteratorType.LOW_RES => it.low_res_iterator
  | IteratorType.HIGH_RES => it.high_res_iterator

/-- Assignment `iterators_[index] = value`. -/
def set_iterator (it : LayerRasterTileIterator) (index : IteratorType)
    (value : TilingRasterTileIterator) : LayerRasterTileIterator :=
  match index with
  | IteratorType.LOW_RES => { it with low_res_iterator := value }
  | IteratorType.HIGH_RES => { it with high_res_iterator := value }

/-- The test `iterators_[index] && iterators_[index].get_type() == tile_type` for a
stage. -/
def StageReady (it : LayerRasterTileIterator) (stage : IterationStage) : Bool :=
  match it.iterators_ stage.iterator_type with
  | [] => false
  | t :: _ => decide (t.bin = stage.tile_type)

/-- The loop of `AdvanceToNextStage()`, walking the entries of `stages_` from
`current_stage` on: it stops at the first stage that is ready, or past the last
one. -/
def AdvanceLoop (it : LayerRasterTileIterator) : List IterationStage → Nat → Nat
  | [], current_stage => current_stage
  | stage :: rest, current_stage =>
    if it.StageReady stage then current_stage
    else AdvanceLoop it rest (current_stage + 1)

/-- Step `AdvanceToNextStage()`. -/
def AdvanceToNextStage (it : LayerRasterTileIterator) : LayerRasterTileIterator :=
  { it with
    current_stage_ :=
      AdvanceLoop it (it.stages_.drop (it.current_stage_ + 1)) (it.current_stage_ + 1) }

/-- The default constructor: no stage left. -/
def Default : LayerRasterTileIterator :=
  { low_res_iterator := []
    high_res_iterator := []
    stages_ := []
    current_stage_ := arraysize_stages }

/-- The body of the constructor's loop over the tilings of the layer. -/
def InitIterators ( prioritize_low_res : Bool) (it : LayerRasterTileIterator)
    (tiling : PictureLayerTiling) : LayerRasterTileIterator :=
  let it :=
    if tiling.resolution = TileResolution.HIGH_RESOLUTION then
      it.set_iterator IteratorType.HIGH_RES tiling.raster_tiles
    else it
  if prioritize_low_res && decide (tiling.resolution = TileResolution.LOW_RESOLUTION) then
    it.set_iterator IteratorType.LOW_RES tiling.raster_tiles
  else it

/-- The constructor `LayerRasterTileIterator(layer, prioritize_low_res)`. -/
def Create (env : LayerTreeImpl) (layer : PictureLayerImpl) ( prioritize_low_res : Bool) :
    LayerRasterTileIterator :=
  if PictureLayerTilingSet.num_tilings layer.tilings_ = 0 then Default
  else if !PictureLayerImpl.HasValidTilePriorities env layer then Default
  else
    let it : LayerRasterTileIterator :=
      { low_res_iterator := []
        high_res_iterator := []
        stages_ := []
        current_stage_ := 0 }
    let it := layer.tilings_.foldl (InitIterators prioritize_low_res) it
    let stages : List IterationStage :=
      if prioritize_low_res then
        [⟨IteratorType.LOW_RES, PriorityBin.NOW⟩, ⟨IteratorType.HIGH_RES, PriorityBin.NOW⟩]
      else
        [⟨IteratorType.HIGH_RES, PriorityBin.NOW⟩, ⟨IteratorType.LOW_RES, PriorityBin.NOW⟩]
    let stages := stages ++
      [⟨IteratorType.HIGH_RES, PriorityBin.SOON⟩, ⟨IteratorType.HIGH_RES, PriorityBin.EVENTUALLY⟩]
    let it := { it with stages_ := stages }
    match it.stages_[it.current_stage_]? with
    | none => it
    | some stage => if !it.StageReady stage then it.AdvanceToNextStage else it

/-- Validity `operator bool`. -/
def IsValid (it : LayerRasterTileIterator) : Bool := it.current_stage_ < arraysize_stages

/-- Increment `operator++`. -/
def Increment (it : LayerRasterTileIterator) : LayerRasterTileIterator :=
  match it.stages_[it.current_stage_]? with
  | none => it
  | some stage =>
    let index := stage.iterator_type
    let it := it.set_iterator index (it.iterators_ index).tail
    if !it.StageReady stage then it.AdvanceToNextStage else it

/-- Dereference `operator*`: the tile the current stage's iterator stands on;
`none` when one of the assertions of `operator*` fails. -/
def Deref (it : LayerRasterTileIterator) : Option RasterTile :=
  if !it.IsValid then none
  else
    match it.stages_[it.current_stage_]? with
    | none => none
    | some stage =>
      match it.iterators_ stage.iterator_type with
      | [] => none
      | t :: _ => if t.bin = stage.tile_type then some t else none

/-- The tiles yielded by `for (; it; ++it) yield *it`, run for at most `fuel`
increments: `none` when the iterator is still valid after `fuel` increments or
when an assertion of `operator*` fails. -/
def Tiles : Nat → LayerRasterTileIterator → Option (List RasterTile)
  | 0, it => if it.IsValid then none else some []
  | fuel + 1, it =>
    if it.IsValid then
      match it.Deref with
      | none => none
      | some t => (Tiles fuel it.Increment).map fun ts => t :: ts
    else some []

end LayerRasterTileIterator

/-- The tiles of a tiling iterator that lie in a given bin, in order. -/
def TilesOfBin (bin : PriorityBin) (it : TilingRasterTileIterator) : List RasterTile :=
  it.filter fun t => decide (t.bin = bin)

/-- The numeric value of a priority bin in `enum PriorityBin`. -/
def PriorityBin.rank : PriorityBin → Nat
  | PriorityBin.NOW => 0
  | PriorityBin.SOON => 1
  | PriorityBin.EVENTUALLY => 2

/-- The priority bins along a tiling iterator are non-decreasing: `NOW` tiles
first, then `SOON`, then `EVENTUALLY`. -/
def BinsNonDecreasing (it : TilingRasterTileIterator) : Prop :=
  it.Pairwise fun a b => a.bin.rank ≤ b.bin.rank

instance (it : TilingRasterTileIterator) : Decidable (BinsNonDecreasing it) := by
  unfold BinsNonDecreasing
  infer_instance

/-- The raster iterator of the tiling of a set that carries a given resolution
(of the last such tiling, should there be several); empty when there is none. -/
def IteratorOfResolution (ts : PictureLayerTilingSet) (r : TileResolution) :
    TilingRasterTileIterator :=
  match (ts.filter fun t => decide (t.resolution = r)).getLast? with
  | some t => t.raster_tiles
  | none => []

/-! ## Commit, synchronisation and clean-up -/

/-- The part of the base class `LayerImpl` the layer consults. -/
structure LayerImpl where
  draw_properties : DrawProperties
  draws_content : Bool
  is_drawn_render_surface_layer_list_member : Bool
deriving DecidableEq, Repr

/-- Code of `PictureLayerTilingSet` and of the base class `LayerImpl` that is not
part of the sources at hand and is taken as parameters. Each function returns
what the call leaves behind.

* `SyncTilings tilings other new_layer_bounds layer_invalidation
  minimum_contents_scale raster_source`: the set after the call and the value
  the call returns.
* `RemoveTilesInRegion tilings region`: the set after the call.
* `CleanUpTilings tilings min_acceptable_high_res_scale
  max_acceptable_high_res_scale used_tilings should_have_low_res twin_set
  recycled_twin_set`: the set, the twin set and the recycled twin set after the
  call (what is returned for a null twin set is ignored).
* `UpdateTilePriorities tilings ideal_contents_scale
  can_require_tiles_for_activation`: the set after the call; the viewport, the
  frame time and the occlusion are not part of the model.
* `LayerImplPushPropertiesTo layer target`: the base-class part of the target
  after `LayerImpl::PushPropertiesTo`. -/
structure Externals where
  SyncTilings : PictureLayerTilingSet → PictureLayerTilingSet → Size → Region → ℚ →
    RasterSource → PictureLayerTilingSet × Bool
  RemoveTilesInRegion : PictureLayerTilingSet → Region → PictureLayerTilingSet
  CleanUpTilings : PictureLayerTilingSet → ℚ → ℚ → List TilingPtr → Bool →
    Option PictureLayerTilingSet → Option PictureLayerTilingSet →
    PictureLayerTilingSet × PictureLayerTilingSet × PictureLayerTilingSet
  UpdateTilePriorities : PictureLayerTilingSet → ℚ → Bool → PictureLayerTilingSet
  LayerImplPushPropertiesTo : LayerImpl → LayerImpl → LayerImpl

namespace PictureLayerTilingSet

/-- Modelled from the spec: `PictureLayerTilingSet::Create` is not part of the
sources at hand; it makes a set without tilings. -/
def Create : PictureLayerTilingSet := []

/-- Modelled from the spec: `PictureLayerTilingSet::RemoveAllTilings` is not part
of the sources at hand; it removes every tiling of the set. -/
def RemoveAllTilings (_ts : PictureLayerTilingSet) : PictureLayerTilingSet := []

end PictureLayerTilingSet

namespace PictureLayerImpl

/-- The base-class part of the layer. -/
def toLayerImpl (s : PictureLayerImpl) : LayerImpl :=
  { draw_properties := s.draw_properties
    draws_content := s.draws_content
    is_drawn_render_surface_layer_list_member := s.is_drawn_render_surface_layer_list_member }

/-- The layer with its base-class part replaced. -/
def withLayerImpl (s : PictureLayerImpl) (b : LayerImpl) : PictureLayerImpl :=
  { s with
    draw_properties := b.draw_properties
    draws_content := b.draws_content
    is_drawn_render_surface_layer_list_member := b.is_drawn_render_surface_layer_list_member }

/-- The pointer `tilings_.get()`. -/
def tilings_get (s : PictureLayerImpl) : Option PictureLayerTilingSet :=
  if s.tilings_is_null then none else some s.tilings_

/-- Update `ResetRasterScale()`. -/
def ResetRasterScale (s : PictureLayerImpl) : PictureLayerImpl :=
  { s with
    raster_page_scale_ := 0
    raster_device_scale_ := 0
    raster_source_scale_ := 0
    raster_contents_scale_ := 0
    low_res_raster_contents_scale_ := 0
    raster_source_scale_is_fixed_ := false
    should_update_tile_priorities_ := false }

/-- Update `RemoveAllTilings()`. -/
def RemoveAllTilings (s : PictureLayerImpl) : PictureLayerImpl :=
  let s :=
    if s.tilings_is_null then s
    else { s with tilings_ := PictureLayerTilingSet.RemoveAllTilings s.tilings_ }
  ResetRasterScale s

/-- Update `ReleaseResources()`. The request for an update of the draw properties
it sends to the tree is not modelled. -/
def ReleaseResources (s : PictureLayerImpl) : PictureLayerImpl :=
  let s := if s.tilings_is_null then s else RemoveAllTilings s
  ResetRasterScale s

/-- The raster scales `SyncFromActiveLayer(other)` copies from `other`. -/
def CopyRasterScales (s other : PictureLayerImpl) : PictureLayerImpl :=
  { s with
    raster_page_scale_ := other.raster_page_scale_
    raster_device_scale_ := other.raster_device_scale_
    raster_source_scale_ := other.raster_source_scale_
    raster_contents_scale_ := other.raster_contents_scale_
    low_res_raster_contents_scale_ := other.low_res_raster_contents_scale_ }

/-- The tiling synchronisation of `SyncFromActiveLayer(other)`: the layer after
it and the value of `synced_high_res_tiling`. -/
def SyncFromActiveLayerTilings (env : LayerTreeImpl) (ext : Externals)
    (s other : PictureLayerImpl) : PictureLayerImpl × Bool :=
  if s.CanHaveTilings then
    let r := ext.SyncTilings s.tilings_ other.tilings_ s.raster_source_.size s.invalidation_
      (MinimumContentsScale env s) s.raster_source_
    ({ s with tilings_ := r.1 }, r.2)
  else (RemoveAllTilings s, false)

/-- Update `SyncFromActiveLayer(other)`; `DrawsContent()` is the base-class flag
`draws_content`. -/
def SyncFromActiveLayer (env : LayerTreeImpl) (ext : Externals)
    (s other : PictureLayerImpl) : PictureLayerImpl :=
  if !s.draws_content then RemoveAllTilings s
  else
    let s := CopyRasterScales s other
    let r := SyncFromActiveLayerTilings env ext s other
    let s := r.1
    let synced_high_res_tiling := r.2
    if !synced_high_res_tiling then ResetRasterScale s else s

/-- Pointer `GetPendingOrActiveTwinLayer()`, from the pointer `twin_layer_`. -/
def GetPendingOrActiveTwinLayer (twin_layer_ : Option (LayerTreeImpl × PictureLayerImpl)) :
    Option (LayerTreeImpl × PictureLayerImpl) :=
  match twin_layer_ with
  | none => none
  | some twin => if !IsOnActiveOrPendingTree twin.1 then none else some twin

/-- Pointer `GetRecycledTwinLayer()`, from the pointer `twin_layer_`. -/
def GetRecycledTwinLayer (twin_layer_ : Option (LayerTreeImpl × PictureLayerImpl)) :
    Option (LayerTreeImpl × PictureLayerImpl) :=
  match twin_layer_ with
  | none => none
  | some twin => if IsOnActiveOrPendingTree twin.1 then none else some twin

/-- Update `DoPostCommitInitialization()`. -/
def DoPostCommitInitialization (env : LayerTreeImpl) (ext : Externals)
    (twin_layer_ : Option (LayerTreeImpl × PictureLayerImpl)) (s : PictureLayerImpl) :
    PictureLayerImpl :=
  let s :=
    if s.tilings_is_null then
      { s with tilings_ := PictureLayerTilingSet.Create, tilings_is_null := false }
    else s
  let s :=
    match GetPendingOrActiveTwinLayer twin_layer_ with
    | some twin_layer =>
      if !twin_layer.2.needs_post_commit_initialization_ then
        SyncFromActiveLayer env ext s twin_layer.2
      else s
    | none => s
  { s with needs_post_commit_initialization_ := false }

/-- Modelled from the spec: `DoPostCommitInitializationIfNeeded()` is defined in
the header, which is not part of the sources at hand; it runs
`DoPostCommitInitialization()` when `needs_post_commit_initialization_` is set. -/
def DoPostCommitInitializationIfNeeded (env : LayerTreeImpl) (ext : Externals)
    (twin_layer_ : Option (LayerTreeImpl × PictureLayerImpl)) (s : PictureLayerImpl) :
    PictureLayerImpl :=
  if s.needs_post_commit_initialization_ then DoPostCommitInitialization env ext twin_layer_ s
  else s

/-- Test `RequiresHighResToDraw()`. -/
def RequiresHighResToDraw (env : LayerTreeImpl) : Bool := env.RequiresHighResToDraw

/-- The flag `can_require_tiles_for_activation` of `UpdateTilePriorities()`. -/
def CanRequireTilesForActivation (env : LayerTreeImpl) (s : PictureLayerImpl) : Bool :=
  !s.only_used_low_res_last_append_quads_ || RequiresHighResToDraw env ||
    !env.SmoothnessTakesPriority

/-- Update `UpdateTilePriorities()`. The notification it sends to the tree is not
modelled. -/
def UpdateTilePriorities (env : LayerTreeImpl) (ext : Externals) (s : PictureLayerImpl) :
    PictureLayerImpl :=
  let can_require_tiles_for_activation := CanRequireTilesForActivation env s
  { s with
    tilings_ := ext.UpdateTilePriorities s.tilings_ s.ideal_contents_scale_
      can_require_tiles_for_activation }

end PictureLayerImpl

namespace PictureLayerImpl

/-- The contents scales `AddTilingsForRasterScale()` invokes `AddTiling` with, in
the order of the calls. -/
def AddTilingsForRasterScaleAddTilingCalls (env : LayerTreeImpl) (s : PictureLayerImpl) :
    List ℚ :=
  let tilings := PictureLayerTilingSet.MarkAllTilingsNonIdeal s.tilings_
  let found := PictureLayerTilingSet.FindTilingWithScale tilings s.raster_contents_scale_
  let calls : List ℚ :=
    match found with
    | some _ => []
    | none => [s.raster_contents_scale_]
  let r : PictureLayerTilingSet × TilingPtr :=
    match found with
    | some high_res => (tilings, high_res)
    | none => PictureLayerTilingSet.AddTiling tilings s.raster_contents_scale_
  let tilings := r.1
  let high_res := r.2
  let low_res : Option TilingPtr :=
    if s.raster_contents_scale_ = s.low_res_raster_contents_scale_ then some high_res
    else PictureLayerTilingSet.FindTilingWithScale tilings s.low_res_raster_contents_scale_
  let can_have_low_res := env.create_low_res_tiling
  let needs_low_res := low_res.isNone
  let is_pinching := env.PinchGestureActive
  let is_animating := s.draw_properties.screen_space_transform_is_animating
  if can_have_low_res && needs_low_res && !is_pinching && !is_animating then
    calls ++ [s.low_res_raster_contents_scale_]
  else calls

/-- The state in which `UpdateTiles()` returns early, when the layer cannot have
tilings. -/
def UpdateTilesWithoutTilings (s : PictureLayerImpl) : PictureLayerImpl :=
  { s with
    ideal_page_scale_ := 0
    ideal_device_scale_ := 0
    ideal_contents_scale_ := 0
    ideal_source_scale_ := 0 }

/-- The end of `UpdateTiles()`, from the assignment to
`was_screen_space_transform_animating_` on. The request for distance-field text
it sends to the raster source is not modelled. -/
def UpdateTilesFinish (env : LayerTreeImpl) (ext : Externals) (s : PictureLayerImpl) :
    PictureLayerImpl :=
  let s :=
    { s with
      was_screen_space_transform_animating_ :=
        s.draw_properties.screen_space_transform_is_animating }
  let s := { s with should_update_tile_priorities_ := true }
  UpdateTilePriorities env ext s

/-- Update `UpdateTiles(occlusion, resourceless_software_draw)`, together with the
contents scales it invokes `AddTiling` with, in the order of the calls; `none`
when the pinch loop of `RecalculateRasterScales()` exceeds the bound `fuel`. The
visible rect for tile priority, the only use of `resourceless_software_draw`, is
not modelled. -/
def UpdateTilesTraced (env : LayerTreeImpl) (ext : Externals)
    (twin_layer_ : Option (LayerTreeImpl × PictureLayerImpl)) (fuel : Nat)
    (s : PictureLayerImpl) : Option (PictureLayerImpl × List ℚ) :=
  let s := DoPostCommitInitializationIfNeeded env ext twin_layer_ s
  if !s.CanHaveTilings then some (UpdateTilesWithoutTilings s, [])
  else
    let s := UpdateIdealScales env s
    let r : Option (PictureLayerImpl × List ℚ) :=
      if s.raster_contents_scale_ = 0 ∨ ShouldAdjustRasterScale env s = true then
        (RecalculateRasterScales env fuel s).map fun s =>
          (AddTilingsForRasterScale env s, AddTilingsForRasterScaleAddTilingCalls env s)
      else some (s, [])
    r.map fun r => (UpdateTilesFinish env ext r.1, r.2)

/-- Update `UpdateTiles(occlusion, resourceless_software_draw)`. -/
def UpdateTiles (env : LayerTreeImpl) (ext : Externals)
    (twin_layer_ : Option (LayerTreeImpl × PictureLayerImpl)) (fuel : Nat)
    (s : PictureLayerImpl) : Option PictureLayerImpl :=
  (UpdateTilesTraced env ext twin_layer_ fuel s).map Prod.fst

/-- What `CleanUpTilingsOnActiveLayer()` leaves of a twin (or recycled twin) whose
tiling set the clean-up of the set turned into `tilings`:
`if (twin_set && twin_set->num_tilings() == 0) twin->ResetRasterScale();`. -/
def TwinAfterCleanUp (twin : PictureLayerImpl) (tilings : PictureLayerTilingSet) :
    PictureLayerImpl :=
  if twin.tilings_is_null then twin
  else
    let twin := { twin with tilings_ := tilings }
    if PictureLayerTilingSet.num_tilings twin.tilings_ == 0 then ResetRasterScale twin
    else twin

/-- The band `[min_acceptable_high_res_scale, max_acceptable_high_res_scale]` of
`CleanUpTilingsOnActiveLayer()`. -/
def AcceptableHighResScales (s : PictureLayerImpl)
    (twin : Option (LayerTreeImpl × PictureLayerImpl)) : ℚ × ℚ :=
  let min_acceptable_high_res_scale := min s.raster_contents_scale_ s.ideal_contents_scale_
  let max_acceptable_high_res_scale := max s.raster_contents_scale_ s.ideal_contents_scale_
  match twin with
  | some twin =>
    if twin.2.CanHaveTilings then
      (min min_acceptable_high_res_scale
          (min twin.2.raster_contents_scale_ twin.2.ideal_contents_scale_),
        max max_acceptable_high_res_scale
          (max twin.2.raster_contents_scale_ twin.2.ideal_contents_scale_))
    else (min_acceptable_high_res_scale, max_acceptable_high_res_scale)
  | none => (min_acceptable_high_res_scale, max_acceptable_high_res_scale)

/-- Update `CleanUpTilingsOnActiveLayer(used_tilings)`: the layer and the layer
`twin_layer_` points to after the call. -/
def CleanUpTilingsOnActiveLayer (env : LayerTreeImpl) (ext : Externals)
    (twin_layer_ : Option (LayerTreeImpl × PictureLayerImpl)) (s : PictureLayerImpl)
    (used_tilings : List TilingPtr) :
    PictureLayerImpl × Option (LayerTreeImpl × PictureLayerImpl) :=
  if PictureLayerTilingSet.num_tilings s.tilings_ == 0 then (s, twin_layer_)
  else
    let twin := GetPendingOrActiveTwinLayer twin_layer_
    let band := AcceptableHighResScales s twin
    let twin_set := twin.bind fun t => t.2.tilings_get
    let recycled_twin := GetRecycledTwinLayer twin_layer_
    let recycled_twin_set := recycled_twin.bind fun t => t.2.tilings_get
    let r := ext.CleanUpTilings s.tilings_ band.1 band.2 used_tilings
      env.create_low_res_tiling twin_set recycled_twin_set
    let s := { s with tilings_ := r.1 }
    match twin with
    | some twin => (s, some (twin.1, TwinAfterCleanUp twin.2 r.2.1))
    | none => (s, recycled_twin.map fun t => (t.1, TwinAfterCleanUp t.2 r.2.2))

/-- Modelled from the spec: `set_is_mask` is defined in the header, which is not
part of the sources at hand; it assigns `is_mask_`. -/
def set_is_mask (s : PictureLayerImpl) (is_mask : Bool) : PictureLayerImpl :=
  { s with is_mask_ := is_mask }

/-- Update `UpdateRasterSource(raster_source)`. The request for an update of the
draw properties it may send to the tree is not modelled. -/
def UpdateRasterSource (s : PictureLayerImpl) (raster_source : RasterSource) :
    PictureLayerImpl :=
  { s with raster_source_ := raster_source }

/-- The part of `PushPropertiesTo` between the initialisation and the swap of the
tiling sets: what it leaves of `layer_impl`. -/
def PushPropertiesToTarget (ext : Externals) (s layer_impl : PictureLayerImpl) :
    PictureLayerImpl :=
  let layer_impl :=
    layer_impl.withLayerImpl (ext.LayerImplPushPropertiesTo s.toLayerImpl layer_impl.toLayerImpl)
  let layer_impl := set_is_mask layer_impl s.is_mask_
  UpdateRasterSource layer_impl s.raster_source_

/-- The part of `PushPropertiesTo` after the swap of the tiling sets that works on
the tiling set of the pushing layer. -/
def PushPropertiesToRecycle (ext : Externals) (s : PictureLayerImpl) : PictureLayerImpl :=
  let s :=
    if !s.tilings_is_null && s.raster_source_.is_solid_color then
      { s with tilings_ := PictureLayerTilingSet.RemoveAllTilings s.tilings_ }
    else s
  if !s.tilings_is_null then
    { s with tilings_ := ext.RemoveTilesInRegion s.tilings_ s.invalidation_ }
  else s

/-- Update `PushPropertiesTo(base_layer)`: the layer and the layer `base_layer`
points to (on the tree `layer_tree`) after the call. `linked` tells whether
`twin_layer_` is set on entry, in which case it points to `base_layer`. The twin
links the call establishes and the base-class flag `needs_push_properties_` are
not part of the state. -/
def PushPropertiesTo (env : LayerTreeImpl) (ext : Externals) (layer_tree : LayerTreeImpl)
    (linked : Bool) (s layer_impl : PictureLayerImpl) : PictureLayerImpl × PictureLayerImpl :=
  let twin_layer_ := if linked then some (layer_tree, layer_impl) else none
  let s := DoPostCommitInitializationIfNeeded env ext twin_layer_ s
  let layer_impl := PushPropertiesToTarget ext s layer_impl
  let swapped : PictureLayerImpl × PictureLayerImpl :=
    ({ s with tilings_ := layer_impl.tilings_, tilings_is_null := layer_impl.tilings_is_null },
     { layer_impl with tilings_ := s.tilings_, tilings_is_null := s.tilings_is_null })
  let s := PushPropertiesToRecycle ext swapped.1
  let layer_impl := swapped.2
  let layer_impl := CopyRasterScales layer_impl s
  let layer_impl := { layer_impl with needs_post_commit_initialization_ := false }
  let layer_impl := { layer_impl with invalidation_ := s.invalidation_ }
  let s := { s with invalidation_ := [], needs_post_commit_initialization_ := true }
  (s, layer_impl)

end PictureLayerImpl

/-! ## Quad emission -/

/-- Modelled from the spec: `gfx::Rect::IsEmpty` is not part of the sources at
hand; a rectangle is empty when its width or its height is zero. -/
def Rect.IsEmpty (r : Rect) : Bool := r.width == 0 || r.height == 0

/-- Modelled from the spec: `gfx::Rect::Intersects` is not part of the sources at
hand; two rectangles intersect when neither is empty and their extents overlap
on both axes. -/
def Rect.Intersects (a b : Rect) : Bool :=
  !(a.IsEmpty || b.IsEmpty || b.x ≥ a.x + a.width || b.x + b.width ≤ a.x ||
    b.y ≥ a.y + a.height || b.y + b.height ≤ a.y)

/-- A colour, `SkColor`. -/
abbrev SkColor := Nat

/-- The draw modes `DrawMode` of a layer tree host. -/
inductive DrawMode where
  | DRAW_MODE_NONE
  | DRAW_MODE_HARDWARE
  | DRAW_MODE_SOFTWARE
  | DRAW_MODE_RESOURCELESS_SOFTWARE
deriving DecidableEq, Repr

/-- The draw-readiness modes `ManagedTileState::DrawInfo::Mode` of a tile. -/
inductive DrawInfoMode where
  | RESOURCE_MODE
  | SOLID_COLOR_MODE
  | PICTURE_PILE_MODE
deriving DecidableEq, Repr

/-- Modelled from the spec: the class `Tile` is not part of the sources at hand;
this is the part of a tile `AppendQuads` consults: whether it is ready to draw,
the mode, the solid colour and the resource of its draw info, its contents scale
and its content rectangle. -/
structure Tile where
  IsReadyToDraw : Bool
  mode : DrawInfoMode
  get_resource_id : Nat
  get_solid_color : SkColor
  contents_scale : ℚ
  content_rect : Rect
deriving DecidableEq, Repr

/-- Modelled from the spec: `PictureLayerTilingSet::CoverageIterator` is not part
of the sources at hand; it is the finite list of the positions it visits, each
with what the iterator exposes there: `geometry_rect()`, the tile `*iter` (null
when the cell has none), `resolution()` and `CurrentTiling()`. -/
structure CoverageEntry where
  geometry_rect : Rect
  tile : Option Tile
  resolution : TileResolution
  CurrentTiling : TilingPtr
deriving DecidableEq, Repr

/-- The quads a render pass collects. -/
inductive DrawQuad where
  | TileDrawQuad (geometry_rect opaque_rect visible_geometry_rect : Rect) (resource_id : Nat)
  | PictureDrawQuad (geometry_rect opaque_rect visible_geometry_rect : Rect)
      (contents_scale : ℚ)
  | SolidColorDrawQuad (geometry_rect visible_geometry_rect : Rect) (color : SkColor)
  | CheckerboardDrawQuad (geometry_rect visible_geometry_rect : Rect) (color : SkColor)
  | DebugBorderDrawQuad (geometry_rect visible_geometry_rect : Rect)
deriving DecidableEq, Repr

/-- The counters of `AppendQuadsData` the layer updates. The structure is declared
outside the sources at hand; the two area counters are integers to which the
function adds `int` products (see `RectArea`), and the sums are exact. -/
structure AppendQuadsData where
  visible_content_area : Int
  approximated_visible_content_area : Int
  num_incomplete_tiles : Nat
  num_missing_tiles : Nat
deriving DecidableEq, Repr

/-- What `AppendQuads` reads besides the layer, together with code that is not
part of the sources at hand and is taken as parameters.

* `current_draw_mode_`, `ShowDebugBorders`, `contents_opaque`,
  `draw_checkerboard_for_missing_tiles`, `SafeOpaqueBackgroundColor`: base-class
  state; `allow_rasterize_on_demand`: the renderer capability; the two colours
  of `DebugColors`.
* `max_contents_scale`: the value of `MaximumTilingContentsScale()`, which rests
  on `PictureLayerTilingSet::GetMaximumContentsScale`.
* `scaled_visible_content_rect` and `scaled_viewport_for_tile_priority`: the
  rectangles the function derives from the draw properties and
  `max_contents_scale`.
* `GetUnoccludedContentRect`: the query on the scaled occlusion.
* `CoverageIterator tilings contents_scale content_rect ideal_contents_scale`:
  the positions the coverage iterator visits.
* `AppendDebugBorderQuad render_pass` and `AppendSolidQuads render_pass data`:
  the render pass (and the counters) after the base-class
  `AppendDebugBorderQuad` and after `SolidColorLayerImpl::AppendSolidQuads`. -/
structure AppendQuadsInputs where
  current_draw_mode_ : DrawMode
  ShowDebugBorders : Bool
  contents_opaque : Bool
  draw_checkerboard_for_missing_tiles : Bool
  allow_rasterize_on_demand : Bool
  SafeOpaqueBackgroundColor : SkColor
  DefaultCheckerboardColor : SkColor
  max_contents_scale : ℚ
  scaled_visible_content_rect : Rect
  scaled_viewport_for_tile_priority : Rect
  GetUnoccludedContentRect : Rect → Rect
  CoverageIterator : PictureLayerTilingSet → ℚ → Rect → ℚ → List CoverageEntry
  AppendDebugBorderQuad : List DrawQuad → List DrawQuad
  AppendSolidQuads : List DrawQuad → AppendQuadsData → List DrawQuad × AppendQuadsData

namespace PictureLayerImpl

/-- The variables the main loop of `AppendQuads` updates. -/
structure AppendQuadsState where
  render_pass : List DrawQuad
  append_quads_data : AppendQuadsData
  only_used_low_res_last_append_quads_ : Bool
  seen_tilings : List TilingPtr
  missing_tile_count : Nat
  on_demand_missing_tile_count : Nat
deriving DecidableEq, Repr

/-- The value of an `int` expression whose exact value is `n`: the 32-bit two's
complement wrap-around, in `[-2^31, 2^31)`. -/
def WrapInt32 (n : Int) : Int := (n + 2 ^ 31) % 2 ^ 32 - 2 ^ 31

/-- The area `visible_geometry_rect.width() * visible_geometry_rect.height()`: a
product of two `int`s, computed in `int` before it is added to a counter, so it
wraps around when the exact product does not fit. -/
def RectArea (r : Rect) : Int := WrapInt32 ((r.width : Int) * (r.height : Int))

/-- The `switch` on the draw mode of a tile that is ready to draw, in the main
loop of `AppendQuads`: the state after it and the value of `has_draw_quad`. -/
def AppendQuadsForTile (inp : AppendQuadsInputs) (s : PictureLayerImpl)
    (geometry_rect opaque_rect visible_geometry_rect : Rect) (tile : Tile)
    (st : AppendQuadsState) : AppendQuadsState × Bool :=
  match tile.mode with
  | DrawInfoMode.RESOURCE_MODE =>
    let st :=
      if tile.contents_scale ≠ s.raster_contents_scale_ ∧
          tile.contents_scale ≠ s.ideal_contents_scale_ ∧
          geometry_rect.Intersects inp.scaled_viewport_for_tile_priority = true then
        { st with
          append_quads_data :=
            { st.append_quads_data with
              num_incomplete_tiles := st.append_quads_data.num_incomplete_tiles + 1 } }
      else st
    ({ st with
        render_pass := st.render_pass ++
          [DrawQuad.TileDrawQuad geometry_rect opaque_rect visible_geometry_rect
            tile.get_resource_id] }, true)
  | DrawInfoMode.PICTURE_PILE_MODE =>
    if !inp.allow_rasterize_on_demand then
      ({ st with on_demand_missing_tile_count := st.on_demand_missing_tile_count + 1 }, false)
    else
      ({ st with
          render_pass := st.render_pass ++
            [DrawQuad.PictureDrawQuad geometry_rect opaque_rect visible_geometry_rect
              tile.contents_scale] }, true)
  | DrawInfoMode.SOLID_COLOR_MODE =>
    ({ st with
        render_pass := st.render_pass ++
          [DrawQuad.SolidColorDrawQuad geometry_rect visible_geometry_rect
            tile.get_solid_color] }, true)

/-- The branch `if (!has_draw_quad)` of the main loop of `AppendQuads`. -/
def AppendQuadsForMissingTile (inp : AppendQuadsInputs)
    (geometry_rect visible_geometry_rect : Rect) (st : AppendQuadsState) : AppendQuadsState :=
  let st :=
    if inp.draw_checkerboard_for_missing_tiles then
      { st with
        render_pass := st.render_pass ++
          [DrawQuad.CheckerboardDrawQuad geometry_rect visible_geometry_rect
            inp.DefaultCheckerboardColor] }
    else
      { st with
        render_pass := st.render_pass ++
          [DrawQuad.SolidColorDrawQuad geometry_rect visible_geometry_rect
            inp.SafeOpaqueBackgroundColor] }
  let st :=
    if geometry_rect.Intersects inp.scaled_viewport_for_tile_priority then
      { st with
        append_quads_data :=
          { st.append_quads_data with
            num_missing_tiles := st.append_quads_data.num_missing_tiles + 1 }
        missing_tile_count := st.missing_tile_count + 1 }
    else st
  { st with
    append_quads_data :=
      { st.append_quads_data with
        approximated_visible_content_area :=
          st.append_quads_data.approximated_visible_content_area +
            RectArea visible_geometry_rect } }

/-- The end of an iteration of the main loop of `AppendQuads` that appended a
quad for a tile. -/
def AppendQuadsAfterTile (iter : CoverageEntry) (visible_geometry_rect : Rect)
    (st : AppendQuadsState) : AppendQuadsState :=
  let st :=
    if iter.resolution ≠ TileResolution.HIGH_RESOLUTION then
      { st with
        append_quads_data :=
          { st.append_quads_data with
            approximated_visible_content_area :=
              st.append_quads_data.approximated_visible_content_area +
                RectArea visible_geometry_rect } }
    else st
  let st :=
    if iter.resolution ≠ TileResolution.LOW_RESOLUTION then
      { st with only_used_low_res_last_append_quads_ := false }
    else st
  if st.seen_tilings.isEmpty ∨ st.seen_tilings.getLast? ≠ some iter.CurrentTiling then
    { st with seen_tilings := st.seen_tilings ++ [iter.CurrentTiling] }
  else st

/-- One iteration of the main loop of `AppendQuads`, at the position `iter` of
the coverage iterator. -/
def AppendQuadsIteration (inp : AppendQuadsInputs) (s : PictureLayerImpl)
    (st : AppendQuadsState) (iter : CoverageEntry) : AppendQuadsState :=
  let geometry_rect := iter.geometry_rect
  let opaque_rect : Rect := if inp.contents_opaque then geometry_rect else ⟨0, 0, 0, 0⟩
  let visible_geometry_rect := inp.GetUnoccludedContentRect geometry_rect
  if visible_geometry_rect.IsEmpty then st
  else
    let st :=
      { st with
        append_quads_data :=
          { st.append_quads_data with
            visible_content_area :=
              st.append_quads_data.visible_content_area + RectArea visible_geometry_rect } }
    let r : AppendQuadsState × Bool :=
      match iter.tile with
      | some tile =>
        if tile.IsReadyToDraw then
          AppendQuadsForTile inp s geometry_rect opaque_rect visible_geometry_rect tile st
        else (st, false)
      | none => (st, false)
    let st := r.1
    let has_draw_quad := r.2
    if !has_draw_quad then AppendQuadsForMissingTile inp geometry_rect visible_geometry_rect st
    else AppendQuadsAfterTile iter visible_geometry_rect st

/-- The loop of `AppendQuads` that draws a debug border around every position of
the coverage iterator. The colour and the width of a border are not modelled. -/
def AppendQuadsDebugBorders (coverage : List CoverageEntry) (render_pass : List DrawQuad) :
    List DrawQuad :=
  coverage.foldl
    (fun render_pass iter =>
      render_pass ++ [DrawQuad.DebugBorderDrawQuad iter.geometry_rect iter.geometry_rect])
    render_pass

/-- The main loop of `AppendQuads` over the positions of the coverage iterator,
from the assignment `only_used_low_res_last_append_quads_ = true` on. -/
def AppendQuadsLoop (inp : AppendQuadsInputs) (s : PictureLayerImpl)
    (coverage : List CoverageEntry) (render_pass : List DrawQuad)
    (append_quads_data : AppendQuadsData) : AppendQuadsState :=
  coverage.foldl (AppendQuadsIteration inp s)
    { render_pass := render_pass
      append_quads_data := append_quads_data
      only_used_low_res_last_append_quads_ := true
      seen_tilings := []
      missing_tile_count := 0
      on_demand_missing_tile_count := 0 }

/-- The resourceless software branch of `AppendQuads`. -/
def AppendQuadsResourcelessSoftware (inp : AppendQuadsInputs) (render_pass : List DrawQuad) :
    List DrawQuad :=
  let render_pass := inp.AppendDebugBorderQuad render_pass
  let geometry_rect := inp.scaled_visible_content_rect
  let opaque_rect : Rect := if inp.contents_opaque then geometry_rect else ⟨0, 0, 0, 0⟩
  let visible_geometry_rect := inp.GetUnoccludedContentRect geometry_rect
  if visible_geometry_rect.IsEmpty then render_pass
  else
    render_pass ++
      [DrawQuad.PictureDrawQuad geometry_rect opaque_rect visible_geometry_rect
        inp.max_contents_scale]

/-- Update `AppendQuads(render_pass, occlusion, append_quads_data)`: the layer,
the layer `twin_layer_` points to, the render pass and the counters after the
call. The shared quad state and the trace event are not modelled. -/
def AppendQuads (env : LayerTreeImpl) (ext : Externals) (inp : AppendQuadsInputs)
    (twin_layer_ : Option (LayerTreeImpl × PictureLayerImpl)) (s : PictureLayerImpl)
    (render_pass : List DrawQuad) (append_quads_data : AppendQuadsData) :
    PictureLayerImpl × Option (LayerTreeImpl × PictureLayerImpl) × List DrawQuad ×
      AppendQuadsData :=
  if s.raster_source_.is_solid_color then
    let render_pass := inp.AppendDebugBorderQuad render_pass
    let r := inp.AppendSolidQuads render_pass append_quads_data
    (s, twin_layer_, r.1, r.2)
  else if inp.current_draw_mode_ = DrawMode.DRAW_MODE_RESOURCELESS_SOFTWARE then
    (s, twin_layer_, AppendQuadsResourcelessSoftware inp render_pass, append_quads_data)
  else
    let render_pass := inp.AppendDebugBorderQuad render_pass
    let coverage := inp.CoverageIterator s.tilings_ inp.max_contents_scale
      inp.scaled_visible_content_rect s.ideal_contents_scale_
    let render_pass :=
      if inp.ShowDebugBorders then AppendQuadsDebugBorders coverage render_pass
      else render_pass
    let st := AppendQuadsLoop inp s coverage render_pass append_quads_data
    let s :=
      { s with
        only_used_low_res_last_append_quads_ := st.only_used_low_res_last_append_quads_ }
    let r := CleanUpTilingsOnActiveLayer env ext twin_layer_ s st.seen_tilings
    (r.1, r.2, st.render_pass, st.append_quads_data)

end PictureLayerImpl

/-! ## The twin pointers of the layers of a process -/

/-- The picture layers of a process as far as their twin pointers go. A layer is
the id it was created with (ids are never reused), `live` holds the layers that
have been constructed and not yet destroyed, and `twin_layer_ a` is the field
`twin_layer_` of layer `a`, `none` for `nullptr`. -/
structure LayerWorld where
  next_id : Nat
  live : List Nat
  twin_layer_ : Nat → Option Nat

namespace LayerWorld

/-- The state without any layer. -/
def Empty : LayerWorld :=
  { next_id := 0, live := [], twin_layer_ := fun _ => none }

/-- The constructor `PictureLayerImpl(tree_impl, id)`: the new layer has
`twin_layer_(nullptr)`. -/
def Create (w : LayerWorld) : LayerWorld :=
  { next_id := w.next_id + 1
    live := w.next_id :: w.live
    twin_layer_ := fun i => if i = w.next_id then none else w.twin_layer_ i }

/-- The checks `DCHECK_IMPLIES(twin_layer_, twin_layer_ == layer_impl)` and
`DCHECK_IMPLIES(twin_layer_, layer_impl->twin_layer_ == this)` of
`PushPropertiesTo(layer_impl)` on layer `layer`. -/
def PushPropertiesToChecks (w : LayerWorld) (layer layer_impl : Nat) : Bool :=
  match w.twin_layer_ layer with
  | none => true
  | some twin => decide (twin = layer_impl) && decide (w.twin_layer_ layer_impl = some layer)

/-- The twin pointers after `PushPropertiesTo(layer_impl)` on layer `layer`:
`twin_layer_ = layer_impl; layer_impl->twin_layer_ = this;`. It is `none` when one
of the two layers is not live or one of the checks fails. -/
def PushPropertiesTo (w : LayerWorld) (layer layer_impl : Nat) : Option LayerWorld :=
  if layer ∈ w.live ∧ layer_impl ∈ w.live ∧ PushPropertiesToChecks w layer layer_impl = true then
    some { w with
      twin_layer_ := fun i =>
        if i = layer_impl then some layer
        else if i = layer then some layer_impl
        else w.twin_layer_ i }
  else none

/-- The destructor `~PictureLayerImpl()` of layer `layer`:
`if (twin_layer_) twin_layer_->twin_layer_ = nullptr;`. It is `none` when the layer
is not live or when its twin pointer refers to a destroyed layer (the write would
go to freed memory). -/
def Destroy (w : LayerWorld) (layer : Nat) : Option LayerWorld :=
  if layer ∈ w.live then
    match w.twin_layer_ layer with
    | none => some { w with live := w.live.filter fun i => decide (i ≠ layer) }
    | some twin =>
      if twin ∈ w.live then
        some { w with
          live := w.live.filter fun i => decide (i ≠ layer)
          twin_layer_ := fun i => if i = twin then none else w.twin_layer_ i }
      else none
  else none

/-- An operation on the layers of the process. -/
inductive Op where
  | Create
  | PushPropertiesTo (layer layer_impl : Nat)
  | Destroy (layer : Nat)
deriving DecidableEq, Repr

/-- One operation. -/
def Step (w : LayerWorld) : Op → Option LayerWorld
  | Op.Create => some w.Create
  | Op.PushPropertiesTo layer layer_impl => w.PushPropertiesTo layer layer_impl
  | Op.Destroy layer => w.Destroy layer

/-- The target of a `PushPropertiesTo` has no twin other than the pushing layer. -/
def TargetTwinIsPusher (w : LayerWorld) : Op → Bool
  | Op.PushPropertiesTo layer layer_impl =>
    match w.twin_layer_ layer_impl with
    | none => true
    | some twin => decide (twin = layer)
  | _ => true

/-- A sequence of operations in which, moreover, the target of every
`PushPropertiesTo` has no twin other than the pushing layer. -/
def GuardedRun : List Op → LayerWorld → Option LayerWorld
  | [], w => some w
  | op :: ops, w => if w.TargetTwinIsPusher op then (w.Step op).bind (GuardedRun ops) else none

/-- The twin relation among the live layers is symmetric. -/
def TwinsSymmetric (w : LayerWorld) : Bool :=
  w.live.all fun a =>
    match w.twin_layer_ a with
    | none => true
    | some b => decide (w.twin_layer_ b = some a)

/-- No live layer has a twin pointer to a destroyed layer. -/
def NoDanglingTwin (w : LayerWorld) : Bool :=
  w.live.all fun a =>
    match w.twin_layer_ a with
    | none => true
    | some b => decide (b ∈ w.live)

end LayerWorld

/-! ## Auxiliary definitions for the statements on the scale state machine -/

namespace PictureLayerImpl

/-- The contents scale the animation override leaves, before the final clamp. -/
def AnimationOverrideScale (env : LayerTreeImpl) (s : PictureLayerImpl) : ℚ :=
  if s.draw_properties.screen_space_transform_is_animating = true ∧
      env.use_gpu_rasterization = false then
    if s.draw_properties.maximum_animation_contents_scale ≠ 0 ∧
        (ToCeiledScaledSize s.raster_source_.size
          s.draw_properties.maximum_animation_contents_scale).GetArea ≤
          env.device_viewport_size.GetArea then
      s.draw_properties.maximum_animation_contents_scale
    else s.ideal_page_scale_ * s.ideal_device_scale_
  else s.raster_contents_scale_

/-- The successive values of `desired_contents_scale` in the zoom-in loop, the
initial one included. -/
def PinchZoomInValues (ideal_contents_scale : ℚ) : Nat → ℚ → List ℚ
  | 0, desired_contents_scale => [desired_contents_scale]
  | fuel + 1, desired_contents_scale =>
    if desired_contents_scale < ideal_contents_scale then
      desired_contents_scale ::
        PinchZoomInValues ideal_contents_scale fuel
          (desired_contents_scale * kMaxScaleRatioDuringPinch)
    else [desired_contents_scale]

/-- The successive values of `desired_contents_scale` in the zoom-out loop, the
initial one included. -/
def PinchZoomOutValues (ideal_contents_scale : ℚ) : Nat → ℚ → List ℚ
  | 0, desired_contents_scale => [desired_contents_scale]
  | fuel + 1, desired_contents_scale =>
    if desired_contents_scale > ideal_contents_scale then
      desired_contents_scale ::
        PinchZoomOutValues ideal_contents_scale fuel
          (desired_contents_scale / kMaxScaleRatioDuringPinch)
    else [desired_contents_scale]

/-- The condition under which `RecalculateRasterScales()` pins the source scale. -/
def PinsSourceScale (s : PictureLayerImpl) : Bool :=
  decide (s.raster_source_scale_ ≠ 0) &&
    !s.draw_properties.screen_space_transform_is_animating &&
    !s.was_screen_space_transform_animating_ &&
    decide (s.raster_source_scale_ ≠ s.ideal_source_scale_)

/-- The state `RecalculateRasterScales()` returns when the pinch override applies
and the stepping loop has produced `desired_contents_scale`. -/
def PinchOverrideResult (env : LayerTreeImpl) (s : PictureLayerImpl)
    (desired_contents_scale : ℚ) : PictureLayerImpl :=
  RecalculateRasterScalesTail env
    { RecalculateRasterScalesHead s with
      raster_contents_scale_ :=
        env.GetSnappedContentsScale s.tilings_ desired_contents_scale kSnapToExistingTilingRatio
      raster_page_scale_ :=
        env.GetSnappedContentsScale s.tilings_ desired_contents_scale
            kSnapToExistingTilingRatio /
          (RecalculateRasterScalesHead s).raster_device_scale_ /
            (RecalculateRasterScalesHead s).raster_source_scale_ }

end PictureLayerImpl

/-! ## Auxiliary definitions for the statements on the tiling set -/

namespace PictureLayerTilingSet

/-- The contents scales of the tilings of a set, in order. -/
def Scales (ts : PictureLayerTilingSet) : List ℚ := ts.map fun t => t.contents_scale

/-- A tiling as `AddTiling` creates it. -/
def NewTiling (contents_scale : ℚ) : PictureLayerTiling :=
  { contents_scale := contents_scale
    resolution := TileResolution.NON_IDEAL_RESOLUTION
    raster_tiles := [] }

end PictureLayerTilingSet

namespace PictureLayerImpl

open PictureLayerTilingSet

/-- The tiling set after the high-res step of `AddTilingsForRasterScale()`. -/
def TilingsWithHighRes (s : PictureLayerImpl) : PictureLayerTilingSet :=
  if s.raster_contents_scale_ ∈ Scales s.tilings_ then MarkAllTilingsNonIdeal s.tilings_
  else MarkAllTilingsNonIdeal s.tilings_ ++ [NewTiling s.raster_contents_scale_]

/-- The condition under which `AddTilingsForRasterScale()` creates a low-res
tiling. -/
def CreatesLowRes (env : LayerTreeImpl) (s : PictureLayerImpl) : Prop :=
  env.create_low_res_tiling = true ∧ env.PinchGestureActive = false ∧
    s.draw_properties.screen_space_transform_is_animating = false ∧
    s.raster_contents_scale_ ≠ s.low_res_raster_contents_scale_ ∧
    s.low_res_raster_contents_scale_ ∉ Scales (TilingsWithHighRes s)

instance (env : LayerTreeImpl) (s : PictureLayerImpl) : Decidable (CreatesLowRes env s) := by
  unfold CreatesLowRes; infer_instance

/-- The tiling set after the low-res creation step of `AddTilingsForRasterScale()`. -/
def TilingsWithLowRes (env : LayerTreeImpl) (s : PictureLayerImpl) : PictureLayerTilingSet :=
  if CreatesLowRes env s then TilingsWithHighRes s ++ [NewTiling s.low_res_raster_contents_scale_]
  else TilingsWithHighRes s

end PictureLayerImpl

/-! ## Auxiliary definitions for the statements on the raster iterator -/

namespace LayerRasterTileIterator

/-- What a list of stages yields from a pair of tiling iterators: each stage, in
turn, takes from the iterator it selects the longest run of leading tiles whose
bin is the stage's tile type, and leaves the rest to the stages after it. -/
def StagesYield : List IterationStage → TilingRasterTileIterator →
    TilingRasterTileIterator → List RasterTile
  | [], _, _ => []
  | stage :: rest, low, high =>
    match stage.iterator_type with
    | IteratorType.LOW_RES =>
      low.takeWhile (fun t => decide (t.bin = stage.tile_type)) ++
        StagesYield rest (low.dropWhile fun t => decide (t.bin = stage.tile_type)) high
    | IteratorType.HIGH_RES =>
      high.takeWhile (fun t => decide (t.bin = stage.tile_type)) ++
        StagesYield rest low (high.dropWhile fun t => decide (t.bin = stage.tile_type))

/-- The stages an iterator has not completed yet. -/
def RemainingStages (it : LayerRasterTileIterator) : List IterationStage :=
  it.stages_.drop it.current_stage_

/-- The invariant of a `LayerRasterTileIterator`: `stages_` has
`arraysize(stages_)` entries, and while the iterator is valid the tiling iterator
of the current stage is valid and stands on a tile of the stage's tile type. -/
def Invariant (it : LayerRasterTileIterator) : Prop :=
  it.stages_.length = arraysize_stages ∧
    ∀ stage, it.stages_[it.current_stage_]? = some stage → it.StageReady stage = true

end LayerRasterTileIterator

/-! ## Repeated raster scale updates -/

namespace PictureLayerImpl

/-- `RecalculateRasterScales()` applied `n` times in a row, each time with the
same fuel; `none` as soon as one application does not return. -/
def RecalculateRasterScalesRepeatedly (env : LayerTreeImpl) (fuel : Nat) :
    Nat → PictureLayerImpl → Option PictureLayerImpl
  | 0, s => some s
  | n + 1, s =>
    (RecalculateRasterScales env fuel s).bind (RecalculateRasterScalesRepeatedly env fuel n)

/-- The raster scale update of `UpdateTiles()`:
`if (!raster_contents_scale_ || ShouldAdjustRasterScale())
{ RecalculateRasterScales(); AddTilingsForRasterScale(); }`. -/
def UpdateRasterScalesIfNeeded (env : LayerTreeImpl) (fuel : Nat) (s : PictureLayerImpl) :
    Option PictureLayerImpl :=
  if s.raster_contents_scale_ = 0 ∨ ShouldAdjustRasterScale env s = true then
    (RecalculateRasterScales env fuel s).map (AddTilingsForRasterScale env)
  else some s

/-- The raster scale update of `UpdateTiles()` applied `n` times in a row. -/
def UpdateRasterScalesRepeatedly (env : LayerTreeImpl) (fuel : Nat) :
    Nat → PictureLayerImpl → Option PictureLayerImpl
  | 0, s => some s
  | n + 1, s =>
    (UpdateRasterScalesIfNeeded env fuel s).bind (UpdateRasterScalesRepeatedly env fuel n)

/-- The setting of a steady pinch: a pinch is active, snapping keeps the scale it
is given, the transform neither is nor was animating, the source scale is not
pinned, the ideal scales are positive with
`ideal_contents = ideal_page * ideal_device * ideal_source`, the raster device and
source scales equal the ideal ones, `raster_page_scale_` is
`raster_contents_scale_ / raster_device_scale_ / raster_source_scale_` with a
positive `raster_contents_scale_`, and the minimum contents scale is at most half
the ideal contents scale (so that it never binds). -/
def SteadyPinch (env : LayerTreeImpl) (s : PictureLayerImpl) : Prop :=
  env.PinchGestureActive = true ∧
  (∀ ts d r, env.GetSnappedContentsScale ts d r = d) ∧
  s.draw_properties.screen_space_transform_is_animating = false ∧
  s.was_screen_space_transform_animating_ = false ∧
  s.raster_source_scale_is_fixed_ = false ∧
  0 < s.ideal_page_scale_ ∧ 0 < s.ideal_device_scale_ ∧ 0 < s.ideal_source_scale_ ∧
  s.ideal_contents_scale_ =
    s.ideal_page_scale_ * s.ideal_device_scale_ * s.ideal_source_scale_ ∧
  s.raster_device_scale_ = s.ideal_device_scale_ ∧
  s.raster_source_scale_ = s.ideal_source_scale_ ∧
  s.raster_page_scale_ =
    s.raster_contents_scale_ / s.raster_device_scale_ / s.raster_source_scale_ ∧
  0 < s.raster_contents_scale_ ∧
  MinimumContentsScale env s ≤ s.ideal_contents_scale_ / 2

end PictureLayerImpl

namespace PictureLayerImpl

/-- The default tile width and height `CalculateTileSize()` starts from for a
non-mask layer, before the clamp to the content size. -/
def DefaultTileDimensions (env : LayerTreeImpl) (content_bounds : Size) : Nat × Nat :=
  if env.use_gpu_rasterization then
    let viewport_width := env.device_viewport_size.width
    let viewport_height := env.device_viewport_size.height
    let default_tile_width := viewport_width
    let divisor := 4
    let divisor := if content_bounds.width ≤ viewport_width / 2 then 2 else divisor
    let divisor := if content_bounds.width ≤ viewport_width / 4 then 1 else divisor
    let default_tile_height := RoundUp viewport_height divisor / divisor
    let default_tile_height := default_tile_height + 2 * env.kBorderTexels
    let default_tile_height := max default_tile_height kMinHeightForGpuRasteredTile
    (default_tile_width, default_tile_height)
  else
    let max_untiled_content_width := env.settings.max_untiled_layer_size.width
    let max_untiled_content_height := env.settings.max_untiled_layer_size.height
    let default_tile_width := env.settings.default_tile_size.width
    let default_tile_height := env.settings.default_tile_size.height
    let default_tile_height :=
      if content_bounds.width < default_tile_width then max_untiled_content_height
      else default_tile_height
    let default_tile_width :=
      if content_bounds.height < default_tile_height then max_untiled_content_width
      else default_tile_width
    if content_bounds.width < max_untiled_content_width ∧
        content_bounds.height < max_untiled_content_height then
      (max_untiled_content_width, max_untiled_content_height)
    else (default_tile_width, default_tile_height)

/-- The clamp of one tile dimension to the content dimension in
`CalculateTileSize()`. -/
def ClampedTileDimension (content default_tile : Nat) : Nat :=
  if content < default_tile then
    min (RoundUp (min default_tile content) kTileRoundUp) default_tile
  else default_tile

end PictureLayerImpl

/-- Modelled from the spec: the number of grid cells per axis of a tiling,
`⌈content / tile⌉` ("tile grid is ⌈2000/256⌉ × ⌈2000/256⌉ = 8×8 cells"); the
`TilingData` class that computes it is not part of the sources at hand. -/
def GridCells (content tile : Nat) : Nat := (content + tile - 1) / tile

namespace PictureLayerImpl

/-- Whether the main loop of `AppendQuads` visits a position with a non-empty
unoccluded rectangle. -/
def IsVisibleEntry (inp : AppendQuadsInputs) (iter : CoverageEntry) : Bool :=
  !(inp.GetUnoccludedContentRect iter.geometry_rect).IsEmpty

/-- Whether a position has a tile that can be drawn: the tile is non-null, ready
to draw and, in the picture-pile mode, rasterize-on-demand is allowed. -/
def HasDrawableTile (inp : AppendQuadsInputs) (iter : CoverageEntry) : Bool :=
  match iter.tile with
  | some tile =>
    tile.IsReadyToDraw &&
      (tile.mode != DrawInfoMode.PICTURE_PILE_MODE || inp.allow_rasterize_on_demand)
  | none => false

/-- The quad that stands for a tile that can be drawn. -/
def TileQuad (inp : AppendQuadsInputs) (iter : CoverageEntry) (tile : Tile) : DrawQuad :=
  match tile.mode with
  | DrawInfoMode.RESOURCE_MODE =>
    DrawQuad.TileDrawQuad iter.geometry_rect
      (if inp.contents_opaque then iter.geometry_rect else ⟨0, 0, 0, 0⟩)
      (inp.GetUnoccludedContentRect iter.geometry_rect) tile.get_resource_id
  | DrawInfoMode.PICTURE_PILE_MODE =>
    DrawQuad.PictureDrawQuad iter.geometry_rect
      (if inp.contents_opaque then iter.geometry_rect else ⟨0, 0, 0, 0⟩)
      (inp.GetUnoccludedContentRect iter.geometry_rect) tile.contents_scale
  | DrawInfoMode.SOLID_COLOR_MODE =>
    DrawQuad.SolidColorDrawQuad iter.geometry_rect
      (inp.GetUnoccludedContentRect iter.geometry_rect) tile.get_solid_color

/-- The quad that stands for a missing tile. -/
def MissingTileQuad (inp : AppendQuadsInputs) (iter : CoverageEntry) : DrawQuad :=
  if inp.draw_checkerboard_for_missing_tiles then
    DrawQuad.CheckerboardDrawQuad iter.geometry_rect
      (inp.GetUnoccludedContentRect iter.geometry_rect) inp.DefaultCheckerboardColor
  else
    DrawQuad.SolidColorDrawQuad iter.geometry_rect
      (inp.GetUnoccludedContentRect iter.geometry_rect) inp.SafeOpaqueBackgroundColor

/-- The content quad of a position. -/
def ContentQuad (inp : AppendQuadsInputs) (iter : CoverageEntry) : DrawQuad :=
  match iter.tile with
  | some tile => if HasDrawableTile inp iter then TileQuad inp iter tile
    else MissingTileQuad inp iter
  | none => MissingTileQuad inp iter

/-- Whether a position counts as a missing tile: it is visible, has no tile that
can be drawn and its geometry rectangle intersects the viewport for tile
priority. -/
def IsMissingTile (inp : AppendQuadsInputs) (iter : CoverageEntry) : Bool :=
  IsVisibleEntry inp iter && !HasDrawableTile inp iter &&
    iter.geometry_rect.Intersects inp.scaled_viewport_for_tile_priority

/-- The area a position adds to `visible_content_area`. -/
def VisibleArea (inp : AppendQuadsInputs) (iter : CoverageEntry) : Int :=
  if IsVisibleEntry inp iter then RectArea (inp.GetUnoccludedContentRect iter.geometry_rect)
  else 0

/-- The area a position adds to `approximated_visible_content_area`. -/
def ApproximatedArea (inp : AppendQuadsInputs) (iter : CoverageEntry) : Int :=
  if IsVisibleEntry inp iter ∧
      (HasDrawableTile inp iter = false ∨ iter.resolution ≠ TileResolution.HIGH_RESOLUTION) then
    RectArea (inp.GetUnoccludedContentRect iter.geometry_rect)
  else 0

/-- Whether a position makes the main loop clear
`only_used_low_res_last_append_quads_`: it draws a tile that is not low
resolution. -/
def UsesOtherThanLowRes (inp : AppendQuadsInputs) (iter : CoverageEntry) : Bool :=
  IsVisibleEntry inp iter && HasDrawableTile inp iter &&
    decide (iter.resolution ≠ TileResolution.LOW_RESOLUTION)

end PictureLayerImpl

namespace PictureLayerImpl

/-- The predicate asserted at the start of `UpdateTiles()`,
`DCHECK_IMPLIES(tilings_->num_tilings() == 0, raster_contents_scale_ == 0.f)`: a
layer with no tilings has no valid raster scale. -/
def NoTilingsNoRasterScale (s : PictureLayerImpl) : Prop :=
  PictureLayerTilingSet.num_tilings s.tilings_ = 0 → s.raster_contents_scale_ = 0

instance (s : PictureLayerImpl) : Decidable (NoTilingsNoRasterScale s) := by
  unfold NoTilingsNoRasterScale; infer_instance

end PictureLayerImpl

namespace PictureLayerImpl

/-- The five raster scales are positive: none of the checks
`DCHECK(raster_page_scale_)` ... `DCHECK(low_res_raster_contents_scale_)` of
`UpdateTiles()` fails. -/
def RasterScalesPositive (s : PictureLayerImpl) : Prop :=
  0 < s.raster_page_scale_ ∧ 0 < s.raster_device_scale_ ∧ 0 < s.raster_source_scale_ ∧
    0 < s.raster_contents_scale_ ∧ 0 < s.low_res_raster_contents_scale_

instance (s : PictureLayerImpl) : Decidable (RasterScalesPositive s) := by
  unfold RasterScalesPositive; infer_instance

/-- The five raster scales are all zero. -/
def RasterScalesZero (s : PictureLayerImpl) : Prop :=
  s.raster_page_scale_ = 0 ∧ s.raster_device_scale_ = 0 ∧ s.raster_source_scale_ = 0 ∧
    s.raster_contents_scale_ = 0 ∧ s.low_res_raster_contents_scale_ = 0

instance (s : PictureLayerImpl) : Decidable (RasterScalesZero s) := by
  unfold RasterScalesZero; infer_instance

/-- The five raster scales are either all zero or all positive. -/
def RasterScalesZeroOrPositive (s : PictureLayerImpl) : Prop :=
  RasterScalesZero s ∨ RasterScalesPositive s

instance (s : PictureLayerImpl) : Decidable (RasterScalesZeroOrPositive s) := by
  unfold RasterScalesZeroOrPositive; infer_instance

end PictureLayerImpl

namespace LayerRasterTileIterator

/-- The number of tiles the two tiling iterators have yet to yield. -/
def RemainingTiles (it : LayerRasterTileIterator) : Nat :=
  it.low_res_iterator.length + it.high_res_iterator.length

/-- The assertions `DCHECK(iterators_[index])` and
`DCHECK(iterators_[index].get_type() == tile_type)` of `operator*` and `operator++`
hold, should the iterator be valid. -/
def AssertionsHold (it : LayerRasterTileIterator) : Bool :=
  !it.IsValid ||
    match it.stages_[it.current_stage_]? with
    | none => false
    | some stage => it.StageReady stage

end LayerRasterTileIterator

/-! ## Concrete trees and layers used as examples -/

/-- A tree with the default settings of a CPU-rastering compositor: no pinch, tile
size 256, snapping that keeps the scale it is given. -/
def ExampleTree : LayerTreeImpl :=
  { settings :=
      { minimum_contents_scale := 1 / 16
        low_res_contents_scale_factor := 1 / 4
        default_tile_size := ⟨256, 256⟩
        max_untiled_layer_size := ⟨512, 512⟩ }
    PinchGestureActive := false
    use_gpu_rasterization := false
    create_low_res_tiling := true
    device_viewport_size := ⟨1000, 1000⟩
    max_texture_size := 4096
    min_page_scale_factor := 1
    tree := WhichTree.ACTIVE_TREE
    GetSnappedContentsScale := fun _ start_scale _ => start_scale
    kBorderTexels := 1
    RequiresHighResToDraw := false
    SmoothnessTakesPriority := false }

/-- A drawn `2000 x 2000` layer whose raster scales are all `1` and whose ideal
scales are all `1`. -/
def ExampleLayer : PictureLayerImpl :=
  { PictureLayerImpl.Create with
    raster_source_ := { size := ⟨2000, 2000⟩, is_solid_color := false, has_recordings := true }
    tilings_is_null := false
    ideal_page_scale_ := 1
    ideal_device_scale_ := 1
    ideal_source_scale_ := 1
    ideal_contents_scale_ := 1
    raster_page_scale_ := 1
    raster_device_scale_ := 1
    raster_source_scale_ := 1
    raster_contents_scale_ := 1
    low_res_raster_contents_scale_ := 1 / 4
    needs_post_commit_initialization_ := false
    draws_content := true
    is_drawn_render_surface_layer_list_member := true }

/-- The example layer just after an animation ended (the previous update saw the
transform animating) with an ideal source scale that moved from `1` to `2`. -/
def LeavingAnimationLayer : PictureLayerImpl :=
  { ExampleLayer with
    was_screen_space_transform_animating_ := true
    ideal_source_scale_ := 2
    ideal_contents_scale_ := 2 }

/-- The example layer with a static transform and an ideal source scale that
moved from `1` to `2`. -/
def SourceScaleChangedLayer : PictureLayerImpl :=
  { ExampleLayer with
    ideal_source_scale_ := 2
    ideal_contents_scale_ := 2 }

/-- The example tree with GPU rasterization. -/
def GpuTree : LayerTreeImpl := { ExampleTree with use_gpu_rasterization := true }

/-- The example layer in the middle of an animation, its raster scales equal to
the ideal ones. -/
def AnimatingLayer : PictureLayerImpl :=
  { ExampleLayer with
    was_screen_space_transform_animating_ := true
    draw_properties :=
      { ExampleLayer.draw_properties with screen_space_transform_is_animating := true } }

/-- The example tree during a pinch gesture. -/
def PinchTree : LayerTreeImpl := { ExampleTree with PinchGestureActive := true }

/-- The example layer with ideal page and contents scale `5` (a zoom-in from `1`). -/
def ZoomInLayer : PictureLayerImpl :=
  { ExampleLayer with
    ideal_page_scale_ := 5
    ideal_contents_scale_ := 5 }

/-- The example layer with a high-res tiling at scale `1` and a low-res tiling at
scale `1/4`, about to move to raster scale `2` and low-res scale `1/2`. -/
def TwoTilingsLayer : PictureLayerImpl :=
  { ExampleLayer with
    tilings_ :=
      [{ contents_scale := 1
         resolution := TileResolution.HIGH_RESOLUTION
         raster_tiles := [⟨1, PriorityBin.NOW⟩, ⟨2, PriorityBin.NOW⟩, ⟨3, PriorityBin.SOON⟩,
           ⟨4, PriorityBin.EVENTUALLY⟩] },
       { contents_scale := 1 / 4
         resolution := TileResolution.LOW_RESOLUTION
         raster_tiles := [⟨11, PriorityBin.NOW⟩, ⟨12, PriorityBin.SOON⟩] }]
    raster_contents_scale_ := 2
    low_res_raster_contents_scale_ := 1 / 2 }

/-- The animating example layer with a known maximum animation contents scale of
`1/2`, at which its `2000 x 2000` content fits the `1000 x 1000` viewport. -/
def AnimatingToHalfLayer : PictureLayerImpl :=
  { AnimatingLayer with
    draw_properties :=
      { AnimatingLayer.draw_properties with maximum_animation_contents_scale := 1 / 2 } }

/-- The example tree with low-res tilings switched off. -/
def NoLowResTree : LayerTreeImpl := { ExampleTree with create_low_res_tiling := false }

/-- A `300 x 200` mask layer. -/
def MaskLayer : PictureLayerImpl :=
  { ExampleLayer with
    raster_source_ := { size := ⟨300, 200⟩, is_solid_color := false, has_recordings := true }
    is_mask_ := true }

/-- The example layer with its low-res raster scale equal to its raster scale. -/
def TieLayer : PictureLayerImpl := { ExampleLayer with low_res_raster_contents_scale_ := 1 }

/-- Externals that leave every tiling set as it is; the synchronisation takes the
other layer's set and reports success. -/
def ExampleExternals : Externals :=
  { SyncTilings := fun _ other _ _ _ _ => (other, true)
    RemoveTilesInRegion := fun tilings _ => tilings
    CleanUpTilings := fun tilings _ _ _ _ twin_set recycled_twin_set =>
      (tilings, twin_set.getD [], recycled_twin_set.getD [])
    UpdateTilePriorities := fun tilings _ _ => tilings
    LayerImplPushPropertiesTo := fun layer _ => layer }

/-- The example layer with a solid-colour raster source, stale ideal scales, no
tiling and no valid raster scale. -/
def SolidColorLayer : PictureLayerImpl :=
  { ExampleLayer with
    raster_source_ := { size := ⟨2000, 2000⟩, is_solid_color := true, has_recordings := true }
    raster_page_scale_ := 0
    raster_device_scale_ := 0
    raster_source_scale_ := 0
    raster_contents_scale_ := 0
    low_res_raster_contents_scale_ := 0 }

/-- The example layer with its source scale pinned. -/
def PinnedLayer : PictureLayerImpl :=
  { ExampleLayer with raster_source_scale_is_fixed_ := true }

namespace PictureLayerImpl

/-- The inputs of a hardware draw without debug borders, over three positions: a
low-resolution resource tile, a missing tile and an occluded position. -/
def ExampleAppendQuadsInputs : AppendQuadsInputs :=
  { current_draw_mode_ := DrawMode.DRAW_MODE_HARDWARE
    ShowDebugBorders := false
    contents_opaque := true
    draw_checkerboard_for_missing_tiles := true
    allow_rasterize_on_demand := false
    SafeOpaqueBackgroundColor := 0
    DefaultCheckerboardColor := 1
    max_contents_scale := 1
    scaled_visible_content_rect := ⟨0, 0, 512, 256⟩
    scaled_viewport_for_tile_priority := ⟨0, 0, 512, 256⟩
    GetUnoccludedContentRect := fun r => if r.x < 512 then r else ⟨0, 0, 0, 0⟩
    CoverageIterator := fun _ _ _ _ =>
      [{ geometry_rect := ⟨0, 0, 256, 256⟩
         tile := some { IsReadyToDraw := true, mode := DrawInfoMode.RESOURCE_MODE,
                        get_resource_id := 7, get_solid_color := 0, contents_scale := 1 / 4,
                        content_rect := ⟨0, 0, 64, 64⟩ }
         resolution := TileResolution.LOW_RESOLUTION
         CurrentTiling := 1 / 4 },
       { geometry_rect := ⟨256, 0, 256, 256⟩
         tile := none
         resolution := TileResolution.HIGH_RESOLUTION
         CurrentTiling := 1 },
       { geometry_rect := ⟨512, 0, 256, 256⟩
         tile := none
         resolution := TileResolution.HIGH_RESOLUTION
         CurrentTiling := 1 }]
    AppendDebugBorderQuad := fun render_pass => render_pass
    AppendSolidQuads := fun render_pass data => (render_pass, data) }

end PictureLayerImpl

/-- The pending tree of the pinching example tree. -/
def PendingPinchTree : LayerTreeImpl := { PinchTree with tree := WhichTree.PENDING_TREE }

/-- An initialised active layer in the middle of a pinch: raster page and contents
scale `4` with tilings at `4` and `1`, page scale factor `5`. -/
def PinchedTwinLayer : PictureLayerImpl :=
  { ExampleLayer with
    tilings_ :=
      [{ contents_scale := 4
         resolution := TileResolution.HIGH_RESOLUTION
         raster_tiles := [⟨1, PriorityBin.NOW⟩] },
       { contents_scale := 1
         resolution := TileResolution.LOW_RESOLUTION
         raster_tiles := [⟨11, PriorityBin.NOW⟩] }]
    ideal_page_scale_ := 5
    ideal_contents_scale_ := 5
    raster_page_scale_ := 4
    raster_contents_scale_ := 4
    low_res_raster_contents_scale_ := 1
    draw_properties :=
      { screen_space_transform_is_animating := false
        maximum_animation_contents_scale := 0
        page_scale_factor := 5
        device_scale_factor := 1
        ideal_contents_scale := 5 } }

/-- A pending layer just committed: not yet initialised, every raster scale `0`,
the raster source and the draw properties of its active twin. -/
def UninitialisedLayer : PictureLayerImpl :=
  { PictureLayerImpl.Create with
    raster_source_ := { size := ⟨2000, 2000⟩, is_solid_color := false, has_recordings := true }
    draw_properties := PinchedTwinLayer.draw_properties
    draws_content := true
    is_drawn_render_surface_layer_list_member := true }

/-! # Theorems -/

namespace PictureLayerImpl

/-! ## Lemmas on the scale state machine -/

theorem MinimumContentsScale_eq_of_raster_source (env : LayerTreeImpl)
    (s t : PictureLayerImpl) (h : t.raster_source_ = s.raster_source_) :
    MinimumContentsScale env t = MinimumContentsScale env s := by
  simp [MinimumContentsScale, h]

theorem Animation_eq (env : LayerTreeImpl) (s : PictureLayerImpl) :
    RecalculateRasterScalesAnimation env s =
      { s with raster_contents_scale_ := AnimationOverrideScale env s } := by
  simp only [RecalculateRasterScalesAnimation, AnimationOverrideScale,
    ShouldAdjustRasterScaleDuringScaleAnimations]
  split_ifs <;> simp_all

theorem LowRes_frame (env : LayerTreeImpl) (s : PictureLayerImpl) :
    ∃ l, RecalculateRasterScalesLowRes env s = { s with low_res_raster_contents_scale_ := l } := by
  simp only [RecalculateRasterScalesLowRes]
  split_ifs <;> exact ⟨_, rfl⟩

theorem Tail_eq (env : LayerTreeImpl) (s : PictureLayerImpl) :
    ∃ l, RecalculateRasterScalesTail env s =
      { s with
        raster_contents_scale_ := max (AnimationOverrideScale env s) (MinimumContentsScale env s)
        low_res_raster_contents_scale_ := l } := by
  obtain ⟨l, hl⟩ := LowRes_frame env
    { RecalculateRasterScalesAnimation env s with
      raster_contents_scale_ :=
        max (RecalculateRasterScalesAnimation env s).raster_contents_scale_
          (MinimumContentsScale env (RecalculateRasterScalesAnimation env s)) }
  refine ⟨l, ?_⟩
  simp only [RecalculateRasterScalesTail]
  rw [hl, Animation_eq]
  simp [MinimumContentsScale]

theorem PinchZoomInLoop_spec (ideal : ℚ) :
    ∀ (k : Nat) (d : ℚ) (fuel : Nat), k ≤ fuel → ideal ≤ d * 2 ^ k →
      (∀ j, j < k → d * 2 ^ j < ideal) →
      PinchZoomInLoop ideal fuel d = some (d * 2 ^ k) ∧
      PinchZoomInValues ideal fuel d = (List.range (k + 1)).map fun j => d * 2 ^ j := by
  intro k
  induction k with
  | zero =>
    intro d fuel _ h _
    have hd : ¬ d < ideal := by simpa using h
    cases fuel <;> simp [PinchZoomInLoop, PinchZoomInValues, hd, List.range_succ]
  | succ k ih =>
    intro d fuel hk h hlt
    have hd : d < ideal := by simpa using hlt 0 (Nat.succ_pos k)
    obtain ⟨f, rfl⟩ : ∃ f, fuel = f + 1 := ⟨fuel - 1, by omega⟩
    have h1 : ideal ≤ d * kMaxScaleRatioDuringPinch * 2 ^ k := by
      simpa [kMaxScaleRatioDuringPinch, pow_succ, mul_assoc, mul_comm, mul_left_comm] using h
    have h2 : ∀ j, j < k → d * kMaxScaleRatioDuringPinch * 2 ^ j < ideal := by
      intro j hj
      simpa [kMaxScaleRatioDuringPinch, pow_succ, mul_assoc, mul_comm, mul_left_comm]
        using hlt (j + 1) (Nat.succ_lt_succ hj)
    obtain ⟨e1, e2⟩ := ih (d * kMaxScaleRatioDuringPinch) f (by omega) h1 h2
    constructor
    · rw [PinchZoomInLoop, if_pos hd, e1]
      simp [kMaxScaleRatioDuringPinch, pow_succ, mul_assoc, mul_comm, mul_left_comm]
    · rw [PinchZoomInValues, if_pos hd, e2, List.range_succ_eq_map (k + 1)]
      simp [kMaxScaleRatioDuringPinch, pow_succ, mul_assoc, mul_comm, mul_left_comm,
        Function.comp_def]

theorem PinchZoomOutLoop_spec (ideal : ℚ) :
    ∀ (k : Nat) (d : ℚ) (fuel : Nat), k ≤ fuel → d / 2 ^ k ≤ ideal →
      (∀ j, j < k → ideal < d / 2 ^ j) →
      PinchZoomOutLoop ideal fuel d = some (d / 2 ^ k) ∧
      PinchZoomOutValues ideal fuel d = (List.range (k + 1)).map fun j => d / 2 ^ j := by
  intro k
  induction k with
  | zero =>
    intro d fuel _ h _
    have hd : ¬ d > ideal := by simpa using h
    cases fuel <;> simp [PinchZoomOutLoop, PinchZoomOutValues, hd, List.range_succ]
  | succ k ih =>
    intro d fuel hk h hlt
    have hd : d > ideal := by simpa using hlt 0 (Nat.succ_pos k)
    obtain ⟨f, rfl⟩ : ∃ f, fuel = f + 1 := ⟨fuel - 1, by omega⟩
    have e : ∀ j : Nat, d / kMaxScaleRatioDuringPinch / 2 ^ j = d / 2 ^ (j + 1) := by
      intro j
      rw [kMaxScaleRatioDuringPinch, div_div, pow_succ, mul_comm]
    have h1 : d / kMaxScaleRatioDuringPinch / 2 ^ k ≤ ideal := by rw [e]; exact h
    have h2 : ∀ j, j < k → ideal < d / kMaxScaleRatioDuringPinch / 2 ^ j := by
      intro j hj
      rw [e]; exact hlt (j + 1) (Nat.succ_lt_succ hj)
    obtain ⟨e1, e2⟩ := ih (d / kMaxScaleRatioDuringPinch) f (by omega) h1 h2
    constructor
    · rw [PinchZoomOutLoop, if_pos hd, e1, e]
    · rw [PinchZoomOutValues, if_pos hd, e2, List.range_succ_eq_map (k + 1)]
      simp [e, Function.comp_def]

theorem exists_least_zoom_in (d ideal : ℚ) (hd : 0 < d) :
    ∃ k : Nat, ideal ≤ d * 2 ^ k ∧ ∀ j, j < k → d * 2 ^ j < ideal := by
  have hex : ∃ k : Nat, ideal ≤ d * 2 ^ k := by
    obtain ⟨n, hn⟩ := exists_nat_gt (ideal / d)
    refine ⟨n, ?_⟩
    have h2 : (n : ℚ) < 2 ^ n := by exact_mod_cast Nat.lt_two_pow n
    have : ideal / d < 2 ^ n := lt_trans hn h2
    rw [div_lt_iff₀ hd] at this
    linarith
  classical
  refine ⟨Nat.find hex, Nat.find_spec hex, ?_⟩
  intro j hj
  exact lt_of_not_le (Nat.find_min hex hj)

theorem exists_least_zoom_out (d ideal : ℚ) (hi : 0 < ideal) :
    ∃ k : Nat, d / 2 ^ k ≤ ideal ∧ ∀ j, j < k → ideal < d / 2 ^ j := by
  have hex : ∃ k : Nat, d / 2 ^ k ≤ ideal := by
    obtain ⟨n, hn⟩ := exists_nat_gt (d / ideal)
    refine ⟨n, ?_⟩
    have h2 : (n : ℚ) < 2 ^ n := by exact_mod_cast Nat.lt_two_pow n
    have h3 : d / ideal < 2 ^ n := lt_trans hn h2
    rw [div_lt_iff₀ hi] at h3
    have hp : (0 : ℚ) < 2 ^ n := by positivity
    rw [div_le_iff₀ hp]
    linarith
  classical
  refine ⟨Nat.find hex, Nat.find_spec hex, ?_⟩
  intro j hj
  exact lt_of_not_le (Nat.find_min hex hj)

theorem Head_eq (s : PictureLayerImpl) :
    RecalculateRasterScalesHead s =
      { s with
        raster_device_scale_ := s.ideal_device_scale_
        raster_page_scale_ := s.ideal_page_scale_
        raster_source_scale_ :=
          if (s.raster_source_scale_is_fixed_ || PinsSourceScale s) = true then 1
          else s.ideal_source_scale_
        raster_contents_scale_ :=
          if (s.raster_source_scale_is_fixed_ || PinsSourceScale s) = true then
            s.ideal_contents_scale_ / s.ideal_source_scale_
          else s.ideal_contents_scale_
        raster_source_scale_is_fixed_ := s.raster_source_scale_is_fixed_ || PinsSourceScale s } := by
  simp only [RecalculateRasterScalesHead, PinsSourceScale]
  split_ifs <;> (simp_all; try tauto)

theorem Recalculate_without_pinch (env : LayerTreeImpl) (s : PictureLayerImpl) (fuel : Nat)
    (h : env.PinchGestureActive = false ∨ s.raster_contents_scale_ = 0) :
    RecalculateRasterScales env fuel s =
      some (RecalculateRasterScalesTail env (RecalculateRasterScalesHead s)) := by
  simp only [RecalculateRasterScales]
  rw [if_neg]
  rcases h with h | h <;> simp [h]

theorem Recalculate_with_pinch (env : LayerTreeImpl) (s : PictureLayerImpl) (fuel : Nat)
    (hp : env.PinchGestureActive = true) (ho : s.raster_contents_scale_ ≠ 0) :
    RecalculateRasterScales env fuel s =
      (PinchDesiredContentsScale fuel s.raster_contents_scale_ s.raster_page_scale_
        s.ideal_page_scale_ s.ideal_contents_scale_).map (PinchOverrideResult env s) := by
  simp only [RecalculateRasterScales]
  rw [if_pos (by simp [hp, ho])]
  cases PinchDesiredContentsScale fuel s.raster_contents_scale_ s.raster_page_scale_
    s.ideal_page_scale_ s.ideal_contents_scale_ <;> rfl

/-- What every returning run of `RecalculateRasterScales()` has in common: the
result is the tail applied to a state that differs from the head's result at most
in the raster contents and page scales. -/
theorem Recalculate_shape (env : LayerTreeImpl) (s : PictureLayerImpl) (fuel : Nat)
    (s' : PictureLayerImpl) (h : RecalculateRasterScales env fuel s = some s') :
    ∃ c p, s' = RecalculateRasterScalesTail env
      { RecalculateRasterScalesHead s with raster_contents_scale_ := c, raster_page_scale_ := p } := by
  by_cases hp : env.PinchGestureActive = true ∧ s.raster_contents_scale_ ≠ 0
  · rw [Recalculate_with_pinch env s fuel hp.1 hp.2] at h
    cases hd : PinchDesiredContentsScale fuel s.raster_contents_scale_ s.raster_page_scale_
        s.ideal_page_scale_ s.ideal_contents_scale_ with
    | none => simp [hd] at h
    | some d =>
      rw [hd] at h
      simp only [Option.map_some', Option.some.injEq] at h
      exact ⟨_, _, h.symm⟩
  · have hq : env.PinchGestureActive = false ∨ s.raster_contents_scale_ = 0 := by
      by_cases h1 : env.PinchGestureActive = true
      · right; by_contra h2; exact hp ⟨h1, h2⟩
      · left; simpa using h1
    rw [Recalculate_without_pinch env s fuel hq] at h
    simp only [Option.some.injEq] at h
    exact ⟨(RecalculateRasterScalesHead s).raster_contents_scale_,
      (RecalculateRasterScalesHead s).raster_page_scale_, h.symm⟩

theorem PinchDesired_returns (o p ip ideal : ℚ) (ho : 0 < o) (hi : 0 < ideal) :
    ∃ k d, ∀ fuel, k ≤ fuel → PinchDesiredContentsScale fuel o p ip ideal = some d := by
  by_cases hz : p > ip
  · obtain ⟨k, h1, h2⟩ := exists_least_zoom_out o ideal hi
    refine ⟨k, o / 2 ^ k, fun fuel hf => ?_⟩
    simp only [PinchDesiredContentsScale, hz, decide_True, if_true]
    exact (PinchZoomOutLoop_spec ideal k o fuel hf h1 h2).1
  · obtain ⟨k, h1, h2⟩ := exists_least_zoom_in o ideal ho
    refine ⟨k, o * 2 ^ k, fun fuel hf => ?_⟩
    simp only [PinchDesiredContentsScale, hz, decide_False]
    exact (PinchZoomInLoop_spec ideal k o fuel hf h1 h2).1

theorem Recalculate_returns (env : LayerTreeImpl) (s : PictureLayerImpl)
    (h : env.PinchGestureActive = true → s.raster_contents_scale_ ≠ 0 →
      0 < s.raster_contents_scale_ ∧ 0 < s.ideal_contents_scale_) :
    ∃ k s', ∀ fuel, k ≤ fuel → RecalculateRasterScales env fuel s = some s' := by
  by_cases hp : env.PinchGestureActive = true ∧ s.raster_contents_scale_ ≠ 0
  · obtain ⟨ho, hi⟩ := h hp.1 hp.2
    obtain ⟨k, d, hk⟩ := PinchDesired_returns s.raster_contents_scale_ s.raster_page_scale_
      s.ideal_page_scale_ s.ideal_contents_scale_ ho hi
    refine ⟨k, PinchOverrideResult env s d, fun fuel hf => ?_⟩
    rw [Recalculate_with_pinch env s fuel hp.1 hp.2, hk fuel hf]
    rfl
  · have hq : env.PinchGestureActive = false ∨ s.raster_contents_scale_ = 0 := by
      by_cases h1 : env.PinchGestureActive = true
      · right; by_contra h2; exact hp ⟨h1, h2⟩
      · left; simpa using h1
    exact ⟨0, _, fun fuel _ => Recalculate_without_pinch env s fuel hq⟩

theorem Recalculate_fields (env : LayerTreeImpl) (s : PictureLayerImpl) (fuel : Nat)
    (s' : PictureLayerImpl) (h : RecalculateRasterScales env fuel s = some s') :
    s'.raster_source_ = s.raster_source_ ∧
    s'.raster_device_scale_ = s.ideal_device_scale_ ∧
    s'.raster_source_scale_is_fixed_ = (s.raster_source_scale_is_fixed_ || PinsSourceScale s) ∧
    s'.raster_source_scale_ =
      (if (s.raster_source_scale_is_fixed_ || PinsSourceScale s) = true then 1
       else s.ideal_source_scale_) ∧
    MinimumContentsScale env s ≤ s'.raster_contents_scale_ := by
  obtain ⟨c, p, rfl⟩ := Recalculate_shape env s fuel s' h
  obtain ⟨l, hl⟩ := Tail_eq env
    { RecalculateRasterScalesHead s with raster_contents_scale_ := c, raster_page_scale_ := p }
  rw [hl, Head_eq]
  refine ⟨rfl, rfl, rfl, rfl, ?_⟩
  simp only [MinimumContentsScale]
  exact le_max_right _ _

/-- C1: after `RecalculateRasterScales` the raster contents scale is at least
`MinimumContentsScale()` (for every state, tree and fuel for which the function
returns; it returns whenever the pinch loop starts from positive scales), and
`MinimumContentsScale()` is `max(1/min(w,h), settings.minimum_contents_scale)` for
`min(w,h) ≥ 1` and `settings.minimum_contents_scale` for `min(w,h) = 0`; for a
`1 x 1000000` raster source the raster contents scale is at least `1`. -/
theorem raster_contents_scale_ge_minimum (env : LayerTreeImpl) (s : PictureLayerImpl) :
    (∀ fuel s', RecalculateRasterScales env fuel s = some s' →
      MinimumContentsScale env s ≤ s'.raster_contents_scale_ ∧
      MinimumContentsScale env s' = MinimumContentsScale env s) ∧
    ((env.PinchGestureActive = true → s.raster_contents_scale_ ≠ 0 →
        0 < s.raster_contents_scale_ ∧ 0 < s.ideal_contents_scale_) →
      ∃ k s', ∀ fuel, k ≤ fuel → RecalculateRasterScales env fuel s = some s') ∧
    (1 ≤ min s.raster_source_.size.width s.raster_source_.size.height →
      MinimumContentsScale env s =
        max (1 / ((min s.raster_source_.size.width s.raster_source_.size.height : Nat) : ℚ))
          env.settings.minimum_contents_scale) ∧
    (min s.raster_source_.size.width s.raster_source_.size.height = 0 →
      MinimumContentsScale env s = env.settings.minimum_contents_scale) ∧
    (s.raster_source_.size = ⟨1, 1000000⟩ →
      ∀ fuel s', RecalculateRasterScales env fuel s = some s' →
        1 ≤ s'.raster_contents_scale_) := by
  refine ⟨fun fuel s' h => ?_, Recalculate_returns env s, fun hmin => ?_, fun hmin => ?_,
    fun hsize fuel s' h => ?_⟩
  · obtain ⟨h1, _, _, _, h5⟩ := Recalculate_fields env s fuel s' h
    exact ⟨h5, MinimumContentsScale_eq_of_raster_source env s s' h1⟩
  · have : min s.raster_source_.size.width s.raster_source_.size.height ≠ 0 := by omega
    simp [MinimumContentsScale, this]
  · simp [MinimumContentsScale, hmin]
  · obtain ⟨_, _, _, _, h5⟩ := Recalculate_fields env s fuel s' h
    refine le_trans ?_ h5
    simp [MinimumContentsScale, hsize]

/-- C8: with no pinch override, no animation and no pin (neither on entry nor by
this call) `RecalculateRasterScales` returns, adopts the ideal page, device and
source scales, and sets the raster contents scale to
`max(ideal_contents_scale_, MinimumContentsScale())`, which is
`ideal_contents_scale_` when the ideal scales come from `UpdateIdealScales`. -/
theorem default_adopts_ideal_scales (env : LayerTreeImpl) (s : PictureLayerImpl)
    (hpinch : env.PinchGestureActive = false ∨ s.raster_contents_scale_ = 0)
    (hanim : s.draw_properties.screen_space_transform_is_animating = false)
    (hfixed : s.raster_source_scale_is_fixed_ = false)
    (hpin : s.raster_source_scale_ = 0 ∨ s.was_screen_space_transform_animating_ = true ∨
      s.raster_source_scale_ = s.ideal_source_scale_) :
    ∀ fuel, ∃ s', RecalculateRasterScales env fuel s = some s' ∧
      s'.raster_page_scale_ = s.ideal_page_scale_ ∧
      s'.raster_device_scale_ = s.ideal_device_scale_ ∧
      s'.raster_source_scale_ = s.ideal_source_scale_ ∧
      s'.raster_contents_scale_ = max s.ideal_contents_scale_ (MinimumContentsScale env s) ∧
      s'.raster_source_scale_is_fixed_ = false ∧
      (∀ s0, s = UpdateIdealScales env s0 →
        s'.raster_contents_scale_ = s.ideal_contents_scale_) := by
  intro fuel
  have hP : PinsSourceScale s = false := by
    rcases hpin with h | h | h <;> simp [PinsSourceScale, h]
  refine ⟨_, Recalculate_without_pinch env s fuel hpinch, ?_⟩
  obtain ⟨l, hl⟩ := Tail_eq env (RecalculateRasterScalesHead s)
  have hrcs : (RecalculateRasterScalesTail env (RecalculateRasterScalesHead s)).raster_contents_scale_
      = max s.ideal_contents_scale_ (MinimumContentsScale env s) := by
    rw [hl, Head_eq]
    simp [AnimationOverrideScale, MinimumContentsScale, hanim, hfixed, hP]
  refine ⟨?_, ?_, ?_, hrcs, ?_, ?_⟩
  · rw [hl, Head_eq]
  · rw [hl, Head_eq]
  · rw [hl, Head_eq]; simp [hfixed, hP]
  · rw [hl, Head_eq]; simp [hfixed, hP]
  · intro s0 hs0
    rw [hrcs]
    apply max_eq_left
    have e : MinimumContentsScale env s = MinimumContentsScale env s0 :=
      MinimumContentsScale_eq_of_raster_source env s0 s (by rw [hs0]; rfl)
    rw [e, hs0]
    simp [UpdateIdealScales]

/-- C8 at the example layer on the example tree (no pinch, static transform, raster
scales equal to the ideal ones). -/
theorem default_adopts_ideal_scales_witness :
    ∃ s', RecalculateRasterScales ExampleTree 0 ExampleLayer = some s' ∧
      s'.raster_page_scale_ = ExampleLayer.ideal_page_scale_ ∧
      s'.raster_device_scale_ = ExampleLayer.ideal_device_scale_ ∧
      s'.raster_source_scale_ = ExampleLayer.ideal_source_scale_ ∧
      s'.raster_contents_scale_ =
        max ExampleLayer.ideal_contents_scale_ (MinimumContentsScale ExampleTree ExampleLayer) ∧
      s'.raster_source_scale_is_fixed_ = false ∧
      (∀ s0, ExampleLayer = UpdateIdealScales ExampleTree s0 →
        s'.raster_contents_scale_ = ExampleLayer.ideal_contents_scale_) :=
  default_adopts_ideal_scales ExampleTree ExampleLayer (Or.inl rfl) rfl rfl
    (Or.inr (Or.inr rfl)) 0

/-- C9, counterexample: a layer leaving an animation (not animating now, animating
at the previous update) whose nonzero raster source scale `1` differs from the
ideal source scale `2` is not pinned by `RecalculateRasterScales`: on return
`raster_source_scale_is_fixed_` is false and `raster_source_scale_` is `2`. -/
theorem source_scale_not_pinned_when_leaving_animation :
    LeavingAnimationLayer.draw_properties.screen_space_transform_is_animating = false ∧
    LeavingAnimationLayer.raster_source_scale_ ≠ 0 ∧
    LeavingAnimationLayer.raster_source_scale_ ≠ LeavingAnimationLayer.ideal_source_scale_ ∧
    ∃ s', RecalculateRasterScales ExampleTree 0 LeavingAnimationLayer = some s' ∧
      s'.raster_source_scale_is_fixed_ = false ∧ s'.raster_source_scale_ = 2 := by
  refine ⟨rfl, by decide, by decide, _,
    Recalculate_without_pinch ExampleTree LeavingAnimationLayer 0 (Or.inl rfl), ?_⟩
  obtain ⟨l, hl⟩ := Tail_eq ExampleTree (RecalculateRasterScalesHead LeavingAnimationLayer)
  rw [hl, Head_eq]
  simp [PinsSourceScale, LeavingAnimationLayer, ExampleLayer, Create]

/-- C9, amended: when `RecalculateRasterScales` runs while the transform is not
animating and was not animating at the previous update, and the previous raster
source scale is nonzero and differs from the ideal source scale, then on return
the source scale is pinned (`raster_source_scale_is_fixed_` true,
`raster_source_scale_ = 1`); with no pinch active the function returns and
`raster_contents_scale_ = max(ideal_contents_scale_ / ideal_source_scale_,
MinimumContentsScale())`. -/
theorem source_scale_pinned_on_change (env : LayerTreeImpl) (s : PictureLayerImpl)
    (hanim : s.draw_properties.screen_space_transform_is_animating = false)
    (hwas : s.was_screen_space_transform_animating_ = false)
    (hnz : s.raster_source_scale_ ≠ 0)
    (hne : s.raster_source_scale_ ≠ s.ideal_source_scale_) :
    (∀ fuel s', RecalculateRasterScales env fuel s = some s' →
      s'.raster_source_scale_is_fixed_ = true ∧ s'.raster_source_scale_ = 1) ∧
    ((env.PinchGestureActive = true → s.raster_contents_scale_ ≠ 0 →
        0 < s.raster_contents_scale_ ∧ 0 < s.ideal_contents_scale_) →
      ∃ k s', ∀ fuel, k ≤ fuel → RecalculateRasterScales env fuel s = some s') ∧
    (env.PinchGestureActive = false →
      ∀ fuel, ∃ s', RecalculateRasterScales env fuel s = some s' ∧
        s'.raster_source_scale_is_fixed_ = true ∧ s'.raster_source_scale_ = 1 ∧
        s'.raster_contents_scale_ =
          max (s.ideal_contents_scale_ / s.ideal_source_scale_) (MinimumContentsScale env s)) := by
  have hP : PinsSourceScale s = true := by
    simp [PinsSourceScale, hanim, hwas, hnz, hne]
  refine ⟨fun fuel s' h => ?_, Recalculate_returns env s, fun hp fuel => ?_⟩
  · obtain ⟨_, _, h3, h4, _⟩ := Recalculate_fields env s fuel s' h
    rw [h3, h4]
    simp [hP]
  · have h := Recalculate_without_pinch env s fuel (Or.inl hp)
    obtain ⟨_, _, h3, h4, _⟩ := Recalculate_fields env s fuel _ h
    refine ⟨_, h, ?_, ?_, ?_⟩
    · rw [h3]; simp [hP]
    · rw [h4]; simp [hP]
    · obtain ⟨l, hl⟩ := Tail_eq env (RecalculateRasterScalesHead s)
      rw [hl, Head_eq]
      simp [AnimationOverrideScale, MinimumContentsScale, hanim, hP]

/-- C9 (amended) at the example layer with a static transform whose ideal source scale
moved from `1` to `2`. -/
theorem source_scale_pinned_on_change_witness :
    (∀ fuel s', RecalculateRasterScales ExampleTree fuel SourceScaleChangedLayer = some s' →
      s'.raster_source_scale_is_fixed_ = true ∧ s'.raster_source_scale_ = 1) ∧
    ((ExampleTree.PinchGestureActive = true →
        SourceScaleChangedLayer.raster_contents_scale_ ≠ 0 →
        0 < SourceScaleChangedLayer.raster_contents_scale_ ∧
          0 < SourceScaleChangedLayer.ideal_contents_scale_) →
      ∃ k s', ∀ fuel, k ≤ fuel →
        RecalculateRasterScales ExampleTree fuel SourceScaleChangedLayer = some s') ∧
    (ExampleTree.PinchGestureActive = false →
      ∀ fuel, ∃ s', RecalculateRasterScales ExampleTree fuel SourceScaleChangedLayer = some s' ∧
        s'.raster_source_scale_is_fixed_ = true ∧ s'.raster_source_scale_ = 1 ∧
        s'.raster_contents_scale_ =
          max (SourceScaleChangedLayer.ideal_contents_scale_ /
              SourceScaleChangedLayer.ideal_source_scale_)
            (MinimumContentsScale ExampleTree SourceScaleChangedLayer)) :=
  source_scale_pinned_on_change ExampleTree SourceScaleChangedLayer rfl rfl
    (by decide) (by decide)

/-- C10: when `raster_source_scale_is_fixed_` is true on entry, every returning run
of `RecalculateRasterScales` leaves `raster_source_scale_ = 1` and the flag true,
whatever the ideal source scale, the pinch state and the animation state (and the
function returns whenever the pinch loop starts from positive scales); and in
such a state the value of `ideal_source_scale_` has no influence on
`ShouldAdjustRasterScale`. -/
theorem fixed_source_scale_is_stable (env : LayerTreeImpl) (s : PictureLayerImpl)
    (hfixed : s.raster_source_scale_is_fixed_ = true) :
    (∀ fuel s', RecalculateRasterScales env fuel s = some s' →
      s'.raster_source_scale_ = 1 ∧ s'.raster_source_scale_is_fixed_ = true) ∧
    ((env.PinchGestureActive = true → s.raster_contents_scale_ ≠ 0 →
        0 < s.raster_contents_scale_ ∧ 0 < s.ideal_contents_scale_) →
      ∃ k s', ∀ fuel, k ≤ fuel → RecalculateRasterScales env fuel s = some s') ∧
    (∀ x, ShouldAdjustRasterScale env { s with ideal_source_scale_ := x } =
      ShouldAdjustRasterScale env s) := by
  refine ⟨fun fuel s' h => ?_, Recalculate_returns env s, fun x => ?_⟩
  · obtain ⟨_, _, h3, h4, _⟩ := Recalculate_fields env s fuel s' h
    rw [h3, h4]
    simp [hfixed]
  · simp [ShouldAdjustRasterScale, hfixed]

/-- C10 at the example layer with the source scale pinned. -/
theorem fixed_source_scale_is_stable_witness :
    (∀ fuel s', RecalculateRasterScales ExampleTree fuel
        { ExampleLayer with raster_source_scale_is_fixed_ := true } = some s' →
      s'.raster_source_scale_ = 1 ∧ s'.raster_source_scale_is_fixed_ = true) ∧
    ((ExampleTree.PinchGestureActive = true →
        ({ ExampleLayer with raster_source_scale_is_fixed_ := true } :
          PictureLayerImpl).raster_contents_scale_ ≠ 0 →
        0 < ({ ExampleLayer with raster_source_scale_is_fixed_ := true } :
          PictureLayerImpl).raster_contents_scale_ ∧
        0 < ({ ExampleLayer with raster_source_scale_is_fixed_ := true } :
          PictureLayerImpl).ideal_contents_scale_) →
      ∃ k s', ∀ fuel, k ≤ fuel → RecalculateRasterScales ExampleTree fuel
        { ExampleLayer with raster_source_scale_is_fixed_ := true } = some s') ∧
    (∀ x, ShouldAdjustRasterScale ExampleTree
        { ({ ExampleLayer with raster_source_scale_is_fixed_ := true } : PictureLayerImpl) with
          ideal_source_scale_ := x } =
      ShouldAdjustRasterScale ExampleTree
        { ExampleLayer with raster_source_scale_is_fixed_ := true }) :=
  fixed_source_scale_is_stable ExampleTree
    { ExampleLayer with raster_source_scale_is_fixed_ := true } rfl

/-- C7, counterexample: while the transform is animating (now and at the previous
update) with GPU rasterization enabled, a layer whose raster scales all equal the
ideal ones makes `ShouldAdjustRasterScale` return false, although condition (b)
of the claim holds. -/
theorem ShouldAdjustRasterScale_false_while_animating_on_gpu :
    AnimatingLayer.draw_properties.screen_space_transform_is_animating = true ∧
    GpuTree.use_gpu_rasterization = true ∧
    ShouldAdjustRasterScale GpuTree AnimatingLayer = false := by
  refine ⟨rfl, rfl, ?_⟩
  simp [ShouldAdjustRasterScale, AnimatingLayer, ExampleLayer, GpuTree, ExampleTree]

/-- C7, amended: `ShouldAdjustRasterScale` returns true exactly when at least one
of these holds: (a) the animation flag differs from the one of the previous
update; (b) the transform is animating, GPU rasterization is enabled and
`raster_contents_scale_` differs from `ideal_contents_scale_`; (c) a pinch is
active, `raster_page_scale_` is nonzero and it exceeds `ideal_page_scale_` or
`ideal_page_scale_ / raster_page_scale_ > 2`; (d) no pinch is active and the page
scales differ; (e) the device scales differ; (f) the transform is not animating,
the source scale is not pinned and the source scales differ. -/
theorem ShouldAdjustRasterScale_iff (env : LayerTreeImpl) (s : PictureLayerImpl) :
    ShouldAdjustRasterScale env s = true ↔
      (s.was_screen_space_transform_animating_ ≠
        s.draw_properties.screen_space_transform_is_animating) ∨
      (s.draw_properties.screen_space_transform_is_animating = true ∧
        env.use_gpu_rasterization = true ∧
        s.raster_contents_scale_ ≠ s.ideal_contents_scale_) ∨
      (env.PinchGestureActive = true ∧ s.raster_page_scale_ ≠ 0 ∧
        (s.raster_page_scale_ > s.ideal_page_scale_ ∨
          s.ideal_page_scale_ / s.raster_page_scale_ > 2)) ∨
      (env.PinchGestureActive = false ∧ s.raster_page_scale_ ≠ s.ideal_page_scale_) ∨
      (s.raster_device_scale_ ≠ s.ideal_device_scale_) ∨
      (s.draw_properties.screen_space_transform_is_animating = false ∧
        s.raster_source_scale_is_fixed_ = false ∧
        s.raster_source_scale_ ≠ s.ideal_source_scale_) := by
  simp only [ShouldAdjustRasterScale, ShouldAdjustRasterScaleDuringScaleAnimations,
    kMaxScaleRatioDuringPinch]
  cases env.PinchGestureActive <;> cases s.was_screen_space_transform_animating_ <;>
    cases s.draw_properties.screen_space_transform_is_animating <;>
    cases env.use_gpu_rasterization <;> cases s.raster_source_scale_is_fixed_ <;>
    simp

theorem PinchOverrideResult_page_scale (env : LayerTreeImpl) (s : PictureLayerImpl) (d : ℚ) :
    (PinchOverrideResult env s d).raster_page_scale_ =
      env.GetSnappedContentsScale s.tilings_ d kSnapToExistingTilingRatio /
        (PinchOverrideResult env s d).raster_device_scale_ /
        (PinchOverrideResult env s d).raster_source_scale_ := by
  simp only [PinchOverrideResult]
  obtain ⟨l, hl⟩ := Tail_eq env
    { RecalculateRasterScalesHead s with
      raster_contents_scale_ :=
        env.GetSnappedContentsScale s.tilings_ d kSnapToExistingTilingRatio
      raster_page_scale_ :=
        env.GetSnappedContentsScale s.tilings_ d kSnapToExistingTilingRatio /
          (RecalculateRasterScalesHead s).raster_device_scale_ /
            (RecalculateRasterScalesHead s).raster_source_scale_ }
  rw [hl]

/-- C5: with a pinch active and a previous raster contents scale `o > 0`, the
scale handed to `GetSnappedContentsScale(., 1.2)` is reached from `o` by steps of
exactly `2`: zooming in (previous raster page scale `≤` ideal page scale) the
successive values are `o, 2o, ..., o * 2^k` for the least `k` with
`o * 2^k ≥ ideal_contents_scale_`; zooming out (previous raster page scale `>`
ideal page scale) they are `o, o/2, ..., o / 2^k` for the least `k` with
`o / 2^k ≤ ideal_contents_scale_` (such a `k` exists when the ideal contents scale
is positive). In both cases `RecalculateRasterScales` returns with
`raster_page_scale_ = snapped / raster_device_scale_ / raster_source_scale_`.
For `o = 1`, ideal `5`, zooming in, the values are `1, 2, 4, 8`. -/
theorem pinch_desired_scale_steps (env : LayerTreeImpl) (s : PictureLayerImpl)
    (hp : env.PinchGestureActive = true) (ho : 0 < s.raster_contents_scale_) :
    (s.raster_page_scale_ ≤ s.ideal_page_scale_ →
      ∃ k : Nat, s.ideal_contents_scale_ ≤ s.raster_contents_scale_ * 2 ^ k ∧
        (∀ j, j < k → s.raster_contents_scale_ * 2 ^ j < s.ideal_contents_scale_) ∧
        ∀ fuel, k ≤ fuel →
          PinchDesiredContentsScale fuel s.raster_contents_scale_ s.raster_page_scale_
            s.ideal_page_scale_ s.ideal_contents_scale_ =
              some (s.raster_contents_scale_ * 2 ^ k) ∧
          PinchZoomInValues s.ideal_contents_scale_ fuel s.raster_contents_scale_ =
            (List.range (k + 1)).map (fun j => s.raster_contents_scale_ * 2 ^ j) ∧
          ∃ s', RecalculateRasterScales env fuel s = some s' ∧
            s'.raster_page_scale_ =
              env.GetSnappedContentsScale s.tilings_ (s.raster_contents_scale_ * 2 ^ k)
                (12 / 10) / s'.raster_device_scale_ / s'.raster_source_scale_) ∧
    (s.raster_page_scale_ > s.ideal_page_scale_ →
      (0 < s.ideal_contents_scale_ →
        ∃ k : Nat, s.raster_contents_scale_ / 2 ^ k ≤ s.ideal_contents_scale_ ∧
          ∀ j, j < k → s.ideal_contents_scale_ < s.raster_contents_scale_ / 2 ^ j) ∧
      ∀ k : Nat, s.raster_contents_scale_ / 2 ^ k ≤ s.ideal_contents_scale_ →
        (∀ j, j < k → s.ideal_contents_scale_ < s.raster_contents_scale_ / 2 ^ j) →
        ∀ fuel, k ≤ fuel →
          PinchDesiredContentsScale fuel s.raster_contents_scale_ s.raster_page_scale_
            s.ideal_page_scale_ s.ideal_contents_scale_ =
              some (s.raster_contents_scale_ / 2 ^ k) ∧
          PinchZoomOutValues s.ideal_contents_scale_ fuel s.raster_contents_scale_ =
            (List.range (k + 1)).map (fun j => s.raster_contents_scale_ / 2 ^ j) ∧
          ∃ s', RecalculateRasterScales env fuel s = some s' ∧
            s'.raster_page_scale_ =
              env.GetSnappedContentsScale s.tilings_ (s.raster_contents_scale_ / 2 ^ k)
                (12 / 10) / s'.raster_device_scale_ / s'.raster_source_scale_) ∧
    (PinchZoomInValues 5 3 1 = [1, 2, 4, 8] ∧
      PinchDesiredContentsScale 3 1 1 5 5 = some 8) := by
  have hsnap : kSnapToExistingTilingRatio = 12 / 10 := rfl
  refine ⟨fun hz => ?_, fun hz => ⟨fun hi => exists_least_zoom_out _ _ hi,
    fun k h1 h2 fuel hf => ?_⟩, ?_⟩
  · obtain ⟨k, h1, h2⟩ := exists_least_zoom_in s.raster_contents_scale_
      s.ideal_contents_scale_ ho
    refine ⟨k, h1, h2, fun fuel hf => ?_⟩
    obtain ⟨e1, e2⟩ := PinchZoomInLoop_spec s.ideal_contents_scale_ k
      s.raster_contents_scale_ fuel hf h1 h2
    have e3 : PinchDesiredContentsScale fuel s.raster_contents_scale_ s.raster_page_scale_
        s.ideal_page_scale_ s.ideal_contents_scale_ =
          some (s.raster_contents_scale_ * 2 ^ k) := by
      simp only [PinchDesiredContentsScale, gt_iff_lt, not_lt.mpr hz, decide_False]
      exact e1
    refine ⟨e3, e2, PinchOverrideResult env s (s.raster_contents_scale_ * 2 ^ k), ?_, ?_⟩
    · rw [Recalculate_with_pinch env s fuel hp (ne_of_gt ho), e3]; rfl
    · rw [← hsnap]; exact PinchOverrideResult_page_scale env s _
  · obtain ⟨e1, e2⟩ := PinchZoomOutLoop_spec s.ideal_contents_scale_ k
      s.raster_contents_scale_ fuel hf h1 h2
    have e3 : PinchDesiredContentsScale fuel s.raster_contents_scale_ s.raster_page_scale_
        s.ideal_page_scale_ s.ideal_contents_scale_ =
          some (s.raster_contents_scale_ / 2 ^ k) := by
      simp only [PinchDesiredContentsScale, hz, decide_True, if_true]
      exact e1
    refine ⟨e3, e2, PinchOverrideResult env s (s.raster_contents_scale_ / 2 ^ k), ?_, ?_⟩
    · rw [Recalculate_with_pinch env s fuel hp (ne_of_gt ho), e3]; rfl
    · rw [← hsnap]; exact PinchOverrideResult_page_scale env s _
  · have h2 : ∀ j, j < 3 → (1 : ℚ) * 2 ^ j < 5 := by
      intro j hj
      interval_cases j <;> norm_num
    obtain ⟨e1, e2⟩ := PinchZoomInLoop_spec 5 3 1 3 (le_refl 3) (by norm_num) h2
    constructor
    · rw [e2]; simp [List.range_succ]; norm_num
    · simp only [PinchDesiredContentsScale]
      rw [if_neg (by norm_num), e1]; norm_num

/-- C5 at raster scale `1`, ideal scale `5`, zooming in: the values are `1, 2, 4, 8` and
the raster page scale becomes `8`. -/
theorem pinch_desired_scale_steps_witness :
    ∃ s', RecalculateRasterScales PinchTree 3 ZoomInLayer = some s' ∧
      s'.raster_page_scale_ = 8 ∧
      PinchZoomInValues ZoomInLayer.ideal_contents_scale_ 3
        ZoomInLayer.raster_contents_scale_ = [1, 2, 4, 8] := by
  have hz : ZoomInLayer.raster_page_scale_ ≤ ZoomInLayer.ideal_page_scale_ := by decide
  obtain ⟨k, h1, h2, h3⟩ :=
    (pinch_desired_scale_steps PinchTree ZoomInLayer rfl (by decide)).1 hz
  have hk : k = 3 := by
    have e5 : ZoomInLayer.ideal_contents_scale_ = 5 := rfl
    have e1 : ZoomInLayer.raster_contents_scale_ = 1 := rfl
    rw [e5, e1] at h1 h2
    by_contra hne
    rcases Nat.lt_or_gt_of_ne hne with hlt | hgt
    · have : k ≤ 2 := by omega
      have hp : (2 : ℚ) ^ k ≤ 2 ^ 2 := pow_le_pow_right₀ (by norm_num) this
      norm_num at hp h1
      linarith
    · have := h2 3 hgt
      norm_num at this
  subst hk
  obtain ⟨_, e2, s', hs, hps⟩ := h3 3 (le_refl 3)
  refine ⟨s', hs, ?_, ?_⟩
  · obtain ⟨_, hd, _, hss, _⟩ := Recalculate_fields PinchTree ZoomInLayer 3 s' hs
    rw [hps, hd, hss]
    simp [PinchTree, ExampleTree, ZoomInLayer, ExampleLayer, PinsSourceScale, Create]
    norm_num
  · rw [e2]; simp [List.range_succ, ZoomInLayer, ExampleLayer]; norm_num

end PictureLayerImpl

/-! ## The tiling set -/

namespace PictureLayerTilingSet

theorem FindTilingWithScale_eq (ts : PictureLayerTilingSet) (x : ℚ) :
    FindTilingWithScale ts x = if x ∈ Scales ts then some x else none := by
  induction ts with
  | nil => simp [FindTilingWithScale, Scales]
  | cons t ts ih =>
    simp only [FindTilingWithScale, Scales] at ih ⊢
    by_cases h : t.contents_scale = x
    · simp [List.find?_cons, h]
    · have h' : ¬ x = t.contents_scale := fun e => h e.symm
      simp [List.find?_cons, h, h', ih]

theorem Scales_set_resolution (ts : PictureLayerTilingSet) (p : TilingPtr)
    (r : TileResolution) : Scales (set_resolution ts p r) = Scales ts := by
  simp only [Scales, set_resolution, List.map_map]
  apply List.map_congr_left
  intro t _
  simp only [Function.comp]
  split_ifs <;> rfl

theorem Scales_append (us vs : PictureLayerTilingSet) :
    Scales (us ++ vs) = Scales us ++ Scales vs := by
  simp [Scales]

theorem Scales_cons (t : PictureLayerTiling) (us : PictureLayerTilingSet) :
    Scales (t :: us) = t.contents_scale :: Scales us := rfl

theorem Scales_nil : Scales [] = [] := rfl

theorem Scales_MarkAllTilingsNonIdeal (ts : PictureLayerTilingSet) :
    Scales (MarkAllTilingsNonIdeal ts) = Scales ts := by
  simp [Scales, MarkAllTilingsNonIdeal, Function.comp_def]

end PictureLayerTilingSet

namespace PictureLayerImpl

open PictureLayerTilingSet

theorem AddTilingsForRasterScale_tilings (env : LayerTreeImpl) (s : PictureLayerImpl) :
    (AddTilingsForRasterScale env s).tilings_ =
      set_resolution
        (if s.raster_contents_scale_ ≠ s.low_res_raster_contents_scale_ ∧
            s.low_res_raster_contents_scale_ ∈ Scales (TilingsWithLowRes env s) then
          set_resolution (TilingsWithLowRes env s) s.low_res_raster_contents_scale_
            TileResolution.LOW_RESOLUTION
        else TilingsWithLowRes env s)
        s.raster_contents_scale_ TileResolution.HIGH_RESOLUTION := by
  simp only [AddTilingsForRasterScale,
    PictureLayerTilingSet.AddTiling, FindTilingWithScale_eq, Scales_MarkAllTilingsNonIdeal,
    TilingsWithLowRes, TilingsWithHighRes, CreatesLowRes, NewTiling]
  by_cases hr : s.raster_contents_scale_ ∈ Scales s.tilings_ <;>
  by_cases hrl : s.raster_contents_scale_ = s.low_res_raster_contents_scale_ <;>
  by_cases hl : s.low_res_raster_contents_scale_ ∈ Scales s.tilings_ <;>
  cases hc : env.create_low_res_tiling <;> cases hp : env.PinchGestureActive <;>
  cases ha : s.draw_properties.screen_space_transform_is_animating <;>
  simp [hr, hrl, hl, Scales_append, Scales_cons, Scales_nil, Scales_MarkAllTilingsNonIdeal,
    eq_comm]

theorem Scales_TilingsWithHighRes (s : PictureLayerImpl) :
    Scales (TilingsWithHighRes s) =
      Scales s.tilings_ ++
        (if s.raster_contents_scale_ ∈ Scales s.tilings_ then []
         else [s.raster_contents_scale_]) := by
  simp only [TilingsWithHighRes]
  split_ifs <;>
    simp [Scales_append, Scales_cons, Scales_nil, Scales_MarkAllTilingsNonIdeal, NewTiling]

theorem Scales_TilingsWithLowRes (env : LayerTreeImpl) (s : PictureLayerImpl) :
    Scales (TilingsWithLowRes env s) =
      Scales (TilingsWithHighRes s) ++
        (if CreatesLowRes env s then [s.low_res_raster_contents_scale_] else []) := by
  simp only [TilingsWithLowRes]
  split_ifs <;> simp [Scales_append, Scales_cons, Scales_nil, NewTiling]

theorem Scales_AddTilingsForRasterScale (env : LayerTreeImpl) (s : PictureLayerImpl) :
    Scales (AddTilingsForRasterScale env s).tilings_ = Scales (TilingsWithLowRes env s) := by
  rw [AddTilingsForRasterScale_tilings, Scales_set_resolution]
  split_ifs
  · rw [Scales_set_resolution]
  · rfl

theorem raster_scale_mem_TilingsWithLowRes (env : LayerTreeImpl) (s : PictureLayerImpl) :
    s.raster_contents_scale_ ∈ Scales (TilingsWithLowRes env s) := by
  rw [Scales_TilingsWithLowRes, Scales_TilingsWithHighRes]
  by_cases h : s.raster_contents_scale_ ∈ Scales s.tilings_ <;> simp [h]

theorem Nodup_TilingsWithLowRes (env : LayerTreeImpl) (s : PictureLayerImpl)
    (h : (Scales s.tilings_).Nodup) : (Scales (TilingsWithLowRes env s)).Nodup := by
  have h1 : (Scales (TilingsWithHighRes s)).Nodup := by
    rw [Scales_TilingsWithHighRes]
    by_cases hr : s.raster_contents_scale_ ∈ Scales s.tilings_
    · simpa [hr] using h
    · simp only [hr, if_false]
      exact List.Nodup.append h (List.nodup_singleton _) (by simpa using hr)
  rw [Scales_TilingsWithLowRes]
  by_cases hc : CreatesLowRes env s
  · simp only [hc, if_true]
    exact List.Nodup.append h1 (List.nodup_singleton _) (by simpa using hc.2.2.2.2)
  · simpa [hc] using h1

theorem resolution_MarkAllTilingsNonIdeal (ts : PictureLayerTilingSet)
    (t : PictureLayerTiling) (ht : t ∈ MarkAllTilingsNonIdeal ts) :
    t.resolution = TileResolution.NON_IDEAL_RESOLUTION := by
  simp only [MarkAllTilingsNonIdeal, List.mem_map] at ht
  obtain ⟨u, _, hu⟩ := ht
  rw [← hu]

theorem resolution_TilingsWithHighRes (s : PictureLayerImpl)
    (t : PictureLayerTiling) (ht : t ∈ TilingsWithHighRes s) :
    t.resolution = TileResolution.NON_IDEAL_RESOLUTION := by
  simp only [TilingsWithHighRes] at ht
  split_ifs at ht
  · exact resolution_MarkAllTilingsNonIdeal _ t ht
  · rcases List.mem_append.mp ht with h | h
    · exact resolution_MarkAllTilingsNonIdeal _ t h
    · rw [List.mem_singleton.mp h]; rfl

theorem resolution_TilingsWithLowRes (env : LayerTreeImpl) (s : PictureLayerImpl)
    (t : PictureLayerTiling) (ht : t ∈ TilingsWithLowRes env s) :
    t.resolution = TileResolution.NON_IDEAL_RESOLUTION := by
  simp only [TilingsWithLowRes] at ht
  split_ifs at ht
  · rcases List.mem_append.mp ht with h | h
    · exact resolution_TilingsWithHighRes s t h
    · rw [List.mem_singleton.mp h]; rfl
  · exact resolution_TilingsWithHighRes s t ht

theorem mem_set_resolution (ts : PictureLayerTilingSet) (p : TilingPtr) (r : TileResolution)
    (t : PictureLayerTiling) :
    t ∈ set_resolution ts p r ↔
      ∃ u ∈ ts, t = if u.contents_scale = p then { u with resolution := r } else u := by
  simp only [set_resolution, List.mem_map]
  constructor
  · rintro ⟨u, hu, rfl⟩; exact ⟨u, hu, rfl⟩
  · rintro ⟨u, hu, rfl⟩; exact ⟨u, hu, rfl⟩

/-- Auxiliary: the marking phase of `AddTilingsForRasterScale()` on a set without
ideal resolutions whose scales are pairwise distinct and include the raster
scale. -/
theorem marking_spec (ts : PictureLayerTilingSet) (r l : ℚ)
    (hres : ∀ t ∈ ts, t.resolution = TileResolution.NON_IDEAL_RESOLUTION)
    (hnd : (Scales ts).Nodup) (hr : r ∈ Scales ts) :
    (∀ t ∈ set_resolution
        (if r ≠ l ∧ l ∈ Scales ts then set_resolution ts l TileResolution.LOW_RESOLUTION else ts)
        r TileResolution.HIGH_RESOLUTION,
      (t.resolution = TileResolution.HIGH_RESOLUTION ↔ t.contents_scale = r)) ∧
    NumHighResTilings (set_resolution
        (if r ≠ l ∧ l ∈ Scales ts then set_resolution ts l TileResolution.LOW_RESOLUTION else ts)
        r TileResolution.HIGH_RESOLUTION) = 1 := by
  have hmid : ∀ u ∈ (if r ≠ l ∧ l ∈ Scales ts then
      set_resolution ts l TileResolution.LOW_RESOLUTION else ts),
      u.resolution ≠ TileResolution.HIGH_RESOLUTION := by
    intro u hu
    split_ifs at hu
    · obtain ⟨v, hv, rfl⟩ := (mem_set_resolution _ _ _ _).mp hu
      split_ifs
      · simp
      · rw [hres v hv]; simp
    · rw [hres u hu]; simp
  have hsc : Scales (if r ≠ l ∧ l ∈ Scales ts then
      set_resolution ts l TileResolution.LOW_RESOLUTION else ts) = Scales ts := by
    split_ifs
    · exact Scales_set_resolution _ _ _
    · rfl
  generalize (if r ≠ l ∧ l ∈ Scales ts then
      set_resolution ts l TileResolution.LOW_RESOLUTION else ts) = us at hmid hsc
  have hchar : ∀ u ∈ us,
      ((if u.contents_scale = r then
          { u with resolution := TileResolution.HIGH_RESOLUTION } else u).resolution =
        TileResolution.HIGH_RESOLUTION ↔ u.contents_scale = r) := by
    intro u hu
    split_ifs with h
    · simp [h]
    · simp [h, hmid u hu]
  constructor
  · intro t ht
    obtain ⟨u, hu, rfl⟩ := (mem_set_resolution _ _ _ _).mp ht
    have := hchar u hu
    split_ifs at this ⊢ with h
    · simp [h]
    · simpa [h] using this
  · have hcount : (Scales us).count r = 1 :=
      List.count_eq_one_of_mem (hsc ▸ hnd) (hsc ▸ hr)
    rw [← hcount]
    simp only [NumHighResTilings, set_resolution, Scales, List.countP_map, List.count]
    apply List.countP_congr
    intro u hu
    have := hchar u hu
    simp only [Function.comp, decide_eq_true_eq, beq_iff_eq]
    exact this

theorem AddTilingsForRasterScale_spec (env : LayerTreeImpl) (s : PictureLayerImpl)
    (hnodup : (Scales s.tilings_).Nodup) :
    (∀ t ∈ (AddTilingsForRasterScale env s).tilings_,
      (t.resolution = TileResolution.HIGH_RESOLUTION ↔
        t.contents_scale = s.raster_contents_scale_)) ∧
    NumHighResTilings (AddTilingsForRasterScale env s).tilings_ = 1 ∧
    (Scales (AddTilingsForRasterScale env s).tilings_).Nodup := by
  have h := marking_spec (TilingsWithLowRes env s) s.raster_contents_scale_
    s.low_res_raster_contents_scale_ (resolution_TilingsWithLowRes env s)
    (Nodup_TilingsWithLowRes env s hnodup) (raster_scale_mem_TilingsWithLowRes env s)
  rw [← AddTilingsForRasterScale_tilings] at h
  refine ⟨h.1, h.2, ?_⟩
  rw [Scales_AddTilingsForRasterScale]
  exact Nodup_TilingsWithLowRes env s hnodup

theorem AddTilingsForRasterScale_frame (env : LayerTreeImpl) (s : PictureLayerImpl) :
    AddTilingsForRasterScale env s =
      { s with tilings_ := (AddTilingsForRasterScale env s).tilings_ } := rfl

theorem AddTilingsForRasterScaleCalls_nodup :
    ∀ (calls : List (LayerTreeImpl × PictureLayerImpl)) (ts : PictureLayerTilingSet),
      (Scales ts).Nodup → (Scales (AddTilingsForRasterScaleCalls calls ts)).Nodup := by
  intro calls
  induction calls with
  | nil => intro ts h; exact h
  | cons c calls ih =>
    intro ts h
    simp only [AddTilingsForRasterScaleCalls, List.foldl_cons]
    exact ih _ (AddTilingsForRasterScale_spec c.1 { c.2 with tilings_ := ts } h).2.2

theorem AddTilingsForRasterScaleCalls_concat
    (calls : List (LayerTreeImpl × PictureLayerImpl)) (c : LayerTreeImpl × PictureLayerImpl)
    (ts : PictureLayerTilingSet) :
    AddTilingsForRasterScaleCalls (calls ++ [c]) ts =
      (AddTilingsForRasterScale c.1
        { c.2 with tilings_ := AddTilingsForRasterScaleCalls calls ts }).tilings_ := by
  simp [AddTilingsForRasterScaleCalls, List.foldl_append]

theorem SanityCheckTilingState_of_one_high_res (env : LayerTreeImpl) (s : PictureLayerImpl)
    (hcan : s.CanHaveTilings = true) (hone : NumHighResTilings s.tilings_ = 1) :
    SanityCheckTilingState env s = true := by
  simp [SanityCheckTilingState, hcan, hone]

theorem CanHaveTilings_of_scale (env : LayerTreeImpl) (s : PictureLayerImpl) (x : ℚ)
    (h : CanHaveTilingWithScale env s x = true) : s.CanHaveTilings = true := by
  simp only [CanHaveTilingWithScale] at h
  split_ifs at h with h1
  simpa using h1

/-- C2: on a tiling set with pairwise distinct contents scales, after
`AddTilingsForRasterScale` exactly one tiling is `HIGH_RESOLUTION`, and a tiling is
`HIGH_RESOLUTION` exactly when its contents scale is `raster_contents_scale_`; the
scales of the set before the call are kept, in order, and the raster scale is
appended only when no tiling had it; the scales stay pairwise distinct. When
`raster_contents_scale_` is a scale the layer can have,
`SanityCheckTilingState` passes. Hence after any non-empty sequence of calls, with
any raster scales, exactly one tiling is `HIGH_RESOLUTION`, and the sanity check
passes after the last call when that call's raster scale is one the layer can
have. -/
theorem single_high_resolution_tiling (env : LayerTreeImpl) (s : PictureLayerImpl)
    (hnodup : (Scales s.tilings_).Nodup) :
    NumHighResTilings (AddTilingsForRasterScale env s).tilings_ = 1 ∧
    (∀ t ∈ (AddTilingsForRasterScale env s).tilings_,
      (t.resolution = TileResolution.HIGH_RESOLUTION ↔
        t.contents_scale = s.raster_contents_scale_)) ∧
    (∃ t ∈ (AddTilingsForRasterScale env s).tilings_,
      t.contents_scale = s.raster_contents_scale_) ∧
    (∃ extra, Scales (AddTilingsForRasterScale env s).tilings_ =
      Scales s.tilings_ ++
        (if s.raster_contents_scale_ ∈ Scales s.tilings_ then []
         else [s.raster_contents_scale_]) ++ extra) ∧
    (Scales (AddTilingsForRasterScale env s).tilings_).Nodup ∧
    (CanHaveTilingWithScale env s s.raster_contents_scale_ = true →
      SanityCheckTilingState env (AddTilingsForRasterScale env s) = true) ∧
    (∀ (calls : List (LayerTreeImpl × PictureLayerImpl)) (c : LayerTreeImpl × PictureLayerImpl),
      NumHighResTilings (AddTilingsForRasterScaleCalls (calls ++ [c]) s.tilings_) = 1 ∧
      (CanHaveTilingWithScale c.1 c.2 c.2.raster_contents_scale_ = true →
        SanityCheckTilingState c.1
          { c.2 with
            tilings_ := AddTilingsForRasterScaleCalls (calls ++ [c]) s.tilings_ } = true)) := by
  obtain ⟨h1, h2, h3⟩ := AddTilingsForRasterScale_spec env s hnodup
  refine ⟨h2, h1, ?_, ?_, h3, fun hcan => ?_, fun calls c => ?_⟩
  · have hm : s.raster_contents_scale_ ∈ Scales (AddTilingsForRasterScale env s).tilings_ := by
      rw [Scales_AddTilingsForRasterScale]
      exact raster_scale_mem_TilingsWithLowRes env s
    simp only [Scales, List.mem_map] at hm
    obtain ⟨t, ht, e⟩ := hm
    exact ⟨t, ht, e⟩
  · refine ⟨if CreatesLowRes env s then [s.low_res_raster_contents_scale_] else [], ?_⟩
    rw [Scales_AddTilingsForRasterScale, Scales_TilingsWithLowRes, Scales_TilingsWithHighRes]
  · apply SanityCheckTilingState_of_one_high_res _ _ _ h2
    exact CanHaveTilings_of_scale env s _ hcan
  · have hn := AddTilingsForRasterScaleCalls_nodup calls s.tilings_ hnodup
    have hspec := AddTilingsForRasterScale_spec c.1
      { c.2 with tilings_ := AddTilingsForRasterScaleCalls calls s.tilings_ } hn
    rw [AddTilingsForRasterScaleCalls_concat]
    refine ⟨hspec.2.1, fun hcan => ?_⟩
    apply SanityCheckTilingState_of_one_high_res _ _ _ hspec.2.1
    exact CanHaveTilings_of_scale c.1 c.2 _ hcan

/-- C2 at a set with tilings at scales `1` and `1/4`, moving to raster scale `2` and
low-res scale `1/2`: the new tiling at `2` is the only high-res one. -/
theorem single_high_resolution_tiling_witness :
    NumHighResTilings (AddTilingsForRasterScale ExampleTree TwoTilingsLayer).tilings_ = 1 ∧
    (AddTilingsForRasterScale ExampleTree TwoTilingsLayer).tilings_.map
      (fun t => (t.contents_scale, t.resolution)) =
      [(1, TileResolution.NON_IDEAL_RESOLUTION), (1 / 4, TileResolution.NON_IDEAL_RESOLUTION),
       (2, TileResolution.HIGH_RESOLUTION), (1 / 2, TileResolution.LOW_RESOLUTION)] := by
  have hn : (Scales TwoTilingsLayer.tilings_).Nodup := by
    simp [Scales, TwoTilingsLayer]
  refine ⟨(single_high_resolution_tiling ExampleTree TwoTilingsLayer hn).1, ?_⟩
  simp [AddTilingsForRasterScale, FindTilingWithScale, PictureLayerTilingSet.AddTiling,
    set_resolution, MarkAllTilingsNonIdeal, TwoTilingsLayer, ExampleLayer, ExampleTree, Create]
  norm_num

end PictureLayerImpl

/-! ## Repeated pinch adjustment -/

namespace PictureLayerImpl

theorem SteadyPinch_page_gt_iff (env : LayerTreeImpl) (s : PictureLayerImpl)
    (h : SteadyPinch env s) :
    (s.raster_page_scale_ > s.ideal_page_scale_ ↔
      s.raster_contents_scale_ > s.ideal_contents_scale_) ∧
    (s.ideal_page_scale_ / s.raster_page_scale_ > 2 ↔
      2 * s.raster_contents_scale_ < s.ideal_contents_scale_) ∧
    s.raster_page_scale_ ≠ 0 := by
  obtain ⟨_, _, _, _, _, hp, hd, hs, hic, hrd, hrs, hrp, ho, _⟩ := h
  have hds : 0 < s.ideal_device_scale_ * s.ideal_source_scale_ := mul_pos hd hs
  have hrp' : s.raster_page_scale_ =
      s.raster_contents_scale_ / (s.ideal_device_scale_ * s.ideal_source_scale_) := by
    rw [hrp, hrd, hrs, div_div]
  have hpos : 0 < s.raster_page_scale_ := by rw [hrp']; exact div_pos ho hds
  refine ⟨?_, ?_, ne_of_gt hpos⟩
  · rw [hrp', hic, gt_iff_lt, gt_iff_lt, lt_div_iff₀ hds, mul_assoc]
  · rw [gt_iff_lt, lt_div_iff₀ hpos, hrp', hic, mul_assoc, ← mul_div_assoc, div_lt_iff₀ hds]

theorem SteadyPinch_ShouldAdjust_iff (env : LayerTreeImpl) (s : PictureLayerImpl)
    (h : SteadyPinch env s) :
    ShouldAdjustRasterScale env s = true ↔
      (s.raster_contents_scale_ > s.ideal_contents_scale_ ∨
        2 * s.raster_contents_scale_ < s.ideal_contents_scale_) := by
  obtain ⟨g1, g2, g3⟩ := SteadyPinch_page_gt_iff env s h
  obtain ⟨hpinch, _, hanim, hwas, hfix, _, _, _, _, hrd, hrs, _, _, _⟩ := h
  rw [← g1, ← g2]
  simp [ShouldAdjustRasterScale, hpinch, hanim, hwas, hfix, hrd, hrs, g3,
    kMaxScaleRatioDuringPinch]

theorem SteadyPinch_override_eq (env : LayerTreeImpl) (s : PictureLayerImpl) (d : ℚ)
    (h : SteadyPinch env s) (hd : s.ideal_contents_scale_ / 2 ≤ d) :
    ∃ l, PinchOverrideResult env s d =
      { s with
        raster_device_scale_ := s.ideal_device_scale_
        raster_page_scale_ := d / s.ideal_device_scale_ / s.ideal_source_scale_
        raster_source_scale_ := s.ideal_source_scale_
        raster_contents_scale_ := d
        low_res_raster_contents_scale_ := l } := by
  obtain ⟨hpinch, hsnap, hanim, hwas, hfix, hp, hdv, hs, hic, hrd, hrs, hrp, ho, hmin⟩ := h
  have hP : PinsSourceScale s = false := by simp [PinsSourceScale, hrs]
  obtain ⟨l, hl⟩ := Tail_eq env
    { RecalculateRasterScalesHead s with
      raster_contents_scale_ :=
        env.GetSnappedContentsScale s.tilings_ d kSnapToExistingTilingRatio
      raster_page_scale_ :=
        env.GetSnappedContentsScale s.tilings_ d kSnapToExistingTilingRatio /
          (RecalculateRasterScalesHead s).raster_device_scale_ /
            (RecalculateRasterScalesHead s).raster_source_scale_ }
  have hmax : max d (MinimumContentsScale env s) = d := max_eq_left (by linarith)
  refine ⟨l, ?_⟩
  simp only [PinchOverrideResult]
  rw [hl, Head_eq]
  simp only [hsnap, hfix, hP, Bool.or_self, Bool.false_eq_true, if_false,
    AnimationOverrideScale, hanim, false_and, MinimumContentsScale] at hmax ⊢
  rw [hmax]

theorem SteadyPinch_of_fields (env : LayerTreeImpl) (s : PictureLayerImpl) (d l : ℚ)
    (h : SteadyPinch env s) (hd : s.ideal_contents_scale_ / 2 ≤ d)
    (ts : PictureLayerTilingSet) :
    SteadyPinch env
      { s with
        tilings_ := ts
        raster_device_scale_ := s.ideal_device_scale_
        raster_page_scale_ := d / s.ideal_device_scale_ / s.ideal_source_scale_
        raster_source_scale_ := s.ideal_source_scale_
        raster_contents_scale_ := d
        low_res_raster_contents_scale_ := l } := by
  obtain ⟨hpinch, hsnap, hanim, hwas, hfix, hp, hdv, hs, hic, hrd, hrs, hrp, ho, hmin⟩ := h
  have hI : 0 < s.ideal_contents_scale_ := by
    rw [hic]; exact mul_pos (mul_pos hp hdv) hs
  have hdpos : 0 < d := by linarith
  refine ⟨hpinch, hsnap, hanim, hwas, hfix, hp, hdv, hs, hic, rfl, rfl, rfl, hdpos, ?_⟩
  simpa [MinimumContentsScale] using hmin

theorem SteadyPinch_override_recalculated (env : LayerTreeImpl) (s : PictureLayerImpl) (d : ℚ)
    (h : SteadyPinch env s) (hd : s.ideal_contents_scale_ / 2 ≤ d) :
    SteadyPinch env (PinchOverrideResult env s d) ∧
    (PinchOverrideResult env s d).raster_contents_scale_ = d ∧
    (PinchOverrideResult env s d).ideal_contents_scale_ = s.ideal_contents_scale_ := by
  obtain ⟨l, hl⟩ := SteadyPinch_override_eq env s d h hd
  rw [hl]
  exact ⟨SteadyPinch_of_fields env s d l h hd s.tilings_, rfl, rfl⟩

theorem SteadyPinch_override (env : LayerTreeImpl) (s : PictureLayerImpl) (d : ℚ)
    (h : SteadyPinch env s) (hd : s.ideal_contents_scale_ / 2 ≤ d) :
    SteadyPinch env (AddTilingsForRasterScale env (PinchOverrideResult env s d)) ∧
    (AddTilingsForRasterScale env (PinchOverrideResult env s d)).raster_contents_scale_ = d ∧
    (AddTilingsForRasterScale env (PinchOverrideResult env s d)).ideal_contents_scale_ =
      s.ideal_contents_scale_ := by
  obtain ⟨l, hl⟩ := SteadyPinch_override_eq env s d h hd
  rw [AddTilingsForRasterScale_frame, hl]
  exact ⟨SteadyPinch_of_fields env s d l h hd _, rfl, rfl⟩

theorem SteadyPinch_stable (env : LayerTreeImpl) (s : PictureLayerImpl)
    (h : SteadyPinch env s) (h1 : s.ideal_contents_scale_ / 2 ≤ s.raster_contents_scale_)
    (h2 : s.raster_contents_scale_ ≤ s.ideal_contents_scale_) (fuel : Nat) :
    UpdateRasterScalesIfNeeded env fuel s = some s := by
  have hsa : ¬ ShouldAdjustRasterScale env s = true := by
    rw [SteadyPinch_ShouldAdjust_iff env s h]
    intro hc
    rcases hc with hc | hc <;> linarith
  have ho : ¬ s.raster_contents_scale_ = 0 := ne_of_gt h.2.2.2.2.2.2.2.2.2.2.2.2.1
  simp [UpdateRasterScalesIfNeeded, hsa, ho]

theorem SteadyPinch_zoom_out (env : LayerTreeImpl) (s : PictureLayerImpl)
    (h : SteadyPinch env s) (hgt : s.raster_contents_scale_ > s.ideal_contents_scale_) :
    ∃ (k : Nat) (d : ℚ), s.ideal_contents_scale_ / 2 < d ∧ d ≤ s.ideal_contents_scale_ ∧
      ∀ fuel, k ≤ fuel → UpdateRasterScalesIfNeeded env fuel s =
        some (AddTilingsForRasterScale env (PinchOverrideResult env s d)) := by
  obtain ⟨g1, _, _⟩ := SteadyPinch_page_gt_iff env s h
  have hsa : ShouldAdjustRasterScale env s = true :=
    (SteadyPinch_ShouldAdjust_iff env s h).mpr (Or.inl hgt)
  obtain ⟨hpinch, _, _, _, _, hp, hdv, hs, hic, _, _, _, ho, _⟩ := h
  have hI : 0 < s.ideal_contents_scale_ := by
    rw [hic]; exact mul_pos (mul_pos hp hdv) hs
  obtain ⟨k, k1, k2⟩ := exists_least_zoom_out s.raster_contents_scale_ s.ideal_contents_scale_ hI
  have hk : k ≠ 0 := by
    rintro rfl
    simp at k1
    linarith
  obtain ⟨j, rfl⟩ : ∃ j, k = j + 1 := ⟨k - 1, by omega⟩
  refine ⟨j + 1, s.raster_contents_scale_ / 2 ^ (j + 1), ?_, k1, fun fuel hf => ?_⟩
  · have := k2 j (Nat.lt_succ_self j)
    have e : s.raster_contents_scale_ / 2 ^ (j + 1) = s.raster_contents_scale_ / 2 ^ j / 2 := by
      rw [pow_succ, div_div]
    rw [e]
    linarith
  · have e3 : PinchDesiredContentsScale fuel s.raster_contents_scale_ s.raster_page_scale_
        s.ideal_page_scale_ s.ideal_contents_scale_ =
          some (s.raster_contents_scale_ / 2 ^ (j + 1)) := by
      simp only [PinchDesiredContentsScale, g1.mpr hgt, decide_True, if_true]
      exact (PinchZoomOutLoop_spec _ (j + 1) _ fuel hf k1 k2).1
    simp only [UpdateRasterScalesIfNeeded, hsa, or_true, if_true]
    rw [Recalculate_with_pinch env s fuel hpinch (ne_of_gt ho), e3]
    rfl

theorem SteadyPinch_zoom_in (env : LayerTreeImpl) (s : PictureLayerImpl)
    (h : SteadyPinch env s) (hlt : 2 * s.raster_contents_scale_ < s.ideal_contents_scale_) :
    ∃ (k : Nat) (d : ℚ), s.ideal_contents_scale_ ≤ d ∧ d < 2 * s.ideal_contents_scale_ ∧
      ∀ fuel, k ≤ fuel → UpdateRasterScalesIfNeeded env fuel s =
        some (AddTilingsForRasterScale env (PinchOverrideResult env s d)) := by
  obtain ⟨g1, _, _⟩ := SteadyPinch_page_gt_iff env s h
  have hsa : ShouldAdjustRasterScale env s = true :=
    (SteadyPinch_ShouldAdjust_iff env s h).mpr (Or.inr hlt)
  obtain ⟨hpinch, _, _, _, _, hp, hdv, hs, hic, _, _, _, ho, _⟩ := h
  have hnz : ¬ s.raster_page_scale_ > s.ideal_page_scale_ := by
    rw [g1]; intro hc; linarith
  obtain ⟨k, k1, k2⟩ := exists_least_zoom_in s.raster_contents_scale_ s.ideal_contents_scale_ ho
  have hk : k ≠ 0 := by
    rintro rfl
    simp at k1
    linarith
  obtain ⟨j, rfl⟩ : ∃ j, k = j + 1 := ⟨k - 1, by omega⟩
  refine ⟨j + 1, s.raster_contents_scale_ * 2 ^ (j + 1), k1, ?_, fun fuel hf => ?_⟩
  · have := k2 j (Nat.lt_succ_self j)
    have e : s.raster_contents_scale_ * 2 ^ (j + 1) = s.raster_contents_scale_ * 2 ^ j * 2 := by
      rw [pow_succ, mul_assoc]
    rw [e]
    linarith
  · have e3 : PinchDesiredContentsScale fuel s.raster_contents_scale_ s.raster_page_scale_
        s.ideal_page_scale_ s.ideal_contents_scale_ =
          some (s.raster_contents_scale_ * 2 ^ (j + 1)) := by
      simp only [PinchDesiredContentsScale, hnz, decide_False]
      exact (PinchZoomInLoop_spec _ (j + 1) _ fuel hf k1 k2).1
    simp only [UpdateRasterScalesIfNeeded, hsa, or_true, if_true]
    rw [Recalculate_with_pinch env s fuel hpinch (ne_of_gt ho), e3]
    rfl

theorem UpdateRasterScalesRepeatedly_of_stable (env : LayerTreeImpl) (fuel : Nat)
    (s : PictureLayerImpl) (h : UpdateRasterScalesIfNeeded env fuel s = some s) :
    ∀ n, UpdateRasterScalesRepeatedly env fuel n s = some s := by
  intro n
  induction n with
  | zero => rfl
  | succ n ih => simp [UpdateRasterScalesRepeatedly, h, ih]

/-- From a steady-pinch state the gated update reaches, in at most two
applications, a state that it leaves unchanged and whose raster contents scale is
between half the ideal contents scale and the ideal contents scale. -/
theorem SteadyPinch_settles (env : LayerTreeImpl) (s : PictureLayerImpl)
    (h : SteadyPinch env s) :
    ∃ (k : Nat) (t : PictureLayerImpl),
      s.ideal_contents_scale_ / 2 ≤ t.raster_contents_scale_ ∧
      t.raster_contents_scale_ ≤ s.ideal_contents_scale_ ∧
      ∀ fuel, k ≤ fuel →
        UpdateRasterScalesIfNeeded env fuel t = some t ∧
        ∀ n, 2 ≤ n → UpdateRasterScalesRepeatedly env fuel n s = some t := by
  have hI : 0 < s.ideal_contents_scale_ := by
    obtain ⟨_, _, _, _, _, hp, hdv, hs, hic, _⟩ := h
    rw [hic]; exact mul_pos (mul_pos hp hdv) hs
  by_cases hgt : s.raster_contents_scale_ > s.ideal_contents_scale_
  · -- one halving run, then stable
    obtain ⟨k, d, d1, d2, hstep⟩ := SteadyPinch_zoom_out env s h hgt
    obtain ⟨q1, q2, q3⟩ := SteadyPinch_override env s d h (le_of_lt d1)
    refine ⟨k, _, by rw [q2]; exact le_of_lt d1, by rw [q2]; exact d2, fun fuel hf => ?_⟩
    have hst := SteadyPinch_stable env _ q1 (by rw [q2, q3]; exact le_of_lt d1)
      (by rw [q2, q3]; exact d2) fuel
    refine ⟨hst, fun n hn => ?_⟩
    obtain ⟨m, rfl⟩ : ∃ m, n = m + 1 := ⟨n - 1, by omega⟩
    simp only [UpdateRasterScalesRepeatedly, hstep fuel hf, Option.some_bind]
    exact UpdateRasterScalesRepeatedly_of_stable env fuel _ hst m
  · by_cases hlt : 2 * s.raster_contents_scale_ < s.ideal_contents_scale_
    · -- one doubling run, then at most one halving
      obtain ⟨k, d, d1, d2, hstep⟩ := SteadyPinch_zoom_in env s h hlt
      obtain ⟨q1, q2, q3⟩ := SteadyPinch_override env s d h (by linarith)
      by_cases hd : d = s.ideal_contents_scale_
      · refine ⟨k, _, by rw [q2]; linarith, by rw [q2, hd], fun fuel hf => ?_⟩
        have hst := SteadyPinch_stable env _ q1 (by rw [q2, q3]; linarith)
          (by rw [q2, q3, hd]) fuel
        refine ⟨hst, fun n hn => ?_⟩
        obtain ⟨m, rfl⟩ : ∃ m, n = m + 1 := ⟨n - 1, by omega⟩
        simp only [UpdateRasterScalesRepeatedly, hstep fuel hf, Option.some_bind]
        exact UpdateRasterScalesRepeatedly_of_stable env fuel _ hst m
      · have hgt' : (AddTilingsForRasterScale env
            (PinchOverrideResult env s d)).raster_contents_scale_ >
            (AddTilingsForRasterScale env
              (PinchOverrideResult env s d)).ideal_contents_scale_ := by
          rw [q2, q3]
          exact lt_of_le_of_ne d1 (Ne.symm hd)
        obtain ⟨k', d', e1, e2, hstep'⟩ := SteadyPinch_zoom_out env _ q1 hgt'
        rw [q3] at e1 e2
        obtain ⟨r1, r2, r3⟩ := SteadyPinch_override env _ d' q1 (by rw [q3]; exact le_of_lt e1)
        rw [q3] at r3
        refine ⟨max k k', _, by rw [r2]; exact le_of_lt e1, by rw [r2]; exact e2,
          fun fuel hf => ?_⟩
        have hst := SteadyPinch_stable env _ r1 (by rw [r2, r3]; exact le_of_lt e1)
          (by rw [r2, r3]; exact e2) fuel
        refine ⟨hst, fun n hn => ?_⟩
        obtain ⟨m, rfl⟩ : ∃ m, n = m + 2 := ⟨n - 2, by omega⟩
        simp only [UpdateRasterScalesRepeatedly, hstep fuel (le_trans (le_max_left _ _) hf),
          hstep' fuel (le_trans (le_max_right _ _) hf), Option.some_bind]
        exact UpdateRasterScalesRepeatedly_of_stable env fuel _ hst m
    · -- already within one step of the ideal scale
      have h1 : s.ideal_contents_scale_ / 2 ≤ s.raster_contents_scale_ := by linarith
      have h2 : s.raster_contents_scale_ ≤ s.ideal_contents_scale_ := le_of_not_gt hgt
      refine ⟨0, s, h1, h2, fun fuel _ => ?_⟩
      have hst := SteadyPinch_stable env s h h1 h2 fuel
      exact ⟨hst, fun n _ => UpdateRasterScalesRepeatedly_of_stable env fuel s hst n⟩

/-- C6, amended: with a pinch active, snapping returning its argument, the
transform neither animating nor having been animating, the source scale not
pinned, positive ideal scales with `ideal_contents = page * device * source`, the
raster device and source scales equal to the ideal ones,
`raster_page_scale_ = raster_contents_scale_ / device / source`, a positive raster
contents scale and a minimum contents scale of at most half the ideal contents
scale: applying the pinch adjustment the way `UpdateTiles` does, only when
`ShouldAdjustRasterScale()` asks for it, the raster contents scale is the same
value `r` after every number `n ≥ 2` of applications, with
`ideal_contents_scale_ / 2 ≤ r ≤ ideal_contents_scale_`. -/
theorem gated_pinch_adjustment_converges (env : LayerTreeImpl) (s : PictureLayerImpl)
    (hpinch : env.PinchGestureActive = true)
    (hsnap : ∀ ts d r, env.GetSnappedContentsScale ts d r = d)
    (hanim : s.draw_properties.screen_space_transform_is_animating = false)
    (hwas : s.was_screen_space_transform_animating_ = false)
    (hfix : s.raster_source_scale_is_fixed_ = false)
    (hp : 0 < s.ideal_page_scale_) (hd : 0 < s.ideal_device_scale_)
    (hs : 0 < s.ideal_source_scale_)
    (hic : s.ideal_contents_scale_ =
      s.ideal_page_scale_ * s.ideal_device_scale_ * s.ideal_source_scale_)
    (hrd : s.raster_device_scale_ = s.ideal_device_scale_)
    (hrs : s.raster_source_scale_ = s.ideal_source_scale_)
    (hrp : s.raster_page_scale_ =
      s.raster_contents_scale_ / s.raster_device_scale_ / s.raster_source_scale_)
    (ho : 0 < s.raster_contents_scale_)
    (hmin : MinimumContentsScale env s ≤ s.ideal_contents_scale_ / 2) :
    ∃ (k : Nat) (r : ℚ),
      s.ideal_contents_scale_ / 2 ≤ r ∧ r ≤ s.ideal_contents_scale_ ∧
      ∀ fuel, k ≤ fuel → ∀ n, 2 ≤ n →
        ∃ t, UpdateRasterScalesRepeatedly env fuel n s = some t ∧
          t.raster_contents_scale_ = r ∧
          UpdateRasterScalesIfNeeded env fuel t = some t := by
  obtain ⟨k, t, h1, h2, h3⟩ := SteadyPinch_settles env s
    ⟨hpinch, hsnap, hanim, hwas, hfix, hp, hd, hs, hic, hrd, hrs, hrp, ho, hmin⟩
  exact ⟨k, t.raster_contents_scale_, h1, h2, fun fuel hf n hn =>
    ⟨t, (h3 fuel hf).2 n hn, rfl, (h3 fuel hf).1⟩⟩

/-- C6 (amended) at raster scale `1`, ideal scale `5`, snapping the identity. -/
theorem gated_pinch_adjustment_converges_witness :
    ∃ (k : Nat) (r : ℚ),
      ZoomInLayer.ideal_contents_scale_ / 2 ≤ r ∧ r ≤ ZoomInLayer.ideal_contents_scale_ ∧
      ∀ fuel, k ≤ fuel → ∀ n, 2 ≤ n →
        ∃ t, UpdateRasterScalesRepeatedly PinchTree fuel n ZoomInLayer = some t ∧
          t.raster_contents_scale_ = r ∧
          UpdateRasterScalesIfNeeded PinchTree fuel t = some t :=
  gated_pinch_adjustment_converges PinchTree ZoomInLayer rfl (fun _ _ _ => rfl) rfl rfl rfl
    (by decide) (by decide) (by decide)
    (by norm_num [ZoomInLayer, ExampleLayer]) rfl rfl
    (by norm_num [ZoomInLayer, ExampleLayer]) (by decide)
    (by norm_num [MinimumContentsScale, ZoomInLayer, ExampleLayer, PinchTree, ExampleTree])

theorem SteadyPinch_ZoomInLayer : SteadyPinch PinchTree ZoomInLayer :=
  ⟨rfl, fun _ _ _ => rfl, rfl, rfl, rfl, by decide, by decide, by decide,
    by norm_num [ZoomInLayer, ExampleLayer], rfl, rfl,
    by norm_num [ZoomInLayer, ExampleLayer], by decide,
    by norm_num [MinimumContentsScale, ZoomInLayer, ExampleLayer, PinchTree, ExampleTree]⟩

/-- One ungated application from a steady-pinch state with ideal contents scale
`5`: raster contents scale `1` or `4` becomes `8`, and `8` becomes `4`. -/
theorem ungated_step (s : PictureLayerImpl) (h : SteadyPinch PinchTree s)
    (hI : s.ideal_contents_scale_ = 5) (o d : ℚ) (ho : s.raster_contents_scale_ = o)
    (hod : (o = 1 ∧ d = 8) ∨ (o = 4 ∧ d = 8) ∨ (o = 8 ∧ d = 4)) :
    ∃ t, RecalculateRasterScales PinchTree 3 s = some t ∧ SteadyPinch PinchTree t ∧
      t.ideal_contents_scale_ = 5 ∧ t.raster_contents_scale_ = d := by
  obtain ⟨g1, _, _⟩ := SteadyPinch_page_gt_iff PinchTree s h
  have hpos : s.raster_contents_scale_ ≠ 0 := ne_of_gt h.2.2.2.2.2.2.2.2.2.2.2.2.1
  have hdes : PinchDesiredContentsScale 3 s.raster_contents_scale_ s.raster_page_scale_
      s.ideal_page_scale_ s.ideal_contents_scale_ = some d := by
    rw [ho, hI] at *
    rcases hod with ⟨rfl, rfl⟩ | ⟨rfl, rfl⟩ | ⟨rfl, rfl⟩
    · have hz : ¬ s.raster_page_scale_ > s.ideal_page_scale_ := by
        rw [g1]; norm_num
      simp only [PinchDesiredContentsScale, hz, decide_False]
      have := (PinchZoomInLoop_spec 5 3 1 3 (le_refl 3) (by norm_num)
        (by intro j hj; interval_cases j <;> norm_num)).1
      rw [this]; norm_num
    · have hz : ¬ s.raster_page_scale_ > s.ideal_page_scale_ := by
        rw [g1]; norm_num
      simp only [PinchDesiredContentsScale, hz, decide_False]
      have := (PinchZoomInLoop_spec 5 1 4 3 (by norm_num) (by norm_num)
        (by intro j hj; interval_cases j; norm_num)).1
      rw [this]; norm_num
    · have hz : s.raster_page_scale_ > s.ideal_page_scale_ := by
        rw [g1]; norm_num
      simp only [PinchDesiredContentsScale, hz, decide_True, if_true]
      have := (PinchZoomOutLoop_spec 5 1 8 3 (by norm_num) (by norm_num)
        (by intro j hj; interval_cases j; norm_num)).1
      rw [this]; norm_num
  have hd : s.ideal_contents_scale_ / 2 ≤ d := by
    rw [hI]
    rcases hod with ⟨_, rfl⟩ | ⟨_, rfl⟩ | ⟨_, rfl⟩ <;> norm_num
  obtain ⟨q1, q2, q3⟩ := SteadyPinch_override_recalculated PinchTree s d h hd
  refine ⟨PinchOverrideResult PinchTree s d, ?_, q1, by rw [q3, hI], q2⟩
  rw [Recalculate_with_pinch PinchTree s 3 rfl hpos, hdes]
  rfl

theorem ungated_orbit (v w : ℚ) (hvw : (v = 4 ∧ w = 8) ∨ (v = 8 ∧ w = 4)) :
    ∀ (n : Nat) (s : PictureLayerImpl), SteadyPinch PinchTree s →
      s.ideal_contents_scale_ = 5 → s.raster_contents_scale_ = v →
      ∃ t, RecalculateRasterScalesRepeatedly PinchTree 3 (2 * n) s = some t ∧
        SteadyPinch PinchTree t ∧ t.ideal_contents_scale_ = 5 ∧
        t.raster_contents_scale_ = v := by
  intro n
  induction n with
  | zero => intro s h hI hv; exact ⟨s, rfl, h, hI, hv⟩
  | succ n ih =>
    intro s h hI hv
    obtain ⟨t1, a1, a2, a3, a4⟩ := ungated_step s h hI v w hv (by
      rcases hvw with ⟨rfl, rfl⟩ | ⟨rfl, rfl⟩
      · exact Or.inr (Or.inl ⟨rfl, rfl⟩)
      · exact Or.inr (Or.inr ⟨rfl, rfl⟩))
    obtain ⟨t2, b1, b2, b3, b4⟩ := ungated_step t1 a2 a3 w v a4 (by
      rcases hvw with ⟨rfl, rfl⟩ | ⟨rfl, rfl⟩
      · exact Or.inr (Or.inr ⟨rfl, rfl⟩)
      · exact Or.inr (Or.inl ⟨rfl, rfl⟩))
    obtain ⟨t, c1, c2, c3, c4⟩ := ih t2 b2 b3 b4
    refine ⟨t, ?_, c2, c3, c4⟩
    have e : 2 * (n + 1) = (2 * n + 1) + 1 := by ring
    rw [e]
    simp only [RecalculateRasterScalesRepeatedly, a1, b1, Option.some_bind]
    exact c1

/-- C6, counterexample: pinch active, snapping the identity, minimum contents
scale `1/16`, ideal page and contents scale `5` and raster scales `1`, all held
fixed. Applying `RecalculateRasterScales` repeatedly gives raster contents scale
`8` after every odd number of applications and `4` after every even positive
number: the sequence alternates between two values and never becomes constant. -/
theorem ungated_pinch_adjustment_alternates :
    (∀ n, (RecalculateRasterScalesRepeatedly PinchTree 3 (2 * n + 1) ZoomInLayer).map
        (fun t => t.raster_contents_scale_) = some 8 ∧
      (RecalculateRasterScalesRepeatedly PinchTree 3 (2 * n + 2) ZoomInLayer).map
        (fun t => t.raster_contents_scale_) = some 4) ∧
    ¬ ∃ (N : Nat) (r : ℚ), ∀ n, N ≤ n →
      (RecalculateRasterScalesRepeatedly PinchTree 3 n ZoomInLayer).map
        (fun t => t.raster_contents_scale_) = some r := by
  have hodd : ∀ n, (RecalculateRasterScalesRepeatedly PinchTree 3 (2 * n + 1) ZoomInLayer).map
        (fun t => t.raster_contents_scale_) = some 8 ∧
      (RecalculateRasterScalesRepeatedly PinchTree 3 (2 * n + 2) ZoomInLayer).map
        (fun t => t.raster_contents_scale_) = some 4 := by
    intro n
    obtain ⟨t1, a1, a2, a3, a4⟩ := ungated_step ZoomInLayer SteadyPinch_ZoomInLayer rfl 1 8 rfl
      (Or.inl ⟨rfl, rfl⟩)
    constructor
    · obtain ⟨t, c1, _, _, c4⟩ := ungated_orbit 8 4 (Or.inr ⟨rfl, rfl⟩) n t1 a2 a3 a4
      simp only [RecalculateRasterScalesRepeatedly, a1, Option.some_bind, c1, Option.map_some',
        c4]
    · obtain ⟨t2, b1, b2, b3, b4⟩ := ungated_step t1 a2 a3 8 4 a4 (Or.inr (Or.inr ⟨rfl, rfl⟩))
      obtain ⟨t, c1, _, _, c4⟩ := ungated_orbit 4 8 (Or.inl ⟨rfl, rfl⟩) n t2 b2 b3 b4
      have e : 2 * n + 2 = (2 * n + 1) + 1 := rfl
      rw [e]
      simp only [RecalculateRasterScalesRepeatedly, a1, b1, Option.some_bind, c1,
        Option.map_some', c4]
  refine ⟨hodd, ?_⟩
  rintro ⟨N, r, h⟩
  have h8 := h (2 * N + 1) (by omega)
  have h4 := h (2 * N + 2) (by omega)
  rw [(hodd N).1] at h8
  rw [(hodd N).2] at h4
  have : (8 : ℚ) = 4 := by
    rw [Option.some.injEq] at h8 h4
    rw [h8, h4]
  norm_num at this

end PictureLayerImpl

/-! ## The raster tile iterator -/

namespace LayerRasterTileIterator

theorem StagesYield_cons_not_ready (it : LayerRasterTileIterator) (stage : IterationStage)
    (rest : List IterationStage) (h : it.StageReady stage = false) :
    StagesYield (stage :: rest) it.low_res_iterator it.high_res_iterator =
      StagesYield rest it.low_res_iterator it.high_res_iterator := by
  simp only [StageReady, iterators_] at h
  simp only [StagesYield]
  cases hi : stage.iterator_type <;> simp only [hi] at h ⊢
  · cases hl : it.low_res_iterator with
    | nil => simp
    | cons t tl =>
      rw [hl] at h
      have : ¬ t.bin = stage.tile_type := by simpa using h
      simp [List.takeWhile_cons, List.dropWhile_cons, this]
  · cases hl : it.high_res_iterator with
    | nil => simp
    | cons t tl =>
      rw [hl] at h
      have : ¬ t.bin = stage.tile_type := by simpa using h
      simp [List.takeWhile_cons, List.dropWhile_cons, this]

theorem AdvanceLoop_spec (it : LayerRasterTileIterator) :
    ∀ (sts : List IterationStage) (cs : Nat),
      cs ≤ AdvanceLoop it sts cs ∧ AdvanceLoop it sts cs ≤ cs + sts.length ∧
      StagesYield (sts.drop (AdvanceLoop it sts cs - cs)) it.low_res_iterator
          it.high_res_iterator =
        StagesYield sts it.low_res_iterator it.high_res_iterator ∧
      ∀ stage, sts[AdvanceLoop it sts cs - cs]? = some stage → it.StageReady stage = true := by
  intro sts
  induction sts with
  | nil => intro cs; simp [AdvanceLoop]
  | cons st rest ih =>
    intro cs
    by_cases h : it.StageReady st = true
    · simp [AdvanceLoop, h]
    · have h' : it.StageReady st = false := by simpa using h
      obtain ⟨h1, h2, h3, h4⟩ := ih (cs + 1)
      have e : AdvanceLoop it (st :: rest) cs = AdvanceLoop it rest (cs + 1) := by
        simp [AdvanceLoop, h']
      have e2 : AdvanceLoop it rest (cs + 1) - cs = (AdvanceLoop it rest (cs + 1) - (cs + 1)) + 1 := by
        omega
      rw [e, e2]
      refine ⟨by omega, by simp only [List.length_cons]; omega, ?_, ?_⟩
      · rw [List.drop_succ_cons, h3, StagesYield_cons_not_ready it st rest h']
      · intro stage hs
        rw [List.getElem?_cons_succ] at hs
        exact h4 stage hs

/-- While the iterator stands on a stage, the remaining stages are that stage and
the ones after it. -/
theorem RemainingStages_of_valid (it : LayerRasterTileIterator) (stage : IterationStage)
    (h : it.stages_[it.current_stage_]? = some stage) :
    it.RemainingStages = stage :: it.stages_.drop (it.current_stage_ + 1) := by
  obtain ⟨hlt, hget⟩ := List.getElem?_eq_some_iff.mp h
  simp only [RemainingStages]
  rw [List.drop_eq_getElem_cons hlt, hget]

theorem AdvanceToNextStage_spec (it : LayerRasterTileIterator)
    (hlen : it.stages_.length = arraysize_stages) (stage : IterationStage)
    (hst : it.stages_[it.current_stage_]? = some stage) (hnr : it.StageReady stage = false) :
    it.AdvanceToNextStage.Invariant ∧
    it.AdvanceToNextStage.low_res_iterator = it.low_res_iterator ∧
    it.AdvanceToNextStage.high_res_iterator = it.high_res_iterator ∧
    it.current_stage_ < it.AdvanceToNextStage.current_stage_ ∧
    StagesYield it.AdvanceToNextStage.RemainingStages it.low_res_iterator it.high_res_iterator =
      StagesYield it.RemainingStages it.low_res_iterator it.high_res_iterator := by
  obtain ⟨h1, h2, h3, h4⟩ :=
    AdvanceLoop_spec it (it.stages_.drop (it.current_stage_ + 1)) (it.current_stage_ + 1)
  have hj : it.current_stage_ + 1 +
      (AdvanceLoop it (it.stages_.drop (it.current_stage_ + 1)) (it.current_stage_ + 1) -
        (it.current_stage_ + 1)) =
      AdvanceLoop it (it.stages_.drop (it.current_stage_ + 1)) (it.current_stage_ + 1) := by
    omega
  refine ⟨⟨hlen, ?_⟩, rfl, rfl, ?_, ?_⟩
  · intro stage' hs'
    simp only [AdvanceToNextStage] at hs'
    have := h4 stage' (by rw [List.getElem?_drop, hj]; exact hs')
    simpa [StageReady, iterators_, AdvanceToNextStage] using this
  · simp only [AdvanceToNextStage]; omega
  · have hdd : List.drop
        (AdvanceLoop it (it.stages_.drop (it.current_stage_ + 1)) (it.current_stage_ + 1) -
          (it.current_stage_ + 1)) (it.stages_.drop (it.current_stage_ + 1)) =
        it.stages_.drop
          (AdvanceLoop it (it.stages_.drop (it.current_stage_ + 1)) (it.current_stage_ + 1)) := by
      rw [List.drop_drop]
      congr 1
    rw [RemainingStages_of_valid it stage hst, StagesYield_cons_not_ready it stage _ hnr, ← h3,
      hdd]
    rfl

theorem RemainingStages_of_not_valid (it : LayerRasterTileIterator)
    (hlen : it.stages_.length = arraysize_stages) (h : it.IsValid = false) :
    it.RemainingStages = [] := by
  simp only [IsValid, decide_eq_false_iff_not, not_lt] at h
  simp only [RemainingStages]
  exact List.drop_eq_nil_of_le (by omega)

theorem Tiles_of_not_valid (it : LayerRasterTileIterator) (h : it.IsValid = false)
    (fuel : Nat) : Tiles fuel it = some [] := by
  cases fuel <;> simp [Tiles, h]

theorem StagesYield_step (stage : IterationStage) (rest : List IterationStage)
    (it : LayerRasterTileIterator) (t : RasterTile) (tl : List RasterTile)
    (hsel : it.iterators_ stage.iterator_type = t :: tl) (hbin : t.bin = stage.tile_type) :
    StagesYield (stage :: rest) it.low_res_iterator it.high_res_iterator =
      t :: StagesYield (stage :: rest)
        (it.set_iterator stage.iterator_type tl).low_res_iterator
        (it.set_iterator stage.iterator_type tl).high_res_iterator := by
  simp only [StagesYield]
  cases hi : stage.iterator_type <;> simp only [hi, iterators_, set_iterator] at hsel ⊢ <;>
    simp [hsel, List.takeWhile_cons, List.dropWhile_cons, hbin]

theorem Tiles_spec :
    ∀ (n : Nat) (it : LayerRasterTileIterator), it.Invariant →
      it.low_res_iterator.length + it.high_res_iterator.length ≤ n →
      ∀ fuel, n ≤ fuel →
        Tiles fuel it =
          some (StagesYield it.RemainingStages it.low_res_iterator it.high_res_iterator) := by
  intro n
  induction n with
  | zero =>
    intro it hinv hsize fuel _
    by_cases hv : it.IsValid = true
    · exfalso
      have hlt : it.current_stage_ < it.stages_.length := by
        rw [hinv.1]; simpa [IsValid] using hv
      have hr := hinv.2 _ (List.getElem?_eq_getElem hlt)
      have hl : it.low_res_iterator = [] := List.length_eq_zero.mp (by omega)
      have hh : it.high_res_iterator = [] := List.length_eq_zero.mp (by omega)
      simp only [StageReady, iterators_] at hr
      cases hi : (it.stages_[it.current_stage_]).iterator_type <;> simp [hi, hl, hh] at hr
    · have hv' : it.IsValid = false := by simpa using hv
      rw [Tiles_of_not_valid it hv', RemainingStages_of_not_valid it hinv.1 hv']
      rfl
  | succ m ih =>
    intro it hinv hsize fuel hfuel
    by_cases hv : it.IsValid = true
    · have hlt : it.current_stage_ < it.stages_.length := by
        rw [hinv.1]; simpa [IsValid] using hv
      obtain ⟨stage, hst⟩ : ∃ stage, it.stages_[it.current_stage_]? = some stage :=
        ⟨_, List.getElem?_eq_getElem hlt⟩
      have hr := hinv.2 stage hst
      obtain ⟨t, tl, hsel, hbin⟩ : ∃ t tl, it.iterators_ stage.iterator_type = t :: tl ∧
          t.bin = stage.tile_type := by
        simp only [StageReady] at hr
        cases hs : it.iterators_ stage.iterator_type with
        | nil => simp [hs] at hr
        | cons t tl => rw [hs] at hr; exact ⟨t, tl, rfl, by simpa using hr⟩
      obtain ⟨f, rfl⟩ : ∃ f, fuel = f + 1 := ⟨fuel - 1, by omega⟩
      have hderef : it.Deref = some t := by
        simp [Deref, hv, hst, hsel, hbin]
      have hsize' : (it.set_iterator stage.iterator_type tl).low_res_iterator.length +
          (it.set_iterator stage.iterator_type tl).high_res_iterator.length ≤ m := by
        cases hi : stage.iterator_type <;> simp only [hi, iterators_, set_iterator] at hsel ⊢ <;>
          (rw [hsel] at hsize; simp only [List.length_cons] at hsize; omega)
      have hstages : (it.set_iterator stage.iterator_type tl).stages_ = it.stages_ := by
        cases stage.iterator_type <;> rfl
      have hcur : (it.set_iterator stage.iterator_type tl).current_stage_ =
          it.current_stage_ := by
        cases stage.iterator_type <;> rfl
      have hst' : (it.set_iterator stage.iterator_type tl).stages_[
          (it.set_iterator stage.iterator_type tl).current_stage_]? = some stage := by
        rw [hstages, hcur]; exact hst
      have hrem : it.RemainingStages =
          (it.set_iterator stage.iterator_type tl).RemainingStages := by
        simp only [RemainingStages, hstages, hcur]
      have hyield := StagesYield_step stage (it.stages_.drop (it.current_stage_ + 1)) it t tl
        hsel hbin
      rw [← RemainingStages_of_valid it stage hst, hrem] at hyield
      rw [hrem, hyield]
      simp only [Tiles, hv, if_true, hderef]
      by_cases hr' : (it.set_iterator stage.iterator_type tl).StageReady stage = true
      · have hinc : it.Increment = it.set_iterator stage.iterator_type tl := by
          simp [Increment, hst, hsel, hr']
        have hinv' : (it.set_iterator stage.iterator_type tl).Invariant := by
          refine ⟨by rw [hstages]; exact hinv.1, ?_⟩
          intro stage' hs'
          rw [hst'] at hs'
          cases hs'
          exact hr'
        rw [hinc, ih _ hinv' hsize' f (by omega)]
        rfl
      · have hr'' : (it.set_iterator stage.iterator_type tl).StageReady stage = false := by
          simpa using hr'
        have hinc : it.Increment =
            (it.set_iterator stage.iterator_type tl).AdvanceToNextStage := by
          simp [Increment, hst, hsel, hr'']
        obtain ⟨a1, a2, a3, _, a5⟩ := AdvanceToNextStage_spec
          (it.set_iterator stage.iterator_type tl) (by rw [hstages]; exact hinv.1) stage hst' hr''
        rw [hinc, ih _ a1 (by rw [a2, a3]; exact hsize') f (by omega), a2, a3, a5]
        rfl
    · have hv' : it.IsValid = false := by simpa using hv
      rw [Tiles_of_not_valid it hv', RemainingStages_of_not_valid it hinv.1 hv']
      rfl

theorem getLast?_filter_cons (p : PictureLayerTiling → Bool) (t : PictureLayerTiling)
    (ts : List PictureLayerTiling) :
    ((t :: ts).filter p).getLast? =
      match (ts.filter p).getLast? with
      | some u => some u
      | none => if p t then some t else none := by
  by_cases h : p t = true
  · rw [List.filter_cons_of_pos h, List.getLast?_cons]
    cases (ts.filter p).getLast? <;> simp [h]
  · rw [List.filter_cons_of_neg h]
    cases (ts.filter p).getLast? <;> simp [h]

theorem foldl_InitIterators (b : Bool) :
    ∀ (ts : List PictureLayerTiling) (it : LayerRasterTileIterator),
      (ts.foldl (InitIterators b) it).high_res_iterator =
        (match (ts.filter fun t =>
            decide (t.resolution = TileResolution.HIGH_RESOLUTION)).getLast? with
          | some t => t.raster_tiles
          | none => it.high_res_iterator) ∧
      (ts.foldl (InitIterators b) it).low_res_iterator =
        (if b = true then
          (match (ts.filter fun t =>
              decide (t.resolution = TileResolution.LOW_RESOLUTION)).getLast? with
            | some t => t.raster_tiles
            | none => it.low_res_iterator)
         else it.low_res_iterator) ∧
      (ts.foldl (InitIterators b) it).stages_ = it.stages_ ∧
      (ts.foldl (InitIterators b) it).current_stage_ = it.current_stage_ := by
  intro ts
  induction ts with
  | nil => intro it; simp
  | cons t ts ih =>
    intro it
    obtain ⟨h1, h2, h3, h4⟩ := ih (InitIterators b it t)
    rw [List.foldl_cons, h1, h2, h3, h4, getLast?_filter_cons, getLast?_filter_cons]
    refine ⟨?_, ?_, ?_, ?_⟩
    · cases (ts.filter fun t =>
          decide (t.resolution = TileResolution.HIGH_RESOLUTION)).getLast? with
      | some u => rfl
      | none =>
        cases hr : t.resolution <;> cases b <;>
          simp [InitIterators, set_iterator, hr]
    · cases b
      · cases hr : t.resolution <;> simp [InitIterators, set_iterator, hr]
      · cases (ts.filter fun t =>
            decide (t.resolution = TileResolution.LOW_RESOLUTION)).getLast? with
        | some u => rfl
        | none => cases hr : t.resolution <;> simp [InitIterators, set_iterator, hr]
    · cases hr : t.resolution <;> cases b <;> simp [InitIterators, set_iterator, hr]
    · cases hr : t.resolution <;> cases b <;> simp [InitIterators, set_iterator, hr]

/-- The stages the constructor sets up. -/
theorem Create_spec (env : LayerTreeImpl) (layer : PictureLayerImpl) (b : Bool)
    (hT : layer.tilings_ ≠ [])
    (hV : PictureLayerImpl.HasValidTilePriorities env layer = true) :
    (Create env layer b).Invariant ∧
    (Create env layer b).high_res_iterator =
      IteratorOfResolution layer.tilings_ TileResolution.HIGH_RESOLUTION ∧
    (Create env layer b).low_res_iterator =
      (if b = true then IteratorOfResolution layer.tilings_ TileResolution.LOW_RESOLUTION
       else []) ∧
    StagesYield (Create env layer b).RemainingStages (Create env layer b).low_res_iterator
        (Create env layer b).high_res_iterator =
      StagesYield
        ((if b = true then
            [⟨IteratorType.LOW_RES, PriorityBin.NOW⟩, ⟨IteratorType.HIGH_RES, PriorityBin.NOW⟩]
          else
            [⟨IteratorType.HIGH_RES, PriorityBin.NOW⟩, ⟨IteratorType.LOW_RES, PriorityBin.NOW⟩]) ++
          [⟨IteratorType.HIGH_RES, PriorityBin.SOON⟩,
            ⟨IteratorType.HIGH_RES, PriorityBin.EVENTUALLY⟩])
        (Create env layer b).low_res_iterator (Create env layer b).high_res_iterator := by
  have hlen : PictureLayerTilingSet.num_tilings layer.tilings_ ≠ 0 := by
    simpa [PictureLayerTilingSet.num_tilings] using hT
  obtain ⟨f1, f2, f3, f4⟩ := foldl_InitIterators b layer.tilings_
    { low_res_iterator := [], high_res_iterator := [], stages_ := [], current_stage_ := 0 }
  generalize hit0 : layer.tilings_.foldl (InitIterators b)
    { low_res_iterator := [], high_res_iterator := [], stages_ := [], current_stage_ := 0 } = it0
    at f1 f2 f3 f4
  obtain ⟨lo, hi, sts, cs⟩ := it0
  simp only at f1 f2 f3 f4
  subst f3 f4
  generalize hstages : ((if b = true then
            [(⟨IteratorType.LOW_RES, PriorityBin.NOW⟩ : IterationStage),
              ⟨IteratorType.HIGH_RES, PriorityBin.NOW⟩]
          else
            [⟨IteratorType.HIGH_RES, PriorityBin.NOW⟩, ⟨IteratorType.LOW_RES, PriorityBin.NOW⟩]) ++
          [⟨IteratorType.HIGH_RES, PriorityBin.SOON⟩,
            ⟨IteratorType.HIGH_RES, PriorityBin.EVENTUALLY⟩]) = stages
  have hslen : stages.length = arraysize_stages := by
    rw [← hstages]; cases b <;> rfl
  obtain ⟨st0, rest, hst0⟩ : ∃ st0 rest, stages = st0 :: rest := by
    cases stages with
    | nil => simp [arraysize_stages] at hslen
    | cons a l => exact ⟨a, l, rfl⟩
  have hhigh : hi = IteratorOfResolution layer.tilings_ TileResolution.HIGH_RESOLUTION := by
    rw [f1]; simp only [IteratorOfResolution]
  have hlow : lo =
      (if b = true then IteratorOfResolution layer.tilings_ TileResolution.LOW_RESOLUTION
       else []) := by
    rw [f2]; simp only [IteratorOfResolution]
  have hcreate : Create env layer b =
      if (⟨lo, hi, stages, 0⟩ : LayerRasterTileIterator).StageReady st0 = true then
        ⟨lo, hi, stages, 0⟩
      else (⟨lo, hi, stages, 0⟩ : LayerRasterTileIterator).AdvanceToNextStage := by
    simp only [Create, hlen, if_false, hV, hit0, Bool.not_true, hstages]
    simp only [hst0, List.getElem?_cons_zero]
    cases (⟨lo, hi, st0 :: rest, 0⟩ : LayerRasterTileIterator).StageReady st0 <;> simp
  rw [hcreate]
  by_cases hr : (⟨lo, hi, stages, 0⟩ : LayerRasterTileIterator).StageReady st0 = true
  · rw [if_pos hr]
    refine ⟨⟨hslen, ?_⟩, hhigh, hlow, ?_⟩
    · intro stage hs
      simp only [hst0, List.getElem?_cons_zero, Option.some.injEq] at hs
      rw [← hs]; exact hr
    · simp only [RemainingStages, List.drop_zero]
  · rw [if_neg hr]
    have hr' : (⟨lo, hi, stages, 0⟩ : LayerRasterTileIterator).StageReady st0 = false := by
      simpa using hr
    obtain ⟨a1, a2, a3, _, a5⟩ := AdvanceToNextStage_spec
      (⟨lo, hi, stages, 0⟩ : LayerRasterTileIterator) hslen st0
      (by simp only [hst0, List.getElem?_cons_zero]) hr'
    refine ⟨a1, by rw [a3]; exact hhigh, by rw [a2]; exact hlow, ?_⟩
    rw [a2, a3, a5]
    simp only [RemainingStages, List.drop_zero]

end LayerRasterTileIterator

theorem PriorityBin.rank_injective (a b : PriorityBin) (h : a.rank = b.rank) : a = b := by
  cases a <;> cases b <;> simp [PriorityBin.rank] at h <;> rfl

/-- Along a non-decreasing tiling iterator whose bins are all at least `b`, the
leading run of bin `b` is the set of tiles of bin `b`, and what follows is the
rest. -/
theorem takeWhile_dropWhile_of_BinsNonDecreasing (b : PriorityBin) :
    ∀ (l : TilingRasterTileIterator), BinsNonDecreasing l →
      (∀ t ∈ l, b.rank ≤ t.bin.rank) →
      l.takeWhile (fun t => decide (t.bin = b)) = TilesOfBin b l ∧
      l.dropWhile (fun t => decide (t.bin = b)) = l.filter (fun t => !decide (t.bin = b)) := by
  intro l
  induction l with
  | nil => intro _ _; simp [TilesOfBin]
  | cons a l ih =>
    intro hs hmin
    have hs' := List.pairwise_cons.mp hs
    obtain ⟨e1, e2⟩ := ih hs'.2 (fun t ht => hmin t (List.mem_cons_of_mem _ ht))
    by_cases ha : a.bin = b
    · simp only [TilesOfBin] at e1 ⊢
      simp [List.takeWhile_cons, List.dropWhile_cons, ha, e1, e2]
    · have hlt : b.rank < a.bin.rank := by
        rcases Nat.lt_or_ge b.rank a.bin.rank with h | h
        · exact h
        · exact absurd (PriorityBin.rank_injective _ _
            (Nat.le_antisymm h (hmin a (List.mem_cons_self _ _)))) ha
      have hall : ∀ t ∈ l, ¬ t.bin = b := by
        intro t ht hb
        have := hs'.1 t ht
        rw [hb] at this
        omega
      have f1 : l.filter (fun t => decide (t.bin = b)) = [] := by
        rw [List.filter_eq_nil_iff]
        intro t ht
        simpa using hall t ht
      have f2 : l.filter (fun t => !decide (t.bin = b)) = l := by
        rw [List.filter_eq_self]
        intro t ht
        simpa using hall t ht
      simp only [TilesOfBin]
      simp [List.takeWhile_cons, List.dropWhile_cons, ha, f1, f2]

theorem BinsNonDecreasing_filter (p : RasterTile → Bool) (l : TilingRasterTileIterator)
    (h : BinsNonDecreasing l) : BinsNonDecreasing (l.filter p) :=
  List.Pairwise.sublist (List.filter_sublist l) h

theorem TilesOfBin_filter_ne (b c : PriorityBin) (hbc : b ≠ c) (l : TilingRasterTileIterator) :
    TilesOfBin b (l.filter fun t => !decide (t.bin = c)) = TilesOfBin b l := by
  simp only [TilesOfBin, List.filter_filter]
  apply List.filter_congr
  intro t _
  by_cases h : t.bin = b
  · have : ¬ t.bin = c := fun e => hbc (h.symm.trans e)
    simp [h, hbc]
  · simp [h]

/-- The three high-res stages `NOW`, `SOON`, `EVENTUALLY`, taken in this order from
a non-decreasing iterator, yield its tiles bin by bin. -/
theorem high_res_stages_of_BinsNonDecreasing (H : TilingRasterTileIterator)
    (hH : BinsNonDecreasing H) :
    H.takeWhile (fun t => decide (t.bin = PriorityBin.NOW)) = TilesOfBin PriorityBin.NOW H ∧
    (H.dropWhile fun t => decide (t.bin = PriorityBin.NOW)).takeWhile
        (fun t => decide (t.bin = PriorityBin.SOON)) = TilesOfBin PriorityBin.SOON H ∧
    ((H.dropWhile fun t => decide (t.bin = PriorityBin.NOW)).dropWhile
        fun t => decide (t.bin = PriorityBin.SOON)).takeWhile
        (fun t => decide (t.bin = PriorityBin.EVENTUALLY)) =
      TilesOfBin PriorityBin.EVENTUALLY H := by
  obtain ⟨n1, n2⟩ := takeWhile_dropWhile_of_BinsNonDecreasing PriorityBin.NOW H hH
    (fun t _ => Nat.zero_le _)
  have hD1 : BinsNonDecreasing (H.filter fun t => !decide (t.bin = PriorityBin.NOW)) :=
    BinsNonDecreasing_filter _ H hH
  have hmin1 : ∀ t ∈ H.filter (fun t => !decide (t.bin = PriorityBin.NOW)),
      PriorityBin.SOON.rank ≤ t.bin.rank := by
    intro t ht
    have := (List.mem_filter.mp ht).2
    cases hb : t.bin <;> simp [hb, PriorityBin.rank] at this ⊢
  obtain ⟨s1, s2⟩ := takeWhile_dropWhile_of_BinsNonDecreasing PriorityBin.SOON _ hD1 hmin1
  have hD2 : BinsNonDecreasing ((H.filter fun t => !decide (t.bin = PriorityBin.NOW)).filter
      fun t => !decide (t.bin = PriorityBin.SOON)) := BinsNonDecreasing_filter _ _ hD1
  have hmin2 : ∀ t ∈ (H.filter fun t => !decide (t.bin = PriorityBin.NOW)).filter
      (fun t => !decide (t.bin = PriorityBin.SOON)),
      PriorityBin.EVENTUALLY.rank ≤ t.bin.rank := by
    intro t ht
    have h2 := (List.mem_filter.mp ht).2
    have h1 := (List.mem_filter.mp (List.mem_filter.mp ht).1).2
    cases hb : t.bin <;> simp [hb, PriorityBin.rank] at h1 h2 ⊢
  obtain ⟨v1, _⟩ := takeWhile_dropWhile_of_BinsNonDecreasing PriorityBin.EVENTUALLY _ hD2 hmin2
  refine ⟨n1, ?_, ?_⟩
  · rw [n2, s1]
    exact TilesOfBin_filter_ne _ _ (by decide) H
  · rw [n2, s2, v1, TilesOfBin_filter_ne _ _ (by decide), TilesOfBin_filter_ne _ _ (by decide)]

namespace LayerRasterTileIterator

/-- C3: for a layer that has tilings and valid tile priorities, whose high-res
and low-res tiling iterators `H` and `L` have non-decreasing bins, the iterator
built with `prioritize_low_res = true` yields, with enough fuel (the number of
tiles of `H` and `L`) and without a failed assertion, exactly the `NOW` tiles of
`L`, then the `NOW` tiles of `H`, then the `SOON` tiles of `H`, then the
`EVENTUALLY` tiles of `H`, each in the underlying order. -/
theorem raster_order_low_res_first (env : LayerTreeImpl) (layer : PictureLayerImpl)
    (hT : layer.tilings_ ≠ [])
    (hV : PictureLayerImpl.HasValidTilePriorities env layer = true)
    (hH : BinsNonDecreasing
      (IteratorOfResolution layer.tilings_ TileResolution.HIGH_RESOLUTION))
    (hL : BinsNonDecreasing
      (IteratorOfResolution layer.tilings_ TileResolution.LOW_RESOLUTION)) :
    ∀ fuel,
      (IteratorOfResolution layer.tilings_ TileResolution.LOW_RESOLUTION).length +
        (IteratorOfResolution layer.tilings_ TileResolution.HIGH_RESOLUTION).length ≤ fuel →
      Tiles fuel (Create env layer true) =
        some
          (TilesOfBin PriorityBin.NOW
              (IteratorOfResolution layer.tilings_ TileResolution.LOW_RESOLUTION) ++
            TilesOfBin PriorityBin.NOW
              (IteratorOfResolution layer.tilings_ TileResolution.HIGH_RESOLUTION) ++
            TilesOfBin PriorityBin.SOON
              (IteratorOfResolution layer.tilings_ TileResolution.HIGH_RESOLUTION) ++
            TilesOfBin PriorityBin.EVENTUALLY
              (IteratorOfResolution layer.tilings_ TileResolution.HIGH_RESOLUTION)) := by
  intro fuel hfuel
  obtain ⟨c1, c2, c3, c4⟩ := Create_spec env layer true hT hV
  simp only [if_true] at c3 c4
  rw [Tiles_spec _ (Create env layer true) c1 (le_refl _) fuel (by rw [c2, c3]; exact hfuel),
    c4, c2, c3]
  obtain ⟨h1, h2, h3⟩ := high_res_stages_of_BinsNonDecreasing _ hH
  obtain ⟨l1, _⟩ := takeWhile_dropWhile_of_BinsNonDecreasing PriorityBin.NOW _ hL
    (fun t _ => Nat.zero_le _)
  simp only [StagesYield, List.cons_append, List.nil_append, List.append_nil, h1, h2, h3, l1,
    List.append_assoc]

/-- C3 at a layer with a high-res tiling yielding `1, 2, 3, 4` and a low-res tiling
yielding `11, 12`. -/
theorem raster_order_low_res_first_witness :
    Tiles 6 (Create ExampleTree TwoTilingsLayer true) =
      some [⟨11, PriorityBin.NOW⟩, ⟨1, PriorityBin.NOW⟩, ⟨2, PriorityBin.NOW⟩,
        ⟨3, PriorityBin.SOON⟩, ⟨4, PriorityBin.EVENTUALLY⟩] :=
  raster_order_low_res_first ExampleTree TwoTilingsLayer (by decide) (by decide)
    (by decide) (by decide) 6 (by decide)

/-- C4, counterexample: for a layer with a high-res tiling yielding tiles `1, 2`
(`NOW`), `3` (`SOON`), `4` (`EVENTUALLY`) and a low-res tiling whose first tile `11`
is a `NOW` tile, the iterator built with `prioritize_low_res = false` yields
`1, 2, 3, 4`: the `NOW` tile of the low-res tiling is not yielded, and the
sequence is not the one with the first two stages swapped. -/
theorem raster_order_high_res_first_skips_low_res :
    Tiles 6 (Create ExampleTree TwoTilingsLayer false) =
      some [⟨1, PriorityBin.NOW⟩, ⟨2, PriorityBin.NOW⟩, ⟨3, PriorityBin.SOON⟩,
        ⟨4, PriorityBin.EVENTUALLY⟩] ∧
    (⟨11, PriorityBin.NOW⟩ : RasterTile) ∈
      IteratorOfResolution TwoTilingsLayer.tilings_ TileResolution.LOW_RESOLUTION ∧
    Tiles 6 (Create ExampleTree TwoTilingsLayer false) ≠
      some
        (TilesOfBin PriorityBin.NOW
            (IteratorOfResolution TwoTilingsLayer.tilings_ TileResolution.HIGH_RESOLUTION) ++
          TilesOfBin PriorityBin.NOW
            (IteratorOfResolution TwoTilingsLayer.tilings_ TileResolution.LOW_RESOLUTION) ++
          TilesOfBin PriorityBin.SOON
            (IteratorOfResolution TwoTilingsLayer.tilings_ TileResolution.HIGH_RESOLUTION) ++
          TilesOfBin PriorityBin.EVENTUALLY
            (IteratorOfResolution TwoTilingsLayer.tilings_ TileResolution.HIGH_RESOLUTION)) := by
  decide

/-- C4, amended: for a layer that has tilings and valid tile priorities, whose
high-res tiling iterator `H` has non-decreasing bins, the iterator built with
`prioritize_low_res = false` yields, with enough fuel and without a failed
assertion, exactly the `NOW` tiles of `H`, then its `SOON` tiles, then its
`EVENTUALLY` tiles: the low-res iterator is not initialised, the low-res `NOW`
stage is skipped and no tile of the low-res tiling is yielded. -/
theorem raster_order_high_res_only (env : LayerTreeImpl) (layer : PictureLayerImpl)
    (hT : layer.tilings_ ≠ [])
    (hV : PictureLayerImpl.HasValidTilePriorities env layer = true)
    (hH : BinsNonDecreasing
      (IteratorOfResolution layer.tilings_ TileResolution.HIGH_RESOLUTION)) :
    (Create env layer false).low_res_iterator = [] ∧
    ∀ fuel,
      (IteratorOfResolution layer.tilings_ TileResolution.HIGH_RESOLUTION).length ≤ fuel →
      Tiles fuel (Create env layer false) =
        some
          (TilesOfBin PriorityBin.NOW
              (IteratorOfResolution layer.tilings_ TileResolution.HIGH_RESOLUTION) ++
            TilesOfBin PriorityBin.SOON
              (IteratorOfResolution layer.tilings_ TileResolution.HIGH_RESOLUTION) ++
            TilesOfBin PriorityBin.EVENTUALLY
              (IteratorOfResolution layer.tilings_ TileResolution.HIGH_RESOLUTION)) := by
  obtain ⟨c1, c2, c3, c4⟩ := Create_spec env layer false hT hV
  simp only [Bool.false_eq_true, if_false] at c3 c4
  refine ⟨c3, fun fuel hfuel => ?_⟩
  rw [Tiles_spec _ (Create env layer false) c1 (le_refl _) fuel
    (by rw [c2, c3]; simpa using hfuel), c4, c2, c3]
  obtain ⟨h1, h2, h3⟩ := high_res_stages_of_BinsNonDecreasing _ hH
  simp only [StagesYield, List.cons_append, List.nil_append, List.append_nil, h1, h2, h3,
    List.takeWhile_nil, List.dropWhile_nil, List.append_assoc]

/-- C4 (amended) at a layer with a high-res tiling yielding `1, 2, 3, 4` and a low-res
tiling yielding `11, 12`. -/
theorem raster_order_high_res_only_witness :
    (Create ExampleTree TwoTilingsLayer false).low_res_iterator = [] ∧
    ∀ fuel, 4 ≤ fuel →
      Tiles fuel (Create ExampleTree TwoTilingsLayer false) =
        some [⟨1, PriorityBin.NOW⟩, ⟨2, PriorityBin.NOW⟩, ⟨3, PriorityBin.SOON⟩,
          ⟨4, PriorityBin.EVENTUALLY⟩] :=
  raster_order_high_res_only ExampleTree TwoTilingsLayer (by decide) (by decide) (by decide)

end LayerRasterTileIterator

namespace PictureLayerImpl

/-- C17: `CanHaveTilings()` is true exactly when the raster source is not a solid
colour, the layer draws content and the raster source has recordings;
`CanHaveTilingWithScale(x)` is true exactly when `CanHaveTilings()` is true and
`x ≥ MinimumContentsScale()`. -/
theorem CanHaveTilings_iff (env : LayerTreeImpl) (s : PictureLayerImpl) :
    (s.CanHaveTilings = true ↔
      (s.raster_source_.is_solid_color = false ∧ s.draws_content = true ∧
        s.raster_source_.has_recordings = true)) ∧
    (∀ x : ℚ, CanHaveTilingWithScale env s x = true ↔
      (s.CanHaveTilings = true ∧ x ≥ MinimumContentsScale env s)) := by
  constructor
  · simp only [CanHaveTilings]
    cases s.raster_source_.is_solid_color <;> cases s.draws_content <;>
      cases s.raster_source_.has_recordings <;> simp
  · intro x
    simp only [CanHaveTilingWithScale]
    cases s.CanHaveTilings <;> simp

/-- C12: while the screen-space transform is animating and GPU rasterization is
disabled, every returning run of `RecalculateRasterScales` (whatever the pinch
state, the pin state and the ideal contents scale) ends with
`raster_contents_scale_ = max(M, MinimumContentsScale())` when the maximum
animation contents scale `M` is nonzero and the raster source size scaled by `M`
and rounded up has an area of at most the device viewport's, and with
`max(ideal_page_scale_ * ideal_device_scale_, MinimumContentsScale())` otherwise;
the function returns whenever the pinch loop starts from positive scales. With GPU
rasterization enabled the override leaves the state as it is, and without pinch
override the result is the clamp of the scale the head chose. -/
theorem animation_override (env : LayerTreeImpl) (s : PictureLayerImpl)
    (hanim : s.draw_properties.screen_space_transform_is_animating = true) :
    (env.use_gpu_rasterization = false →
      (∀ fuel s', RecalculateRasterScales env fuel s = some s' →
        s'.raster_contents_scale_ =
          max
            (if s.draw_properties.maximum_animation_contents_scale ≠ 0 ∧
                (ToCeiledScaledSize s.raster_source_.size
                  s.draw_properties.maximum_animation_contents_scale).GetArea ≤
                  env.device_viewport_size.GetArea then
              s.draw_properties.maximum_animation_contents_scale
            else s.ideal_page_scale_ * s.ideal_device_scale_)
            (MinimumContentsScale env s)) ∧
      ((env.PinchGestureActive = true → s.raster_contents_scale_ ≠ 0 →
          0 < s.raster_contents_scale_ ∧ 0 < s.ideal_contents_scale_) →
        ∃ k s', ∀ fuel, k ≤ fuel → RecalculateRasterScales env fuel s = some s')) ∧
    (env.use_gpu_rasterization = true →
      (∀ t : PictureLayerImpl, RecalculateRasterScalesAnimation env t = t) ∧
      ((env.PinchGestureActive = false ∨ s.raster_contents_scale_ = 0) →
        ∀ fuel, ∃ s', RecalculateRasterScales env fuel s = some s' ∧
          s'.raster_contents_scale_ =
            max (RecalculateRasterScalesHead s).raster_contents_scale_
              (MinimumContentsScale env s))) := by
  refine ⟨fun hgpu => ⟨fun fuel s' h => ?_, Recalculate_returns env s⟩, fun hgpu => ⟨?_, ?_⟩⟩
  · obtain ⟨c, p, rfl⟩ := Recalculate_shape env s fuel s' h
    obtain ⟨l, hl⟩ := Tail_eq env
      { RecalculateRasterScalesHead s with raster_contents_scale_ := c, raster_page_scale_ := p }
    rw [hl, Head_eq]
    simp [AnimationOverrideScale, MinimumContentsScale, hanim, hgpu]
  · intro t
    simp [RecalculateRasterScalesAnimation, ShouldAdjustRasterScaleDuringScaleAnimations, hgpu]
  · intro hp fuel
    refine ⟨_, Recalculate_without_pinch env s fuel hp, ?_⟩
    obtain ⟨l, hl⟩ := Tail_eq env (RecalculateRasterScalesHead s)
    rw [hl]
    simp [AnimationOverrideScale, MinimumContentsScale, hgpu, Head_eq]

end PictureLayerImpl

namespace PictureLayerImpl

/-- C12 at the animating example layer with maximum animation scale `1/2` on the
CPU-rastering example tree: the raster contents scale becomes `1/2`. -/
theorem animation_override_witness :
    ∃ s', RecalculateRasterScales ExampleTree 0 AnimatingToHalfLayer = some s' ∧
      s'.raster_contents_scale_ = 1 / 2 := by
  obtain ⟨s', hs⟩ : ∃ s', RecalculateRasterScales ExampleTree 0 AnimatingToHalfLayer = some s' :=
    ⟨_, Recalculate_without_pinch ExampleTree AnimatingToHalfLayer 0 (Or.inl rfl)⟩
  refine ⟨s', hs, ?_⟩
  rw [((animation_override ExampleTree AnimatingToHalfLayer rfl).1 rfl).1 0 s' hs]
  have harea : (ToCeiledScaledSize AnimatingToHalfLayer.raster_source_.size
      AnimatingToHalfLayer.draw_properties.maximum_animation_contents_scale).GetArea ≤
      ExampleTree.device_viewport_size.GetArea := by
    simp [ToCeiledScaledSize, Size.GetArea, AnimatingToHalfLayer, AnimatingLayer, ExampleLayer,
      ExampleTree]
    norm_num
    decide
  have hM : AnimatingToHalfLayer.draw_properties.maximum_animation_contents_scale = 1 / 2 := rfl
  rw [if_pos ⟨by rw [hM]; norm_num, harea⟩, hM]
  simp [MinimumContentsScale, AnimatingToHalfLayer, AnimatingLayer, ExampleLayer, ExampleTree]
  norm_num

end PictureLayerImpl

theorem RoundUp_zero (mul : Nat) : RoundUp 0 mul = 0 := by
  unfold RoundUp
  rcases Nat.eq_zero_or_pos mul with h | h
  · subst h; simp
  · have : (0 + mul - 1) / mul = 0 := Nat.div_eq_of_lt (by omega)
    rw [this]; simp

theorem le_RoundUp (n mul : Nat) (h : 0 < mul) : n ≤ RoundUp n mul := by
  unfold RoundUp
  have h1 := Nat.div_add_mod (n + mul - 1) mul
  have h2 := Nat.mod_lt (n + mul - 1) h
  have h3 : (n + mul - 1) / mul * mul = mul * ((n + mul - 1) / mul) := Nat.mul_comm _ _
  omega

namespace PictureLayerImpl

theorem CalculateTileSize_eq (env : LayerTreeImpl) (s : PictureLayerImpl) (c : Size) :
    CalculateTileSize env s c =
      if s.is_mask_ = true then
        if c.width > env.max_texture_size ∨ c.height > env.max_texture_size then ⟨0, 0⟩
        else c
      else
        ⟨min (ClampedTileDimension c.width (DefaultTileDimensions env c).1)
            env.max_texture_size,
          min (ClampedTileDimension c.height (DefaultTileDimensions env c).2)
            env.max_texture_size⟩ := rfl

theorem ClampedTileDimension_zero (d : Nat) : ClampedTileDimension 0 d = 0 := by
  unfold ClampedTileDimension
  split_ifs with h
  · simp [RoundUp_zero]
  · omega

theorem CalculateTileSize_width_of_zero (env : LayerTreeImpl) (s : PictureLayerImpl)
    (c : Size) (h : c.width = 0) : (CalculateTileSize env s c).width = 0 := by
  rw [CalculateTileSize_eq]
  split_ifs
  · rfl
  · exact h
  · simp [h, ClampedTileDimension_zero]

theorem CalculateTileSize_height_of_zero (env : LayerTreeImpl) (s : PictureLayerImpl)
    (c : Size) (h : c.height = 0) : (CalculateTileSize env s c).height = 0 := by
  rw [CalculateTileSize_eq]
  split_ifs
  · rfl
  · exact h
  · simp [h, ClampedTileDimension_zero]

theorem CalculateTileSize_le_max_texture_size (env : LayerTreeImpl) (s : PictureLayerImpl)
    (c : Size) :
    (CalculateTileSize env s c).width ≤ env.max_texture_size ∧
    (CalculateTileSize env s c).height ≤ env.max_texture_size := by
  rw [CalculateTileSize_eq]
  split_ifs with h1 h2
  · exact ⟨Nat.zero_le _, Nat.zero_le _⟩
  · exact ⟨by omega, by omega⟩
  · exact ⟨Nat.min_le_right _ _, Nat.min_le_right _ _⟩

end PictureLayerImpl

namespace PictureLayerImpl

theorem CalculateTileSize_congr (env : LayerTreeImpl) (s t : PictureLayerImpl) (c : Size)
    (h : t.is_mask_ = s.is_mask_) : CalculateTileSize env t c = CalculateTileSize env s c := by
  rw [CalculateTileSize_eq, CalculateTileSize_eq, h]

/-- The condition under which `RecalculateRasterScales()` gives the low-res
tiling the raster scale itself: the tile size for the raster bounds is empty or
covers them. -/
theorem LowRes_spec (env : LayerTreeImpl) (x : PictureLayerImpl) :
    (RecalculateRasterScalesLowRes env x).raster_contents_scale_ = x.raster_contents_scale_ ∧
    (RecalculateRasterScalesLowRes env x).raster_source_ = x.raster_source_ ∧
    (RecalculateRasterScalesLowRes env x).is_mask_ = x.is_mask_ ∧
    (((CalculateTileSize env x
          (ToCeiledScaledSize x.raster_source_.size x.raster_contents_scale_)).IsEmpty = true ∨
        ((ToCeiledScaledSize x.raster_source_.size x.raster_contents_scale_).width ≤
            (CalculateTileSize env x
              (ToCeiledScaledSize x.raster_source_.size x.raster_contents_scale_)).width ∧
          (ToCeiledScaledSize x.raster_source_.size x.raster_contents_scale_).height ≤
            (CalculateTileSize env x
              (ToCeiledScaledSize x.raster_source_.size x.raster_contents_scale_)).height)) →
      (RecalculateRasterScalesLowRes env x).low_res_raster_contents_scale_ =
        x.raster_contents_scale_) ∧
    (¬ ((CalculateTileSize env x
          (ToCeiledScaledSize x.raster_source_.size x.raster_contents_scale_)).IsEmpty = true ∨
        ((ToCeiledScaledSize x.raster_source_.size x.raster_contents_scale_).width ≤
            (CalculateTileSize env x
              (ToCeiledScaledSize x.raster_source_.size x.raster_contents_scale_)).width ∧
          (ToCeiledScaledSize x.raster_source_.size x.raster_contents_scale_).height ≤
            (CalculateTileSize env x
              (ToCeiledScaledSize x.raster_source_.size x.raster_contents_scale_)).height)) →
      (RecalculateRasterScalesLowRes env x).low_res_raster_contents_scale_ =
        max (x.raster_contents_scale_ * env.settings.low_res_contents_scale_factor)
          (MinimumContentsScale env x)) := by
  generalize hT : CalculateTileSize env x
    (ToCeiledScaledSize x.raster_source_.size x.raster_contents_scale_) = T
  generalize hB : ToCeiledScaledSize x.raster_source_.size x.raster_contents_scale_ = B at hT
  have hdef : RecalculateRasterScalesLowRes env x =
      if (T.IsEmpty || (decide (T.width ≥ B.width) && decide (T.height ≥ B.height))) = true then
        { x with low_res_raster_contents_scale_ := x.raster_contents_scale_ }
      else
        { x with
          low_res_raster_contents_scale_ :=
            max (x.raster_contents_scale_ * env.settings.low_res_contents_scale_factor)
              (MinimumContentsScale env x) } := by
    simp only [RecalculateRasterScalesLowRes, hB, hT]
  rw [hdef]
  by_cases hc : (T.IsEmpty || (decide (T.width ≥ B.width) && decide (T.height ≥ B.height))) = true
  · rw [if_pos hc]
    refine ⟨rfl, rfl, rfl, fun _ => rfl, fun hn => ?_⟩
    exfalso; apply hn
    simpa using hc
  · rw [if_neg hc]
    refine ⟨rfl, rfl, rfl, fun hp => ?_, fun _ => rfl⟩
    exfalso; apply hc
    simpa using hp

theorem ToCeiledScaledSize_of_min_zero (size : Size) (scale : ℚ)
    (h : min size.width size.height = 0) :
    (ToCeiledScaledSize size scale).width = 0 ∨ (ToCeiledScaledSize size scale).height = 0 := by
  rcases Nat.min_eq_zero_iff.mp h with h | h
  · left; simp [ToCeiledScaledSize, h]
  · right; simp [ToCeiledScaledSize, h]

theorem MinimumContentsScale_pos_of_min_pos (env : LayerTreeImpl) (s : PictureLayerImpl)
    (h : min s.raster_source_.size.width s.raster_source_.size.height ≠ 0) :
    0 < MinimumContentsScale env s := by
  simp only [MinimumContentsScale, h, if_false]
  apply lt_of_lt_of_le _ (le_max_left _ _)
  have : (0 : ℚ) < (min s.raster_source_.size.width s.raster_source_.size.height : ℕ) := by
    exact_mod_cast Nat.pos_of_ne_zero h
  positivity

/-- The state on which `RecalculateRasterScales()` chooses the low-res scale. -/
theorem Recalculate_low_res_shape (env : LayerTreeImpl) (s : PictureLayerImpl) (fuel : Nat)
    (s' : PictureLayerImpl) (h : RecalculateRasterScales env fuel s = some s') :
    ∃ x, s' = RecalculateRasterScalesLowRes env x ∧ x.raster_source_ = s.raster_source_ ∧
      x.is_mask_ = s.is_mask_ ∧ MinimumContentsScale env s ≤ x.raster_contents_scale_ := by
  obtain ⟨c, p, rfl⟩ := Recalculate_shape env s fuel s' h
  refine ⟨_, rfl, ?_, ?_, ?_⟩
  · rw [Animation_eq, Head_eq]
  · rw [Animation_eq, Head_eq]
  · rw [Animation_eq, Head_eq]
    simp only [MinimumContentsScale]
    exact le_max_right _ _

/-- C13: after every returning run of `RecalculateRasterScales`, with
`raster_bounds` the raster source size scaled by the final `raster_contents_scale_`
and rounded up and `T = CalculateTileSize(raster_bounds)`: if `T` is empty or
covers `raster_bounds` in both dimensions, `low_res_raster_contents_scale_` is
`raster_contents_scale_`; otherwise it is
`max(raster_contents_scale_ * low_res_contents_scale_factor,
MinimumContentsScale())`. For every low-res factor of at most `1` (in particular
in `(0, 1]`) this gives
`MinimumContentsScale() ≤ low_res_raster_contents_scale_ ≤ raster_contents_scale_`.
The function returns whenever the pinch loop starts from positive scales. -/
theorem low_res_scale_choice (env : LayerTreeImpl) (s : PictureLayerImpl) :
    (∀ fuel s', RecalculateRasterScales env fuel s = some s' →
      (((CalculateTileSize env s'
            (ToCeiledScaledSize s'.raster_source_.size s'.raster_contents_scale_)).IsEmpty = true ∨
          ((ToCeiledScaledSize s'.raster_source_.size s'.raster_contents_scale_).width ≤
              (CalculateTileSize env s'
                (ToCeiledScaledSize s'.raster_source_.size s'.raster_contents_scale_)).width ∧
            (ToCeiledScaledSize s'.raster_source_.size s'.raster_contents_scale_).height ≤
              (CalculateTileSize env s'
                (ToCeiledScaledSize s'.raster_source_.size
                  s'.raster_contents_scale_)).height)) →
        s'.low_res_raster_contents_scale_ = s'.raster_contents_scale_) ∧
      (¬ ((CalculateTileSize env s'
            (ToCeiledScaledSize s'.raster_source_.size s'.raster_contents_scale_)).IsEmpty = true ∨
          ((ToCeiledScaledSize s'.raster_source_.size s'.raster_contents_scale_).width ≤
              (CalculateTileSize env s'
                (ToCeiledScaledSize s'.raster_source_.size s'.raster_contents_scale_)).width ∧
            (ToCeiledScaledSize s'.raster_source_.size s'.raster_contents_scale_).height ≤
              (CalculateTileSize env s'
                (ToCeiledScaledSize s'.raster_source_.size
                  s'.raster_contents_scale_)).height)) →
        s'.low_res_raster_contents_scale_ =
          max (s'.raster_contents_scale_ * env.settings.low_res_contents_scale_factor)
            (MinimumContentsScale env s')) ∧
      (env.settings.low_res_contents_scale_factor ≤ 1 →
        MinimumContentsScale env s' ≤ s'.low_res_raster_contents_scale_ ∧
        s'.low_res_raster_contents_scale_ ≤ s'.raster_contents_scale_)) ∧
    ((env.PinchGestureActive = true → s.raster_contents_scale_ ≠ 0 →
        0 < s.raster_contents_scale_ ∧ 0 < s.ideal_contents_scale_) →
      ∃ k s', ∀ fuel, k ≤ fuel → RecalculateRasterScales env fuel s = some s') := by
  refine ⟨fun fuel s' h => ?_, Recalculate_returns env s⟩
  obtain ⟨x, rfl, hx1, hx2, hx3⟩ := Recalculate_low_res_shape env s fuel s' h
  obtain ⟨l1, l2, l3, l4, l5⟩ := LowRes_spec env x
  have hmin : MinimumContentsScale env (RecalculateRasterScalesLowRes env x) =
      MinimumContentsScale env x := MinimumContentsScale_eq_of_raster_source env x _ l2
  have hmin' : MinimumContentsScale env x = MinimumContentsScale env s :=
    MinimumContentsScale_eq_of_raster_source env s x hx1
  rw [CalculateTileSize_congr env x _ _ l3, l1, l2, hmin]
  refine ⟨l4, l5, fun hf => ?_⟩
  by_cases hc : ((CalculateTileSize env x
          (ToCeiledScaledSize x.raster_source_.size x.raster_contents_scale_)).IsEmpty = true ∨
        ((ToCeiledScaledSize x.raster_source_.size x.raster_contents_scale_).width ≤
            (CalculateTileSize env x
              (ToCeiledScaledSize x.raster_source_.size x.raster_contents_scale_)).width ∧
          (ToCeiledScaledSize x.raster_source_.size x.raster_contents_scale_).height ≤
            (CalculateTileSize env x
              (ToCeiledScaledSize x.raster_source_.size x.raster_contents_scale_)).height))
  · rw [l4 hc, hmin']
    exact ⟨hx3, le_refl _⟩
  · rw [l5 hc]
    refine ⟨le_max_right _ _, max_le ?_ (by rw [hmin']; exact hx3)⟩
    by_cases hz : min x.raster_source_.size.width x.raster_source_.size.height = 0
    · exfalso
      apply hc
      left
      rcases ToCeiledScaledSize_of_min_zero x.raster_source_.size x.raster_contents_scale_ hz
        with hw | hh
      · simp [Size.IsEmpty, CalculateTileSize_width_of_zero env x _ hw]
      · simp [Size.IsEmpty, CalculateTileSize_height_of_zero env x _ hh]
    · have hpos : 0 < x.raster_contents_scale_ :=
        lt_of_lt_of_le (MinimumContentsScale_pos_of_min_pos env x hz) (by rw [hmin']; exact hx3)
      nlinarith

theorem low_res_scale_choice_witness :
    ∃ s', RecalculateRasterScales ExampleTree 0 ExampleLayer = some s' ∧
      MinimumContentsScale ExampleTree s' ≤ s'.low_res_raster_contents_scale_ ∧
      s'.low_res_raster_contents_scale_ ≤ s'.raster_contents_scale_ := by
  obtain ⟨s', hs⟩ : ∃ s', RecalculateRasterScales ExampleTree 0 ExampleLayer = some s' :=
    ⟨_, Recalculate_without_pinch ExampleTree ExampleLayer 0 (Or.inl rfl)⟩
  exact ⟨s', hs, ((low_res_scale_choice ExampleTree ExampleLayer).1 0 s' hs).2.2
    (by norm_num [ExampleTree])⟩

end PictureLayerImpl

namespace PictureLayerImpl

/-- Auxiliary: the default tile dimensions under CPU rasterization when the
content is below the max-untiled size in both dimensions. -/
theorem DefaultTileDimensions_untiled (env : LayerTreeImpl) (c : Size)
    (hcpu : env.use_gpu_rasterization = false)
    (hw : c.width < env.settings.max_untiled_layer_size.width)
    (hh : c.height < env.settings.max_untiled_layer_size.height) :
    DefaultTileDimensions env c =
      (env.settings.max_untiled_layer_size.width, env.settings.max_untiled_layer_size.height) := by
  simp [DefaultTileDimensions, hcpu, hw, hh]

/-- Auxiliary: the default tile dimensions under CPU rasterization when the
content is at least the default tile size and not below the max-untiled size in
both dimensions. -/
theorem DefaultTileDimensions_tiled (env : LayerTreeImpl) (c : Size)
    (hcpu : env.use_gpu_rasterization = false)
    (hw : env.settings.default_tile_size.width ≤ c.width)
    (hh : env.settings.default_tile_size.height ≤ c.height)
    (hbig : ¬(c.width < env.settings.max_untiled_layer_size.width ∧
      c.height < env.settings.max_untiled_layer_size.height)) :
    DefaultTileDimensions env c =
      (env.settings.default_tile_size.width, env.settings.default_tile_size.height) := by
  simp only [DefaultTileDimensions, hcpu, Bool.false_eq_true, if_false]
  rw [if_neg (Nat.not_lt.mpr hw), if_neg (Nat.not_lt.mpr hh), if_neg hbig]

/-- C19: with CPU rasterization and a non-mask layer, for every content size whose
width and height are at least the default tile width and height and that is not
below the max-untiled size in both dimensions, `CalculateTileSize` returns
`(min(default_tile_width, max_texture_size), min(default_tile_height,
max_texture_size))`; in particular with default tile size `256 x 256`,
max-untiled size `512 x 512` and a max texture size of at least `256`, content
`2000 x 2000` gets `256 x 256` tiles and a grid of `8` cells per axis. -/
theorem CalculateTileSize_of_large_content (env : LayerTreeImpl) (s : PictureLayerImpl)
    (hcpu : env.use_gpu_rasterization = false) (hmask : s.is_mask_ = false) :
    (∀ c : Size, env.settings.default_tile_size.width ≤ c.width →
      env.settings.default_tile_size.height ≤ c.height →
      ¬(c.width < env.settings.max_untiled_layer_size.width ∧
        c.height < env.settings.max_untiled_layer_size.height) →
      CalculateTileSize env s c =
        ⟨min env.settings.default_tile_size.width env.max_texture_size,
         min env.settings.default_tile_size.height env.max_texture_size⟩) ∧
    (env.settings.default_tile_size = ⟨256, 256⟩ →
      env.settings.max_untiled_layer_size = ⟨512, 512⟩ →
      256 ≤ env.max_texture_size →
      CalculateTileSize env s ⟨2000, 2000⟩ = ⟨256, 256⟩ ∧
      GridCells 2000 (CalculateTileSize env s ⟨2000, 2000⟩).width = 8 ∧
      GridCells 2000 (CalculateTileSize env s ⟨2000, 2000⟩).height = 8) := by
  have key : ∀ c : Size, env.settings.default_tile_size.width ≤ c.width →
      env.settings.default_tile_size.height ≤ c.height →
      ¬(c.width < env.settings.max_untiled_layer_size.width ∧
        c.height < env.settings.max_untiled_layer_size.height) →
      CalculateTileSize env s c =
        ⟨min env.settings.default_tile_size.width env.max_texture_size,
         min env.settings.default_tile_size.height env.max_texture_size⟩ := by
    intro c hw hh hbig
    rw [CalculateTileSize_eq, hmask, DefaultTileDimensions_tiled env c hcpu hw hh hbig]
    simp only [Bool.false_eq_true, if_false, ClampedTileDimension]
    rw [if_neg (Nat.not_lt.mpr hw), if_neg (Nat.not_lt.mpr hh)]
  refine ⟨key, fun hd hu hmax => ?_⟩
  have h := key ⟨2000, 2000⟩ (by rw [hd]; decide) (by rw [hd]; decide)
    (by rw [hu]; decide)
  rw [hd] at h
  have hmin : min 256 env.max_texture_size = 256 := Nat.min_eq_left hmax
  simp only [hmin] at h
  rw [h]
  exact ⟨rfl, by decide, by decide⟩

theorem CalculateTileSize_of_large_content_witness :
    CalculateTileSize ExampleTree ExampleLayer ⟨2000, 2000⟩ = ⟨256, 256⟩ ∧
    GridCells 2000 (CalculateTileSize ExampleTree ExampleLayer ⟨2000, 2000⟩).width = 8 ∧
    GridCells 2000 (CalculateTileSize ExampleTree ExampleLayer ⟨2000, 2000⟩).height = 8 :=
  (CalculateTileSize_of_large_content ExampleTree ExampleLayer rfl rfl).2 rfl rfl (by decide)

/-- C20: single-tile collapse. For a mask layer `CalculateTileSize` returns exactly
the content size when the content fits `max_texture_size` in both dimensions and
the empty size otherwise. For a non-mask layer with CPU rasterization whose
content width and height are both below the max-untiled size and at most
`max_texture_size`, each returned dimension is `min(content dimension rounded up
to a multiple of 64, max-untiled dimension, max_texture_size)` and is at least
the content dimension. In every case the returned width and height are at most
`max_texture_size`. -/
theorem CalculateTileSize_single_tile (env : LayerTreeImpl) (s : PictureLayerImpl)
    (c : Size) :
    (s.is_mask_ = true →
      (c.width ≤ env.max_texture_size ∧ c.height ≤ env.max_texture_size →
        CalculateTileSize env s c = c) ∧
      (¬(c.width ≤ env.max_texture_size ∧ c.height ≤ env.max_texture_size) →
        CalculateTileSize env s c = ⟨0, 0⟩ ∧ (CalculateTileSize env s c).IsEmpty = true)) ∧
    (s.is_mask_ = false → env.use_gpu_rasterization = false →
      c.width < env.settings.max_untiled_layer_size.width →
      c.height < env.settings.max_untiled_layer_size.height →
      c.width ≤ env.max_texture_size → c.height ≤ env.max_texture_size →
      CalculateTileSize env s c =
        ⟨min (min (RoundUp c.width kTileRoundUp) env.settings.max_untiled_layer_size.width)
            env.max_texture_size,
         min (min (RoundUp c.height kTileRoundUp) env.settings.max_untiled_layer_size.height)
            env.max_texture_size⟩ ∧
      kTileRoundUp = 64 ∧
      c.width ≤ (CalculateTileSize env s c).width ∧
      c.height ≤ (CalculateTileSize env s c).height) ∧
    (CalculateTileSize env s c).width ≤ env.max_texture_size ∧
    (CalculateTileSize env s c).height ≤ env.max_texture_size := by
  refine ⟨fun hmask => ⟨fun hfit => ?_, fun hnofit => ?_⟩,
    fun hmask hcpu hw hh hmw hmh => ?_, CalculateTileSize_le_max_texture_size env s c⟩
  · rw [CalculateTileSize_eq, if_pos hmask, if_neg]
    intro h
    rcases h with h | h
    · exact absurd hfit.1 (Nat.not_le.mpr h)
    · exact absurd hfit.2 (Nat.not_le.mpr h)
  · have h0 : CalculateTileSize env s c = ⟨0, 0⟩ := by
      rw [CalculateTileSize_eq, if_pos hmask, if_pos]
      by_contra hcon
      apply hnofit
      constructor
      · exact Nat.not_lt.mp (fun h => hcon (Or.inl h))
      · exact Nat.not_lt.mp (fun h => hcon (Or.inr h))
    rw [h0]
    exact ⟨rfl, by simp [Size.IsEmpty]⟩
  · have heq : CalculateTileSize env s c =
        ⟨min (min (RoundUp c.width kTileRoundUp) env.settings.max_untiled_layer_size.width)
            env.max_texture_size,
         min (min (RoundUp c.height kTileRoundUp) env.settings.max_untiled_layer_size.height)
            env.max_texture_size⟩ := by
      rw [CalculateTileSize_eq, hmask, DefaultTileDimensions_untiled env c hcpu hw hh]
      simp only [Bool.false_eq_true, if_false, ClampedTileDimension]
      rw [if_pos hw, if_pos hh, Nat.min_eq_right (Nat.le_of_lt hw),
        Nat.min_eq_right (Nat.le_of_lt hh)]
    have hrw := le_RoundUp c.width kTileRoundUp (by decide)
    have hrh := le_RoundUp c.height kTileRoundUp (by decide)
    rw [heq]
    refine ⟨rfl, rfl, ?_, ?_⟩
    · exact Nat.le_min.mpr ⟨Nat.le_min.mpr ⟨hrw, Nat.le_of_lt hw⟩, hmw⟩
    · exact Nat.le_min.mpr ⟨Nat.le_min.mpr ⟨hrh, Nat.le_of_lt hh⟩, hmh⟩

theorem CalculateTileSize_single_tile_witness :
    CalculateTileSize ExampleTree MaskLayer ⟨300, 200⟩ = ⟨300, 200⟩ ∧
    CalculateTileSize ExampleTree ExampleLayer ⟨300, 200⟩ = ⟨320, 256⟩ :=
  ⟨((CalculateTileSize_single_tile ExampleTree MaskLayer ⟨300, 200⟩).1 rfl).1
      ⟨by decide, by decide⟩,
   ((CalculateTileSize_single_tile ExampleTree ExampleLayer ⟨300, 200⟩).2.1 rfl rfl
      (by decide) (by decide) (by decide) (by decide)).1.trans (by decide)⟩

end PictureLayerImpl

namespace PictureLayerImpl

open PictureLayerTilingSet

theorem length_eq_length_Scales (ts : PictureLayerTilingSet) : ts.length = (Scales ts).length := by
  simp [Scales]

theorem mem_Scales_of_mem (ts : PictureLayerTilingSet) (t : PictureLayerTiling) (h : t ∈ ts) :
    t.contents_scale ∈ Scales ts := by
  simp only [Scales, List.mem_map]
  exact ⟨t, h, rfl⟩

/-- Membership in a re-marked set, split into the marked and the untouched
tilings. -/
theorem mem_set_resolution_cases (ts : PictureLayerTilingSet) (p : TilingPtr)
    (r : TileResolution) (t : PictureLayerTiling) (ht : t ∈ set_resolution ts p r) :
    ∃ u ∈ ts, t.contents_scale = u.contents_scale ∧
      (u.contents_scale = p → t.resolution = r) ∧
      (u.contents_scale ≠ p → t = u) := by
  obtain ⟨u, hu, htu⟩ := (mem_set_resolution ts p r t).mp ht
  refine ⟨u, hu, ?_, ?_, ?_⟩
  · rw [htu]; split_ifs <;> rfl
  · intro h; rw [htu, if_pos h]
  · intro h; rw [htu, if_neg h]

/-- How `AddTilingsForRasterScale()` leaves the resolution of every tiling:
`HIGH_RESOLUTION` at the raster scale, `LOW_RESOLUTION` at a different low-res
scale, no ideal resolution elsewhere. -/
theorem AddTilingsForRasterScale_resolution (env : LayerTreeImpl) (s : PictureLayerImpl)
    (t : PictureLayerTiling) (ht : t ∈ (AddTilingsForRasterScale env s).tilings_) :
    (t.contents_scale = s.raster_contents_scale_ →
      t.resolution = TileResolution.HIGH_RESOLUTION) ∧
    (t.contents_scale ≠ s.raster_contents_scale_ →
      t.contents_scale = s.low_res_raster_contents_scale_ →
      t.resolution = TileResolution.LOW_RESOLUTION) ∧
    (t.contents_scale ≠ s.raster_contents_scale_ →
      t.contents_scale ≠ s.low_res_raster_contents_scale_ →
      t.resolution = TileResolution.NON_IDEAL_RESOLUTION) := by
  have hS := mem_Scales_of_mem _ t ht
  rw [Scales_AddTilingsForRasterScale] at hS
  rw [AddTilingsForRasterScale_tilings] at ht
  obtain ⟨u, hu, hsc, hmark, hkeep⟩ := mem_set_resolution_cases _ _ _ _ ht
  refine ⟨fun h => hmark (hsc ▸ h), fun hr hl => ?_, fun hr hl => ?_⟩
  · have htu := hkeep (hsc ▸ hr)
    have hrl : s.raster_contents_scale_ ≠ s.low_res_raster_contents_scale_ := by
      rw [← hl]; exact Ne.symm hr
    rw [if_pos ⟨hrl, by rw [← hl]; exact hS⟩] at hu
    obtain ⟨v, _, hsv, hmarkv, _⟩ := mem_set_resolution_cases _ _ _ _ hu
    rw [htu]
    exact hmarkv (by rw [← hsv, ← htu]; exact hl)
  · have htu := hkeep (hsc ▸ hr)
    rw [htu]
    split_ifs at hu with hc
    · obtain ⟨v, hv, hsv, _, hkeepv⟩ := mem_set_resolution_cases _ _ _ _ hu
      have huv := hkeepv (by rw [← hsv, ← htu]; exact hl)
      rw [huv]
      exact resolution_TilingsWithLowRes env s v hv
    · exact resolution_TilingsWithLowRes env s u hu

theorem Scales_AddTilingsForRasterScale_eq (env : LayerTreeImpl) (s : PictureLayerImpl) :
    Scales (AddTilingsForRasterScale env s).tilings_ =
      Scales s.tilings_ ++
        (if s.raster_contents_scale_ ∈ Scales s.tilings_ then []
         else [s.raster_contents_scale_]) ++
        (if CreatesLowRes env s then [s.low_res_raster_contents_scale_] else []) := by
  rw [Scales_AddTilingsForRasterScale, Scales_TilingsWithLowRes, Scales_TilingsWithHighRes]

end PictureLayerImpl

namespace PictureLayerImpl

open PictureLayerTilingSet

theorem exists_mem_of_mem_Scales (ts : PictureLayerTilingSet) (x : ℚ) (h : x ∈ Scales ts) :
    ∃ t ∈ ts, t.contents_scale = x := by
  simpa [Scales] using h

theorem raster_scale_mem_AddTilingsForRasterScale (env : LayerTreeImpl) (s : PictureLayerImpl) :
    s.raster_contents_scale_ ∈ Scales (AddTilingsForRasterScale env s).tilings_ := by
  rw [Scales_AddTilingsForRasterScale]
  exact raster_scale_mem_TilingsWithLowRes env s

/-- Auxiliary: without a low-res creation the call adds at most the high-res
tiling. -/
theorem AddTilingsForRasterScale_without_low_res (env : LayerTreeImpl) (s : PictureLayerImpl)
    (hc : ¬ CreatesLowRes env s) :
    Scales (AddTilingsForRasterScale env s).tilings_ =
      Scales s.tilings_ ++
        (if s.raster_contents_scale_ ∈ Scales s.tilings_ then []
         else [s.raster_contents_scale_]) ∧
    (AddTilingsForRasterScale env s).tilings_.length ≤ s.tilings_.length + 1 := by
  have hS : Scales (AddTilingsForRasterScale env s).tilings_ =
      Scales s.tilings_ ++
        (if s.raster_contents_scale_ ∈ Scales s.tilings_ then []
         else [s.raster_contents_scale_]) := by
    rw [Scales_AddTilingsForRasterScale_eq, if_neg hc, List.append_nil]
  refine ⟨hS, ?_⟩
  rw [length_eq_length_Scales, hS, length_eq_length_Scales s.tilings_, List.length_append]
  split_ifs <;> simp

/-- Auxiliary: a tiling at a low-res scale different from the raster scale is
marked `LOW_RESOLUTION` whenever the resulting set has a tiling there. -/
theorem AddTilingsForRasterScale_low_res (env : LayerTreeImpl) (s : PictureLayerImpl)
    (hrl : s.raster_contents_scale_ ≠ s.low_res_raster_contents_scale_) :
    (∀ t ∈ (AddTilingsForRasterScale env s).tilings_,
      t.contents_scale = s.low_res_raster_contents_scale_ →
      t.resolution = TileResolution.LOW_RESOLUTION) ∧
    (s.low_res_raster_contents_scale_ ∈ Scales (AddTilingsForRasterScale env s).tilings_ →
      ∃ t ∈ (AddTilingsForRasterScale env s).tilings_,
        t.contents_scale = s.low_res_raster_contents_scale_ ∧
        t.resolution = TileResolution.LOW_RESOLUTION) := by
  have hall : ∀ t ∈ (AddTilingsForRasterScale env s).tilings_,
      t.contents_scale = s.low_res_raster_contents_scale_ →
      t.resolution = TileResolution.LOW_RESOLUTION := by
    intro t ht hl
    exact (AddTilingsForRasterScale_resolution env s t ht).2.1
      (by rw [hl]; exact Ne.symm hrl) hl
  refine ⟨hall, fun hmem => ?_⟩
  obtain ⟨t, ht, hl⟩ := exists_mem_of_mem_Scales _ _ hmem
  exact ⟨t, ht, hl, hall t ht hl⟩

/-- C14: if `raster_contents_scale_` equals `low_res_raster_contents_scale_` on
entry, then after `AddTilingsForRasterScale`, for every pinch and animation
state, no tiling of the set is marked `LOW_RESOLUTION`, at most one tiling was
created by the call (the scales of the set are the old ones, followed by the
raster scale if it was missing), the set has a tiling at that scale and it is
marked `HIGH_RESOLUTION`; when the scales of the set are pairwise distinct there
is exactly one tiling at that scale and it is the only high-res one. -/
theorem high_res_wins_tie (env : LayerTreeImpl) (s : PictureLayerImpl)
    (htie : s.raster_contents_scale_ = s.low_res_raster_contents_scale_) :
    (∀ t ∈ (AddTilingsForRasterScale env s).tilings_,
      t.resolution ≠ TileResolution.LOW_RESOLUTION) ∧
    (AddTilingsForRasterScale env s).tilings_.length ≤ s.tilings_.length + 1 ∧
    Scales (AddTilingsForRasterScale env s).tilings_ =
      Scales s.tilings_ ++
        (if s.raster_contents_scale_ ∈ Scales s.tilings_ then []
         else [s.raster_contents_scale_]) ∧
    (∃ t ∈ (AddTilingsForRasterScale env s).tilings_,
      t.contents_scale = s.raster_contents_scale_ ∧
      t.resolution = TileResolution.HIGH_RESOLUTION) ∧
    (∀ t ∈ (AddTilingsForRasterScale env s).tilings_,
      t.contents_scale = s.raster_contents_scale_ →
      t.resolution = TileResolution.HIGH_RESOLUTION) ∧
    ((Scales s.tilings_).Nodup →
      (Scales (AddTilingsForRasterScale env s).tilings_).count s.raster_contents_scale_ = 1 ∧
      NumHighResTilings (AddTilingsForRasterScale env s).tilings_ = 1) := by
  have hc : ¬ CreatesLowRes env s := by
    intro h
    simp only [CreatesLowRes] at h
    exact h.2.2.2.1 htie
  have hw := AddTilingsForRasterScale_without_low_res env s hc
  have hhigh : ∀ t ∈ (AddTilingsForRasterScale env s).tilings_,
      t.contents_scale = s.raster_contents_scale_ →
      t.resolution = TileResolution.HIGH_RESOLUTION :=
    fun t ht => (AddTilingsForRasterScale_resolution env s t ht).1
  refine ⟨fun t ht hlow => ?_, hw.2, hw.1, ?_, hhigh, fun hnd => ?_⟩
  · have hres := AddTilingsForRasterScale_resolution env s t ht
    by_cases hr : t.contents_scale = s.raster_contents_scale_
    · rw [hres.1 hr] at hlow
      exact absurd hlow (by decide)
    · rw [hres.2.2 hr (by rw [← htie]; exact hr)] at hlow
      exact absurd hlow (by decide)
  · obtain ⟨t, ht, hr⟩ := exists_mem_of_mem_Scales _ _
      (raster_scale_mem_AddTilingsForRasterScale env s)
    exact ⟨t, ht, hr, hhigh t ht hr⟩
  · have hspec := AddTilingsForRasterScale_spec env s hnd
    exact ⟨List.count_eq_one_of_mem hspec.2.2 (raster_scale_mem_AddTilingsForRasterScale env s),
      hspec.2.1⟩

/-- C15: if a pinch gesture is active or the screen-space transform is animating,
the only tiling `AddTilingsForRasterScale` can add is the high-res one at
`raster_contents_scale_` (the scales of the set are the old ones, followed by the
raster scale if it was missing), so the number of tilings grows by at most one
and no tiling appears at a low-res scale that had none and differs from the
raster scale; a tiling already present at a low-res scale different from the
raster scale is still there and marked `LOW_RESOLUTION`. -/
theorem no_low_res_created_during_gesture (env : LayerTreeImpl) (s : PictureLayerImpl)
    (hgesture : env.PinchGestureActive = true ∨
      s.draw_properties.screen_space_transform_is_animating = true) :
    Scales (AddTilingsForRasterScale env s).tilings_ =
      Scales s.tilings_ ++
        (if s.raster_contents_scale_ ∈ Scales s.tilings_ then []
         else [s.raster_contents_scale_]) ∧
    (AddTilingsForRasterScale env s).tilings_.length ≤ s.tilings_.length + 1 ∧
    (s.low_res_raster_contents_scale_ ∉ Scales s.tilings_ →
      s.raster_contents_scale_ ≠ s.low_res_raster_contents_scale_ →
      s.low_res_raster_contents_scale_ ∉ Scales (AddTilingsForRasterScale env s).tilings_) ∧
    (s.low_res_raster_contents_scale_ ∈ Scales s.tilings_ →
      s.raster_contents_scale_ ≠ s.low_res_raster_contents_scale_ →
      (∃ t ∈ (AddTilingsForRasterScale env s).tilings_,
        t.contents_scale = s.low_res_raster_contents_scale_ ∧
        t.resolution = TileResolution.LOW_RESOLUTION) ∧
      ∀ t ∈ (AddTilingsForRasterScale env s).tilings_,
        t.contents_scale = s.low_res_raster_contents_scale_ →
        t.resolution = TileResolution.LOW_RESOLUTION) := by
  have hc : ¬ CreatesLowRes env s := by
    intro h
    simp only [CreatesLowRes] at h
    rcases hgesture with hp | ha
    · rw [h.2.1] at hp; exact absurd hp (by decide)
    · rw [h.2.2.1] at ha; exact absurd ha (by decide)
  have hw := AddTilingsForRasterScale_without_low_res env s hc
  refine ⟨hw.1, hw.2, fun hnot hrl hmem => ?_, fun hin hrl => ?_⟩
  · rw [hw.1, List.mem_append] at hmem
    rcases hmem with h | h
    · exact hnot h
    · split_ifs at h
      · simp at h
      · exact hrl (List.mem_singleton.mp h).symm
  · have hlow := AddTilingsForRasterScale_low_res env s hrl
    refine ⟨hlow.2 ?_, hlow.1⟩
    rw [hw.1]
    exact List.mem_append_left _ hin

theorem no_low_res_created_during_gesture_witness :
    Scales (AddTilingsForRasterScale PinchTree ZoomInLayer).tilings_ =
      Scales ZoomInLayer.tilings_ ++
        (if ZoomInLayer.raster_contents_scale_ ∈ Scales ZoomInLayer.tilings_ then []
         else [ZoomInLayer.raster_contents_scale_]) :=
  (no_low_res_created_during_gesture PinchTree ZoomInLayer (Or.inl rfl)).1

end PictureLayerImpl

namespace PictureLayerImpl

open PictureLayerTilingSet

theorem high_res_wins_tie_witness :
    (Scales (AddTilingsForRasterScale ExampleTree TieLayer).tilings_).count
        TieLayer.raster_contents_scale_ = 1 ∧
      NumHighResTilings (AddTilingsForRasterScale ExampleTree TieLayer).tilings_ = 1 :=
  (high_res_wins_tie ExampleTree TieLayer rfl).2.2.2.2.2 List.nodup_nil

/-- C16, as stated, fails when the tree does not create low-res tilings: with a
static transform, the example layer (raster scale `1`, low-res scale `1/4`, no
tiling yet) ends with no tiling at its low-res scale. -/
theorem static_transform_without_low_res_tiling :
    NoLowResTree.PinchGestureActive = false ∧
    ExampleLayer.draw_properties.screen_space_transform_is_animating = false ∧
    ExampleLayer.low_res_raster_contents_scale_ ∉
      Scales (AddTilingsForRasterScale NoLowResTree ExampleLayer).tilings_ := by
  refine ⟨rfl, rfl, ?_⟩
  rw [Scales_AddTilingsForRasterScale_eq]
  have hc : ¬ CreatesLowRes NoLowResTree ExampleLayer := by
    intro h
    simp only [CreatesLowRes] at h
    exact absurd h.1 (by decide)
  rw [if_neg hc]
  simp [ExampleLayer, PictureLayerImpl.Create, Scales]

/-- C16 (amended): whenever the transform is static (no pinch active and the
screen-space transform not animating) and the tree creates low-res tilings, after
`AddTilingsForRasterScale` the tiling set contains a tiling whose contents scale
is `low_res_raster_contents_scale_`; when that scale differs from
`raster_contents_scale_` such a tiling is marked `LOW_RESOLUTION`, and it is
created (put last) if the set had none there. -/
theorem low_res_tiling_ensured_when_static (env : LayerTreeImpl) (s : PictureLayerImpl)
    (hpinch : env.PinchGestureActive = false)
    (hanim : s.draw_properties.screen_space_transform_is_animating = false)
    (hcan : env.create_low_res_tiling = true) :
    (∃ t ∈ (AddTilingsForRasterScale env s).tilings_,
      t.contents_scale = s.low_res_raster_contents_scale_) ∧
    (s.raster_contents_scale_ ≠ s.low_res_raster_contents_scale_ →
      (∃ t ∈ (AddTilingsForRasterScale env s).tilings_,
        t.contents_scale = s.low_res_raster_contents_scale_ ∧
        t.resolution = TileResolution.LOW_RESOLUTION) ∧
      (∀ t ∈ (AddTilingsForRasterScale env s).tilings_,
        t.contents_scale = s.low_res_raster_contents_scale_ →
        t.resolution = TileResolution.LOW_RESOLUTION) ∧
      (s.low_res_raster_contents_scale_ ∉ Scales s.tilings_ →
        Scales (AddTilingsForRasterScale env s).tilings_ =
          Scales s.tilings_ ++
            (if s.raster_contents_scale_ ∈ Scales s.tilings_ then []
             else [s.raster_contents_scale_]) ++
            [s.low_res_raster_contents_scale_])) := by
  have hmem : s.low_res_raster_contents_scale_ ∈
      Scales (AddTilingsForRasterScale env s).tilings_ := by
    by_cases hrl : s.raster_contents_scale_ = s.low_res_raster_contents_scale_
    · rw [← hrl]
      exact raster_scale_mem_AddTilingsForRasterScale env s
    · rw [Scales_AddTilingsForRasterScale, Scales_TilingsWithLowRes]
      by_cases hin : s.low_res_raster_contents_scale_ ∈ Scales (TilingsWithHighRes s)
      · exact List.mem_append_left _ hin
      · have hc : CreatesLowRes env s := ⟨hcan, hpinch, hanim, hrl, hin⟩
        rw [if_pos hc]
        exact List.mem_append_right _ (List.mem_singleton.mpr rfl)
  refine ⟨exists_mem_of_mem_Scales _ _ hmem, fun hrl => ?_⟩
  have hlow := AddTilingsForRasterScale_low_res env s hrl
  refine ⟨hlow.2 hmem, hlow.1, fun hnot => ?_⟩
  have hin : s.low_res_raster_contents_scale_ ∉ Scales (TilingsWithHighRes s) := by
    rw [Scales_TilingsWithHighRes, List.mem_append]
    rintro (h | h)
    · exact hnot h
    · split_ifs at h
      · simp at h
      · exact hrl (List.mem_singleton.mp h).symm
  have hc : CreatesLowRes env s := ⟨hcan, hpinch, hanim, hrl, hin⟩
  rw [Scales_AddTilingsForRasterScale_eq, if_pos hc]

theorem low_res_tiling_ensured_when_static_witness :
    ∃ t ∈ (AddTilingsForRasterScale ExampleTree ExampleLayer).tilings_,
      t.contents_scale = ExampleLayer.low_res_raster_contents_scale_ ∧
      t.resolution = TileResolution.LOW_RESOLUTION :=
  ((low_res_tiling_ensured_when_static ExampleTree ExampleLayer rfl rfl rfl).2
    (by simp [ExampleLayer, PictureLayerImpl.Create])).1

end PictureLayerImpl

namespace PictureLayerImpl

open PictureLayerTilingSet

/-- Auxiliary: the `AddTiling` calls of `AddTilingsForRasterScale()` in closed
form. -/
theorem AddTilingsForRasterScaleAddTilingCalls_eq (env : LayerTreeImpl) (s : PictureLayerImpl) :
    AddTilingsForRasterScaleAddTilingCalls env s =
      (if s.raster_contents_scale_ ∈ Scales s.tilings_ then []
       else [s.raster_contents_scale_]) ++
      (if CreatesLowRes env s then [s.low_res_raster_contents_scale_] else []) := by
  simp only [AddTilingsForRasterScaleAddTilingCalls,
    PictureLayerTilingSet.AddTiling, FindTilingWithScale_eq, Scales_MarkAllTilingsNonIdeal,
    TilingsWithHighRes, CreatesLowRes, NewTiling]
  by_cases hr : s.raster_contents_scale_ ∈ Scales s.tilings_ <;>
  by_cases hrl : s.raster_contents_scale_ = s.low_res_raster_contents_scale_ <;>
  by_cases hl : s.low_res_raster_contents_scale_ ∈ Scales s.tilings_ <;>
  cases hc : env.create_low_res_tiling <;> cases hp : env.PinchGestureActive <;>
  cases ha : s.draw_properties.screen_space_transform_is_animating <;>
  simp [hr, hrl, hl, Scales_append, Scales_cons, Scales_nil, Scales_MarkAllTilingsNonIdeal,
    eq_comm]

/-- The tilings `AddTilingsForRasterScale()` adds are those it invokes `AddTiling`
for. -/
theorem Scales_AddTilingsForRasterScale_calls (env : LayerTreeImpl) (s : PictureLayerImpl) :
    Scales (AddTilingsForRasterScale env s).tilings_ =
      Scales s.tilings_ ++ AddTilingsForRasterScaleAddTilingCalls env s := by
  rw [Scales_AddTilingsForRasterScale_eq, AddTilingsForRasterScaleAddTilingCalls_eq,
    List.append_assoc]

end PictureLayerImpl

namespace PictureLayerImpl

open PictureLayerTilingSet

theorem CanHaveTilings_of_solid_color (s : PictureLayerImpl)
    (h : s.raster_source_.is_solid_color = true) : s.CanHaveTilings = false := by
  simp [CanHaveTilings, h]

/-- Auxiliary: `UpdateTiles()` on an initialised layer that cannot have tilings
takes the early return. -/
theorem UpdateTilesTraced_without_tilings (env : LayerTreeImpl) (ext : Externals)
    (twin_layer_ : Option (LayerTreeImpl × PictureLayerImpl)) (fuel : Nat)
    (s : PictureLayerImpl) (hinit : s.needs_post_commit_initialization_ = false)
    (hcan : s.CanHaveTilings = false) :
    UpdateTilesTraced env ext twin_layer_ fuel s = some (UpdateTilesWithoutTilings s, []) := by
  have h1 : DoPostCommitInitializationIfNeeded env ext twin_layer_ s = s := by
    simp [DoPostCommitInitializationIfNeeded, hinit]
  simp only [UpdateTilesTraced, h1, hcan]
  rfl

/-- C18: for every layer that is already initialised after commit, whose raster
source is a solid colour or, more generally, for which `CanHaveTilings()` is
false, and whose tiling set is empty, `UpdateTiles` (for every tree, twin and
bound on the pinch loop) returns without invoking `AddTiling`, leaves the tiling
set empty, sets the four ideal scales to `0` and leaves the five raster scales
and `should_update_tile_priorities_` unchanged; the checks of
`SanityCheckTilingState()` on its way pass. -/
theorem UpdateTiles_of_layer_without_tilings (env : LayerTreeImpl) (ext : Externals)
    (twin_layer_ : Option (LayerTreeImpl × PictureLayerImpl)) (fuel : Nat)
    (s : PictureLayerImpl) (hinit : s.needs_post_commit_initialization_ = false)
    (hcan : s.raster_source_.is_solid_color = true ∨ s.CanHaveTilings = false)
    (hempty : s.tilings_ = []) :
    ∃ s', UpdateTilesTraced env ext twin_layer_ fuel s = some (s', []) ∧
      UpdateTiles env ext twin_layer_ fuel s = some s' ∧
      s'.tilings_ = [] ∧
      s'.ideal_page_scale_ = 0 ∧ s'.ideal_device_scale_ = 0 ∧
      s'.ideal_source_scale_ = 0 ∧ s'.ideal_contents_scale_ = 0 ∧
      s'.raster_page_scale_ = s.raster_page_scale_ ∧
      s'.raster_device_scale_ = s.raster_device_scale_ ∧
      s'.raster_source_scale_ = s.raster_source_scale_ ∧
      s'.raster_contents_scale_ = s.raster_contents_scale_ ∧
      s'.low_res_raster_contents_scale_ = s.low_res_raster_contents_scale_ ∧
      s'.should_update_tile_priorities_ = s.should_update_tile_priorities_ ∧
      SanityCheckTilingState env s' = true := by
  have hcan' : s.CanHaveTilings = false := by
    rcases hcan with h | h
    · exact CanHaveTilings_of_solid_color s h
    · exact h
  have ht := UpdateTilesTraced_without_tilings env ext twin_layer_ fuel s hinit hcan'
  refine ⟨UpdateTilesWithoutTilings s, ht, ?_, hempty, rfl, rfl, rfl, rfl, rfl, rfl, rfl, rfl,
    rfl, rfl, ?_⟩
  · simp only [UpdateTiles, ht, Option.map_some']
  · have hc : (UpdateTilesWithoutTilings s).CanHaveTilings = false := hcan'
    have he : (UpdateTilesWithoutTilings s).tilings_ = [] := hempty
    simp [SanityCheckTilingState, hc, he, num_tilings]

theorem UpdateTiles_of_layer_without_tilings_witness :
    ∃ s', UpdateTilesTraced ExampleTree ExampleExternals none 0 SolidColorLayer = some (s', []) ∧
      UpdateTiles ExampleTree ExampleExternals none 0 SolidColorLayer = some s' ∧
      s'.tilings_ = [] ∧
      s'.ideal_page_scale_ = 0 ∧ s'.ideal_device_scale_ = 0 ∧
      s'.ideal_source_scale_ = 0 ∧ s'.ideal_contents_scale_ = 0 ∧
      s'.raster_page_scale_ = SolidColorLayer.raster_page_scale_ ∧
      s'.raster_device_scale_ = SolidColorLayer.raster_device_scale_ ∧
      s'.raster_source_scale_ = SolidColorLayer.raster_source_scale_ ∧
      s'.raster_contents_scale_ = SolidColorLayer.raster_contents_scale_ ∧
      s'.low_res_raster_contents_scale_ = SolidColorLayer.low_res_raster_contents_scale_ ∧
      s'.should_update_tile_priorities_ = SolidColorLayer.should_update_tile_priorities_ ∧
      SanityCheckTilingState ExampleTree s' = true :=
  UpdateTiles_of_layer_without_tilings ExampleTree ExampleExternals none 0 SolidColorLayer
    rfl (Or.inl rfl) rfl

end PictureLayerImpl

namespace PictureLayerImpl

open PictureLayerTilingSet

/-! ### The source-scale pin through the operations of a layer -/

theorem ResetRasterScale_fixed (s : PictureLayerImpl) :
    (ResetRasterScale s).raster_source_scale_is_fixed_ = false := rfl

theorem RemoveAllTilings_fixed (s : PictureLayerImpl) :
    (RemoveAllTilings s).raster_source_scale_is_fixed_ = false := rfl

theorem ReleaseResources_fixed (s : PictureLayerImpl) :
    (ReleaseResources s).raster_source_scale_is_fixed_ = false := rfl

theorem UpdateTilesFinish_fixed (env : LayerTreeImpl) (ext : Externals) (s : PictureLayerImpl) :
    (UpdateTilesFinish env ext s).raster_source_scale_is_fixed_ =
      s.raster_source_scale_is_fixed_ := rfl

theorem SyncFromActiveLayerTilings_fixed (env : LayerTreeImpl) (ext : Externals)
    (s other : PictureLayerImpl)
    (h : (SyncFromActiveLayerTilings env ext s other).2 = true) :
    (SyncFromActiveLayerTilings env ext s other).1.raster_source_scale_is_fixed_ =
      s.raster_source_scale_is_fixed_ := by
  unfold SyncFromActiveLayerTilings at h ⊢
  cases hc : s.CanHaveTilings
  · simp [hc] at h
  · simp only [hc, if_true]

/-- Auxiliary: the pin after `SyncFromActiveLayer(other)`. -/
theorem SyncFromActiveLayer_fixed (env : LayerTreeImpl) (ext : Externals)
    (s other : PictureLayerImpl) :
    (SyncFromActiveLayer env ext s other).raster_source_scale_is_fixed_ =
      (s.draws_content &&
        (SyncFromActiveLayerTilings env ext (CopyRasterScales s other) other).2 &&
        s.raster_source_scale_is_fixed_) := by
  unfold SyncFromActiveLayer
  by_cases hd : s.draws_content = true
  · simp only [hd, Bool.not_true, Bool.false_eq_true, if_false, Bool.true_and]
    by_cases hs : (SyncFromActiveLayerTilings env ext (CopyRasterScales s other) other).2 = true
    · simp only [hs, Bool.not_true, Bool.false_eq_true, if_false, Bool.true_and]
      exact SyncFromActiveLayerTilings_fixed env ext _ other hs
    · have hs' : (SyncFromActiveLayerTilings env ext (CopyRasterScales s other) other).2
          = false := by simpa using hs
      simp only [hs', Bool.not_false, if_true, Bool.false_and]
      rfl
  · have hd' : s.draws_content = false := by simpa using hd
    simp only [hd', Bool.not_false, if_true, Bool.false_and]
    rfl

theorem TwinAfterCleanUp_fixed (twin : PictureLayerImpl) (tilings : PictureLayerTilingSet) :
    (twin.tilings_is_null = true ∨ (TwinAfterCleanUp twin tilings).tilings_ ≠ [] →
      (TwinAfterCleanUp twin tilings).raster_source_scale_is_fixed_ =
        twin.raster_source_scale_is_fixed_) ∧
    (twin.tilings_is_null = false → (TwinAfterCleanUp twin tilings).tilings_ = [] →
      (TwinAfterCleanUp twin tilings).raster_source_scale_is_fixed_ = false) := by
  unfold TwinAfterCleanUp
  by_cases hn : twin.tilings_is_null = true
  · simp [hn]
  · have hn' : twin.tilings_is_null = false := by simpa using hn
    simp only [hn', Bool.false_eq_true, if_false, false_or, num_tilings]
    cases tilings with
    | nil => exact ⟨fun h => absurd rfl h, fun _ _ => rfl⟩
    | cons t ts =>
      refine ⟨fun _ => rfl, fun _ h => ?_⟩
      simp at h

/-- Auxiliary: what `CleanUpTilingsOnActiveLayer()` leaves of the layer
`twin_layer_` points to. -/
theorem CleanUpTilingsOnActiveLayer_twin (env : LayerTreeImpl) (ext : Externals)
    (tree : LayerTreeImpl) (twin s : PictureLayerImpl) (used_tilings : List TilingPtr) :
    (s.tilings_ = [] ∧
      (CleanUpTilingsOnActiveLayer env ext (some (tree, twin)) s used_tilings).2 =
        some (tree, twin)) ∨
    (s.tilings_ ≠ [] ∧ ∃ tilings,
      (CleanUpTilingsOnActiveLayer env ext (some (tree, twin)) s used_tilings).2 =
        some (tree, TwinAfterCleanUp twin tilings)) := by
  unfold CleanUpTilingsOnActiveLayer
  cases hs : s.tilings_ with
  | nil => left; simp [num_tilings]
  | cons t ts =>
    right
    refine ⟨by simp, ?_⟩
    simp only [num_tilings, List.length_cons]
    by_cases ha : IsOnActiveOrPendingTree tree = true
    · simp [GetPendingOrActiveTwinLayer, GetRecycledTwinLayer, ha]
    · have ha' : IsOnActiveOrPendingTree tree = false := by simpa using ha
      simp [GetPendingOrActiveTwinLayer, GetRecycledTwinLayer, ha']

theorem CleanUpTilingsOnActiveLayer_fixed (env : LayerTreeImpl) (ext : Externals)
    (twin_layer_ : Option (LayerTreeImpl × PictureLayerImpl)) (s : PictureLayerImpl)
    (used_tilings : List TilingPtr) :
    (CleanUpTilingsOnActiveLayer env ext twin_layer_ s used_tilings).1.raster_source_scale_is_fixed_
      = s.raster_source_scale_is_fixed_ := by
  unfold CleanUpTilingsOnActiveLayer
  split_ifs
  · rfl
  · cases GetPendingOrActiveTwinLayer twin_layer_ <;> rfl

theorem PushPropertiesToRecycle_fields (ext : Externals) (s : PictureLayerImpl) :
    (PushPropertiesToRecycle ext s).raster_source_scale_is_fixed_ =
      s.raster_source_scale_is_fixed_ := by
  unfold PushPropertiesToRecycle
  cases hn : s.tilings_is_null <;> cases hc : s.raster_source_.is_solid_color <;>
    simp [hn, hc]

theorem PushPropertiesTo_fixed (env : LayerTreeImpl) (ext : Externals)
    (layer_tree : LayerTreeImpl) (linked : Bool) (s layer_impl : PictureLayerImpl) :
    (PushPropertiesTo env ext layer_tree linked s layer_impl).1.raster_source_scale_is_fixed_ =
      (DoPostCommitInitializationIfNeeded env ext
        (if linked then some (layer_tree, layer_impl) else none) s).raster_source_scale_is_fixed_ ∧
    (PushPropertiesTo env ext layer_tree linked s layer_impl).2.raster_source_scale_is_fixed_ =
      layer_impl.raster_source_scale_is_fixed_ := by
  refine ⟨?_, rfl⟩
  unfold PushPropertiesTo
  exact PushPropertiesToRecycle_fields ext _

/-- Auxiliary: `UpdateTiles()` on an initialised layer keeps the pin. -/
theorem UpdateTiles_fixed (env : LayerTreeImpl) (ext : Externals)
    (twin_layer_ : Option (LayerTreeImpl × PictureLayerImpl)) (fuel : Nat)
    (s s' : PictureLayerImpl) (hinit : s.needs_post_commit_initialization_ = false)
    (hfixed : s.raster_source_scale_is_fixed_ = true)
    (h : UpdateTiles env ext twin_layer_ fuel s = some s') :
    s'.raster_source_scale_is_fixed_ = true := by
  have h1 : DoPostCommitInitializationIfNeeded env ext twin_layer_ s = s := by
    simp [DoPostCommitInitializationIfNeeded, hinit]
  simp only [UpdateTiles, UpdateTilesTraced, h1] at h
  by_cases hcan : s.CanHaveTilings = true
  · simp only [hcan, Bool.not_true, Bool.false_eq_true, if_false] at h
    have hi : (UpdateIdealScales env s).raster_source_scale_is_fixed_ = true := hfixed
    split_ifs at h with hc
    · cases hr : RecalculateRasterScales env fuel (UpdateIdealScales env s) with
      | none => simp [hr] at h
      | some x =>
        simp only [hr, Option.map_some', Option.some.injEq] at h
        have hx := (Recalculate_fields env _ fuel x hr).2.2.1
        rw [hi, Bool.true_or] at hx
        rw [← h, UpdateTilesFinish_fixed, AddTilingsForRasterScale_frame]
        exact hx
    · simp only [Option.map_some', Option.some.injEq] at h
      rw [← h, UpdateTilesFinish_fixed]
      exact hi
  · have hcan' : s.CanHaveTilings = false := by simpa using hcan
    simp only [hcan', Bool.not_false, if_true, Option.map_some', Option.some.injEq] at h
    rw [← h]
    exact hfixed

end PictureLayerImpl

namespace PictureLayerImpl

open PictureLayerTilingSet

/-- C11, as stated, fails: `ResetRasterScale()` clears the pin of a pinned layer,
and so do `RemoveAllTilings()` and `ReleaseResources()`, which call it. -/
theorem reset_clears_source_scale_pin :
    PinnedLayer.raster_source_scale_is_fixed_ = true ∧
    (ResetRasterScale PinnedLayer).raster_source_scale_is_fixed_ = false ∧
    (RemoveAllTilings PinnedLayer).raster_source_scale_is_fixed_ = false ∧
    (ReleaseResources PinnedLayer).raster_source_scale_is_fixed_ = false :=
  ⟨rfl, rfl, rfl, rfl⟩

/-- C11 (amended): the source-scale pin lasts until the raster scales are reset.
Once `raster_source_scale_is_fixed_` has been set on a layer, it is still set
after `RecalculateRasterScales`, after `UpdateTiles` and `PushPropertiesTo` on
the layer when it is already initialised after commit, after `PushPropertiesTo`
to the layer, after `CleanUpTilingsOnActiveLayer` on the layer, after
`CleanUpTilingsOnActiveLayer` on its twin unless that leaves the layer's non-null
tiling set empty, and after `SyncFromActiveLayer` when the layer draws content
and the high-res tiling is synced (which requires that the layer can have
tilings). It is cleared by `ResetRasterScale`, `RemoveAllTilings` and
`ReleaseResources`, by `SyncFromActiveLayer` in the other cases, and by
`CleanUpTilingsOnActiveLayer` on a twin with tilings when it leaves the layer's
non-null tiling set empty. -/
theorem source_scale_pin_kept_until_reset (s : PictureLayerImpl)
    (hfixed : s.raster_source_scale_is_fixed_ = true) :
    (∀ env fuel s', RecalculateRasterScales env fuel s = some s' →
      s'.raster_source_scale_is_fixed_ = true) ∧
    (s.needs_post_commit_initialization_ = false →
      (∀ env ext twin_layer_ fuel s', UpdateTiles env ext twin_layer_ fuel s = some s' →
        s'.raster_source_scale_is_fixed_ = true) ∧
      (∀ env ext layer_tree linked layer_impl,
        (PushPropertiesTo env ext layer_tree linked s layer_impl).1.raster_source_scale_is_fixed_ =
          true)) ∧
    (∀ env ext layer_tree linked pending,
      (PushPropertiesTo env ext layer_tree linked pending s).2.raster_source_scale_is_fixed_ =
        true) ∧
    (∀ env ext twin_layer_ used_tilings,
      (CleanUpTilingsOnActiveLayer env ext twin_layer_ s
        used_tilings).1.raster_source_scale_is_fixed_ = true) ∧
    (∀ env ext tree active used_tilings twin,
      (CleanUpTilingsOnActiveLayer env ext (some (tree, s)) active used_tilings).2 = some twin →
      (s.tilings_is_null = true ∨ twin.2.tilings_ ≠ [] →
        twin.2.raster_source_scale_is_fixed_ = true) ∧
      (active.tilings_ ≠ [] → s.tilings_is_null = false → twin.2.tilings_ = [] →
        twin.2.raster_source_scale_is_fixed_ = false)) ∧
    (∀ env ext other,
      (SyncFromActiveLayerTilings env ext (CopyRasterScales s other) other).2 = true →
        (CopyRasterScales s other).CanHaveTilings = true) ∧
    (∀ env ext other,
      (s.draws_content = true ∧
        (SyncFromActiveLayerTilings env ext (CopyRasterScales s other) other).2 = true →
        (SyncFromActiveLayer env ext s other).raster_source_scale_is_fixed_ = true) ∧
      (¬(s.draws_content = true ∧
        (SyncFromActiveLayerTilings env ext (CopyRasterScales s other) other).2 = true) →
        (SyncFromActiveLayer env ext s other).raster_source_scale_is_fixed_ = false)) ∧
    (ResetRasterScale s).raster_source_scale_is_fixed_ = false ∧
    (RemoveAllTilings s).raster_source_scale_is_fixed_ = false ∧
    (ReleaseResources s).raster_source_scale_is_fixed_ = false := by
  refine ⟨fun env fuel s' h => ?_, fun hinit => ⟨fun env ext tw fuel s' h => ?_, ?_⟩, ?_, ?_, ?_,
    ?_, ?_, rfl, rfl, rfl⟩
  · have hx := (Recalculate_fields env s fuel s' h).2.2.1
    rw [hfixed, Bool.true_or] at hx
    exact hx
  · exact UpdateTiles_fixed env ext tw fuel s s' hinit hfixed h
  · intro env ext layer_tree linked layer_impl
    rw [(PushPropertiesTo_fixed env ext layer_tree linked s layer_impl).1]
    simp only [DoPostCommitInitializationIfNeeded, hinit, Bool.false_eq_true, if_false]
    exact hfixed
  · intro env ext layer_tree linked pending
    rw [(PushPropertiesTo_fixed env ext layer_tree linked pending s).2]
    exact hfixed
  · intro env ext tw used
    rw [CleanUpTilingsOnActiveLayer_fixed]
    exact hfixed
  · intro env ext tree active used twin htwin
    rcases CleanUpTilingsOnActiveLayer_twin env ext tree s active used with ⟨he, h⟩ | ⟨hne, X, h⟩
    · rw [h, Option.some.injEq] at htwin
      subst htwin
      exact ⟨fun _ => hfixed, fun hact => absurd he hact⟩
    · rw [h, Option.some.injEq] at htwin
      subst htwin
      have hX := TwinAfterCleanUp_fixed s X
      exact ⟨fun hc => (hX.1 hc).trans hfixed, fun _ hn hemp => hX.2 hn hemp⟩
  · intro env ext other h
    unfold SyncFromActiveLayerTilings at h
    cases hc : (CopyRasterScales s other).CanHaveTilings
    · simp [hc] at h
    · rfl
  · intro env ext other
    rw [SyncFromActiveLayer_fixed, hfixed, Bool.and_true]
    constructor
    · rintro ⟨hd, hs⟩
      rw [hd, hs]
      rfl
    · intro hnot
      cases hd : s.draws_content
      · rfl
      · cases hs : (SyncFromActiveLayerTilings env ext (CopyRasterScales s other) other).2
        · rfl
        · exact absurd ⟨hd, hs⟩ hnot

theorem source_scale_pin_kept_until_reset_witness :
    (UpdateTiles ExampleTree ExampleExternals none 0 PinnedLayer).isSome = true ∧
    ∀ s', UpdateTiles ExampleTree ExampleExternals none 0 PinnedLayer = some s' →
      s'.raster_source_scale_is_fixed_ = true :=
  ⟨by
    simp [UpdateTiles, UpdateTilesTraced, DoPostCommitInitializationIfNeeded, PinnedLayer,
      ExampleLayer, PictureLayerImpl.Create, CanHaveTilings, UpdateIdealScales,
      ShouldAdjustRasterScale, ExampleTree, MinimumContentsScale],
   ((source_scale_pin_kept_until_reset PinnedLayer rfl).2.1 rfl).1
     ExampleTree ExampleExternals none 0⟩

end PictureLayerImpl

namespace PictureLayerImpl

/-- C29: termination of the pinch stepping loops of `RecalculateRasterScales`
over exact arithmetic. For a previous `raster_contents_scale_ > 0` and an
`ideal_contents_scale_ > 0`, the zoom-out loop stops after some number `k` of
halvings and the zoom-in loop after some number `k` of doublings (every larger
bound on the number of iterations gives the same result), so the choice of the
desired contents scale and `RecalculateRasterScales` itself return for every
large enough bound; and `UpdateIdealScales` yields a positive
`ideal_contents_scale_` whenever the minimum contents scale is positive. -/
theorem pinch_loops_terminate (env : LayerTreeImpl) (s : PictureLayerImpl)
    (hr : 0 < s.raster_contents_scale_) (hi : 0 < s.ideal_contents_scale_) :
    (∃ k : Nat, s.raster_contents_scale_ / 2 ^ k ≤ s.ideal_contents_scale_ ∧
      ∀ fuel, k ≤ fuel →
        PinchZoomOutLoop s.ideal_contents_scale_ fuel s.raster_contents_scale_ =
          some (s.raster_contents_scale_ / 2 ^ k)) ∧
    (∃ k : Nat, s.ideal_contents_scale_ ≤ s.raster_contents_scale_ * 2 ^ k ∧
      ∀ fuel, k ≤ fuel →
        PinchZoomInLoop s.ideal_contents_scale_ fuel s.raster_contents_scale_ =
          some (s.raster_contents_scale_ * 2 ^ k)) ∧
    (∃ k d, ∀ fuel, k ≤ fuel →
      PinchDesiredContentsScale fuel s.raster_contents_scale_ s.raster_page_scale_
        s.ideal_page_scale_ s.ideal_contents_scale_ = some d) ∧
    (∃ k s', ∀ fuel, k ≤ fuel → RecalculateRasterScales env fuel s = some s') ∧
    (∀ s0 : PictureLayerImpl, 0 < MinimumContentsScale env s0 →
      0 < (UpdateIdealScales env s0).ideal_contents_scale_) := by
  refine ⟨?_, ?_, PinchDesired_returns _ _ _ _ hr hi,
    Recalculate_returns env s (fun _ _ => ⟨hr, hi⟩), fun s0 h0 => ?_⟩
  · obtain ⟨k, k1, k2⟩ :=
      exists_least_zoom_out s.raster_contents_scale_ s.ideal_contents_scale_ hi
    exact ⟨k, k1, fun fuel hf => (PinchZoomOutLoop_spec _ k _ fuel hf k1 k2).1⟩
  · obtain ⟨k, k1, k2⟩ :=
      exists_least_zoom_in s.raster_contents_scale_ s.ideal_contents_scale_ hr
    exact ⟨k, k1, fun fuel hf => (PinchZoomInLoop_spec _ k _ fuel hf k1 k2).1⟩
  · have e : (UpdateIdealScales env s0).ideal_contents_scale_ =
        max s0.draw_properties.ideal_contents_scale (MinimumContentsScale env s0) := rfl
    rw [e]
    exact lt_of_lt_of_le h0 (le_max_right _ _)

theorem pinch_loops_terminate_witness :
    ∃ k s', ∀ fuel, k ≤ fuel → RecalculateRasterScales PinchTree fuel ZoomInLayer = some s' :=
  (pinch_loops_terminate PinchTree ZoomInLayer (by decide) (by decide)).2.2.2.1

end PictureLayerImpl

namespace PictureLayerImpl

/-- One gated frame of a steady-pinch state below half the ideal scale: the raster
contents scale is doubled the least number of times that reaches the ideal
contents scale. -/
theorem SteadyPinch_zoom_in_value (env : LayerTreeImpl) (s : PictureLayerImpl)
    (h : SteadyPinch env s) (hlt : 2 * s.raster_contents_scale_ < s.ideal_contents_scale_)
    (k : Nat) (k1 : s.ideal_contents_scale_ ≤ s.raster_contents_scale_ * 2 ^ k)
    (k2 : ∀ j, j < k → s.raster_contents_scale_ * 2 ^ j < s.ideal_contents_scale_)
    (fuel : Nat) (hf : k ≤ fuel) :
    UpdateRasterScalesIfNeeded env fuel s =
      some (AddTilingsForRasterScale env
        (PinchOverrideResult env s (s.raster_contents_scale_ * 2 ^ k))) := by
  obtain ⟨g1, _, _⟩ := SteadyPinch_page_gt_iff env s h
  have hsa : ShouldAdjustRasterScale env s = true :=
    (SteadyPinch_ShouldAdjust_iff env s h).mpr (Or.inr hlt)
  obtain ⟨hpinch, _, _, _, _, hp, hdv, hs, hic, _, _, _, ho, _⟩ := h
  have hnz : ¬ s.raster_page_scale_ > s.ideal_page_scale_ := by
    rw [g1]; intro hc; linarith
  have e3 : PinchDesiredContentsScale fuel s.raster_contents_scale_ s.raster_page_scale_
      s.ideal_page_scale_ s.ideal_contents_scale_ =
        some (s.raster_contents_scale_ * 2 ^ k) := by
    simp only [PinchDesiredContentsScale, hnz, decide_False]
    exact (PinchZoomInLoop_spec _ k _ fuel hf k1 k2).1
  simp only [UpdateRasterScalesIfNeeded, hsa, or_true, if_true]
  rw [Recalculate_with_pinch env s fuel hpinch (ne_of_gt ho), e3]
  rfl

/-- One gated frame of a steady-pinch state above the ideal scale: the raster
contents scale is halved the least number of times that reaches the ideal
contents scale. -/
theorem SteadyPinch_zoom_out_value (env : LayerTreeImpl) (s : PictureLayerImpl)
    (h : SteadyPinch env s) (hgt : s.raster_contents_scale_ > s.ideal_contents_scale_)
    (k : Nat) (k1 : s.raster_contents_scale_ / 2 ^ k ≤ s.ideal_contents_scale_)
    (k2 : ∀ j, j < k → s.ideal_contents_scale_ < s.raster_contents_scale_ / 2 ^ j)
    (fuel : Nat) (hf : k ≤ fuel) :
    UpdateRasterScalesIfNeeded env fuel s =
      some (AddTilingsForRasterScale env
        (PinchOverrideResult env s (s.raster_contents_scale_ / 2 ^ k))) := by
  obtain ⟨g1, _, _⟩ := SteadyPinch_page_gt_iff env s h
  have hsa : ShouldAdjustRasterScale env s = true :=
    (SteadyPinch_ShouldAdjust_iff env s h).mpr (Or.inl hgt)
  obtain ⟨hpinch, _, _, _, _, hp, hdv, hs, hic, _, _, _, ho, _⟩ := h
  have e3 : PinchDesiredContentsScale fuel s.raster_contents_scale_ s.raster_page_scale_
      s.ideal_page_scale_ s.ideal_contents_scale_ =
        some (s.raster_contents_scale_ / 2 ^ k) := by
    simp only [PinchDesiredContentsScale, g1.mpr hgt, decide_True, if_true]
    exact (PinchZoomOutLoop_spec _ k _ fuel hf k1 k2).1
  simp only [UpdateRasterScalesIfNeeded, hsa, or_true, if_true]
  rw [Recalculate_with_pinch env s fuel hpinch (ne_of_gt ho), e3]
  rfl

/-- One gated frame of a steady-pinch state between the ideal scale and twice the
ideal scale: one halving, after which nothing changes. -/
theorem SteadyPinch_overshoot (env : LayerTreeImpl) (t : PictureLayerImpl)
    (h : SteadyPinch env t) (hgt : t.ideal_contents_scale_ < t.raster_contents_scale_)
    (hlt : t.raster_contents_scale_ < 2 * t.ideal_contents_scale_) :
    ∃ t2 : PictureLayerImpl,
      (∀ fuel, 1 ≤ fuel → UpdateRasterScalesIfNeeded env fuel t = some t2) ∧
      (∀ fuel, UpdateRasterScalesIfNeeded env fuel t2 = some t2) ∧
      t2.raster_contents_scale_ = t.raster_contents_scale_ / 2 ∧
      t2.ideal_contents_scale_ = t.ideal_contents_scale_ := by
  have k1 : t.raster_contents_scale_ / 2 ^ 1 ≤ t.ideal_contents_scale_ := by
    rw [pow_one]; linarith
  have k2 : ∀ i, i < 1 → t.ideal_contents_scale_ < t.raster_contents_scale_ / 2 ^ i := by
    intro i hi
    obtain rfl : i = 0 := by omega
    rw [pow_zero, div_one]
    exact hgt
  have hhalf : t.ideal_contents_scale_ / 2 ≤ t.raster_contents_scale_ / 2 ^ 1 := by
    rw [pow_one]; linarith
  obtain ⟨r1, r2, r3⟩ := SteadyPinch_override env t (t.raster_contents_scale_ / 2 ^ 1) h hhalf
  refine ⟨_, fun fuel hf => SteadyPinch_zoom_out_value env t h hgt 1 k1 k2 fuel hf,
    fun fuel => SteadyPinch_stable env _ r1 (by rw [r2, r3]; exact hhalf)
      (by rw [r2, r3]; exact k1) fuel, by rw [r2, pow_one], r3⟩

/-- The frames of a steady-pinch state: the first two frames and what they do to
the raster contents scale. -/
theorem SteadyPinch_two_frames (env : LayerTreeImpl) (s : PictureLayerImpl)
    (h : SteadyPinch env s) :
    ∃ (k : Nat) (t1 t2 : PictureLayerImpl),
      (∀ fuel, k ≤ fuel →
        UpdateRasterScalesIfNeeded env fuel s = some t1 ∧
        UpdateRasterScalesIfNeeded env fuel t1 = some t2 ∧
        UpdateRasterScalesIfNeeded env fuel t2 = some t2) ∧
      s.ideal_contents_scale_ / 2 ≤ t2.raster_contents_scale_ ∧
      t2.raster_contents_scale_ ≤ s.ideal_contents_scale_ ∧
      (2 * s.raster_contents_scale_ < s.ideal_contents_scale_ →
        (∃ j : Nat, t1.raster_contents_scale_ = s.raster_contents_scale_ * 2 ^ j) ∧
        s.ideal_contents_scale_ ≤ t1.raster_contents_scale_ ∧
        t1.raster_contents_scale_ < 2 * s.ideal_contents_scale_ ∧
        (s.ideal_contents_scale_ < t1.raster_contents_scale_ →
          t2.raster_contents_scale_ = t1.raster_contents_scale_ / 2) ∧
        (t1.raster_contents_scale_ = s.ideal_contents_scale_ → t2 = t1)) ∧
      (s.ideal_contents_scale_ < s.raster_contents_scale_ →
        (∃ j : Nat, t1.raster_contents_scale_ = s.raster_contents_scale_ / 2 ^ j) ∧ t2 = t1) ∧
      (s.ideal_contents_scale_ / 2 ≤ s.raster_contents_scale_ →
        s.raster_contents_scale_ ≤ s.ideal_contents_scale_ → t1 = s ∧ t2 = s) := by
  have hI : 0 < s.ideal_contents_scale_ := by
    obtain ⟨_, _, _, _, _, hp, hdv, hs, hic, _⟩ := h
    rw [hic]; exact mul_pos (mul_pos hp hdv) hs
  have ho : 0 < s.raster_contents_scale_ := h.2.2.2.2.2.2.2.2.2.2.2.2.1
  by_cases hgt : s.raster_contents_scale_ > s.ideal_contents_scale_
  · obtain ⟨k, k1, k2⟩ :=
      exists_least_zoom_out s.raster_contents_scale_ s.ideal_contents_scale_ hI
    have hk : k ≠ 0 := by
      rintro rfl
      simp at k1
      linarith
    obtain ⟨j, rfl⟩ : ∃ j, k = j + 1 := ⟨k - 1, by omega⟩
    have d1 : s.ideal_contents_scale_ / 2 < s.raster_contents_scale_ / 2 ^ (j + 1) := by
      have := k2 j (Nat.lt_succ_self j)
      have e : s.raster_contents_scale_ / 2 ^ (j + 1) =
          s.raster_contents_scale_ / 2 ^ j / 2 := by rw [pow_succ, div_div]
      rw [e]
      linarith
    obtain ⟨q1, q2, q3⟩ := SteadyPinch_override env s _ h (le_of_lt d1)
    refine ⟨j + 1, _, _, fun fuel hf =>
      ⟨SteadyPinch_zoom_out_value env s h hgt (j + 1) k1 k2 fuel hf, ?_, ?_⟩,
      by rw [q2]; exact le_of_lt d1, by rw [q2]; exact k1,
      fun hlt => absurd hlt (by intro hc; linarith), fun _ => ⟨⟨j + 1, q2⟩, rfl⟩,
      fun _ hle => absurd hgt (not_lt.mpr hle)⟩
    · exact SteadyPinch_stable env _ q1 (by rw [q2, q3]; exact le_of_lt d1)
        (by rw [q2, q3]; exact k1) fuel
    · exact SteadyPinch_stable env _ q1 (by rw [q2, q3]; exact le_of_lt d1)
        (by rw [q2, q3]; exact k1) fuel
  · by_cases hlt : 2 * s.raster_contents_scale_ < s.ideal_contents_scale_
    · obtain ⟨k, k1, k2⟩ :=
        exists_least_zoom_in s.raster_contents_scale_ s.ideal_contents_scale_ ho
      have hk : k ≠ 0 := by
        rintro rfl
        simp at k1
        linarith
      obtain ⟨j, rfl⟩ : ∃ j, k = j + 1 := ⟨k - 1, by omega⟩
      have d2 : s.raster_contents_scale_ * 2 ^ (j + 1) < 2 * s.ideal_contents_scale_ := by
        have := k2 j (Nat.lt_succ_self j)
        have e : s.raster_contents_scale_ * 2 ^ (j + 1) =
            s.raster_contents_scale_ * 2 ^ j * 2 := by rw [pow_succ, mul_assoc]
        rw [e]
        linarith
      obtain ⟨q1, q2, q3⟩ := SteadyPinch_override env s
        (s.raster_contents_scale_ * 2 ^ (j + 1)) h (by linarith)
      have hstep := SteadyPinch_zoom_in_value env s h hlt (j + 1) k1 k2
      by_cases hd : s.raster_contents_scale_ * 2 ^ (j + 1) = s.ideal_contents_scale_
      · have hst := SteadyPinch_stable env _ q1 (by rw [q2, q3]; linarith)
          (by rw [q2, q3, hd])
        refine ⟨j + 1, _, _, fun fuel hf => ⟨hstep fuel hf, hst fuel, hst fuel⟩,
          by rw [q2]; linarith, by rw [q2, hd],
          fun _ => ⟨⟨j + 1, q2⟩, by rw [q2]; exact k1, by rw [q2]; exact d2,
            fun hc => absurd hc (by rw [q2, hd]; exact lt_irrefl _), fun _ => rfl⟩,
          fun hc => absurd hc hgt, fun hc _ => absurd hlt (by intro hx; linarith)⟩
      · have hgd : s.ideal_contents_scale_ < s.raster_contents_scale_ * 2 ^ (j + 1) :=
          lt_of_le_of_ne k1 (Ne.symm hd)
        obtain ⟨t2, e1, e2, e3, e4⟩ := SteadyPinch_overshoot env _ q1
          (by rw [q2, q3]; exact hgd) (by rw [q2, q3]; exact d2)
        rw [q2] at e3
        refine ⟨max (j + 1) 1, _, t2, fun fuel hf =>
          ⟨hstep fuel (le_trans (le_max_left _ _) hf),
            e1 fuel (le_trans (le_max_right _ _) hf), e2 fuel⟩,
          by rw [e3]; linarith, by rw [e3]; linarith,
          fun _ => ⟨⟨j + 1, q2⟩, by rw [q2]; exact k1, by rw [q2]; exact d2,
            fun _ => by rw [e3, q2], fun hc => absurd (q2 ▸ hc) hd⟩,
          fun hc => absurd hc hgt, fun hc _ => absurd hlt (by intro hx; linarith)⟩
    · have h1 : s.ideal_contents_scale_ / 2 ≤ s.raster_contents_scale_ := by linarith
      have h2 : s.raster_contents_scale_ ≤ s.ideal_contents_scale_ := le_of_not_gt hgt
      have hst := SteadyPinch_stable env s h h1 h2
      exact ⟨0, s, s, fun fuel _ => ⟨hst fuel, hst fuel, hst fuel⟩, h1, h2,
        fun hc => absurd hc hlt, fun hc => absurd hc hgt, fun _ _ => ⟨rfl, rfl⟩⟩

end PictureLayerImpl

namespace PictureLayerImpl

/-- C30: one frame being the raster scale update of `UpdateTiles`
(`if (!raster_contents_scale_ || ShouldAdjustRasterScale())
{ RecalculateRasterScales(); AddTilingsForRasterScale(); }`), with a pinch active,
snapping returning its argument, the transform neither animating nor having been
animating, the source scale not pinned, positive ideal scales with
`ideal_contents = page * device * source`, the raster device and source scales
equal to the ideal ones, `raster_page_scale_ = raster_contents_scale_ / device /
source`, a positive raster contents scale and a minimum contents scale of at most
half the ideal contents scale: the first frame leads to a state `t1`, the second
to a state `t2` that every further frame leaves unchanged, so the raster contents
scale changes in at most two frames, and `t2` has
`ideal_contents_scale_ / 2 ≤ raster_contents_scale_ ≤ ideal_contents_scale_`. A
zoom-in (from below half the ideal scale) doubles up to the first value at or
above the ideal scale; when it overshoots, the second frame halves once. A
zoom-out (from above the ideal scale) settles in one frame, and a state already
within the band does not change. -/
theorem steady_pinch_settles_in_two_frames (env : LayerTreeImpl) (s : PictureLayerImpl)
    (hpinch : env.PinchGestureActive = true)
    (hsnap : ∀ ts d r, env.GetSnappedContentsScale ts d r = d)
    (hanim : s.draw_properties.screen_space_transform_is_animating = false)
    (hwas : s.was_screen_space_transform_animating_ = false)
    (hfix : s.raster_source_scale_is_fixed_ = false)
    (hp : 0 < s.ideal_page_scale_) (hd : 0 < s.ideal_device_scale_)
    (hs : 0 < s.ideal_source_scale_)
    (hic : s.ideal_contents_scale_ =
      s.ideal_page_scale_ * s.ideal_device_scale_ * s.ideal_source_scale_)
    (hrd : s.raster_device_scale_ = s.ideal_device_scale_)
    (hrs : s.raster_source_scale_ = s.ideal_source_scale_)
    (hrp : s.raster_page_scale_ =
      s.raster_contents_scale_ / s.raster_device_scale_ / s.raster_source_scale_)
    (ho : 0 < s.raster_contents_scale_)
    (hmin : MinimumContentsScale env s ≤ s.ideal_contents_scale_ / 2) :
    ∃ (k : Nat) (t1 t2 : PictureLayerImpl),
      (∀ fuel, k ≤ fuel →
        UpdateRasterScalesIfNeeded env fuel s = some t1 ∧
        UpdateRasterScalesIfNeeded env fuel t1 = some t2 ∧
        UpdateRasterScalesIfNeeded env fuel t2 = some t2 ∧
        UpdateRasterScalesRepeatedly env fuel 1 s = some t1 ∧
        ∀ n, 2 ≤ n → UpdateRasterScalesRepeatedly env fuel n s = some t2) ∧
      s.ideal_contents_scale_ / 2 ≤ t2.raster_contents_scale_ ∧
      t2.raster_contents_scale_ ≤ s.ideal_contents_scale_ ∧
      (2 * s.raster_contents_scale_ < s.ideal_contents_scale_ →
        (∃ j : Nat, t1.raster_contents_scale_ = s.raster_contents_scale_ * 2 ^ j) ∧
        s.ideal_contents_scale_ ≤ t1.raster_contents_scale_ ∧
        t1.raster_contents_scale_ < 2 * s.ideal_contents_scale_ ∧
        (s.ideal_contents_scale_ < t1.raster_contents_scale_ →
          t2.raster_contents_scale_ = t1.raster_contents_scale_ / 2) ∧
        (t1.raster_contents_scale_ = s.ideal_contents_scale_ → t2 = t1)) ∧
      (s.ideal_contents_scale_ < s.raster_contents_scale_ →
        (∃ j : Nat, t1.raster_contents_scale_ = s.raster_contents_scale_ / 2 ^ j) ∧ t2 = t1) ∧
      (s.ideal_contents_scale_ / 2 ≤ s.raster_contents_scale_ →
        s.raster_contents_scale_ ≤ s.ideal_contents_scale_ → t1 = s ∧ t2 = s) := by
  obtain ⟨k, t1, t2, hsteps, hrest⟩ := SteadyPinch_two_frames env s
    ⟨hpinch, hsnap, hanim, hwas, hfix, hp, hd, hs, hic, hrd, hrs, hrp, ho, hmin⟩
  refine ⟨k, t1, t2, fun fuel hf => ?_, hrest⟩
  obtain ⟨e1, e2, e3⟩ := hsteps fuel hf
  refine ⟨e1, e2, e3, by simp [UpdateRasterScalesRepeatedly, e1], fun n hn => ?_⟩
  obtain ⟨m, rfl⟩ : ∃ m, n = m + 2 := ⟨n - 2, by omega⟩
  simp only [UpdateRasterScalesRepeatedly, e1, e2, Option.some_bind]
  exact UpdateRasterScalesRepeatedly_of_stable env fuel t2 e3 m

/-- C30 at raster scale `1` and ideal scale `5`: the first frame zooms in to `8`,
the second halves to `4`, and nothing changes afterwards. -/
theorem steady_pinch_settles_in_two_frames_witness :
    ∃ (k : Nat) (t1 t2 : PictureLayerImpl),
      (∀ fuel, k ≤ fuel →
        UpdateRasterScalesIfNeeded PinchTree fuel ZoomInLayer = some t1 ∧
        UpdateRasterScalesIfNeeded PinchTree fuel t1 = some t2 ∧
        UpdateRasterScalesIfNeeded PinchTree fuel t2 = some t2 ∧
        UpdateRasterScalesRepeatedly PinchTree fuel 1 ZoomInLayer = some t1 ∧
        ∀ n, 2 ≤ n → UpdateRasterScalesRepeatedly PinchTree fuel n ZoomInLayer = some t2) ∧
      ZoomInLayer.raster_contents_scale_ = 1 ∧ ZoomInLayer.ideal_contents_scale_ = 5 ∧
      t1.raster_contents_scale_ = 8 ∧ t2.raster_contents_scale_ = 4 := by
  obtain ⟨k, t1, t2, hsteps, _, _, hin, _, _⟩ :=
    steady_pinch_settles_in_two_frames PinchTree ZoomInLayer rfl (fun _ _ _ => rfl) rfl rfl rfl
      (by decide) (by decide) (by decide)
      (by norm_num [ZoomInLayer, ExampleLayer]) rfl rfl
      (by norm_num [ZoomInLayer, ExampleLayer]) (by decide)
      (by norm_num [MinimumContentsScale, ZoomInLayer, ExampleLayer, PinchTree, ExampleTree])
  have e5 : ZoomInLayer.ideal_contents_scale_ = 5 := rfl
  have e1 : ZoomInLayer.raster_contents_scale_ = 1 := rfl
  rw [e5, e1] at hin
  obtain ⟨⟨j, hj⟩, h1, h2, h3, _⟩ := hin (by norm_num)
  have h8 : t1.raster_contents_scale_ = 8 := by
    rw [hj] at h1 h2 ⊢
    have hj3 : j = 3 := by
      by_contra hne
      rcases Nat.lt_or_gt_of_ne hne with hlt | hgt
      · have : j ≤ 2 := by omega
        have hp : (2 : ℚ) ^ j ≤ 2 ^ 2 := pow_le_pow_right₀ (by norm_num) this
        norm_num at hp h1
        linarith
      · have : 4 ≤ j := by omega
        have hp : (2 : ℚ) ^ 4 ≤ 2 ^ j := pow_le_pow_right₀ (by norm_num) this
        norm_num at hp h2
        linarith
    subst hj3
    norm_num
  refine ⟨k, t1, t2, hsteps, rfl, rfl, h8, ?_⟩
  rw [h3 (by rw [h8]; norm_num), h8]
  norm_num

end PictureLayerImpl

namespace PictureLayerImpl

/-- What `AppendQuadsForTile` does to the state, by components. -/
theorem AppendQuadsForTile_spec (inp : AppendQuadsInputs) (s : PictureLayerImpl)
    (iter : CoverageEntry) (tile : Tile) (st : AppendQuadsState)
    (htile : iter.tile = some tile) (hready : tile.IsReadyToDraw = true) :
    let r := AppendQuadsForTile inp s iter.geometry_rect
      (if inp.contents_opaque then iter.geometry_rect else ⟨0, 0, 0, 0⟩)
      (inp.GetUnoccludedContentRect iter.geometry_rect) tile st
    r.2 = HasDrawableTile inp iter ∧
    r.1.render_pass =
      st.render_pass ++ (if HasDrawableTile inp iter then [TileQuad inp iter tile] else []) ∧
    r.1.append_quads_data.num_missing_tiles = st.append_quads_data.num_missing_tiles ∧
    r.1.append_quads_data.visible_content_area = st.append_quads_data.visible_content_area ∧
    r.1.append_quads_data.approximated_visible_content_area =
      st.append_quads_data.approximated_visible_content_area ∧
    r.1.only_used_low_res_last_append_quads_ = st.only_used_low_res_last_append_quads_ ∧
    r.1.missing_tile_count = st.missing_tile_count := by
  intro r
  simp only [r, AppendQuadsForTile, HasDrawableTile, htile, hready, TileQuad]
  cases hm : tile.mode <;> cases ha : inp.allow_rasterize_on_demand <;> simp <;>
    split_ifs <;> simp

/-- What one iteration of the main loop of `AppendQuads` does to the state, by
components. -/
theorem AppendQuadsIteration_spec (inp : AppendQuadsInputs) (s : PictureLayerImpl)
    (st : AppendQuadsState) (iter : CoverageEntry) :
    (AppendQuadsIteration inp s st iter).render_pass =
      st.render_pass ++ (if IsVisibleEntry inp iter then [ContentQuad inp iter] else []) ∧
    (AppendQuadsIteration inp s st iter).append_quads_data.num_missing_tiles =
      st.append_quads_data.num_missing_tiles + (if IsMissingTile inp iter then 1 else 0) ∧
    (AppendQuadsIteration inp s st iter).missing_tile_count =
      st.missing_tile_count + (if IsMissingTile inp iter then 1 else 0) ∧
    (AppendQuadsIteration inp s st iter).append_quads_data.visible_content_area =
      st.append_quads_data.visible_content_area + VisibleArea inp iter ∧
    (AppendQuadsIteration inp s st iter).append_quads_data.approximated_visible_content_area =
      st.append_quads_data.approximated_visible_content_area + ApproximatedArea inp iter ∧
    (AppendQuadsIteration inp s st iter).only_used_low_res_last_append_quads_ =
      (st.only_used_low_res_last_append_quads_ && !UsesOtherThanLowRes inp iter) := by
  cases hv : (inp.GetUnoccludedContentRect iter.geometry_rect).IsEmpty
  · -- a visible position
    have hvis : IsVisibleEntry inp iter = true := by simp [IsVisibleEntry, hv]
    cases htile : iter.tile with
    | none =>
      have hd : HasDrawableTile inp iter = false := by simp [HasDrawableTile, htile]
      simp only [AppendQuadsIteration, hv, htile, Bool.false_eq_true, if_false, Bool.not_false,
        if_true]
      simp only [AppendQuadsForMissingTile, IsMissingTile, VisibleArea, ApproximatedArea,
        UsesOtherThanLowRes, ContentQuad, MissingTileQuad, htile, hvis, hd]
      cases hc : inp.draw_checkerboard_for_missing_tiles <;>
        cases hi : iter.geometry_rect.Intersects inp.scaled_viewport_for_tile_priority <;>
        simp
    | some tile =>
      cases hready : tile.IsReadyToDraw
      · have hd : HasDrawableTile inp iter = false := by simp [HasDrawableTile, htile, hready]
        simp only [AppendQuadsIteration, hv, htile, hready, Bool.false_eq_true, if_false,
          Bool.not_false, if_true]
        simp only [AppendQuadsForMissingTile, IsMissingTile, VisibleArea, ApproximatedArea,
          UsesOtherThanLowRes, ContentQuad, MissingTileQuad, htile, hvis, hd]
        cases hc : inp.draw_checkerboard_for_missing_tiles <;>
          cases hi : iter.geometry_rect.Intersects inp.scaled_viewport_for_tile_priority <;>
          simp
      · obtain ⟨h1, h2, h3, h4, h5, h6, h7⟩ := AppendQuadsForTile_spec inp s iter tile
          { st with
            append_quads_data :=
              { st.append_quads_data with
                visible_content_area := st.append_quads_data.visible_content_area +
                  RectArea (inp.GetUnoccludedContentRect iter.geometry_rect) } }
          htile hready
        simp only [AppendQuadsIteration, hv, htile, hready, Bool.false_eq_true, if_false,
          if_true]
        cases hd : HasDrawableTile inp iter
        · rw [hd] at h1 h2
          simp only [h1, Bool.not_false, if_true]
          simp only [AppendQuadsForMissingTile, IsMissingTile, VisibleArea, ApproximatedArea,
            UsesOtherThanLowRes, ContentQuad, MissingTileQuad, htile, hvis, hd]
          cases hc : inp.draw_checkerboard_for_missing_tiles <;>
            cases hi : iter.geometry_rect.Intersects inp.scaled_viewport_for_tile_priority <;>
            simp [h2, h3, h4, h5, h6, h7]
        · rw [hd] at h1 h2
          simp only [if_true] at h2
          dsimp only at h2 h3 h4 h5 h6 h7
          generalize AppendQuadsForTile inp s iter.geometry_rect
            (if inp.contents_opaque = true then iter.geometry_rect else ⟨0, 0, 0, 0⟩)
            (inp.GetUnoccludedContentRect iter.geometry_rect) tile _ = r at h1 h2 h3 h4 h5 h6 h7 ⊢
          simp only [h1, Bool.not_true, Bool.false_eq_true, if_false]
          simp only [AppendQuadsAfterTile, IsMissingTile, VisibleArea, ApproximatedArea,
            UsesOtherThanLowRes, ContentQuad, htile, hvis, hd]
          by_cases hh : iter.resolution = TileResolution.HIGH_RESOLUTION <;>
            by_cases hl : iter.resolution = TileResolution.LOW_RESOLUTION <;>
            split_ifs <;> simp_all
  · have hvis : IsVisibleEntry inp iter = false := by simp [IsVisibleEntry, hv]
    simp [AppendQuadsIteration, hv, IsMissingTile, VisibleArea, ApproximatedArea,
      UsesOtherThanLowRes, hvis]

end PictureLayerImpl

namespace PictureLayerImpl

/-- What the main loop of `AppendQuads` does to the state, by components. -/
theorem AppendQuadsIteration_foldl (inp : AppendQuadsInputs) (s : PictureLayerImpl) :
    ∀ (coverage : List CoverageEntry) (st : AppendQuadsState),
      (coverage.foldl (AppendQuadsIteration inp s) st).render_pass =
        st.render_pass ++ (coverage.filter (IsVisibleEntry inp)).map (ContentQuad inp) ∧
      (coverage.foldl (AppendQuadsIteration inp s) st).append_quads_data.num_missing_tiles =
        st.append_quads_data.num_missing_tiles + coverage.countP (IsMissingTile inp) ∧
      (coverage.foldl (AppendQuadsIteration inp s) st).missing_tile_count =
        st.missing_tile_count + coverage.countP (IsMissingTile inp) ∧
      (coverage.foldl (AppendQuadsIteration inp s) st).append_quads_data.visible_content_area =
        st.append_quads_data.visible_content_area + (coverage.map (VisibleArea inp)).sum ∧
      (coverage.foldl (AppendQuadsIteration inp s)
          st).append_quads_data.approximated_visible_content_area =
        st.append_quads_data.approximated_visible_content_area +
          (coverage.map (ApproximatedArea inp)).sum ∧
      (coverage.foldl (AppendQuadsIteration inp s) st).only_used_low_res_last_append_quads_ =
        (st.only_used_low_res_last_append_quads_ &&
          coverage.all fun iter => !UsesOtherThanLowRes inp iter) := by
  intro coverage
  induction coverage with
  | nil => intro st; simp
  | cons iter rest ih =>
    intro st
    obtain ⟨h1, h2, h3, h4, h5, h6⟩ := AppendQuadsIteration_spec inp s st iter
    obtain ⟨g1, g2, g3, g4, g5, g6⟩ := ih (AppendQuadsIteration inp s st iter)
    rw [List.foldl_cons, g1, g2, g3, g4, g5, g6, h1, h2, h3, h4, h5, h6]
    refine ⟨?_, ?_, ?_, ?_, ?_, ?_⟩
    · cases hv : IsVisibleEntry inp iter <;> simp [List.filter_cons, hv]
    · cases hm : IsMissingTile inp iter
      · simp [List.countP_cons, hm]
      · simp [List.countP_cons, hm]; omega
    · cases hm : IsMissingTile inp iter
      · simp [List.countP_cons, hm]
      · simp [List.countP_cons, hm]; omega
    · simp [add_assoc]
    · simp [add_assoc]
    · simp [Bool.and_assoc]

theorem WrapInt32_of_lt (n : Int) (h0 : 0 ≤ n) (h : n < 2 ^ 31) : WrapInt32 n = n := by
  unfold WrapInt32
  rw [Int.emod_eq_of_lt (by omega) (by omega)]
  omega

/-- The product of a width and a height that fits an `int` is the area. -/
theorem RectArea_of_lt (r : Rect) (h : r.width * r.height < 2 ^ 31) :
    RectArea r = (r.width * r.height : Nat) := by
  unfold RectArea
  rw [WrapInt32_of_lt]
  · push_cast; rfl
  · positivity
  · exact_mod_cast h

theorem ApproximatedArea_le_VisibleArea (inp : AppendQuadsInputs) (iter : CoverageEntry)
    (h : 0 ≤ VisibleArea inp iter) :
    ApproximatedArea inp iter ≤ VisibleArea inp iter := by
  unfold ApproximatedArea VisibleArea at *
  cases hv : IsVisibleEntry inp iter
  · simp
  · simp only [hv, if_true] at h
    simp only [true_and, if_true]
    split_ifs
    · exact le_refl _
    · exact h

theorem sum_ApproximatedArea_le (inp : AppendQuadsInputs) (coverage : List CoverageEntry)
    (h : ∀ iter ∈ coverage, 0 ≤ VisibleArea inp iter) :
    (coverage.map (ApproximatedArea inp)).sum ≤ (coverage.map (VisibleArea inp)).sum := by
  induction coverage with
  | nil => simp
  | cons iter rest ih =>
    simp only [List.map_cons, List.sum_cons]
    exact add_le_add (ApproximatedArea_le_VisibleArea inp iter (h iter (List.mem_cons_self _ _)))
      (ih fun i hi => h i (List.mem_cons_of_mem _ hi))

/-- A visible rectangle whose area fits an `int` adds a non-negative area. -/
theorem VisibleArea_nonneg_of_lt (inp : AppendQuadsInputs) (iter : CoverageEntry)
    (h : (inp.GetUnoccludedContentRect iter.geometry_rect).width *
      (inp.GetUnoccludedContentRect iter.geometry_rect).height < 2 ^ 31) :
    0 ≤ VisibleArea inp iter := by
  unfold VisibleArea
  split_ifs
  · rw [RectArea_of_lt _ h]
    exact Int.natCast_nonneg _
  · exact le_refl _

/-- The result of `AppendQuads` on the path of the main loop. -/
theorem AppendQuads_of_resources (env : LayerTreeImpl) (ext : Externals)
    (inp : AppendQuadsInputs) (twin_layer_ : Option (LayerTreeImpl × PictureLayerImpl))
    (s : PictureLayerImpl) (render_pass : List DrawQuad) (append_quads_data : AppendQuadsData)
    (hsolid : s.raster_source_.is_solid_color = false)
    (hmode : inp.current_draw_mode_ ≠ DrawMode.DRAW_MODE_RESOURCELESS_SOFTWARE) :
    AppendQuads env ext inp twin_layer_ s render_pass append_quads_data =
      ((CleanUpTilingsOnActiveLayer env ext twin_layer_
          { s with
            only_used_low_res_last_append_quads_ :=
              (AppendQuadsLoop inp s
                (inp.CoverageIterator s.tilings_ inp.max_contents_scale
                  inp.scaled_visible_content_rect s.ideal_contents_scale_)
                (if inp.ShowDebugBorders then
                  AppendQuadsDebugBorders
                    (inp.CoverageIterator s.tilings_ inp.max_contents_scale
                      inp.scaled_visible_content_rect s.ideal_contents_scale_)
                    (inp.AppendDebugBorderQuad render_pass)
                 else inp.AppendDebugBorderQuad render_pass)
                append_quads_data).only_used_low_res_last_append_quads_ }
          (AppendQuadsLoop inp s
            (inp.CoverageIterator s.tilings_ inp.max_contents_scale
              inp.scaled_visible_content_rect s.ideal_contents_scale_)
            (if inp.ShowDebugBorders then
              AppendQuadsDebugBorders
                (inp.CoverageIterator s.tilings_ inp.max_contents_scale
                  inp.scaled_visible_content_rect s.ideal_contents_scale_)
                (inp.AppendDebugBorderQuad render_pass)
             else inp.AppendDebugBorderQuad render_pass)
            append_quads_data).seen_tilings).1,
       (CleanUpTilingsOnActiveLayer env ext twin_layer_
          { s with
            only_used_low_res_last_append_quads_ :=
              (AppendQuadsLoop inp s
                (inp.CoverageIterator s.tilings_ inp.max_contents_scale
                  inp.scaled_visible_content_rect s.ideal_contents_scale_)
                (if inp.ShowDebugBorders then
                  AppendQuadsDebugBorders
                    (inp.CoverageIterator s.tilings_ inp.max_contents_scale
                      inp.scaled_visible_content_rect s.ideal_contents_scale_)
                    (inp.AppendDebugBorderQuad render_pass)
                 else inp.AppendDebugBorderQuad render_pass)
                append_quads_data).only_used_low_res_last_append_quads_ }
          (AppendQuadsLoop inp s
            (inp.CoverageIterator s.tilings_ inp.max_contents_scale
              inp.scaled_visible_content_rect s.ideal_contents_scale_)
            (if inp.ShowDebugBorders then
              AppendQuadsDebugBorders
                (inp.CoverageIterator s.tilings_ inp.max_contents_scale
                  inp.scaled_visible_content_rect s.ideal_contents_scale_)
                (inp.AppendDebugBorderQuad render_pass)
             else inp.AppendDebugBorderQuad render_pass)
            append_quads_data).seen_tilings).2,
       (AppendQuadsLoop inp s
          (inp.CoverageIterator s.tilings_ inp.max_contents_scale
            inp.scaled_visible_content_rect s.ideal_contents_scale_)
          (if inp.ShowDebugBorders then
            AppendQuadsDebugBorders
              (inp.CoverageIterator s.tilings_ inp.max_contents_scale
                inp.scaled_visible_content_rect s.ideal_contents_scale_)
              (inp.AppendDebugBorderQuad render_pass)
           else inp.AppendDebugBorderQuad render_pass)
          append_quads_data).render_pass,
       (AppendQuadsLoop inp s
          (inp.CoverageIterator s.tilings_ inp.max_contents_scale
            inp.scaled_visible_content_rect s.ideal_contents_scale_)
          (if inp.ShowDebugBorders then
            AppendQuadsDebugBorders
              (inp.CoverageIterator s.tilings_ inp.max_contents_scale
                inp.scaled_visible_content_rect s.ideal_contents_scale_)
              (inp.AppendDebugBorderQuad render_pass)
           else inp.AppendDebugBorderQuad render_pass)
          append_quads_data).append_quads_data) := by
  simp only [AppendQuads, hsolid, hmode, Bool.false_eq_true, if_false]

end PictureLayerImpl

namespace PictureLayerImpl

/-- Auxiliary: a position has a tile that can be drawn exactly when its tile is
non-null, ready to draw and not a picture-pile tile without rasterize-on-demand. -/
theorem HasDrawableTile_eq_false_iff (inp : AppendQuadsInputs) (iter : CoverageEntry) :
    HasDrawableTile inp iter = false ↔
      (iter.tile = none ∨ ∃ tile, iter.tile = some tile ∧
        (tile.IsReadyToDraw = false ∨
          (tile.mode = DrawInfoMode.PICTURE_PILE_MODE ∧
            inp.allow_rasterize_on_demand = false))) := by
  unfold HasDrawableTile
  cases htile : iter.tile with
  | none => simp
  | some tile =>
    cases hr : tile.IsReadyToDraw <;> cases hm : tile.mode <;>
      cases ha : inp.allow_rasterize_on_demand <;> simp [hr, hm]

/-- What `AppendQuads` appends and counts for a raster source that is not a solid
colour, in a draw mode other than the resourceless software one, with the
coverage iterator a finite list of positions: the render pass receives, after
the debug border quads, exactly one content quad for every position whose
unoccluded rectangle is non-empty, in the order of the positions, and none for
the others. The content quad is a tile quad, a picture quad or a solid-colour
quad of the tile's colour when the tile is non-null, ready to draw and, in the
picture-pile mode, rasterize-on-demand is allowed; otherwise it is a checkerboard
quad or a solid-colour quad of the safe background colour. `num_missing_tiles`
grows by the number of visible positions without a drawable tile whose geometry
rectangle intersects the viewport for tile priority. The two area counters grow
by the sums of the `int` products of the positions; when no product of a visible
rectangle wraps around, `approximated_visible_content_area` grows by at most what
`visible_content_area` grows by. -/
theorem AppendQuads_content_quads (env : LayerTreeImpl) (ext : Externals)
    (inp : AppendQuadsInputs) (twin_layer_ : Option (LayerTreeImpl × PictureLayerImpl))
    (s : PictureLayerImpl) (render_pass : List DrawQuad) (append_quads_data : AppendQuadsData)
    (coverage : List CoverageEntry)
    (hcoverage : coverage = inp.CoverageIterator s.tilings_ inp.max_contents_scale
      inp.scaled_visible_content_rect s.ideal_contents_scale_)
    (hsolid : s.raster_source_.is_solid_color = false)
    (hmode : inp.current_draw_mode_ ≠ DrawMode.DRAW_MODE_RESOURCELESS_SOFTWARE) :
    (AppendQuads env ext inp twin_layer_ s render_pass append_quads_data).2.2.1 =
      (if inp.ShowDebugBorders then
        AppendQuadsDebugBorders coverage (inp.AppendDebugBorderQuad render_pass)
       else inp.AppendDebugBorderQuad render_pass) ++
      (coverage.filter fun iter =>
        !(inp.GetUnoccludedContentRect iter.geometry_rect).IsEmpty).map (ContentQuad inp) ∧
    (∀ iter tile, iter.tile = some tile → tile.IsReadyToDraw = true →
      (tile.mode = DrawInfoMode.RESOURCE_MODE →
        ContentQuad inp iter = DrawQuad.TileDrawQuad iter.geometry_rect
          (if inp.contents_opaque then iter.geometry_rect else ⟨0, 0, 0, 0⟩)
          (inp.GetUnoccludedContentRect iter.geometry_rect) tile.get_resource_id) ∧
      (tile.mode = DrawInfoMode.PICTURE_PILE_MODE → inp.allow_rasterize_on_demand = true →
        ContentQuad inp iter = DrawQuad.PictureDrawQuad iter.geometry_rect
          (if inp.contents_opaque then iter.geometry_rect else ⟨0, 0, 0, 0⟩)
          (inp.GetUnoccludedContentRect iter.geometry_rect) tile.contents_scale) ∧
      (tile.mode = DrawInfoMode.SOLID_COLOR_MODE →
        ContentQuad inp iter = DrawQuad.SolidColorDrawQuad iter.geometry_rect
          (inp.GetUnoccludedContentRect iter.geometry_rect) tile.get_solid_color)) ∧
    (∀ iter,
      (iter.tile = none ∨ ∃ tile, iter.tile = some tile ∧
        (tile.IsReadyToDraw = false ∨
          (tile.mode = DrawInfoMode.PICTURE_PILE_MODE ∧
            inp.allow_rasterize_on_demand = false))) →
      ContentQuad inp iter =
        if inp.draw_checkerboard_for_missing_tiles then
          DrawQuad.CheckerboardDrawQuad iter.geometry_rect
            (inp.GetUnoccludedContentRect iter.geometry_rect) inp.DefaultCheckerboardColor
        else
          DrawQuad.SolidColorDrawQuad iter.geometry_rect
            (inp.GetUnoccludedContentRect iter.geometry_rect) inp.SafeOpaqueBackgroundColor) ∧
    (AppendQuads env ext inp twin_layer_ s render_pass
        append_quads_data).2.2.2.num_missing_tiles =
      append_quads_data.num_missing_tiles +
        coverage.countP (fun iter =>
          !(inp.GetUnoccludedContentRect iter.geometry_rect).IsEmpty &&
            !HasDrawableTile inp iter &&
            iter.geometry_rect.Intersects inp.scaled_viewport_for_tile_priority) ∧
    (∀ iter, HasDrawableTile inp iter = false ↔
      (iter.tile = none ∨ ∃ tile, iter.tile = some tile ∧
        (tile.IsReadyToDraw = false ∨
          (tile.mode = DrawInfoMode.PICTURE_PILE_MODE ∧
            inp.allow_rasterize_on_demand = false)))) ∧
    (AppendQuads env ext inp twin_layer_ s render_pass
        append_quads_data).2.2.2.visible_content_area =
      append_quads_data.visible_content_area + (coverage.map (VisibleArea inp)).sum ∧
    (AppendQuads env ext inp twin_layer_ s render_pass
        append_quads_data).2.2.2.approximated_visible_content_area =
      append_quads_data.approximated_visible_content_area +
        (coverage.map (ApproximatedArea inp)).sum ∧
    ((∀ iter ∈ coverage,
        (inp.GetUnoccludedContentRect iter.geometry_rect).width *
          (inp.GetUnoccludedContentRect iter.geometry_rect).height < 2 ^ 31) →
      (coverage.map (ApproximatedArea inp)).sum ≤ (coverage.map (VisibleArea inp)).sum) := by
  subst hcoverage
  rw [AppendQuads_of_resources env ext inp twin_layer_ s render_pass append_quads_data hsolid
    hmode]
  obtain ⟨f1, f2, _, f4, f5, _⟩ := AppendQuadsIteration_foldl inp s
    (inp.CoverageIterator s.tilings_ inp.max_contents_scale inp.scaled_visible_content_rect
      s.ideal_contents_scale_)
    { render_pass :=
        if inp.ShowDebugBorders then
          AppendQuadsDebugBorders
            (inp.CoverageIterator s.tilings_ inp.max_contents_scale
              inp.scaled_visible_content_rect s.ideal_contents_scale_)
            (inp.AppendDebugBorderQuad render_pass)
        else inp.AppendDebugBorderQuad render_pass
      append_quads_data := append_quads_data
      only_used_low_res_last_append_quads_ := true
      seen_tilings := []
      missing_tile_count := 0
      on_demand_missing_tile_count := 0 }
  refine ⟨f1, fun iter tile htile hready => ⟨fun hm => ?_, fun hm ha => ?_, fun hm => ?_⟩,
    fun iter hmiss => ?_, f2, HasDrawableTile_eq_false_iff inp, f4, f5,
    fun hfit => sum_ApproximatedArea_le inp _ fun iter hi =>
      VisibleArea_nonneg_of_lt inp iter (hfit iter hi)⟩
  · simp [ContentQuad, HasDrawableTile, TileQuad, htile, hready, hm]
  · simp [ContentQuad, HasDrawableTile, TileQuad, htile, hready, hm, ha]
  · simp [ContentQuad, HasDrawableTile, TileQuad, htile, hready, hm]
  · have hd := (HasDrawableTile_eq_false_iff inp iter).mpr hmiss
    unfold ContentQuad
    cases htile : iter.tile with
    | none => rfl
    | some tile => simp [hd, MissingTileQuad]

/-- The quads and the missing-tile count of the example draw. -/
theorem AppendQuads_content_quads_witness :
    (AppendQuads ExampleTree ExampleExternals ExampleAppendQuadsInputs none ExampleLayer []
        ⟨0, 0, 0, 0⟩).2.2.1 =
      [DrawQuad.TileDrawQuad ⟨0, 0, 256, 256⟩ ⟨0, 0, 256, 256⟩ ⟨0, 0, 256, 256⟩ 7,
       DrawQuad.CheckerboardDrawQuad ⟨256, 0, 256, 256⟩ ⟨256, 0, 256, 256⟩ 1] ∧
    (AppendQuads ExampleTree ExampleExternals ExampleAppendQuadsInputs none ExampleLayer []
        ⟨0, 0, 0, 0⟩).2.2.2.num_missing_tiles = 1 := by
  obtain ⟨h1, _, _, h4, _⟩ := AppendQuads_content_quads ExampleTree ExampleExternals
    ExampleAppendQuadsInputs none ExampleLayer [] ⟨0, 0, 0, 0⟩ _ rfl rfl (by decide)
  rw [h1, h4]
  constructor
  · decide
  · decide

end PictureLayerImpl

namespace PictureLayerImpl

theorem CleanUpTilingsOnActiveLayer_only_used_low_res (env : LayerTreeImpl) (ext : Externals)
    (twin_layer_ : Option (LayerTreeImpl × PictureLayerImpl)) (s : PictureLayerImpl)
    (used_tilings : List TilingPtr) :
    (CleanUpTilingsOnActiveLayer env ext twin_layer_ s
      used_tilings).1.only_used_low_res_last_append_quads_ =
      s.only_used_low_res_last_append_quads_ := by
  unfold CleanUpTilingsOnActiveLayer
  split_ifs
  · rfl
  · cases GetPendingOrActiveTwinLayer twin_layer_ <;> rfl

/-- C24: `UpdateTilePriorities` hands the tiling set the flag
`can_require_tiles_for_activation`, which is false exactly when the tree is in
smoothness-takes-priority mode, `only_used_low_res_last_append_quads_` is true
and high res is not required to draw, and true in every other case. After an
`AppendQuads` that runs its main loop (raster source not a solid colour, draw
mode not resourceless software) `only_used_low_res_last_append_quads_` is true
exactly when no visible position drew a tile of a resolution other than
`LOW_RESOLUTION`, that is when only low-resolution tiles and quads for missing
tiles were drawn; on the two other paths `AppendQuads` leaves the flag as it
was. -/
theorem can_require_tiles_for_activation_iff (env : LayerTreeImpl) (ext : Externals)
    (s : PictureLayerImpl) :
    UpdateTilePriorities env ext s =
      { s with
        tilings_ := ext.UpdateTilePriorities s.tilings_ s.ideal_contents_scale_
          (CanRequireTilesForActivation env s) } ∧
    (CanRequireTilesForActivation env s = false ↔
      (env.SmoothnessTakesPriority = true ∧ s.only_used_low_res_last_append_quads_ = true ∧
        RequiresHighResToDraw env = false)) ∧
    (CanRequireTilesForActivation env s = true ↔
      ¬(env.SmoothnessTakesPriority = true ∧ s.only_used_low_res_last_append_quads_ = true ∧
        RequiresHighResToDraw env = false)) ∧
    (∀ (inp : AppendQuadsInputs) (twin_layer_ : Option (LayerTreeImpl × PictureLayerImpl))
      (render_pass : List DrawQuad) (append_quads_data : AppendQuadsData),
      (s.raster_source_.is_solid_color = false →
        inp.current_draw_mode_ ≠ DrawMode.DRAW_MODE_RESOURCELESS_SOFTWARE →
        ((AppendQuads env ext inp twin_layer_ s render_pass
            append_quads_data).1.only_used_low_res_last_append_quads_ = true ↔
          ∀ iter ∈ inp.CoverageIterator s.tilings_ inp.max_contents_scale
              inp.scaled_visible_content_rect s.ideal_contents_scale_,
            (inp.GetUnoccludedContentRect iter.geometry_rect).IsEmpty = false →
            HasDrawableTile inp iter = true →
            iter.resolution = TileResolution.LOW_RESOLUTION)) ∧
      (s.raster_source_.is_solid_color = true ∨
          inp.current_draw_mode_ = DrawMode.DRAW_MODE_RESOURCELESS_SOFTWARE →
        (AppendQuads env ext inp twin_layer_ s render_pass
            append_quads_data).1.only_used_low_res_last_append_quads_ =
          s.only_used_low_res_last_append_quads_)) := by
  refine ⟨rfl, ?_, ?_, fun inp tw rp data => ⟨fun hsolid hmode => ?_, fun hother => ?_⟩⟩
  · simp only [CanRequireTilesForActivation, RequiresHighResToDraw]
    cases env.SmoothnessTakesPriority <;> cases s.only_used_low_res_last_append_quads_ <;>
      cases env.RequiresHighResToDraw <;> simp
  · simp only [CanRequireTilesForActivation, RequiresHighResToDraw]
    cases env.SmoothnessTakesPriority <;> cases s.only_used_low_res_last_append_quads_ <;>
      cases env.RequiresHighResToDraw <;> simp
  · rw [AppendQuads_of_resources env ext inp tw s rp data hsolid hmode,
      CleanUpTilingsOnActiveLayer_only_used_low_res]
    have h6 := (AppendQuadsIteration_foldl inp s
      (inp.CoverageIterator s.tilings_ inp.max_contents_scale inp.scaled_visible_content_rect
        s.ideal_contents_scale_)
      { render_pass :=
          if inp.ShowDebugBorders then
            AppendQuadsDebugBorders
              (inp.CoverageIterator s.tilings_ inp.max_contents_scale
                inp.scaled_visible_content_rect s.ideal_contents_scale_)
              (inp.AppendDebugBorderQuad rp)
          else inp.AppendDebugBorderQuad rp
        append_quads_data := data
        only_used_low_res_last_append_quads_ := true
        seen_tilings := []
        missing_tile_count := 0
        on_demand_missing_tile_count := 0 }).2.2.2.2.2
    show (AppendQuadsLoop inp s _ _ data).only_used_low_res_last_append_quads_ = true ↔ _
    unfold AppendQuadsLoop
    rw [h6]
    simp only [Bool.true_and, List.all_eq_true, UsesOtherThanLowRes, IsVisibleEntry]
    constructor
    · intro h iter hmem hvis hdraw
      have := h iter hmem
      simpa [hvis, hdraw] using this
    · intro h iter hmem
      cases hvis : (inp.GetUnoccludedContentRect iter.geometry_rect).IsEmpty
      · cases hdraw : HasDrawableTile inp iter
        · simp
        · simp [h iter hmem hvis hdraw]
      · simp
  · rcases hother with hsolid | hmode
    · simp [AppendQuads, hsolid]
    · cases hsolid : s.raster_source_.is_solid_color <;> simp [AppendQuads, hsolid, hmode]

end PictureLayerImpl

namespace PictureLayerImpl

/-- Auxiliary: `SyncFromActiveLayer(other)` when the high-res tiling is synced. -/
theorem SyncFromActiveLayer_synced (env : LayerTreeImpl) (ext : Externals)
    (s other : PictureLayerImpl) (hdraws : s.draws_content = true)
    (hcan : s.CanHaveTilings = true)
    (hsynced : (ext.SyncTilings s.tilings_ other.tilings_ s.raster_source_.size s.invalidation_
      (MinimumContentsScale env s) s.raster_source_).2 = true) :
    SyncFromActiveLayer env ext s other =
      { s with
        tilings_ := (ext.SyncTilings s.tilings_ other.tilings_ s.raster_source_.size
          s.invalidation_ (MinimumContentsScale env s) s.raster_source_).1
        raster_page_scale_ := other.raster_page_scale_
        raster_device_scale_ := other.raster_device_scale_
        raster_source_scale_ := other.raster_source_scale_
        raster_contents_scale_ := other.raster_contents_scale_
        low_res_raster_contents_scale_ := other.low_res_raster_contents_scale_ } := by
  have hcan' : (CopyRasterScales s other).CanHaveTilings = true := hcan
  have hnd : ¬ (!s.draws_content) = true := by simp [hdraws]
  have hT : SyncFromActiveLayerTilings env ext (CopyRasterScales s other) other =
      ({ CopyRasterScales s other with
          tilings_ := (ext.SyncTilings s.tilings_ other.tilings_ s.raster_source_.size
            s.invalidation_ (MinimumContentsScale env s) s.raster_source_).1 },
        (ext.SyncTilings s.tilings_ other.tilings_ s.raster_source_.size
            s.invalidation_ (MinimumContentsScale env s) s.raster_source_).2) := by
    unfold SyncFromActiveLayerTilings
    rw [if_pos hcan']
    rfl
  unfold SyncFromActiveLayer
  rw [if_neg hnd]
  show (if (!(SyncFromActiveLayerTilings env ext (CopyRasterScales s other) other).2) = true
    then ResetRasterScale (SyncFromActiveLayerTilings env ext (CopyRasterScales s other) other).1
    else (SyncFromActiveLayerTilings env ext (CopyRasterScales s other) other).1) = _
  rw [hT]
  have hns : ¬ (!(ext.SyncTilings s.tilings_ other.tilings_ s.raster_source_.size
      s.invalidation_ (MinimumContentsScale env s) s.raster_source_).2) = true := by
    simp [hsynced]
  rw [if_neg hns]
  rfl

/-- Auxiliary: `SyncFromActiveLayer(other)` when the high-res tiling is not synced:
the raster scales are reset. -/
theorem SyncFromActiveLayer_not_synced (env : LayerTreeImpl) (ext : Externals)
    (s other : PictureLayerImpl)
    (h : ¬(s.draws_content = true ∧ s.CanHaveTilings = true ∧
      (ext.SyncTilings s.tilings_ other.tilings_ s.raster_source_.size s.invalidation_
        (MinimumContentsScale env s) s.raster_source_).2 = true)) :
    ∃ t, SyncFromActiveLayer env ext s other = ResetRasterScale t ∧
      ((s.draws_content = false ∨ s.CanHaveTilings = false) →
        t.tilings_ = if s.tilings_is_null then s.tilings_ else []) := by
  have hcan_eq : (CopyRasterScales s other).CanHaveTilings = s.CanHaveTilings := rfl
  unfold SyncFromActiveLayer
  cases hd : s.draws_content
  · refine ⟨_, rfl, fun _ => ?_⟩
    cases hn : s.tilings_is_null <;> simp [hn, PictureLayerTilingSet.RemoveAllTilings]
  · simp only [Bool.not_true, Bool.false_eq_true, if_false]
    unfold SyncFromActiveLayerTilings
    rw [hcan_eq]
    cases hc : s.CanHaveTilings
    · simp only [Bool.false_eq_true, if_false, Bool.not_false, if_true]
      refine ⟨_, rfl, fun _ => ?_⟩
      cases hn : s.tilings_is_null <;>
        simp [RemoveAllTilings, ResetRasterScale, CopyRasterScales, hn,
          PictureLayerTilingSet.RemoveAllTilings]
    · simp only [if_true]
      have hs : (ext.SyncTilings s.tilings_ other.tilings_ s.raster_source_.size s.invalidation_
          (MinimumContentsScale env s) s.raster_source_).2 = false := by
        cases hx : (ext.SyncTilings s.tilings_ other.tilings_ s.raster_source_.size
          s.invalidation_ (MinimumContentsScale env s) s.raster_source_).2
        · rfl
        · exact absurd ⟨hd, hc, hx⟩ h
      have hs' : (ext.SyncTilings (CopyRasterScales s other).tilings_ other.tilings_
          (CopyRasterScales s other).raster_source_.size (CopyRasterScales s other).invalidation_
          (MinimumContentsScale env (CopyRasterScales s other))
          (CopyRasterScales s other).raster_source_).2 = false := hs
      simp only [hs', Bool.not_false, if_true]
      exact ⟨_, rfl, fun hor => by rcases hor with h1 | h1 <;> simp at h1⟩

/-- C21: after `SyncFromActiveLayer(other)`: if the layer draws content, can have
tilings and `SyncTilings` reports that the high-resolution tiling was synced, the
layer's five raster scales are those of `other` and its tiling set is the one
`SyncTilings` leaves; in every other case the five raster scales are `0`,
`raster_source_scale_is_fixed_` is false and `should_update_tile_priorities_` is
false, and when the layer draws no content or cannot have tilings its tiling set
is empty (a null set being empty). The call returns the layer only: `other` is an
argument that is read, never written. -/
theorem SyncFromActiveLayer_spec (env : LayerTreeImpl) (ext : Externals)
    (s other : PictureLayerImpl) :
    (s.draws_content = true ∧ s.CanHaveTilings = true ∧
        (ext.SyncTilings s.tilings_ other.tilings_ s.raster_source_.size s.invalidation_
          (MinimumContentsScale env s) s.raster_source_).2 = true →
      (SyncFromActiveLayer env ext s other).raster_page_scale_ = other.raster_page_scale_ ∧
      (SyncFromActiveLayer env ext s other).raster_device_scale_ = other.raster_device_scale_ ∧
      (SyncFromActiveLayer env ext s other).raster_source_scale_ = other.raster_source_scale_ ∧
      (SyncFromActiveLayer env ext s other).raster_contents_scale_ =
        other.raster_contents_scale_ ∧
      (SyncFromActiveLayer env ext s other).low_res_raster_contents_scale_ =
        other.low_res_raster_contents_scale_ ∧
      (SyncFromActiveLayer env ext s other).tilings_ =
        (ext.SyncTilings s.tilings_ other.tilings_ s.raster_source_.size s.invalidation_
          (MinimumContentsScale env s) s.raster_source_).1 ∧
      (SyncFromActiveLayer env ext s other).raster_source_scale_is_fixed_ =
        s.raster_source_scale_is_fixed_ ∧
      (SyncFromActiveLayer env ext s other).should_update_tile_priorities_ =
        s.should_update_tile_priorities_) ∧
    (¬(s.draws_content = true ∧ s.CanHaveTilings = true ∧
        (ext.SyncTilings s.tilings_ other.tilings_ s.raster_source_.size s.invalidation_
          (MinimumContentsScale env s) s.raster_source_).2 = true) →
      (SyncFromActiveLayer env ext s other).raster_page_scale_ = 0 ∧
      (SyncFromActiveLayer env ext s other).raster_device_scale_ = 0 ∧
      (SyncFromActiveLayer env ext s other).raster_source_scale_ = 0 ∧
      (SyncFromActiveLayer env ext s other).raster_contents_scale_ = 0 ∧
      (SyncFromActiveLayer env ext s other).low_res_raster_contents_scale_ = 0 ∧
      (SyncFromActiveLayer env ext s other).raster_source_scale_is_fixed_ = false ∧
      (SyncFromActiveLayer env ext s other).should_update_tile_priorities_ = false) ∧
    ((s.draws_content = false ∨ s.CanHaveTilings = false) →
      (s.tilings_is_null = true → s.tilings_ = []) →
      (SyncFromActiveLayer env ext s other).tilings_ = []) := by
  refine ⟨fun h => ?_, fun h => ?_, fun h hnull => ?_⟩
  · rw [SyncFromActiveLayer_synced env ext s other h.1 h.2.1 h.2.2]
    exact ⟨rfl, rfl, rfl, rfl, rfl, rfl, rfl, rfl⟩
  · obtain ⟨t, ht, _⟩ := SyncFromActiveLayer_not_synced env ext s other h
    rw [ht]
    exact ⟨rfl, rfl, rfl, rfl, rfl, rfl, rfl⟩
  · have hnot : ¬(s.draws_content = true ∧ s.CanHaveTilings = true ∧
        (ext.SyncTilings s.tilings_ other.tilings_ s.raster_source_.size s.invalidation_
          (MinimumContentsScale env s) s.raster_source_).2 = true) := by
      rintro ⟨h1, h2, _⟩
      rcases h with h | h
      · rw [h1] at h; exact absurd h (by decide)
      · rw [h2] at h; exact absurd h (by decide)
    obtain ⟨t, ht, htil⟩ := SyncFromActiveLayer_not_synced env ext s other hnot
    rw [ht]
    show t.tilings_ = []
    rw [htil h]
    cases hn : s.tilings_is_null
    · rfl
    · simp only [if_true]
      exact hnull hn

end PictureLayerImpl

namespace PictureLayerImpl

/-- Auxiliary: what `PushPropertiesToRecycle` leaves, by fields. -/
theorem PushPropertiesToRecycle_spec (ext : Externals) (s : PictureLayerImpl) :
    (PushPropertiesToRecycle ext s).tilings_ =
      (if s.tilings_is_null then s.tilings_
       else ext.RemoveTilesInRegion
        (if s.raster_source_.is_solid_color then [] else s.tilings_) s.invalidation_) ∧
    (PushPropertiesToRecycle ext s).tilings_is_null = s.tilings_is_null ∧
    (PushPropertiesToRecycle ext s).raster_page_scale_ = s.raster_page_scale_ ∧
    (PushPropertiesToRecycle ext s).raster_device_scale_ = s.raster_device_scale_ ∧
    (PushPropertiesToRecycle ext s).raster_source_scale_ = s.raster_source_scale_ ∧
    (PushPropertiesToRecycle ext s).raster_contents_scale_ = s.raster_contents_scale_ ∧
    (PushPropertiesToRecycle ext s).low_res_raster_contents_scale_ =
      s.low_res_raster_contents_scale_ ∧
    (PushPropertiesToRecycle ext s).invalidation_ = s.invalidation_ ∧
    (PushPropertiesToRecycle ext s).raster_source_ = s.raster_source_ := by
  unfold PushPropertiesToRecycle
  cases hn : s.tilings_is_null <;> cases hc : s.raster_source_.is_solid_color <;>
    simp [hn, hc, PictureLayerTilingSet.RemoveAllTilings]

/-- C22: `PushPropertiesTo` from a layer already initialised after commit (the
pending layer) to `layer_impl` (the active layer), as one step. The active layer
holds the tiling set the pending layer held, the pending layer holds the set the
active layer held (null if that was null), with all tilings removed when the
raster source is a solid colour and then the tiles in the pending layer's
invalidation removed. The five raster scales of the active layer are those of
the pending layer, which are unchanged. The invalidation of the active layer is
the former invalidation of the pending layer, whose invalidation is empty. The
active layer no longer needs post-commit initialisation and the pending layer
needs it. The raster source and the mask flag of the active layer are those of
the pending layer. -/
theorem PushPropertiesTo_spec (env : LayerTreeImpl) (ext : Externals)
    (layer_tree : LayerTreeImpl) (linked : Bool) (s layer_impl : PictureLayerImpl)
    (hinit : s.needs_post_commit_initialization_ = false) :
    ((PushPropertiesTo env ext layer_tree linked s layer_impl).2.tilings_ = s.tilings_ ∧
      (PushPropertiesTo env ext layer_tree linked s layer_impl).2.tilings_is_null =
        s.tilings_is_null) ∧
    ((PushPropertiesTo env ext layer_tree linked s layer_impl).1.tilings_is_null =
        layer_impl.tilings_is_null ∧
      (PushPropertiesTo env ext layer_tree linked s layer_impl).1.tilings_ =
        if layer_impl.tilings_is_null then layer_impl.tilings_
        else ext.RemoveTilesInRegion
          (if s.raster_source_.is_solid_color then [] else layer_impl.tilings_)
          s.invalidation_) ∧
    ((PushPropertiesTo env ext layer_tree linked s layer_impl).2.raster_page_scale_ =
        s.raster_page_scale_ ∧
      (PushPropertiesTo env ext layer_tree linked s layer_impl).2.raster_device_scale_ =
        s.raster_device_scale_ ∧
      (PushPropertiesTo env ext layer_tree linked s layer_impl).2.raster_source_scale_ =
        s.raster_source_scale_ ∧
      (PushPropertiesTo env ext layer_tree linked s layer_impl).2.raster_contents_scale_ =
        s.raster_contents_scale_ ∧
      (PushPropertiesTo env ext layer_tree linked s
        layer_impl).2.low_res_raster_contents_scale_ = s.low_res_raster_contents_scale_) ∧
    ((PushPropertiesTo env ext layer_tree linked s layer_impl).1.raster_page_scale_ =
        s.raster_page_scale_ ∧
      (PushPropertiesTo env ext layer_tree linked s layer_impl).1.raster_device_scale_ =
        s.raster_device_scale_ ∧
      (PushPropertiesTo env ext layer_tree linked s layer_impl).1.raster_source_scale_ =
        s.raster_source_scale_ ∧
      (PushPropertiesTo env ext layer_tree linked s layer_impl).1.raster_contents_scale_ =
        s.raster_contents_scale_ ∧
      (PushPropertiesTo env ext layer_tree linked s
        layer_impl).1.low_res_raster_contents_scale_ = s.low_res_raster_contents_scale_) ∧
    ((PushPropertiesTo env ext layer_tree linked s layer_impl).2.invalidation_ =
        s.invalidation_ ∧
      (PushPropertiesTo env ext layer_tree linked s layer_impl).1.invalidation_ = []) ∧
    ((PushPropertiesTo env ext layer_tree linked s
        layer_impl).2.needs_post_commit_initialization_ = false ∧
      (PushPropertiesTo env ext layer_tree linked s
        layer_impl).1.needs_post_commit_initialization_ = true) ∧
    ((PushPropertiesTo env ext layer_tree linked s layer_impl).2.raster_source_ =
        s.raster_source_ ∧
      (PushPropertiesTo env ext layer_tree linked s layer_impl).1.raster_source_ =
        s.raster_source_ ∧
      (PushPropertiesTo env ext layer_tree linked s layer_impl).2.is_mask_ = s.is_mask_) := by
  have h0 : DoPostCommitInitializationIfNeeded env ext
      (if linked = true then some (layer_tree, layer_impl) else none) s = s := by
    simp [DoPostCommitInitializationIfNeeded, hinit]
  obtain ⟨r1, r2, r3, r4, r5, r6, r7, r8, r9⟩ := PushPropertiesToRecycle_spec ext
    { s with
      tilings_ := (PushPropertiesToTarget ext s layer_impl).tilings_
      tilings_is_null := (PushPropertiesToTarget ext s layer_impl).tilings_is_null }
  simp only [PushPropertiesTo, h0]
  refine ⟨⟨?_, ?_⟩, ⟨?_, ?_⟩, ⟨?_, ?_, ?_, ?_, ?_⟩, ⟨?_, ?_, ?_, ?_, ?_⟩, ⟨?_, ?_⟩, ⟨?_, ?_⟩,
    ⟨?_, ?_, ?_⟩⟩ <;>
    trivial

theorem PushPropertiesTo_spec_witness :
    (PushPropertiesTo ExampleTree ExampleExternals ExampleTree false TwoTilingsLayer
        PictureLayerImpl.Create).2.tilings_ = TwoTilingsLayer.tilings_ ∧
    (PushPropertiesTo ExampleTree ExampleExternals ExampleTree false TwoTilingsLayer
        PictureLayerImpl.Create).2.raster_contents_scale_ = 2 ∧
    (PushPropertiesTo ExampleTree ExampleExternals ExampleTree false TwoTilingsLayer
        PictureLayerImpl.Create).1.needs_post_commit_initialization_ = true :=
  ⟨(PushPropertiesTo_spec ExampleTree ExampleExternals ExampleTree false TwoTilingsLayer
      PictureLayerImpl.Create rfl).1.1,
   (PushPropertiesTo_spec ExampleTree ExampleExternals ExampleTree false TwoTilingsLayer
      PictureLayerImpl.Create rfl).2.2.1.2.2.2.1,
   (PushPropertiesTo_spec ExampleTree ExampleExternals ExampleTree false TwoTilingsLayer
      PictureLayerImpl.Create rfl).2.2.2.2.2.1.2⟩

end PictureLayerImpl

namespace PictureLayerImpl

/-- Auxiliary: the tiling sets and the raster scales after `PushPropertiesTo`, in
terms of the pushing layer after its post-commit initialisation. -/
theorem PushPropertiesTo_scales (env : LayerTreeImpl) (ext : Externals)
    (layer_tree : LayerTreeImpl) (linked : Bool) (s layer_impl s0 : PictureLayerImpl)
    (h0 : DoPostCommitInitializationIfNeeded env ext
      (if linked = true then some (layer_tree, layer_impl) else none) s = s0) :
    (PushPropertiesTo env ext layer_tree linked s layer_impl).2.tilings_ = s0.tilings_ ∧
    (PushPropertiesTo env ext layer_tree linked s layer_impl).2.raster_page_scale_ =
      s0.raster_page_scale_ ∧
    (PushPropertiesTo env ext layer_tree linked s layer_impl).2.raster_device_scale_ =
      s0.raster_device_scale_ ∧
    (PushPropertiesTo env ext layer_tree linked s layer_impl).2.raster_source_scale_ =
      s0.raster_source_scale_ ∧
    (PushPropertiesTo env ext layer_tree linked s layer_impl).2.raster_contents_scale_ =
      s0.raster_contents_scale_ ∧
    (PushPropertiesTo env ext layer_tree linked s layer_impl).2.low_res_raster_contents_scale_ =
      s0.low_res_raster_contents_scale_ ∧
    (PushPropertiesTo env ext layer_tree linked s layer_impl).1.raster_contents_scale_ =
      s0.raster_contents_scale_ ∧
    (PushPropertiesTo env ext layer_tree linked s layer_impl).1.tilings_ =
      (if layer_impl.tilings_is_null then layer_impl.tilings_
       else ext.RemoveTilesInRegion
        (if s0.raster_source_.is_solid_color then [] else layer_impl.tilings_)
        s0.invalidation_) := by
  obtain ⟨r1, _, r3, r4, r5, r6, r7, _, _⟩ := PushPropertiesToRecycle_spec ext
    { s0 with
      tilings_ := (PushPropertiesToTarget ext s0 layer_impl).tilings_
      tilings_is_null := (PushPropertiesToTarget ext s0 layer_impl).tilings_is_null }
  simp only [PushPropertiesTo, h0]
  refine ⟨?_, ?_, ?_, ?_, ?_, ?_, ?_, ?_⟩ <;> trivial

end PictureLayerImpl

namespace PictureLayerImpl

open PictureLayerTilingSet

theorem NoTilingsNoRasterScale_of_reset (t : PictureLayerImpl) :
    NoTilingsNoRasterScale (ResetRasterScale t) := fun _ => rfl

theorem NoTilingsNoRasterScale_TwinAfterCleanUp (twin : PictureLayerImpl)
    (tilings : PictureLayerTilingSet) (h : NoTilingsNoRasterScale twin) :
    NoTilingsNoRasterScale (TwinAfterCleanUp twin tilings) := by
  unfold TwinAfterCleanUp
  cases hn : twin.tilings_is_null
  · simp only [Bool.false_eq_true, if_false]
    cases tilings with
    | nil => exact fun _ => rfl
    | cons t ts =>
      intro h0
      simp [num_tilings] at h0
  · simpa using h

/-- Claim C28, counterexample: the predicate fails for the pushing layer. A layer
with two tilings and raster contents scale `2` pushes to a layer whose tiling set
is empty and whose raster scales are `0` (the state `ReleaseResources` leaves);
both satisfy the predicate. The pushing layer ends with the target's empty tiling
set and its own raster contents scale `2`. -/
theorem pushing_layer_keeps_raster_scale_without_tilings :
    NoTilingsNoRasterScale TwoTilingsLayer ∧
    NoTilingsNoRasterScale (ResetRasterScale ExampleLayer) ∧
    TwoTilingsLayer.needs_post_commit_initialization_ = false ∧
    (ResetRasterScale ExampleLayer).tilings_is_null = false ∧
    (PushPropertiesTo ExampleTree ExampleExternals ExampleTree false TwoTilingsLayer
      (ResetRasterScale ExampleLayer)).1.tilings_ = [] ∧
    (PushPropertiesTo ExampleTree ExampleExternals ExampleTree false TwoTilingsLayer
      (ResetRasterScale ExampleLayer)).1.raster_contents_scale_ = 2 ∧
    ¬ NoTilingsNoRasterScale
      (PushPropertiesTo ExampleTree ExampleExternals ExampleTree false TwoTilingsLayer
        (ResetRasterScale ExampleLayer)).1 := by
  obtain ⟨_, _, _, _, _, _, h2, h1⟩ := PushPropertiesTo_scales ExampleTree ExampleExternals
    ExampleTree false TwoTilingsLayer (ResetRasterScale ExampleLayer) TwoTilingsLayer rfl
  have h1 : (PushPropertiesTo ExampleTree ExampleExternals ExampleTree false TwoTilingsLayer
      (ResetRasterScale ExampleLayer)).1.tilings_ = [] := by rw [h1]; rfl
  have h2 : (PushPropertiesTo ExampleTree ExampleExternals ExampleTree false TwoTilingsLayer
      (ResetRasterScale ExampleLayer)).1.raster_contents_scale_ = 2 := by rw [h2]; rfl
  refine ⟨?_, fun _ => rfl, rfl, rfl, h1, h2, ?_⟩
  · intro h
    simp [num_tilings, TwoTilingsLayer] at h
  · intro h
    have := h (by rw [h1]; rfl)
    rw [h2] at this
    norm_num at this

end PictureLayerImpl

namespace PictureLayerImpl

open PictureLayerTilingSet

/-- Auxiliary: `SyncFromActiveLayer(other)` either resets the raster scales or
keeps what the synchronisation of the tilings left. -/
theorem SyncFromActiveLayer_cases (env : LayerTreeImpl) (ext : Externals)
    (s other : PictureLayerImpl) :
    (∃ t, SyncFromActiveLayer env ext s other = ResetRasterScale t) ∨
    ((SyncFromActiveLayerTilings env ext (CopyRasterScales s other) other).2 = true ∧
      SyncFromActiveLayer env ext s other =
        (SyncFromActiveLayerTilings env ext (CopyRasterScales s other) other).1) := by
  unfold SyncFromActiveLayer
  cases hd : s.draws_content
  · exact Or.inl ⟨_, rfl⟩
  · cases hs : (SyncFromActiveLayerTilings env ext (CopyRasterScales s other) other).2
    · left
      simp only [Bool.not_true, Bool.false_eq_true, if_false, hs, Bool.not_false, if_true]
      exact ⟨_, rfl⟩
    · right
      simp only [Bool.not_true, Bool.false_eq_true, if_false, hs]
      exact ⟨trivial, trivial⟩

theorem DoPostCommitInitializationIfNeeded_of_initialised (env : LayerTreeImpl)
    (ext : Externals) (twin_layer_ : Option (LayerTreeImpl × PictureLayerImpl))
    (s : PictureLayerImpl) (hinit : s.needs_post_commit_initialization_ = false) :
    DoPostCommitInitializationIfNeeded env ext twin_layer_ s = s := by
  simp [DoPostCommitInitializationIfNeeded, hinit]

/-- C28 (amended): a layer with no tilings has no valid raster scale. The predicate
"the tiling set has zero tilings implies `raster_contents_scale_ = 0`" holds
after `RemoveAllTilings` and `ReleaseResources`; after `SyncFromActiveLayer`,
provided `SyncTilings` reports a synced high-res tiling only when it leaves a
tiling in the set; for the twin and the recycled twin after
`CleanUpTilingsOnActiveLayer` when it held for them before; and for the target of
`PushPropertiesTo` when it held for the pushing layer (after its post-commit
initialisation, which does nothing on an initialised layer). For the pushing
layer, which receives the target's former tilings and keeps its own raster
scales, it holds after `PushPropertiesTo` exactly when its
`raster_contents_scale_` is `0` or the tiling set it is left with is non-empty. -/
theorem no_tilings_no_raster_scale_preserved (s : PictureLayerImpl)
    (hs : NoTilingsNoRasterScale s) :
    NoTilingsNoRasterScale (RemoveAllTilings s) ∧
    NoTilingsNoRasterScale (ReleaseResources s) ∧
    (∀ env ext other,
      ((SyncFromActiveLayerTilings env ext (CopyRasterScales s other) other).2 = true →
        (SyncFromActiveLayerTilings env ext (CopyRasterScales s other) other).1.tilings_ ≠ []) →
      NoTilingsNoRasterScale (SyncFromActiveLayer env ext s other)) ∧
    (∀ env ext tree active used_tilings twin,
      (CleanUpTilingsOnActiveLayer env ext (some (tree, s)) active used_tilings).2 = some twin →
      NoTilingsNoRasterScale twin.2) ∧
    (∀ env ext layer_tree linked layer_impl,
      (NoTilingsNoRasterScale (DoPostCommitInitializationIfNeeded env ext
          (if linked = true then some (layer_tree, layer_impl) else none) s) →
        NoTilingsNoRasterScale (PushPropertiesTo env ext layer_tree linked s layer_impl).2) ∧
      (s.needs_post_commit_initialization_ = false →
        NoTilingsNoRasterScale (PushPropertiesTo env ext layer_tree linked s layer_impl).2 ∧
        (NoTilingsNoRasterScale (PushPropertiesTo env ext layer_tree linked s layer_impl).1 ↔
          (s.raster_contents_scale_ = 0 ∨
            (PushPropertiesTo env ext layer_tree linked s layer_impl).1.tilings_ ≠ [])) ∧
        (PushPropertiesTo env ext layer_tree linked s layer_impl).1.tilings_ =
          (if layer_impl.tilings_is_null then layer_impl.tilings_
           else ext.RemoveTilesInRegion
            (if s.raster_source_.is_solid_color then [] else layer_impl.tilings_)
            s.invalidation_))) := by
  refine ⟨fun _ => rfl, fun _ => rfl, fun env ext other hsync => ?_,
    fun env ext tree active used twin htwin => ?_,
    fun env ext layer_tree linked layer_impl => ⟨fun h0 => ?_, fun hinit => ?_⟩⟩
  · rcases SyncFromActiveLayer_cases env ext s other with ⟨t, ht⟩ | ⟨h1, h2⟩
    · rw [ht]; exact NoTilingsNoRasterScale_of_reset t
    · rw [h2]
      intro hz
      exfalso
      apply hsync h1
      cases hx : (SyncFromActiveLayerTilings env ext (CopyRasterScales s other) other).1.tilings_
      · rfl
      · rw [hx] at hz
        simp [num_tilings] at hz
  · rcases CleanUpTilingsOnActiveLayer_twin env ext tree s active used with ⟨_, h⟩ | ⟨_, X, h⟩
    · rw [h, Option.some.injEq] at htwin
      subst htwin
      exact hs
    · rw [h, Option.some.injEq] at htwin
      subst htwin
      exact NoTilingsNoRasterScale_TwinAfterCleanUp s X hs
  · obtain ⟨e1, _, _, _, e5, _, _, _⟩ := PushPropertiesTo_scales env ext layer_tree linked s
      layer_impl _ rfl
    intro hz
    rw [e5]
    rw [e1] at hz
    exact h0 hz
  · have hi := DoPostCommitInitializationIfNeeded_of_initialised env ext
      (if linked = true then some (layer_tree, layer_impl) else none) s hinit
    obtain ⟨e1, _, _, _, e5, _, e7, e8⟩ := PushPropertiesTo_scales env ext layer_tree linked s
      layer_impl s hi
    refine ⟨?_, ?_, e8⟩
    · intro hz
      rw [e5]
      rw [e1] at hz
      exact hs hz
    · unfold NoTilingsNoRasterScale
      rw [e7]
      constructor
      · intro h
        by_cases hr : s.raster_contents_scale_ = 0
        · exact Or.inl hr
        · right
          intro hemp
          exact hr (h (by rw [hemp]; rfl))
      · rintro (h | h) hz
        · exact h
        · exfalso
          apply h
          cases hx : (PushPropertiesTo env ext layer_tree linked s layer_impl).1.tilings_
          · rfl
          · rw [hx] at hz
            simp [num_tilings] at hz

theorem no_tilings_no_raster_scale_preserved_witness :
    NoTilingsNoRasterScale (RemoveAllTilings TwoTilingsLayer) ∧
    NoTilingsNoRasterScale
      (PushPropertiesTo ExampleTree ExampleExternals ExampleTree false TwoTilingsLayer
        PictureLayerImpl.Create).2 :=
  ⟨(no_tilings_no_raster_scale_preserved TwoTilingsLayer
      (fun h => by simp [PictureLayerTilingSet.num_tilings, TwoTilingsLayer] at h)).1,
   ((no_tilings_no_raster_scale_preserved TwoTilingsLayer
      (fun h => by simp [PictureLayerTilingSet.num_tilings, TwoTilingsLayer] at h)).2.2.2.2
        ExampleTree ExampleExternals ExampleTree false PictureLayerImpl.Create).2 rfl |>.1⟩

end PictureLayerImpl

namespace PictureLayerImpl

theorem PinchZoomOutLoop_pos (ideal : ℚ) :
    ∀ (fuel : Nat) (d d' : ℚ), PinchZoomOutLoop ideal fuel d = some d' → 0 < d → 0 < d' := by
  intro fuel
  induction fuel with
  | zero =>
    intro d d' h hd
    simp only [PinchZoomOutLoop] at h
    split_ifs at h
    simp only [Option.some.injEq] at h
    rw [← h]; exact hd
  | succ n ih =>
    intro d d' h hd
    simp only [PinchZoomOutLoop] at h
    split_ifs at h
    · exact ih _ _ h (div_pos hd (by norm_num [kMaxScaleRatioDuringPinch]))
    · simp only [Option.some.injEq] at h
      rw [← h]; exact hd

theorem PinchZoomInLoop_pos (ideal : ℚ) :
    ∀ (fuel : Nat) (d d' : ℚ), PinchZoomInLoop ideal fuel d = some d' → 0 < d → 0 < d' := by
  intro fuel
  induction fuel with
  | zero =>
    intro d d' h hd
    simp only [PinchZoomInLoop] at h
    split_ifs at h
    simp only [Option.some.injEq] at h
    rw [← h]; exact hd
  | succ n ih =>
    intro d d' h hd
    simp only [PinchZoomInLoop] at h
    split_ifs at h
    · exact ih _ _ h (mul_pos hd (by norm_num [kMaxScaleRatioDuringPinch]))
    · simp only [Option.some.injEq] at h
      rw [← h]; exact hd

theorem PinchDesiredContentsScale_pos (fuel : Nat) (o p ip ideal d : ℚ)
    (h : PinchDesiredContentsScale fuel o p ip ideal = some d) (ho : 0 < o) : 0 < d := by
  simp only [PinchDesiredContentsScale] at h
  split_ifs at h
  · exact PinchZoomOutLoop_pos ideal fuel o d h ho
  · exact PinchZoomInLoop_pos ideal fuel o d h ho

theorem MinimumContentsScale_pos (env : LayerTreeImpl) (s : PictureLayerImpl)
    (h : 0 < env.settings.minimum_contents_scale) : 0 < MinimumContentsScale env s := by
  simp only [MinimumContentsScale]
  split_ifs
  · exact h
  · exact lt_of_lt_of_le h (le_max_right _ _)

/-- Positive ideal scales, a positive minimum contents scale and a snapping that
keeps positive scales positive make every raster scale `RecalculateRasterScales` returns
positive. -/
theorem Recalculate_positive (env : LayerTreeImpl) (s : PictureLayerImpl) (fuel : Nat)
    (s' : PictureLayerImpl) (h : RecalculateRasterScales env fuel s = some s')
    (hp : 0 < s.ideal_page_scale_) (hd : 0 < s.ideal_device_scale_)
    (hs : 0 < s.ideal_source_scale_) (hmin : 0 < MinimumContentsScale env s)
    (hsnap : ∀ ts d r, 0 < d → 0 < env.GetSnappedContentsScale ts d r)
    (hrcs : s.raster_contents_scale_ ≠ 0 → 0 < s.raster_contents_scale_) :
    RasterScalesPositive s' := by
  obtain ⟨_, f2, _, f4, f5⟩ := Recalculate_fields env s fuel s' h
  have hdev : 0 < s'.raster_device_scale_ := by rw [f2]; exact hd
  have hsrc : 0 < s'.raster_source_scale_ := by
    rw [f4]; split_ifs
    · exact one_pos
    · exact hs
  have hcon : 0 < s'.raster_contents_scale_ := lt_of_lt_of_le hmin f5
  have hlow : 0 < s'.low_res_raster_contents_scale_ := by
    obtain ⟨x, hx, hxs, _, hxm⟩ := Recalculate_low_res_shape env s fuel s' h
    obtain ⟨_, _, _, l1, l2⟩ := LowRes_spec env x
    rw [hx]
    by_cases hc : ((CalculateTileSize env x
          (ToCeiledScaledSize x.raster_source_.size x.raster_contents_scale_)).IsEmpty = true ∨
        ((ToCeiledScaledSize x.raster_source_.size x.raster_contents_scale_).width ≤
            (CalculateTileSize env x
              (ToCeiledScaledSize x.raster_source_.size x.raster_contents_scale_)).width ∧
          (ToCeiledScaledSize x.raster_source_.size x.raster_contents_scale_).height ≤
            (CalculateTileSize env x
              (ToCeiledScaledSize x.raster_source_.size x.raster_contents_scale_)).height))
    · rw [l1 hc]
      exact lt_of_lt_of_le hmin hxm
    · rw [l2 hc, MinimumContentsScale_eq_of_raster_source env s x hxs]
      exact lt_of_lt_of_le hmin (le_max_right _ _)
  have hpage : 0 < s'.raster_page_scale_ := by
    by_cases hpinch : env.PinchGestureActive = true ∧ s.raster_contents_scale_ ≠ 0
    · rw [Recalculate_with_pinch env s fuel hpinch.1 hpinch.2] at h
      cases hdes : PinchDesiredContentsScale fuel s.raster_contents_scale_ s.raster_page_scale_
          s.ideal_page_scale_ s.ideal_contents_scale_ with
      | none => rw [hdes] at h; simp at h
      | some d =>
        rw [hdes, Option.map_some', Option.some.injEq] at h
        subst h
        rw [PinchOverrideResult_page_scale]
        exact div_pos (div_pos (hsnap _ _ _
          (PinchDesiredContentsScale_pos _ _ _ _ _ d hdes (hrcs hpinch.2))) hdev) hsrc
    · have hq : env.PinchGestureActive = false ∨ s.raster_contents_scale_ = 0 := by
        by_cases h1 : env.PinchGestureActive = true
        · right; by_contra h2; exact hpinch ⟨h1, h2⟩
        · left; simpa using h1
      rw [Recalculate_without_pinch env s fuel hq, Option.some.injEq] at h
      obtain ⟨l, hl⟩ := Tail_eq env (RecalculateRasterScalesHead s)
      rw [← h, hl, Head_eq]
      exact hp
  exact ⟨hpage, hdev, hsrc, hcon, hlow⟩

/-- The ideal scales `UpdateIdealScales` computes are positive when the scale
factors of the draw properties, the minimum page scale factor and the minimum
contents scale are. -/
theorem UpdateIdealScales_positive (env : LayerTreeImpl) (s : PictureLayerImpl)
    (hpage : 0 < s.draw_properties.page_scale_factor)
    (hdevice : 0 < s.draw_properties.device_scale_factor)
    (hminpage : 0 < env.min_page_scale_factor)
    (hmin : 0 < MinimumContentsScale env s) :
    0 < (UpdateIdealScales env s).ideal_page_scale_ ∧
    0 < (UpdateIdealScales env s).ideal_device_scale_ ∧
    0 < (UpdateIdealScales env s).ideal_source_scale_ ∧
    0 < (UpdateIdealScales env s).ideal_contents_scale_ ∧
    MinimumContentsScale env (UpdateIdealScales env s) = MinimumContentsScale env s := by
  refine ⟨hpage, hdevice, ?_, ?_, rfl⟩
  · have e : (UpdateIdealScales env s).ideal_source_scale_ =
        max (s.draw_properties.ideal_contents_scale / s.draw_properties.page_scale_factor /
            s.draw_properties.device_scale_factor)
          (MinimumContentsScale env s / env.min_page_scale_factor / 1) := rfl
    rw [e]
    exact lt_of_lt_of_le (div_pos (div_pos hmin hminpage) one_pos) (le_max_right _ _)
  · have e : (UpdateIdealScales env s).ideal_contents_scale_ =
        max s.draw_properties.ideal_contents_scale (MinimumContentsScale env s) := rfl
    rw [e]
    exact lt_of_lt_of_le hmin (le_max_right _ _)

end PictureLayerImpl

namespace PictureLayerImpl

theorem RasterScalesZeroOrPositive_of_reset (t : PictureLayerImpl) :
    RasterScalesZeroOrPositive (ResetRasterScale t) :=
  Or.inl ⟨rfl, rfl, rfl, rfl, rfl⟩

theorem RemoveAllTilings_frame (s : PictureLayerImpl) :
    (RemoveAllTilings s).raster_source_ = s.raster_source_ ∧
    (RemoveAllTilings s).draws_content = s.draws_content ∧
    (RemoveAllTilings s).draw_properties = s.draw_properties ∧
    RasterScalesZeroOrPositive (RemoveAllTilings s) := by
  unfold RemoveAllTilings
  cases hn : s.tilings_is_null
  · simp only [Bool.false_eq_true, if_false]
    exact ⟨rfl, rfl, rfl, RasterScalesZeroOrPositive_of_reset _⟩
  · simp only [if_true]
    exact ⟨rfl, rfl, rfl, RasterScalesZeroOrPositive_of_reset _⟩

/-- Auxiliary: the tiling synchronisation of `SyncFromActiveLayer(other)` keeps
the raster source, the base-class part and the raster scales of the layer. -/
theorem SyncFromActiveLayerTilings_frame (env : LayerTreeImpl) (ext : Externals)
    (s other : PictureLayerImpl) :
    (SyncFromActiveLayerTilings env ext s other).1.raster_source_ = s.raster_source_ ∧
    (SyncFromActiveLayerTilings env ext s other).1.draws_content = s.draws_content ∧
    (SyncFromActiveLayerTilings env ext s other).1.draw_properties = s.draw_properties ∧
    (RasterScalesZeroOrPositive s →
      RasterScalesZeroOrPositive (SyncFromActiveLayerTilings env ext s other).1) := by
  obtain ⟨b1, b2, b3, b4⟩ := RemoveAllTilings_frame s
  unfold SyncFromActiveLayerTilings
  by_cases hc : s.CanHaveTilings = true
  · rw [if_pos hc]
    exact ⟨rfl, rfl, rfl, fun h => h⟩
  · rw [if_neg hc]
    exact ⟨b1, b2, b3, fun _ => b4⟩

/-- Auxiliary: `SyncFromActiveLayer(other)` keeps the raster source and the
base-class part of the layer, and its raster scales are all zero or those of
`other`. -/
theorem SyncFromActiveLayer_frame (env : LayerTreeImpl) (ext : Externals)
    (s other : PictureLayerImpl) :
    (SyncFromActiveLayer env ext s other).raster_source_ = s.raster_source_ ∧
    (SyncFromActiveLayer env ext s other).draws_content = s.draws_content ∧
    (SyncFromActiveLayer env ext s other).draw_properties = s.draw_properties ∧
    (RasterScalesZeroOrPositive other →
      RasterScalesZeroOrPositive (SyncFromActiveLayer env ext s other)) := by
  obtain ⟨a1, a2, a3, a4⟩ := RemoveAllTilings_frame s
  obtain ⟨b1, b2, b3, b4⟩ := SyncFromActiveLayerTilings_frame env ext (CopyRasterScales s other) other
  by_cases hd : (!s.draws_content) = true
  · have key : SyncFromActiveLayer env ext s other = RemoveAllTilings s := by
      unfold SyncFromActiveLayer
      rw [if_pos hd]
    rw [key]
    exact ⟨a1, a2, a3, fun _ => a4⟩
  · have key : SyncFromActiveLayer env ext s other =
        if (!(SyncFromActiveLayerTilings env ext (CopyRasterScales s other) other).2) = true
        then ResetRasterScale (SyncFromActiveLayerTilings env ext (CopyRasterScales s other) other).1
        else (SyncFromActiveLayerTilings env ext (CopyRasterScales s other) other).1 := by
      unfold SyncFromActiveLayer
      rw [if_neg hd]
    rw [key]
    by_cases hs : (!(SyncFromActiveLayerTilings env ext (CopyRasterScales s other) other).2) = true
    · rw [if_pos hs]
      exact ⟨b1, b2, b3, fun _ => RasterScalesZeroOrPositive_of_reset _⟩
    · rw [if_neg hs]
      exact ⟨b1, b2, b3, fun h => b4 h⟩

/-- Auxiliary: the post-commit initialisation keeps the raster source and the
base-class part of the layer, and keeps the raster scales all zero or all
positive when those of the twin it syncs from are. -/
theorem DoPostCommitInitializationIfNeeded_frame (env : LayerTreeImpl) (ext : Externals)
    (twin_layer_ : Option (LayerTreeImpl × PictureLayerImpl)) (s : PictureLayerImpl) :
    (DoPostCommitInitializationIfNeeded env ext twin_layer_ s).raster_source_ =
      s.raster_source_ ∧
    (DoPostCommitInitializationIfNeeded env ext twin_layer_ s).draws_content =
      s.draws_content ∧
    (DoPostCommitInitializationIfNeeded env ext twin_layer_ s).draw_properties =
      s.draw_properties ∧
    (RasterScalesZeroOrPositive s →
      (s.needs_post_commit_initialization_ = true → ∀ t,
        GetPendingOrActiveTwinLayer twin_layer_ = some t →
        t.2.needs_post_commit_initialization_ = false → RasterScalesZeroOrPositive t.2) →
      RasterScalesZeroOrPositive (DoPostCommitInitializationIfNeeded env ext twin_layer_ s)) := by
  unfold DoPostCommitInitializationIfNeeded
  by_cases hi : s.needs_post_commit_initialization_ = true
  · rw [if_pos hi]
    unfold DoPostCommitInitialization
    -- the layer once its tiling set exists
    obtain ⟨s1, hs1, g1, g2, g3, g4⟩ : ∃ s1 : PictureLayerImpl,
        (if s.tilings_is_null = true then
          { s with tilings_ := PictureLayerTilingSet.Create, tilings_is_null := false }
         else s) = s1 ∧ s1.raster_source_ = s.raster_source_ ∧
        s1.draws_content = s.draws_content ∧ s1.draw_properties = s.draw_properties ∧
        (RasterScalesZeroOrPositive s → RasterScalesZeroOrPositive s1) := by
      by_cases hn : s.tilings_is_null = true
      · exact ⟨_, rfl, by rw [if_pos hn], by rw [if_pos hn], by rw [if_pos hn],
          fun h => by rw [if_pos hn]; exact h⟩
      · exact ⟨_, rfl, by rw [if_neg hn], by rw [if_neg hn], by rw [if_neg hn],
          fun h => by rw [if_neg hn]; exact h⟩
    simp only [hs1]
    cases ht : GetPendingOrActiveTwinLayer twin_layer_ with
    | none => exact ⟨g1, g2, g3, fun h _ => g4 h⟩
    | some t =>
      simp only
      by_cases hti : (!t.2.needs_post_commit_initialization_) = true
      · rw [if_pos hti]
        obtain ⟨f1, f2, f3, f4⟩ := SyncFromActiveLayer_frame env ext s1 t.2
        refine ⟨f1.trans g1, f2.trans g2, f3.trans g3, fun _ htw => f4 (htw hi t rfl ?_)⟩
        simpa using hti
      · rw [if_neg hti]
        exact ⟨g1, g2, g3, fun h _ => g4 h⟩
  · rw [if_neg hi]
    exact ⟨rfl, rfl, rfl, fun h _ => h⟩

/-- Auxiliary: `UpdateTiles()` on a layer that can have tilings, in terms of the
layer after its post-commit initialisation. -/
theorem UpdateTilesTraced_with_tilings (env : LayerTreeImpl) (ext : Externals)
    (twin_layer_ : Option (LayerTreeImpl × PictureLayerImpl)) (fuel : Nat)
    (s s0 : PictureLayerImpl)
    (h0 : DoPostCommitInitializationIfNeeded env ext twin_layer_ s = s0)
    (hcan : s0.CanHaveTilings = true) :
    UpdateTilesTraced env ext twin_layer_ fuel s =
      if s0.raster_contents_scale_ = 0 ∨
          ShouldAdjustRasterScale env (UpdateIdealScales env s0) = true then
        (RecalculateRasterScales env fuel (UpdateIdealScales env s0)).map fun x =>
          (UpdateTilesFinish env ext (AddTilingsForRasterScale env x),
            AddTilingsForRasterScaleAddTilingCalls env x)
      else some (UpdateTilesFinish env ext (UpdateIdealScales env s0), []) := by
  have e : (UpdateIdealScales env s0).raster_contents_scale_ = s0.raster_contents_scale_ := rfl
  simp only [UpdateTilesTraced, h0, hcan, Bool.not_true, Bool.false_eq_true, if_false, e]
  split_ifs
  · simp [Option.map_map, Function.comp_def]
  · rfl

end PictureLayerImpl

namespace PictureLayerImpl

theorem GetPendingOrActiveTwinLayer_eq_some
    (twin_layer_ : Option (LayerTreeImpl × PictureLayerImpl)) (t : LayerTreeImpl × PictureLayerImpl)
    (h : GetPendingOrActiveTwinLayer twin_layer_ = some t) : twin_layer_ = some t := by
  cases twin_layer_ with
  | none => simp [GetPendingOrActiveTwinLayer] at h
  | some tw =>
    simp only [GetPendingOrActiveTwinLayer] at h
    split_ifs at h
    exact h

theorem RasterScalesPositive_of_ne_zero (s : PictureLayerImpl)
    (hs : RasterScalesZeroOrPositive s) (h : s.raster_contents_scale_ ≠ 0) :
    RasterScalesPositive s := by
  rcases hs with hz | hp
  · exact absurd hz.2.2.2.1 h
  · exact hp

/-- Auxiliary: what `UpdateTiles()` returns on a layer that can have tilings, and
that its five raster scales are positive. -/
theorem UpdateTilesTraced_positive (env : LayerTreeImpl) (ext : Externals)
    (twin_layer_ : Option (LayerTreeImpl × PictureLayerImpl)) (s s0 : PictureLayerImpl)
    (h0 : DoPostCommitInitializationIfNeeded env ext twin_layer_ s = s0)
    (hcan : s0.CanHaveTilings = true)
    (hpage : 0 < s0.draw_properties.page_scale_factor)
    (hdevice : 0 < s0.draw_properties.device_scale_factor)
    (hminpage : 0 < env.min_page_scale_factor)
    (hmin : 0 < env.settings.minimum_contents_scale)
    (hsnap : ∀ ts d r, 0 < d → 0 < env.GetSnappedContentsScale ts d r)
    (hs : RasterScalesZeroOrPositive s0) :
    ∃ k r, (∀ fuel, k ≤ fuel → UpdateTilesTraced env ext twin_layer_ fuel s = some r) ∧
      (∀ fuel r', UpdateTilesTraced env ext twin_layer_ fuel s = some r' →
        RasterScalesPositive r'.1) := by
  have hm := MinimumContentsScale_pos env s0 hmin
  obtain ⟨i1, i2, i3, i4, i5⟩ := UpdateIdealScales_positive env s0 hpage hdevice hminpage hm
  have hrcs : (UpdateIdealScales env s0).raster_contents_scale_ ≠ 0 →
      0 < (UpdateIdealScales env s0).raster_contents_scale_ :=
    fun h => (RasterScalesPositive_of_ne_zero s0 hs h).2.2.2.1
  have hpos : ∀ fuel x, RecalculateRasterScales env fuel (UpdateIdealScales env s0) = some x →
      RasterScalesPositive (UpdateTilesFinish env ext (AddTilingsForRasterScale env x)) := by
    intro fuel x hx
    have := Recalculate_positive env _ fuel x hx i1 i2 i3 (by rw [i5]; exact hm) hsnap hrcs
    rw [AddTilingsForRasterScale_frame]
    exact this
  by_cases hc : s0.raster_contents_scale_ = 0 ∨
      ShouldAdjustRasterScale env (UpdateIdealScales env s0) = true
  · obtain ⟨k, x, hk⟩ := Recalculate_returns env (UpdateIdealScales env s0)
      (fun _ h => ⟨hrcs h, i4⟩)
    refine ⟨k, (UpdateTilesFinish env ext (AddTilingsForRasterScale env x),
      AddTilingsForRasterScaleAddTilingCalls env x), fun fuel hf => ?_, fun fuel r' hr' => ?_⟩
    · rw [UpdateTilesTraced_with_tilings env ext twin_layer_ fuel s s0 h0 hcan, if_pos hc,
        hk fuel hf]
      rfl
    · rw [UpdateTilesTraced_with_tilings env ext twin_layer_ fuel s s0 h0 hcan, if_pos hc] at hr'
      cases hx : RecalculateRasterScales env fuel (UpdateIdealScales env s0) with
      | none => rw [hx] at hr'; simp at hr'
      | some x' =>
        rw [hx, Option.map_some', Option.some.injEq] at hr'
        rw [← hr']
        exact hpos fuel x' hx
  · refine ⟨0, (UpdateTilesFinish env ext (UpdateIdealScales env s0), []), fun fuel _ => ?_,
      fun fuel r' hr' => ?_⟩
    · rw [UpdateTilesTraced_with_tilings env ext twin_layer_ fuel s s0 h0 hcan, if_neg hc]
    · rw [UpdateTilesTraced_with_tilings env ext twin_layer_ fuel s s0 h0 hcan, if_neg hc,
        Option.some.injEq] at hr'
      rw [← hr']
      exact RasterScalesPositive_of_ne_zero s0 hs fun h => hc (Or.inl h)

end PictureLayerImpl

namespace PictureLayerImpl

/-! ### The raster scales `UpdateTiles()` leaves -/

theorem Tail_raster_contents_scale (env : LayerTreeImpl) (x : PictureLayerImpl) :
    (RecalculateRasterScalesTail env x).raster_contents_scale_ =
      max (AnimationOverrideScale env x) (MinimumContentsScale env x) := by
  obtain ⟨l, hl⟩ := Tail_eq env x
  rw [hl]

/-- Auxiliary: the uninitialised example layer after its post-commit
initialisation has the tilings and the raster scales of its twin. -/
theorem UninitialisedLayer_initialised :
    DoPostCommitInitializationIfNeeded PendingPinchTree ExampleExternals
      (some (PinchTree, PinchedTwinLayer)) UninitialisedLayer =
      { UninitialisedLayer with
        tilings_ := PinchedTwinLayer.tilings_
        tilings_is_null := false
        raster_page_scale_ := 4
        raster_device_scale_ := 1
        raster_source_scale_ := 1
        raster_contents_scale_ := 4
        low_res_raster_contents_scale_ := 1
        needs_post_commit_initialization_ := false } := rfl

/-- Auxiliary: no adjustment is due on the example layer initialised from its
twin, and a recalculation would double its raster contents scale. -/
theorem UninitialisedLayer_no_adjustment :
    ShouldAdjustRasterScale PendingPinchTree (UpdateIdealScales PendingPinchTree
      (DoPostCommitInitializationIfNeeded PendingPinchTree ExampleExternals
        (some (PinchTree, PinchedTwinLayer)) UninitialisedLayer)) = false ∧
    (RecalculateRasterScales PendingPinchTree 5 (UpdateIdealScales PendingPinchTree
        (DoPostCommitInitializationIfNeeded PendingPinchTree ExampleExternals
          (some (PinchTree, PinchedTwinLayer)) UninitialisedLayer))).map
      (fun r => r.raster_contents_scale_) = some 8 := by
  rw [UninitialisedLayer_initialised]
  constructor
  · simp [ShouldAdjustRasterScale, UpdateIdealScales, UninitialisedLayer, PinchedTwinLayer,
      ExampleLayer, PictureLayerImpl.Create, PendingPinchTree, PinchTree, ExampleTree,
      MinimumContentsScale, kMaxScaleRatioDuringPinch]
    norm_num
  · rw [Recalculate_with_pinch _ _ 5 rfl (by
      show (4 : ℚ) ≠ 0
      norm_num)]
    have e : PinchDesiredContentsScale 5 (4 : ℚ) 4 5 (max 5 (max (1 / ((2000 : Nat) : ℚ)) (1 / 16)))
        = some 8 := by
      norm_num [PinchDesiredContentsScale, PinchZoomInLoop, kMaxScaleRatioDuringPinch]
    have e5 : (UpdateIdealScales PendingPinchTree
        { UninitialisedLayer with
          tilings_ := PinchedTwinLayer.tilings_
          tilings_is_null := false
          raster_page_scale_ := 4
          raster_device_scale_ := 1
          raster_source_scale_ := 1
          raster_contents_scale_ := 4
          low_res_raster_contents_scale_ := 1
          needs_post_commit_initialization_ := false }).ideal_contents_scale_ =
        max 5 (max (1 / ((2000 : Nat) : ℚ)) (1 / 16)) := by
      simp [UpdateIdealScales, UninitialisedLayer, PinchedTwinLayer, MinimumContentsScale,
        PendingPinchTree, PinchTree, ExampleTree]
    rw [e5]
    show Option.map _ (Option.map _ (PinchDesiredContentsScale 5 (4 : ℚ) 4 5 _)) = _
    rw [e, Option.map_some', Option.map_some', PinchOverrideResult, Tail_raster_contents_scale]
    simp [AnimationOverrideScale, MinimumContentsScale, RecalculateRasterScalesHead,
      UpdateIdealScales, UninitialisedLayer, PinchedTwinLayer, PendingPinchTree, PinchTree,
      ExampleTree, PictureLayerImpl.Create]
    norm_num

/-- Claim C26, counterexample: a layer that can have tilings, with positive scale
factors and all five raster scales `0` on entry, but not yet initialised after
commit and with an initialised twin in the middle of a pinch. `UpdateTiles()` first
syncs from the twin, which sets `raster_contents_scale_` to `4`, and then neither
recalculates the raster scales nor adds a tiling; the recalculation would have
moved the scale to `8`. -/
theorem UpdateTiles_skips_recalculation_after_sync :
    UninitialisedLayer.CanHaveTilings = true ∧
    0 < UninitialisedLayer.draw_properties.page_scale_factor ∧
    0 < UninitialisedLayer.draw_properties.device_scale_factor ∧
    0 < UninitialisedLayer.draw_properties.ideal_contents_scale ∧
    0 < PendingPinchTree.min_page_scale_factor ∧
    0 < PendingPinchTree.settings.minimum_contents_scale ∧
    (∀ ts d r, 0 < d → 0 < PendingPinchTree.GetSnappedContentsScale ts d r) ∧
    RasterScalesZeroOrPositive UninitialisedLayer ∧
    RasterScalesZeroOrPositive PinchedTwinLayer ∧
    UninitialisedLayer.raster_contents_scale_ = 0 ∧
    (∀ fuel, (UpdateTilesTraced PendingPinchTree ExampleExternals
        (some (PinchTree, PinchedTwinLayer)) fuel UninitialisedLayer).map
          (fun r => (r.1.raster_contents_scale_, r.2)) = some (4, [])) ∧
    (RecalculateRasterScales PendingPinchTree 5 (UpdateIdealScales PendingPinchTree
        (DoPostCommitInitializationIfNeeded PendingPinchTree ExampleExternals
          (some (PinchTree, PinchedTwinLayer)) UninitialisedLayer))).map
      (fun r => r.raster_contents_scale_) = some 8 := by
  have e1 : (DoPostCommitInitializationIfNeeded PendingPinchTree ExampleExternals
      (some (PinchTree, PinchedTwinLayer)) UninitialisedLayer).raster_contents_scale_ = 4 := rfl
  have e2 : (DoPostCommitInitializationIfNeeded PendingPinchTree ExampleExternals
      (some (PinchTree, PinchedTwinLayer)) UninitialisedLayer).CanHaveTilings = true := rfl
  obtain ⟨e3, e4⟩ := UninitialisedLayer_no_adjustment
  refine ⟨rfl, ?_, ?_, ?_, ?_, ?_, fun _ d _ h => h, Or.inl ⟨rfl, rfl, rfl, rfl, rfl⟩, Or.inr ?_,
    rfl, fun fuel => ?_, ?_⟩
  · norm_num [UninitialisedLayer, PinchedTwinLayer]
  · norm_num [UninitialisedLayer, PinchedTwinLayer]
  · norm_num [UninitialisedLayer, PinchedTwinLayer]
  · norm_num [PendingPinchTree, PinchTree, ExampleTree]
  · norm_num [PendingPinchTree, PinchTree, ExampleTree]
  · norm_num [RasterScalesPositive, PinchedTwinLayer, ExampleLayer]
  · rw [UpdateTilesTraced_with_tilings _ _ _ fuel _ _ rfl e2, if_neg (by rw [e1, e3]; norm_num)]
    exact congrArg (fun x => some (x, ([] : List ℚ))) e1
  · exact e4

end PictureLayerImpl

namespace PictureLayerImpl

theorem RasterScalesZeroOrPositive_congr (a b : PictureLayerImpl)
    (h1 : a.raster_page_scale_ = b.raster_page_scale_)
    (h2 : a.raster_device_scale_ = b.raster_device_scale_)
    (h3 : a.raster_source_scale_ = b.raster_source_scale_)
    (h4 : a.raster_contents_scale_ = b.raster_contents_scale_)
    (h5 : a.low_res_raster_contents_scale_ = b.low_res_raster_contents_scale_)
    (h : RasterScalesZeroOrPositive b) : RasterScalesZeroOrPositive a := by
  simp only [RasterScalesZeroOrPositive, RasterScalesZero, RasterScalesPositive, h1, h2, h3, h4,
    h5] at h ⊢
  exact h

/-- Auxiliary: the layer after its post-commit initialisation, when the layer and
its twin have raster scales that are all zero or all positive. -/
theorem DoPostCommitInitializationIfNeeded_zero_or_positive (env : LayerTreeImpl)
    (ext : Externals) (twin_layer_ : Option (LayerTreeImpl × PictureLayerImpl))
    (s : PictureLayerImpl) (hs : RasterScalesZeroOrPositive s)
    (htwin : ∀ t, twin_layer_ = some t → RasterScalesZeroOrPositive t.2) :
    RasterScalesZeroOrPositive (DoPostCommitInitializationIfNeeded env ext twin_layer_ s) :=
  (DoPostCommitInitializationIfNeeded_frame env ext twin_layer_ s).2.2.2 hs
    fun _ t ht _ => htwin t (GetPendingOrActiveTwinLayer_eq_some twin_layer_ t ht)

/-- Claim C26 (amended): for a layer that can have tilings, with positive page and
device scale factors, a positive minimum page scale factor and minimum contents
scale, a snapping that returns a positive value for a positive scale, and an entry
state in which the five raster scales of the layer, and of its twin if it has one,
are all `0` or all positive: `UpdateTiles()` returns; it runs
`RecalculateRasterScales()` and `AddTilingsForRasterScale()` whenever
`raster_contents_scale_` is `0` once the post-commit initialisation at its start has
run (on entry, for a layer already initialised), regardless of
`ShouldAdjustRasterScale()`; on return the five raster scales are positive, so none
of the five checks can fail, and the all-zero-or-all-positive predicate holds again.
`ResetRasterScale()`, `SyncFromActiveLayer()` and `PushPropertiesTo()` (on the
target) preserve the predicate. -/
theorem UpdateTiles_leaves_positive_raster_scales (env : LayerTreeImpl) (ext : Externals)
    (twin_layer_ : Option (LayerTreeImpl × PictureLayerImpl)) (s : PictureLayerImpl)
    (hcan : s.CanHaveTilings = true)
    (hpage : 0 < s.draw_properties.page_scale_factor)
    (hdevice : 0 < s.draw_properties.device_scale_factor)
    (hminpage : 0 < env.min_page_scale_factor)
    (hmin : 0 < env.settings.minimum_contents_scale)
    (hsnap : ∀ ts d r, 0 < d → 0 < env.GetSnappedContentsScale ts d r)
    (hs : RasterScalesZeroOrPositive s)
    (htwin : ∀ t, twin_layer_ = some t → RasterScalesZeroOrPositive t.2) :
    (∃ k s', ∀ fuel, k ≤ fuel → UpdateTiles env ext twin_layer_ fuel s = some s') ∧
    (∀ fuel s', UpdateTiles env ext twin_layer_ fuel s = some s' →
      RasterScalesPositive s' ∧ RasterScalesZeroOrPositive s') ∧
    (∀ fuel,
      (DoPostCommitInitializationIfNeeded env ext twin_layer_ s).raster_contents_scale_ = 0 →
      UpdateTilesTraced env ext twin_layer_ fuel s =
        (RecalculateRasterScales env fuel (UpdateIdealScales env
          (DoPostCommitInitializationIfNeeded env ext twin_layer_ s))).map fun x =>
            (UpdateTilesFinish env ext (AddTilingsForRasterScale env x),
              AddTilingsForRasterScaleAddTilingCalls env x)) ∧
    (s.needs_post_commit_initialization_ = false → s.raster_contents_scale_ = 0 →
      ∀ fuel, UpdateTilesTraced env ext twin_layer_ fuel s =
        (RecalculateRasterScales env fuel (UpdateIdealScales env s)).map fun x =>
          (UpdateTilesFinish env ext (AddTilingsForRasterScale env x),
            AddTilingsForRasterScaleAddTilingCalls env x)) ∧
    RasterScalesZeroOrPositive (ResetRasterScale s) ∧
    (∀ other, RasterScalesZeroOrPositive other →
      RasterScalesZeroOrPositive (SyncFromActiveLayer env ext s other)) ∧
    (∀ layer_tree linked layer_impl, RasterScalesZeroOrPositive layer_impl →
      RasterScalesZeroOrPositive
        (PushPropertiesTo env ext layer_tree linked s layer_impl).2) := by
  obtain ⟨f1, f2, f3, _⟩ := DoPostCommitInitializationIfNeeded_frame env ext twin_layer_ s
  have f4 := DoPostCommitInitializationIfNeeded_zero_or_positive env ext twin_layer_ s hs htwin
  have hcan0 : (DoPostCommitInitializationIfNeeded env ext twin_layer_ s).CanHaveTilings =
      true := by
    simp only [CanHaveTilings, f1, f2]
    exact hcan
  obtain ⟨k, r, hk, hpos⟩ := UpdateTilesTraced_positive env ext twin_layer_ s _ rfl hcan0
    (by rw [f3]; exact hpage) (by rw [f3]; exact hdevice) hminpage hmin hsnap f4
  have hrun : ∀ fuel,
      (DoPostCommitInitializationIfNeeded env ext twin_layer_ s).raster_contents_scale_ = 0 →
      UpdateTilesTraced env ext twin_layer_ fuel s =
        (RecalculateRasterScales env fuel (UpdateIdealScales env
          (DoPostCommitInitializationIfNeeded env ext twin_layer_ s))).map fun x =>
            (UpdateTilesFinish env ext (AddTilingsForRasterScale env x),
              AddTilingsForRasterScaleAddTilingCalls env x) := by
    intro fuel h0
    rw [UpdateTilesTraced_with_tilings env ext twin_layer_ fuel s _ rfl hcan0,
      if_pos (Or.inl h0)]
  refine ⟨⟨k, r.1, fun fuel hf => ?_⟩, fun fuel s' h => ?_, hrun, fun hinit h0 fuel => ?_,
    RasterScalesZeroOrPositive_of_reset s,
    fun other => (SyncFromActiveLayer_frame env ext s other).2.2.2,
    fun layer_tree linked layer_impl hl => ?_⟩
  · simp only [UpdateTiles, hk fuel hf, Option.map_some']
  · simp only [UpdateTiles] at h
    cases hr : UpdateTilesTraced env ext twin_layer_ fuel s with
    | none => rw [hr] at h; simp at h
    | some r' =>
      rw [hr, Option.map_some', Option.some.injEq] at h
      rw [← h]
      exact ⟨hpos fuel r' hr, Or.inr (hpos fuel r' hr)⟩
  · have e : DoPostCommitInitializationIfNeeded env ext twin_layer_ s = s := by
      simp [DoPostCommitInitializationIfNeeded, hinit]
    have := hrun fuel (by rw [e]; exact h0)
    rw [e] at this
    exact this
  · obtain ⟨_, p2, p3, p4, p5, p6, _, _⟩ := PushPropertiesTo_scales env ext layer_tree linked s
      layer_impl _ rfl
    refine RasterScalesZeroOrPositive_congr _ _ p2 p3 p4 p5 p6
      (DoPostCommitInitializationIfNeeded_zero_or_positive env ext _ s hs fun t ht => ?_)
    cases linked
    · simp at ht
    · simp only [if_true, Option.some.injEq] at ht
      rw [← ht]
      exact hl

/-- Claim C26 (amended) for the uninitialised example layer and its pinching twin:
`UpdateTiles()` returns, with five positive raster scales. -/
theorem UpdateTiles_leaves_positive_raster_scales_witness :
    (∃ k s', ∀ fuel, k ≤ fuel →
      UpdateTiles PendingPinchTree ExampleExternals (some (PinchTree, PinchedTwinLayer)) fuel
        UninitialisedLayer = some s') ∧
    (∀ fuel s',
      UpdateTiles PendingPinchTree ExampleExternals (some (PinchTree, PinchedTwinLayer)) fuel
        UninitialisedLayer = some s' →
      RasterScalesPositive s' ∧ RasterScalesZeroOrPositive s') :=
  have h := UpdateTiles_leaves_positive_raster_scales PendingPinchTree ExampleExternals
    (some (PinchTree, PinchedTwinLayer)) UninitialisedLayer rfl
    (by norm_num [UninitialisedLayer, PinchedTwinLayer])
    (by norm_num [UninitialisedLayer, PinchedTwinLayer])
    (by norm_num [PendingPinchTree, PinchTree, ExampleTree])
    (by norm_num [PendingPinchTree, PinchTree, ExampleTree])
    (fun _ _ _ h => h) (Or.inl ⟨rfl, rfl, rfl, rfl, rfl⟩)
    (fun t ht => by
      rw [← Option.some.inj ht]
      exact Or.inr (by norm_num [RasterScalesPositive, PinchedTwinLayer, ExampleLayer]))
  ⟨h.1, h.2.1⟩

end PictureLayerImpl

namespace LayerRasterTileIterator

/-! ### The invariant of the raster tile iterator -/

theorem set_iterator_frame (it : LayerRasterTileIterator) (index : IteratorType)
    (value : TilingRasterTileIterator) :
    (it.set_iterator index value).stages_ = it.stages_ ∧
    (it.set_iterator index value).current_stage_ = it.current_stage_ := by
  cases index <;> exact ⟨rfl, rfl⟩

theorem AdvanceToNextStage_current_stage (it : LayerRasterTileIterator) :
    it.current_stage_ < it.AdvanceToNextStage.current_stage_ := by
  have := (AdvanceLoop_spec it (it.stages_.drop (it.current_stage_ + 1))
    (it.current_stage_ + 1)).1
  simp only [AdvanceToNextStage]
  omega

/-- The stage counter never decreases under `operator++`. -/
theorem Increment_current_stage_le (it : LayerRasterTileIterator) :
    it.current_stage_ ≤ it.Increment.current_stage_ := by
  unfold Increment
  cases hst : it.stages_[it.current_stage_]? with
  | none => exact le_refl _
  | some stage =>
    have hcur := (set_iterator_frame it stage.iterator_type
      (it.iterators_ stage.iterator_type).tail).2
    simp only
    split_ifs
    · have := AdvanceToNextStage_current_stage
        (it.set_iterator stage.iterator_type (it.iterators_ stage.iterator_type).tail)
      omega
    · omega

theorem Increment_not_valid (it : LayerRasterTileIterator) (h : it.IsValid = false) :
    it.Increment.IsValid = false := by
  have := Increment_current_stage_le it
  simp only [IsValid, decide_eq_false_iff_not, not_lt] at h ⊢
  omega

theorem iterate_Increment_not_valid (n : Nat) :
    ∀ it : LayerRasterTileIterator, it.IsValid = false → (Increment^[n] it).IsValid = false := by
  induction n with
  | zero => intro it h; exact h
  | succ n ih =>
    intro it h
    rw [Function.iterate_succ_apply]
    exact ih _ (Increment_not_valid it h)

/-- A valid iterator that satisfies the invariant stands on a tile of the type of
its stage; `operator++` keeps the invariant and consumes that tile. -/
theorem Increment_spec (it : LayerRasterTileIterator) (hinv : it.Invariant)
    (hv : it.IsValid = true) :
    it.AssertionsHold = true ∧ it.Deref.isSome = true ∧ it.Increment.Invariant ∧
    it.Increment.RemainingTiles + 1 = it.RemainingTiles := by
  have hlt : it.current_stage_ < it.stages_.length := by
    rw [hinv.1]; simpa [IsValid] using hv
  obtain ⟨stage, hst⟩ : ∃ stage, it.stages_[it.current_stage_]? = some stage :=
    ⟨_, List.getElem?_eq_getElem hlt⟩
  have hr := hinv.2 stage hst
  obtain ⟨t, tl, hsel, hbin⟩ : ∃ t tl, it.iterators_ stage.iterator_type = t :: tl ∧
      t.bin = stage.tile_type := by
    simp only [StageReady] at hr
    cases hs : it.iterators_ stage.iterator_type with
    | nil => simp [hs] at hr
    | cons t tl => rw [hs] at hr; exact ⟨t, tl, rfl, by simpa using hr⟩
  obtain ⟨hstages, hcur⟩ := set_iterator_frame it stage.iterator_type tl
  have hsize : (it.set_iterator stage.iterator_type tl).RemainingTiles + 1 =
      it.RemainingTiles := by
    simp only [RemainingTiles]
    cases hi : stage.iterator_type <;> simp only [hi, iterators_, set_iterator] at hsel ⊢ <;>
      (rw [hsel]; simp only [List.length_cons]; omega)
  have hst' : (it.set_iterator stage.iterator_type tl).stages_[
      (it.set_iterator stage.iterator_type tl).current_stage_]? = some stage := by
    rw [hstages, hcur]; exact hst
  refine ⟨by simp [AssertionsHold, hst, hr], by simp [Deref, hv, hst, hsel, hbin], ?_⟩
  by_cases hr' : (it.set_iterator stage.iterator_type tl).StageReady stage = true
  · have hinc : it.Increment = it.set_iterator stage.iterator_type tl := by
      simp [Increment, hst, hsel, hr']
    rw [hinc]
    refine ⟨⟨by rw [hstages]; exact hinv.1, ?_⟩, hsize⟩
    intro stage' hs'
    rw [hst'] at hs'
    cases hs'
    exact hr'
  · have hr'' : (it.set_iterator stage.iterator_type tl).StageReady stage = false := by
      simpa using hr'
    have hinc : it.Increment =
        (it.set_iterator stage.iterator_type tl).AdvanceToNextStage := by
      simp [Increment, hst, hsel, hr'']
    obtain ⟨a1, a2, a3, _, _⟩ := AdvanceToNextStage_spec
      (it.set_iterator stage.iterator_type tl) (by rw [hstages]; exact hinv.1) stage hst' hr''
    rw [hinc]
    refine ⟨a1, ?_⟩
    simp only [RemainingTiles, a2, a3] at hsize ⊢
    exact hsize

theorem AssertionsHold_of_not_valid (it : LayerRasterTileIterator) (h : it.IsValid = false) :
    it.AssertionsHold = true := by
  simp [AssertionsHold, h]

/-- Every state reached by increments from a state that satisfies the invariant or
is exhausted satisfies the invariant or is exhausted. -/
theorem iterate_Increment_invariant (n : Nat) :
    ∀ it : LayerRasterTileIterator, it.Invariant ∨ it.IsValid = false →
      (Increment^[n] it).Invariant ∨ (Increment^[n] it).IsValid = false := by
  induction n with
  | zero => intro it h; exact h
  | succ n ih =>
    intro it h
    rw [Function.iterate_succ_apply]
    by_cases hv : it.IsValid = true
    · rcases h with hinv | hnv
      · exact ih _ (Or.inl (Increment_spec it hinv hv).2.2.1)
      · rw [hv] at hnv; cases hnv
    · exact ih _ (Or.inr (Increment_not_valid it (by simpa using hv)))

/-- After as many increments as the tiling iterators hold tiles the iterator is
exhausted. -/
theorem iterate_Increment_exhausted (n : Nat) :
    ∀ it : LayerRasterTileIterator, it.Invariant ∨ it.IsValid = false →
      it.RemainingTiles ≤ n → (Increment^[n] it).IsValid = false := by
  induction n with
  | zero =>
    intro it h hn
    by_cases hv : it.IsValid = true
    · rcases h with hinv | hnv
      · have := (Increment_spec it hinv hv).2.2.2
        omega
      · rw [hv] at hnv; cases hnv
    · simpa using hv
  | succ n ih =>
    intro it h hn
    rw [Function.iterate_succ_apply]
    by_cases hv : it.IsValid = true
    · rcases h with hinv | hnv
      · obtain ⟨_, _, h1, h2⟩ := Increment_spec it hinv hv
        exact ih _ (Or.inl h1) (by omega)
      · rw [hv] at hnv; cases hnv
    · exact iterate_Increment_not_valid n _ (Increment_not_valid it (by simpa using hv))

theorem Create_invariant (env : LayerTreeImpl) (layer : PictureLayerImpl) (b : Bool) :
    (Create env layer b).Invariant ∨ (Create env layer b).IsValid = false := by
  by_cases hT : PictureLayerTilingSet.num_tilings layer.tilings_ = 0
  · right
    simp only [Create, hT, if_true]
    rfl
  · by_cases hV : PictureLayerImpl.HasValidTilePriorities env layer = true
    · left
      refine (Create_spec env layer b ?_ hV).1
      intro hnil
      exact hT (by rw [hnil]; rfl)
    · right
      have hV' : PictureLayerImpl.HasValidTilePriorities env layer = false := by simpa using hV
      simp only [Create, hT, if_false, hV', Bool.not_false, if_true]
      rfl

end LayerRasterTileIterator

namespace LayerRasterTileIterator

/-- Claim C27: the invariant of `LayerRasterTileIterator` over construction and every
`operator++`. In every state reached from the constructor by increments, a valid
iterator (`current_stage_ < 4`) stands on a stage whose tiling iterator is valid
and has the stage's tile type as its priority bin, so the assertions of
`operator*` and `operator++` hold and `operator*` yields a tile; `current_stage_`
never decreases; a default-constructed iterator, an iterator over a layer with no
tilings and an iterator over a layer without valid tile priorities are exhausted
from the start and yield no tile; and, the tiling iterators being finite, the
iterator is exhausted after as many increments as they hold tiles, and the loop
over it returns. -/
theorem raster_tile_iterator_invariant (env : LayerTreeImpl) (layer : PictureLayerImpl)
    (b : Bool) :
    (∀ n, (Increment^[n] (Create env layer b)).AssertionsHold = true ∧
      ((Increment^[n] (Create env layer b)).IsValid = true →
        ∃ stage t rest,
          (Increment^[n] (Create env layer b)).stages_[
            (Increment^[n] (Create env layer b)).current_stage_]? = some stage ∧
          (Increment^[n] (Create env layer b)).iterators_ stage.iterator_type = t :: rest ∧
          t.bin = stage.tile_type ∧
          (Increment^[n] (Create env layer b)).Deref = some t)) ∧
    (∀ n, (Increment^[n] Default).AssertionsHold = true ∧
      (Increment^[n] Default).IsValid = false) ∧
    (∀ it : LayerRasterTileIterator, it.current_stage_ ≤ it.Increment.current_stage_) ∧
    (∀ n m, n ≤ m → (Increment^[n] (Create env layer b)).current_stage_ ≤
      (Increment^[m] (Create env layer b)).current_stage_) ∧
    (Default.IsValid = false ∧ ∀ fuel, Tiles fuel Default = some []) ∧
    (PictureLayerTilingSet.num_tilings layer.tilings_ = 0 →
      (Create env layer b).IsValid = false ∧ ∀ fuel, Tiles fuel (Create env layer b) = some []) ∧
    (PictureLayerImpl.HasValidTilePriorities env layer = false →
      (Create env layer b).IsValid = false ∧ ∀ fuel, Tiles fuel (Create env layer b) = some []) ∧
    (∀ n, (Create env layer b).RemainingTiles ≤ n →
      (Increment^[n] (Create env layer b)).IsValid = false) ∧
    (∃ ts, ∀ fuel, (Create env layer b).RemainingTiles ≤ fuel →
      Tiles fuel (Create env layer b) = some ts) := by
  have hD : Default.IsValid = false := rfl
  have hC := Create_invariant env layer b
  have hmono : ∀ (it : LayerRasterTileIterator) (n k : Nat),
      (Increment^[n] it).current_stage_ ≤ (Increment^[n + k] it).current_stage_ := by
    intro it n k
    induction k with
    | zero => exact le_refl _
    | succ k ih =>
      rw [← Nat.add_assoc, Function.iterate_succ_apply']
      exact le_trans ih (Increment_current_stage_le _)
  refine ⟨fun n => ?_, fun n => ?_, Increment_current_stage_le, fun n m hnm => ?_,
    ⟨hD, Tiles_of_not_valid _ hD⟩, fun hT => ?_, fun hV => ?_,
    fun n hn => iterate_Increment_exhausted n _ hC hn, ?_⟩
  · by_cases hv : (Increment^[n] (Create env layer b)).IsValid = true
    · rcases iterate_Increment_invariant n _ hC with hinv | hnv
      · refine ⟨(Increment_spec _ hinv hv).1, fun _ => ?_⟩
        have hlt : (Increment^[n] (Create env layer b)).current_stage_ <
            (Increment^[n] (Create env layer b)).stages_.length := by
          rw [hinv.1]; simpa [IsValid] using hv
        have hst := List.getElem?_eq_getElem hlt
        have hr := hinv.2 _ hst
        simp only [StageReady] at hr
        cases hs : (Increment^[n] (Create env layer b)).iterators_
            ((Increment^[n] (Create env layer b)).stages_[
              (Increment^[n] (Create env layer b)).current_stage_]).iterator_type with
        | nil => simp [hs] at hr
        | cons t tl =>
          rw [hs] at hr
          have hbin : t.bin = ((Increment^[n] (Create env layer b)).stages_[
              (Increment^[n] (Create env layer b)).current_stage_]).tile_type := by
            simpa using hr
          exact ⟨_, t, tl, hst, hs, hbin, by simp [Deref, hv, hst, hs, hbin]⟩
      · rw [hv] at hnv; cases hnv
    · have hv' : (Increment^[n] (Create env layer b)).IsValid = false := by simpa using hv
      exact ⟨AssertionsHold_of_not_valid _ hv', fun h => absurd h hv⟩
  · have h := iterate_Increment_not_valid n Default hD
    exact ⟨AssertionsHold_of_not_valid _ h, h⟩
  · obtain ⟨k, rfl⟩ : ∃ k, m = n + k := ⟨m - n, by omega⟩
    exact hmono _ n k
  · have h : (Create env layer b).IsValid = false := by
      simp only [Create, hT, if_true]
      rfl
    exact ⟨h, Tiles_of_not_valid _ h⟩
  · have h : (Create env layer b).IsValid = false := by
      simp only [Create, hV, Bool.not_false, if_true, ite_self]
      rfl
    exact ⟨h, Tiles_of_not_valid _ h⟩
  · rcases hC with hinv | hnv
    · exact ⟨_, fun fuel hf => Tiles_spec _ _ hinv (le_refl _) fuel hf⟩
    · exact ⟨[], fun fuel _ => Tiles_of_not_valid _ hnv fuel⟩

end LayerRasterTileIterator

namespace LayerWorld

/-! ### The twin pointers -/

theorem TwinsSymmetric_iff (w : LayerWorld) :
    w.TwinsSymmetric = true ↔
      ∀ a ∈ w.live, ∀ b, w.twin_layer_ a = some b → w.twin_layer_ b = some a := by
  simp only [TwinsSymmetric, List.all_eq_true]
  constructor
  · intro h a ha b hb
    have := h a ha
    rw [hb] at this
    simpa using this
  · intro h a ha
    cases hb : w.twin_layer_ a with
    | none => rfl
    | some b => simpa using h a ha b hb

theorem NoDanglingTwin_iff (w : LayerWorld) :
    w.NoDanglingTwin = true ↔
      ∀ a ∈ w.live, ∀ b, w.twin_layer_ a = some b → b ∈ w.live := by
  simp only [NoDanglingTwin, List.all_eq_true]
  constructor
  · intro h a ha b hb
    have := h a ha
    rw [hb] at this
    simpa using this
  · intro h a ha
    cases hb : w.twin_layer_ a with
    | none => rfl
    | some b => simpa using h a ha b hb

end LayerWorld

namespace LayerWorld

/-- The invariant of the twin pointers: live layers have ids below `next_id`, the
twin relation among them is symmetric, and no twin pointer of a live layer refers
to a destroyed layer. -/
theorem Invariant_Empty :
    (∀ a ∈ Empty.live, a < Empty.next_id) ∧ Empty.TwinsSymmetric = true ∧
      Empty.NoDanglingTwin = true :=
  ⟨fun _ h => by simp [Empty] at h, rfl, rfl⟩

theorem Invariant_Create (w : LayerWorld)
    (hb : ∀ a ∈ w.live, a < w.next_id) (hs : w.TwinsSymmetric = true)
    (hd : w.NoDanglingTwin = true) :
    (∀ a ∈ w.Create.live, a < w.Create.next_id) ∧ w.Create.TwinsSymmetric = true ∧
      w.Create.NoDanglingTwin = true := by
  rw [TwinsSymmetric_iff] at hs ⊢
  rw [NoDanglingTwin_iff] at hd ⊢
  have hne : ∀ a ∈ w.live, a ≠ w.next_id := fun a ha => Nat.ne_of_lt (hb a ha)
  refine ⟨?_, ?_, ?_⟩
  · intro a ha
    simp only [Create, List.mem_cons] at ha ⊢
    rcases ha with rfl | ha
    · omega
    · have := hb a ha
      omega
  · intro a ha b hab
    simp only [Create, List.mem_cons] at ha hab ⊢
    rcases ha with rfl | ha
    · simp at hab
    · rw [if_neg (hne a ha)] at hab
      rw [if_neg (hne b (hd a ha b hab))]
      exact hs a ha b hab
  · intro a ha b hab
    simp only [Create, List.mem_cons] at ha hab ⊢
    rcases ha with rfl | ha
    · simp at hab
    · rw [if_neg (hne a ha)] at hab
      exact Or.inr (hd a ha b hab)

/-- A `PushPropertiesTo` that passes its checks, to a target that has no twin other
than the pushing layer, joins two layers that are twins already or that both have
no twin. -/
theorem PushPropertiesTo_cases (w w' : LayerWorld) (x y : Nat)
    (hs : w.TwinsSymmetric = true)
    (hg : w.TargetTwinIsPusher (Op.PushPropertiesTo x y) = true)
    (h : w.PushPropertiesTo x y = some w') :
    x ∈ w.live ∧ y ∈ w.live ∧
    w' = { w with
      twin_layer_ := fun i =>
        if i = y then some x else if i = x then some y else w.twin_layer_ i } ∧
    ((w.twin_layer_ x = some y ∧ w.twin_layer_ y = some x) ∨
      (w.twin_layer_ x = none ∧ w.twin_layer_ y = none)) := by
  rw [TwinsSymmetric_iff] at hs
  simp only [PushPropertiesTo] at h
  split_ifs at h with hc
  obtain ⟨hx, hy, hchk⟩ := hc
  refine ⟨hx, hy, (Option.some.inj h).symm, ?_⟩
  simp only [TargetTwinIsPusher] at hg
  simp only [PushPropertiesToChecks] at hchk
  cases hxt : w.twin_layer_ x with
  | some t =>
    rw [hxt] at hchk
    simp only [Bool.and_eq_true, decide_eq_true_eq] at hchk
    left
    exact ⟨by rw [hchk.1], hchk.2⟩
  | none =>
    right
    refine ⟨rfl, ?_⟩
    cases hyt : w.twin_layer_ y with
    | none => rfl
    | some t =>
      rw [hyt] at hg
      have ht : t = x := by simpa using hg
      have := hs y hy t hyt
      rw [ht, hxt] at this
      cases this

theorem Invariant_PushPropertiesTo (w w' : LayerWorld) (x y : Nat)
    (hb : ∀ a ∈ w.live, a < w.next_id) (hs : w.TwinsSymmetric = true)
    (hd : w.NoDanglingTwin = true)
    (hg : w.TargetTwinIsPusher (Op.PushPropertiesTo x y) = true)
    (h : w.PushPropertiesTo x y = some w') :
    (∀ a ∈ w'.live, a < w'.next_id) ∧ w'.TwinsSymmetric = true ∧
      w'.NoDanglingTwin = true := by
  obtain ⟨hx, hy, rfl, hcases⟩ := PushPropertiesTo_cases w w' x y hs hg h
  rw [TwinsSymmetric_iff] at hs ⊢
  rw [NoDanglingTwin_iff] at hd ⊢
  refine ⟨hb, ?_, ?_⟩
  · intro a ha b hab
    simp only at ha hab ⊢
    by_cases hay : a = y
    · subst hay
      rw [if_pos rfl] at hab
      cases hab
      by_cases hxa : x = a
      · rw [if_pos hxa, hxa]
      · rw [if_neg hxa, if_pos rfl]
    · rw [if_neg hay] at hab
      by_cases hax : a = x
      · subst hax
        rw [if_pos rfl] at hab
        cases hab
        rw [if_pos rfl]
      · rw [if_neg hax] at hab
        have hba := hs a ha b hab
        have hby : b ≠ y := by
          rintro rfl
          rcases hcases with h1 | h1
          · rw [h1.2] at hba; exact hax (Option.some.inj hba).symm
          · rw [h1.2] at hba; cases hba
        have hbx : b ≠ x := by
          rintro rfl
          rcases hcases with h1 | h1
          · rw [h1.1] at hba; exact hay (Option.some.inj hba).symm
          · rw [h1.1] at hba; cases hba
        rw [if_neg hby, if_neg hbx]
        exact hba
  · intro a ha b hab
    simp only at ha hab ⊢
    by_cases hay : a = y
    · rw [if_pos hay] at hab
      cases hab
      exact hx
    · rw [if_neg hay] at hab
      by_cases hax : a = x
      · rw [if_pos hax] at hab
        cases hab
        exact hy
      · rw [if_neg hax] at hab
        exact hd a ha b hab

/-- The destructor of a live layer, in a state that satisfies the invariant. -/
theorem Destroy_cases (w : LayerWorld) (x : Nat) (hx : x ∈ w.live)
    (hd : w.NoDanglingTwin = true) :
    w.Destroy x = some { w with
      live := w.live.filter fun i => decide (i ≠ x)
      twin_layer_ := fun i =>
        if w.twin_layer_ x = some i then none else w.twin_layer_ i } := by
  rw [NoDanglingTwin_iff] at hd
  simp only [Destroy, hx, if_true]
  cases hxt : w.twin_layer_ x with
  | none => simp
  | some t =>
    simp only [hd x hx t hxt, if_true, Option.some.injEq]
    congr 2
    funext i
    by_cases hi : i = t
    · simp [hi]
    · have : ¬ t = i := fun h => hi h.symm
      simp [hi, this]

theorem Invariant_Destroy (w w' : LayerWorld) (x : Nat)
    (hb : ∀ a ∈ w.live, a < w.next_id) (hs : w.TwinsSymmetric = true)
    (hd : w.NoDanglingTwin = true) (h : w.Destroy x = some w') :
    (∀ a ∈ w'.live, a < w'.next_id) ∧ w'.TwinsSymmetric = true ∧
      w'.NoDanglingTwin = true := by
  have hx : x ∈ w.live := by
    by_contra hx
    simp [Destroy, hx] at h
  rw [Destroy_cases w x hx hd, Option.some.injEq] at h
  subst h
  rw [TwinsSymmetric_iff] at hs ⊢
  rw [NoDanglingTwin_iff] at hd ⊢
  refine ⟨?_, ?_, ?_⟩
  · intro a ha
    simp only [List.mem_filter] at ha
    exact hb a ha.1
  · intro a ha b hab
    simp only [List.mem_filter, decide_eq_true_eq] at ha
    simp only at hab ⊢
    split_ifs at hab with hxa
    have hba := hs a ha.1 b hab
    have hxb : ¬ w.twin_layer_ x = some b := by
      intro hxb
      have := hs x hx b hxb
      rw [hba] at this
      exact ha.2 (Option.some.inj this)
    rw [if_neg hxb]
    exact hba
  · intro a ha b hab
    simp only [List.mem_filter, decide_eq_true_eq] at ha ⊢
    simp only at hab
    split_ifs at hab with hxa
    refine ⟨hd a ha.1 b hab, ?_⟩
    rintro rfl
    exact hxa (hs a ha.1 b hab)

theorem Invariant_Step (w w' : LayerWorld) (op : Op)
    (hb : ∀ a ∈ w.live, a < w.next_id) (hs : w.TwinsSymmetric = true)
    (hd : w.NoDanglingTwin = true) (hg : w.TargetTwinIsPusher op = true)
    (h : w.Step op = some w') :
    (∀ a ∈ w'.live, a < w'.next_id) ∧ w'.TwinsSymmetric = true ∧
      w'.NoDanglingTwin = true := by
  cases op with
  | Create =>
    simp only [Step, Option.some.injEq] at h
    subst h
    exact Invariant_Create w hb hs hd
  | PushPropertiesTo x y => exact Invariant_PushPropertiesTo w w' x y hb hs hd hg h
  | Destroy x => exact Invariant_Destroy w w' x hb hs hd h

theorem GuardedRun_cons (op : Op) (ops : List Op) (w w' : LayerWorld)
    (h : GuardedRun (op :: ops) w = some w') :
    w.TargetTwinIsPusher op = true ∧ ∃ w1, w.Step op = some w1 ∧ GuardedRun ops w1 = some w' := by
  simp only [GuardedRun] at h
  split_ifs at h with hg
  refine ⟨hg, ?_⟩
  cases hst : w.Step op with
  | none => rw [hst] at h; simp at h
  | some w1 => rw [hst] at h; exact ⟨w1, rfl, h⟩

theorem Invariant_GuardedRun (ops : List Op) :
    ∀ (w w' : LayerWorld), (∀ a ∈ w.live, a < w.next_id) → w.TwinsSymmetric = true →
      w.NoDanglingTwin = true → GuardedRun ops w = some w' →
      (∀ a ∈ w'.live, a < w'.next_id) ∧ w'.TwinsSymmetric = true ∧
        w'.NoDanglingTwin = true := by
  induction ops with
  | nil =>
    intro w w' hb hs hd h
    simp only [GuardedRun, Option.some.injEq] at h
    subst h
    exact ⟨hb, hs, hd⟩
  | cons op ops ih =>
    intro w w' hb hs hd h
    obtain ⟨hg, w1, hst, hrun⟩ := GuardedRun_cons op ops w w' h
    obtain ⟨hb1, hs1, hd1⟩ := Invariant_Step w w1 op hb hs hd hg hst
    exact ih w1 w' hb1 hs1 hd1 hrun

end LayerWorld

namespace LayerWorld

/-- An operation creates layers with new ids only: it never revives a layer. -/
theorem Step_live (w w' : LayerWorld) (op : Op) (h : w.Step op = some w') :
    w.next_id ≤ w'.next_id ∧ ∀ x, x < w.next_id → x ∈ w'.live → x ∈ w.live := by
  cases op with
  | Create =>
    simp only [Step, Option.some.injEq] at h
    subst h
    refine ⟨Nat.le_succ _, fun x hx hm => ?_⟩
    simp only [Create, List.mem_cons] at hm
    rcases hm with rfl | hm
    · omega
    · exact hm
  | PushPropertiesTo x y =>
    simp only [Step, PushPropertiesTo] at h
    split_ifs at h
    rw [Option.some.injEq] at h
    subst h
    exact ⟨le_refl _, fun _ _ hm => hm⟩
  | Destroy x =>
    simp only [Step, Destroy] at h
    split_ifs at h with hx
    cases hxt : w.twin_layer_ x with
    | none =>
      rw [hxt] at h
      simp only [Option.some.injEq] at h
      subst h
      exact ⟨le_refl _, fun _ _ hm => (List.mem_filter.mp hm).1⟩
    | some t =>
      rw [hxt] at h
      simp only at h
      split_ifs at h
      rw [Option.some.injEq] at h
      subst h
      exact ⟨le_refl _, fun _ _ hm => (List.mem_filter.mp hm).1⟩

theorem GuardedRun_live (ops : List Op) :
    ∀ (w w' : LayerWorld), GuardedRun ops w = some w' →
      w.next_id ≤ w'.next_id ∧ ∀ x, x < w.next_id → x ∈ w'.live → x ∈ w.live := by
  induction ops with
  | nil =>
    intro w w' h
    simp only [GuardedRun, Option.some.injEq] at h
    subst h
    exact ⟨le_refl _, fun _ _ hm => hm⟩
  | cons op ops ih =>
    intro w w' h
    obtain ⟨_, w1, hst, hrun⟩ := GuardedRun_cons op ops w w' h
    obtain ⟨h1, h2⟩ := Step_live w w1 op hst
    obtain ⟨h3, h4⟩ := ih w1 w' hrun
    exact ⟨le_trans h1 h3, fun x hx hm => h2 x hx (h4 x (by omega) hm)⟩

/-- One operation never replaces the twin pointer of a layer by another one: the
pointer is kept, or it is cleared because the twin is destroyed. -/
theorem Step_twin_stable (w w' : LayerWorld) (op : Op)
    (hb : ∀ a ∈ w.live, a < w.next_id) (hs : w.TwinsSymmetric = true) (hd : w.NoDanglingTwin = true)
    (hg : w.TargetTwinIsPusher op = true) (h : w.Step op = some w')
    (a : Nat) (ha : a ∈ w.live) (ha' : a ∈ w'.live) (b : Nat)
    (hab : w.twin_layer_ a = some b) :
    w'.twin_layer_ a = some b ∨ (w'.twin_layer_ a = none ∧ b ∉ w'.live) := by
  cases op with
  | Create =>
    simp only [Step, Option.some.injEq] at h
    subst h
    left
    simp only [Create]
    split_ifs with hc
    · exact absurd hc (Nat.ne_of_lt (hb a ha))
    · exact hab
  | PushPropertiesTo x y =>
    obtain ⟨_, _, rfl, hcases⟩ := PushPropertiesTo_cases w w' x y hs hg h
    left
    simp only
    by_cases hay : a = y
    · rw [if_pos hay]
      rcases hcases with h1 | h1
      · rw [hay, h1.2] at hab; exact hab
      · rw [hay, h1.2] at hab; cases hab
    · rw [if_neg hay]
      by_cases hax : a = x
      · rw [if_pos hax]
        rcases hcases with h1 | h1
        · rw [hax, h1.1] at hab; exact hab
        · rw [hax, h1.1] at hab; cases hab
      · rw [if_neg hax]
        exact hab
  | Destroy x =>
    have hx : x ∈ w.live := by
      by_contra hx
      simp [Step, Destroy, hx] at h
    simp only [Step] at h
    rw [Destroy_cases w x hx hd, Option.some.injEq] at h
    subst h
    simp only [List.mem_filter, decide_eq_true_eq] at ha' ⊢
    by_cases hxa : w.twin_layer_ x = some a
    · right
      refine ⟨by rw [if_pos hxa], ?_⟩
      have := (TwinsSymmetric_iff w).mp hs x hx a hxa
      rw [hab] at this
      rw [Option.some.inj this]
      exact fun hc => hc.2 rfl
    · left
      rw [if_neg hxa]
      exact hab

/-- Over any number of operations, the twin pointer of a layer is the same as long
as the layer and its twin are live. -/
theorem GuardedRun_twin_stable (ops : List Op) :
    ∀ (w w' : LayerWorld), (∀ a ∈ w.live, a < w.next_id) → w.TwinsSymmetric = true →
      w.NoDanglingTwin = true → GuardedRun ops w = some w' →
      ∀ a ∈ w.live, a ∈ w'.live → ∀ b c, w.twin_layer_ a = some b →
        w'.twin_layer_ a = some c → c = b ∨ b ∉ w'.live := by
  induction ops with
  | nil =>
    intro w w' _ _ _ h a _ _ b c hab hac
    simp only [GuardedRun, Option.some.injEq] at h
    subst h
    rw [hab] at hac
    exact Or.inl (Option.some.inj hac).symm
  | cons op ops ih =>
    intro w w' hb hs hd h a ha ha' b c hab hac
    obtain ⟨hg, w1, hst, hrun⟩ := GuardedRun_cons op ops w w' h
    obtain ⟨hb1, hs1, hd1⟩ := Invariant_Step w w1 op hb hs hd hg hst
    obtain ⟨hn, hl⟩ := Step_live w w1 op hst
    obtain ⟨_, hl'⟩ := GuardedRun_live ops w1 w' hrun
    have ha1 : a ∈ w1.live := hl' a (lt_of_lt_of_le (hb a ha) hn) ha'
    rcases Step_twin_stable w w1 op hb hs hd hg hst a ha ha1 b hab with h1 | ⟨_, h2⟩
    · exact ih w1 w' hb1 hs1 hd1 hrun a ha1 ha' b c h1 hac
    · right
      intro hbl
      have hbw : b ∈ w.live := (NoDanglingTwin_iff w).mp hd a ha b hab
      exact h2 (hl' b (lt_of_lt_of_le (hb b hbw) hn) hbl)

end LayerWorld

namespace PictureLayerImpl

/-- Of `GetPendingOrActiveTwinLayer()` and `GetRecycledTwinLayer()` at most one is
non-null, and exactly one, the twin itself, when `twin_layer_` is set. -/
theorem twin_getters_exclusive (twin_layer_ : Option (LayerTreeImpl × PictureLayerImpl)) :
    (GetPendingOrActiveTwinLayer twin_layer_ = none ∨
      GetRecycledTwinLayer twin_layer_ = none) ∧
    (twin_layer_ ≠ none →
      (GetPendingOrActiveTwinLayer twin_layer_ = twin_layer_ ∧
        GetRecycledTwinLayer twin_layer_ = none) ∨
      (GetPendingOrActiveTwinLayer twin_layer_ = none ∧
        GetRecycledTwinLayer twin_layer_ = twin_layer_)) := by
  cases twin_layer_ with
  | none => exact ⟨Or.inl rfl, fun h => absurd rfl h⟩
  | some t =>
    simp only [GetPendingOrActiveTwinLayer, GetRecycledTwinLayer]
    cases IsOnActiveOrPendingTree t.1 <;> simp

end PictureLayerImpl

namespace LayerWorld

/-- The twin pointers when, besides the checks of `PushPropertiesTo`, the target of
every `PushPropertiesTo` has no twin other than the pushing layer (the case the
checks do not cover). In every state reached from the empty one by creating
layers, such calls of `PushPropertiesTo` and destroying layers: the twin relation
is symmetric, no live layer's `twin_layer_` refers to a destroyed layer (so the
destructor of a live layer never writes to freed memory), the two checks of
`PushPropertiesTo` hold for a pushing layer whose twin, if any, is the target,
and a twin link is never replaced by a link to a different layer: a single
operation keeps it or clears it because the twin is destroyed, and over any
number of operations it is the same as long as the twin is live. Of
`GetPendingOrActiveTwinLayer()` and `GetRecycledTwinLayer()` at most one is
non-null, exactly one when `twin_layer_` is set. -/
theorem twin_links_symmetric_and_stable (ops : List Op) (w : LayerWorld)
    (h : GuardedRun ops Empty = some w) :
    (w.TwinsSymmetric = true ∧
      ∀ a ∈ w.live, ∀ b, w.twin_layer_ a = some b → w.twin_layer_ b = some a) ∧
    (w.NoDanglingTwin = true ∧
      ∀ a ∈ w.live, ∀ b, w.twin_layer_ a = some b → b ∈ w.live) ∧
    (∀ a ∈ w.live, (w.Destroy a).isSome = true) ∧
    (∀ x ∈ w.live, ∀ y ∈ w.live, (∀ t, w.twin_layer_ x = some t → t = y) →
      w.TargetTwinIsPusher (Op.PushPropertiesTo x y) = true →
      w.PushPropertiesToChecks x y = true ∧ (w.PushPropertiesTo x y).isSome = true) ∧
    (∀ op w', w.TargetTwinIsPusher op = true → w.Step op = some w' →
      ∀ a ∈ w.live, a ∈ w'.live → ∀ b, w.twin_layer_ a = some b →
        w'.twin_layer_ a = some b ∨ (w'.twin_layer_ a = none ∧ b ∉ w'.live)) ∧
    (∀ ops' w', GuardedRun ops' w = some w' →
      ∀ a ∈ w.live, a ∈ w'.live → ∀ b c, w.twin_layer_ a = some b →
        w'.twin_layer_ a = some c → c = b ∨ b ∉ w'.live) ∧
    (∀ twin_layer_ : Option (LayerTreeImpl × PictureLayerImpl),
      (PictureLayerImpl.GetPendingOrActiveTwinLayer twin_layer_ = none ∨
        PictureLayerImpl.GetRecycledTwinLayer twin_layer_ = none) ∧
      (twin_layer_ ≠ none →
        (PictureLayerImpl.GetPendingOrActiveTwinLayer twin_layer_ = twin_layer_ ∧
          PictureLayerImpl.GetRecycledTwinLayer twin_layer_ = none) ∨
        (PictureLayerImpl.GetPendingOrActiveTwinLayer twin_layer_ = none ∧
          PictureLayerImpl.GetRecycledTwinLayer twin_layer_ = twin_layer_))) := by
  obtain ⟨e1, e2, e3⟩ := Invariant_Empty
  obtain ⟨hb, hs, hd⟩ := Invariant_GuardedRun ops Empty w e1 e2 e3 h
  have hs' := (TwinsSymmetric_iff w).mp hs
  refine ⟨⟨hs, hs'⟩, ⟨hd, (NoDanglingTwin_iff w).mp hd⟩, fun a ha => ?_,
    fun x hx y hy hxy hg => ?_,
    fun op w' hg hst a ha ha' b hab => Step_twin_stable w w' op hb hs hd hg hst a ha ha' b hab,
    fun ops' w' hrun => GuardedRun_twin_stable ops' w w' hb hs hd hrun,
    PictureLayerImpl.twin_getters_exclusive⟩
  · rw [Destroy_cases w a ha hd]
    rfl
  · have hchk : w.PushPropertiesToChecks x y = true := by
      simp only [PushPropertiesToChecks]
      cases hxt : w.twin_layer_ x with
      | none => rfl
      | some t =>
        have ht := hxy t hxt
        subst ht
        simp [hs' x hx t hxt]
    refine ⟨hchk, ?_⟩
    simp [PushPropertiesTo, hx, hy, hchk]

/-- A run that links layers `0` and `1`, destroys layer `1` and links layer `0` to
the new layer `2`. -/
theorem twin_links_symmetric_and_stable_witness :
    ∃ w, GuardedRun [Op.Create, Op.Create, Op.PushPropertiesTo 0 1, Op.Create, Op.Destroy 1,
        Op.PushPropertiesTo 0 2] Empty = some w ∧
      w.live = [2, 0] ∧ w.twin_layer_ 0 = some 2 ∧ w.twin_layer_ 2 = some 0 ∧
      w.TwinsSymmetric = true ∧ w.NoDanglingTwin = true :=
  ⟨_, rfl, by decide, by decide, by decide,
    (twin_links_symmetric_and_stable [Op.Create, Op.Create, Op.PushPropertiesTo 0 1, Op.Create,
      Op.Destroy 1, Op.PushPropertiesTo 0 2] _ rfl).1.1,
    (twin_links_symmetric_and_stable [Op.Create, Op.Create, Op.PushPropertiesTo 0 1, Op.Create,
      Op.Destroy 1, Op.PushPropertiesTo 0 2] _ rfl).2.1.1⟩

end LayerWorld

end cc
